import Mathlib

/-!
# ANL-Impl: the sender-set solver, the transition function and the slot driver

A shallow embedding of the core of ANL-Impl (`src/core/anl.cpp`,
`src/core/anl_algorithm.cpp`, `src/core/topologies.cpp`,
`src/core/simulator.cpp`) and theorems about it.

Modelling conventions.

* A `Component*` is a natural number (its address); a `const Message*` is an
  `Option Message`, with `none` for `nullptr`.
* `std::size_t` values are natural numbers.  Every `size_t` of the modelled
  code is a tic below `getTicsPerSlot()` or a container size, so no wrap-around
  can occur; the one counter that is incremented, the slot number of the
  simulator, wraps at `sizeRange`.  The two `int` counters of `ANLFilterNaive` count entries of one
  vector; they are natural numbers too (a vector of `2^31` actions is not
  representable on the machines the code targets).
* `Misc::Asserts::require(false, msg)` terminates the process.  A function that
  can reach a failing `require` returns `Except Fatal _`, and the error value
  names the failing requirement.
* `std::unordered_set` and `std::unordered_map` are lists without repeated
  keys, extended at the end.  The modelled code never depends on their
  iteration order: sets are only searched, maps only looked up by key.
* The member `mSetup` of a trait mapping is a pointer to a network setup; the
  operations of a trait mapping take the setup it points to as an argument.
  The intention assignment given to a `SenderSetComputer` or an `ANLComputer`
  is one over the computer's own setup, as in every call of the repository.
* `NetworkTopology::canReach` is a pure virtual dispatch; a topology is the
  function it computes.
-/

namespace Core

/-- The address of a `Component` object. -/
abbrev Component := Nat

/-- The address of a `Message` object. A `const Message*` is an
`Option Message`, `none` being `nullptr`. -/
abbrev Message := Nat

/-- The failing `Misc::Asserts::require` or `ErrorTracer::require` call (or
failing `at`) that ended the process. -/
inductive Fatal where
  /-- "at least one tic per slot required!" -/
  | noTicPerSlot
  /-- "invalid tic number: too big" -/
  | invalidTicNumber
  /-- "attempting to get trait for partial trait mapping" -/
  | getFromPartial
  /-- "not a valid component for associated network setup" -/
  | notAComponent
  /-- "can not override component trait for component" -/
  | overrideTrait
  /-- `mMapping.at(comp)` without an entry for `comp` -/
  | outOfRange
  /-- "intent is partial and thus not usable" -/
  | intentPartial
  /-- "iteration not initialized!" -/
  | iterationNotInitialized
  /-- "invalid tic" -/
  | invalidTic
  /-- "iteration tic has changed" -/
  | iterationTicChanged
  /-- "invalid message: no message" -/
  | noMessage
  /-- "filter removed all possibilities" -/
  | filterRemovedAll
  /-- "this point should not be reached, the conditions above are exhaustive" -/
  | notExhaustive
  /-- "this should be 1, as above conditions are exhaustive" -/
  | naiveNotOneSender
  /-- "more than one result left after removing for single sender" -/
  | naiveNotOneResult
  /-- "unknown semantics" -/
  | unknownSemantics
  /-- "duplicate message registered" -/
  | duplicateMessage
  /-- "can not register nullptr as message" -/
  | registerNullMessage
  /-- "can not register nullptr as component" -/
  | registerNullComponent
  /-- "duplicate component registered" -/
  | duplicateComponent
  /-- "component unknown to setup!" -/
  | unknownComponent
  /-- "already acted in slot" -/
  | alreadyActed
  /-- "no previous action!" -/
  | noPreviousAction
  /-- "component did not choose component intent for slot" -/
  | didNotChoose
  /-- "can not deal with non-determinism yet" -/
  | notDeterministic
  /-- `ErrorTracer::require`: "Topology must not be 'nullptr'." -/
  | topologyNull
  /-- `ErrorTracer::require`: "Output module must not be 'nullptr'." -/
  | outputModuleNull
  /-- `ErrorTracer::require`: "Component pointer array must not be 'nullptr'." -/
  | componentArrayNull
  /-- `ErrorTracer::require`: "Component pointer must not be 'nullptr'." -/
  | componentPointerNull
  /-- `ErrorTracer::require`: "Components must not be registered more than once." -/
  | componentRegisteredTwice
  /-- `ErrorTracer::require`: "Message pointer array must not be 'nullptr'." -/
  | messageArrayNull
  /-- `ErrorTracer::require`: "Message pointer must not be 'nullptr'." -/
  | messagePointerNull
  /-- `ErrorTracer::require`: "Messages must not be registered more than once." -/
  | messageRegisteredTwice
  /-- `ErrorTracer::require`: "Simulation duration must be greater than zero." -/
  | zeroDuration
  /-- `ErrorTracer::require`: "Network topology must be set." -/
  | topologyNotSet
  /-- `ErrorTracer::require`: "Output module must be set." -/
  | outputModuleNotSet
  /-- `ErrorTracer::require`: "Protocol produced a partial intention assignment." -/
  | partialIntentProduced
  deriving DecidableEq, Repr

/-- `NetworkSetup` of `anl.h`: tics per slot, registered messages, and the
registered components in registration order. -/
structure NetworkSetup where
  mTicsPerSlot : Nat
  mMessages : List Message
  mComponents : List Component
  deriving DecidableEq, Repr

namespace NetworkSetup

/-- `NetworkSetup::isComponent`: a linear search by address. -/
def isComponent (setup : NetworkSetup) (comp : Component) : Bool :=
  setup.mComponents.any (fun elem => elem == comp)

/-- `NetworkSetup::isMessage`. -/
def isMessage (setup : NetworkSetup) (msg : Option Message) : Bool :=
  match msg with
  | none => false
  | some m => setup.mMessages.any (fun elem => elem == m)

/-- `NetworkSetup::getComponentCount`. -/
def getComponentCount (setup : NetworkSetup) : Nat := setup.mComponents.length

/-- `NetworkSetup::getTicsPerSlot`. -/
def getTicsPerSlot (setup : NetworkSetup) : Nat := setup.mTicsPerSlot

/-- What the constructor and `registerComponent` establish: at least one tic
per slot and no component registered twice. -/
def WellFormed (setup : NetworkSetup) : Prop :=
  0 < setup.mTicsPerSlot ∧ setup.mComponents.Nodup

instance (setup : NetworkSetup) : Decidable setup.WellFormed := by
  unfold WellFormed; infer_instance

end NetworkSetup

/-- `enum class ActionType`. -/
inductive ActionType where
  | IDLE | SILENCE | COLLISION | RECEIVED | SENT | CANCELLED
  deriving DecidableEq, Repr

/-- `enum class IntentionType`. -/
inductive IntentionType where
  | IDLE | LISTEN | SEND | SEND_FORCE
  deriving DecidableEq, Repr

/-- `ComponentTrait<T>`: a type together with a tic and a message pointer. -/
structure ComponentTrait (T : Type) where
  mType : T
  mTic : Nat
  mMessage : Option Message
  deriving DecidableEq, Repr

namespace ComponentTrait

/-- The constructor `ComponentTrait<T>::ComponentTrait`: the tic must be below
the setup's tics per slot. The `expect` on the message being registered only
prints a warning (and only in debug builds). -/
def new {T : Type} (setup : NetworkSetup) (type : T) (tic : Nat)
    (message : Option Message) : Except Fatal (ComponentTrait T) :=
  if setup.getTicsPerSlot > tic then .ok ⟨type, tic, message⟩
  else .error .invalidTicNumber

/-- `getType`. -/
def getType {T : Type} (t : ComponentTrait T) : T := t.mType

/-- `getTic`. -/
def getTic {T : Type} (t : ComponentTrait T) : Nat := t.mTic

/-- `getMessage`. -/
def getMessage {T : Type} (t : ComponentTrait T) : Option Message := t.mMessage

end ComponentTrait

/-- `TraitMapping<T>`: the map from component addresses to traits and the
flag `mPartial`. -/
structure TraitMapping (T : Type) where
  mMapping : List (Component × ComponentTrait T)
  mPartial : Bool
  deriving DecidableEq, Repr

namespace TraitMapping

variable {T : Type}

/-- The constructor `TraitMapping<T>::TraitMapping`: no entry, partial. -/
def new : TraitMapping T := ⟨[], true⟩

/-- `isPartial`. -/
def isPartial (tm : TraitMapping T) : Bool := tm.mPartial

/-- `TraitMapping<T>::getTraitFor`. -/
def getTraitFor (setup : NetworkSetup) (tm : TraitMapping T) (comp : Component) :
    Except Fatal (ComponentTrait T) :=
  if tm.mPartial then .error .getFromPartial
  else if !setup.isComponent comp then .error .notAComponent
  else match tm.mMapping.lookup comp with
    | some trait => .ok trait
    | none => .error .outOfRange

/-- `TraitMapping<T>::setTraitFor`. -/
def setTraitFor (setup : NetworkSetup) (tm : TraitMapping T) (comp : Component)
    (trait : ComponentTrait T) : Except Fatal (TraitMapping T) :=
  if !setup.isComponent comp then .error .notAComponent
  else if (tm.mMapping.lookup comp).isSome then .error .overrideTrait
  else
    let mapping := tm.mMapping ++ [(comp, trait)]
    .ok ⟨mapping, if mapping.length = setup.getComponentCount then false else tm.mPartial⟩

/-- The components that have an entry. -/
def keys (tm : TraitMapping T) : List Component := tm.mMapping.map Prod.fst

/-- The invariant of a trait mapping over a setup: what holds of a fresh
mapping and is kept by every successful `setTraitFor`. -/
def Inv (setup : NetworkSetup) (tm : TraitMapping T) : Prop :=
  tm.keys.Nodup ∧ (∀ c ∈ tm.keys, c ∈ setup.mComponents) ∧
    (tm.mPartial = false ↔ (tm.mMapping ≠ [] ∧ tm.mMapping.length = setup.mComponents.length))

end TraitMapping

/-- `ComponentAction`. -/
abbrev ComponentAction := ComponentTrait ActionType
/-- `ComponentIntention`. -/
abbrev ComponentIntention := ComponentTrait IntentionType
/-- `NetworkState`. -/
abbrev NetworkState := TraitMapping ActionType
/-- `IntentionAssignment`. -/
abbrev IntentionAssignment := TraitMapping IntentionType
/-- `SenderSetRepresentation`. -/
abbrev SenderSetRepresentation := NetworkState

/-- A network topology, given by what `canReach(sndr, rcvr)` returns. -/
abbrev NetworkTopology := Component → Component → Bool

/-- `NetworkTopology::canReach`. -/
def NetworkTopology.canReach (topo : NetworkTopology) (sndr rcvr : Component) : Bool :=
  topo sndr rcvr

/-- Insertion into a `std::unordered_set` of component addresses. -/
def setInsert (set : List Component) (comp : Component) : List Component :=
  if comp ∈ set then set else set ++ [comp]

/-- The class `SenderSetComputer` of `anl_algorithm.h`. -/
structure SenderSetComputer where
  mSetup : NetworkSetup
  mTopology : NetworkTopology
  mIntent : IntentionAssignment
  mIterationTic : Nat
  mSendingComponents : List Component
  mNewlySendingComponents : List Component
  mResult : SenderSetRepresentation

namespace SenderSetComputer

/-- The constructor `SenderSetComputer::SenderSetComputer`. The three pointer
arguments are objects here, so only the requirement on `isPartial` can fail.
`mIterationTic` is not initialised by the constructor; it is written by
`computeTicSet` before it is read. -/
def new (setup : NetworkSetup) (topo : NetworkTopology) (intent : IntentionAssignment) :
    Except Fatal SenderSetComputer :=
  if intent.isPartial then .error .intentPartial
  else .ok
    { mSetup := setup, mTopology := topo, mIntent := intent, mIterationTic := 0,
      mSendingComponents := [], mNewlySendingComponents := [],
      mResult := TraitMapping.new }

/-- `SenderSetComputer::initializeIteration`. -/
def initializeIteration (s : SenderSetComputer) : SenderSetComputer :=
  { s with mNewlySendingComponents := [] }

/-- The two statements that end both sending branches of
`updateTicSetForComponent`: insert into `mNewlySendingComponents` and set the
`SENT` action in `mResult`. -/
def addSender (s : SenderSetComputer) (comp : Component) (intent : ComponentIntention) :
    Except Fatal SenderSetComputer :=
  (ComponentTrait.new s.mSetup ActionType.SENT s.mIterationTic intent.getMessage).bind
    fun action => (s.mResult.setTraitFor s.mSetup comp action).bind
      fun result => .ok
        { s with mNewlySendingComponents := setInsert s.mNewlySendingComponents comp,
                 mResult := result }

/-- `SenderSetComputer::updateTicSetForComponent`. -/
def updateTicSetForComponent (s : SenderSetComputer) (comp : Component) :
    Except Fatal SenderSetComputer :=
  (s.mIntent.getTraitFor s.mSetup comp).bind fun intent =>
    if intent.getType ≠ IntentionType.SEND ∧ intent.getType ≠ IntentionType.SEND_FORCE then
      .ok s
    else if intent.getMessage = none then .error .noMessage
    else if s.mIterationTic ≠ intent.getTic then .ok s
    else if intent.getType = IntentionType.SEND_FORCE then addSender s comp intent
    else if s.mSendingComponents.any (fun alreadySending => s.mTopology.canReach alreadySending comp)
      then .ok s
    else addSender s comp intent

/-- `SenderSetComputer::computeTicSet`. -/
def computeTicSet (s : SenderSetComputer) (tic : Nat) : Except Fatal SenderSetComputer :=
  if ¬ tic < s.mSetup.getTicsPerSlot then .error .invalidTic
  else
    (s.mSetup.mComponents.foldlM updateTicSetForComponent { s with mIterationTic := tic }).bind
      fun s1 => if s1.mIterationTic = tic then .ok s1 else .error .iterationTicChanged

/-- `SenderSetComputer::completeIteration`. -/
def completeIteration (s : SenderSetComputer) : SenderSetComputer :=
  { s with mSendingComponents := s.mNewlySendingComponents.foldl setInsert s.mSendingComponents }

/-- The callback of `SenderSetComputer::finishAlgorithm`, run for one
component. -/
def finishStep (s : SenderSetComputer) (comp : Component) : Except Fatal SenderSetComputer :=
  if comp ∈ s.mSendingComponents then .ok s
  else
    (ComponentTrait.new s.mSetup ActionType.IDLE 0 none).bind fun action =>
      (s.mResult.setTraitFor s.mSetup comp action).bind fun result =>
        .ok { s with mResult := result }

/-- `SenderSetComputer::finishAlgorithm`. -/
def finishAlgorithm (s : SenderSetComputer) : Except Fatal SenderSetComputer :=
  s.mSetup.mComponents.foldlM finishStep s

/-- The body of the loop of `SenderSetComputer::getSenderSet`. -/
def iteration (s : SenderSetComputer) (tic : Nat) : Except Fatal SenderSetComputer :=
  let s1 := s.initializeIteration
  if s1.mNewlySendingComponents.length ≠ 0 then .error .iterationNotInitialized
  else (s1.computeTicSet tic).bind fun s2 => .ok s2.completeIteration

/-- `SenderSetComputer::getSenderSet`. -/
def getSenderSet (s : SenderSetComputer) : Except Fatal SenderSetRepresentation :=
  ((List.range s.mSetup.getTicsPerSlot).foldlM iteration s).bind fun s1 =>
    s1.finishAlgorithm.bind fun s2 => .ok s2.mResult

end SenderSetComputer

/-- `FilterFunction`: the C++ filter rewrites the vector in place; here it
returns the new vector. -/
abbrev FilterFunction := NetworkSetup → List ComponentAction → Except Fatal (List ComponentAction)

/-- The class `ANLComputer` of `anl_algorithm.h`. -/
structure ANLComputer where
  mSetup : NetworkSetup
  mTopology : NetworkTopology
  mIntent : IntentionAssignment
  mFilter : FilterFunction
  mSenderSet : SenderSetRepresentation

namespace ANLComputer

/-- The constructor `ANLComputer::ANLComputer`. -/
def new (setup : NetworkSetup) (topo : NetworkTopology) (intent : IntentionAssignment)
    (filter : FilterFunction) : ANLComputer :=
  { mSetup := setup, mTopology := topo, mIntent := intent, mFilter := filter,
    mSenderSet := TraitMapping.new }

/-- The callback of the `LISTEN` branch of `getPossibleActions`, run for one
component `potential`; the state is the vector `actions` and the flag
`hasMessages`. -/
def listenStep (a : ANLComputer) (comp : Component)
    (st : List ComponentAction × Bool) (potential : Component) :
    Except Fatal (List ComponentAction × Bool) :=
  if a.mTopology.canReach potential comp then
    (a.mSenderSet.getTraitFor a.mSetup potential).bind fun potentialQuery =>
      if potentialQuery.getType = ActionType.SENT then
        (ComponentTrait.new a.mSetup ActionType.RECEIVED potentialQuery.getTic
            potentialQuery.getMessage).bind fun received =>
          if ¬ st.2 then
            (ComponentTrait.new a.mSetup ActionType.COLLISION 0 none).bind fun collision =>
              .ok (st.1 ++ [received] ++ [collision], true)
          else .ok (st.1 ++ [received], st.2)
      else .ok st
  else .ok st

/-- `ANLComputer::getPossibleActions`. -/
def getPossibleActions (a : ANLComputer) (comp : Component) :
    Except Fatal (List ComponentAction) :=
  (a.mIntent.getTraitFor a.mSetup comp).bind fun intent =>
    if intent.getType = IntentionType.IDLE then
      (ComponentTrait.new a.mSetup ActionType.IDLE 0 none).bind fun action => .ok [action]
    else if intent.getType = IntentionType.SEND ∨ intent.getType = IntentionType.SEND_FORCE then
      (a.mSenderSet.getTraitFor a.mSetup comp).bind fun senderSetQuery =>
        if senderSetQuery.getType = ActionType.IDLE then
          (ComponentTrait.new a.mSetup ActionType.CANCELLED intent.getTic intent.getMessage).bind
            fun action => .ok [action]
        else
          (ComponentTrait.new a.mSetup ActionType.SENT intent.getTic intent.getMessage).bind
            fun action => .ok [action]
    else if intent.getType = IntentionType.LISTEN then
      (a.mSetup.mComponents.foldlM (listenStep a comp) ([], false)).bind fun st =>
        if ¬ st.2 then
          (ComponentTrait.new a.mSetup ActionType.SILENCE 0 none).bind fun silence =>
            .ok (st.1 ++ [silence])
        else .ok st.1
    else .error .notExhaustive

/-- The inner loop of sub-step 3 of the callback of `ANLComputer::transition`:
one state of the back buffer is cloned into the front buffer once per possible
action and the clone is extended by that action. -/
def extendState (setup : NetworkSetup) (comp : Component)
    (possibleActions : List ComponentAction) (frontBuffer : List NetworkState)
    (state : NetworkState) : Except Fatal (List NetworkState) :=
  possibleActions.foldlM
    (fun frontBuffer action =>
      (state.setTraitFor setup comp action).bind fun extended =>
        .ok (frontBuffer ++ [extended]))
    frontBuffer

/-- Sub-step 3 of the callback of `ANLComputer::transition`: the front buffer
is cleared and filled from the states of the back buffer. -/
def extendStates (setup : NetworkSetup) (comp : Component)
    (possibleActions : List ComponentAction) (backBuffer : List NetworkState) :
    Except Fatal (List NetworkState) :=
  backBuffer.foldlM (extendState setup comp possibleActions) []

/-- The callback of `ANLComputer::transition`, run for one component; the
state is the pair of the front buffer and the back buffer. -/
def transitionStep (a : ANLComputer) (buffers : List NetworkState × List NetworkState)
    (comp : Component) : Except Fatal (List NetworkState × List NetworkState) :=
  (a.getPossibleActions comp).bind fun possibleActions =>
    (a.mFilter a.mSetup possibleActions).bind fun possibleActions =>
      if ¬ possibleActions.length > 0 then .error .filterRemovedAll
      else
        (extendStates a.mSetup comp possibleActions buffers.1).bind fun frontBuffer =>
          .ok (frontBuffer, buffers.1)

/-- `ANLComputer::transition`. -/
def transition (a : ANLComputer) : Except Fatal (List NetworkState) :=
  (SenderSetComputer.new a.mSetup a.mTopology a.mIntent).bind fun senderSetComputer =>
    senderSetComputer.getSenderSet.bind fun senderSet =>
      (a.mSetup.mComponents.foldlM (transitionStep { a with mSenderSet := senderSet })
          ([TraitMapping.new], [])).bind
        fun buffers => .ok buffers.1

end ANLComputer

/-- Whether `tmp` already holds an action with the type, tic and message
pointer of `act` (the inner loop of `ANLFilterNothing`). -/
def alreadyAdded (tmp : List ComponentAction) (act : ComponentAction) : Bool :=
  tmp.any fun added =>
    added.getType = act.getType ∧ added.getTic = act.getTic ∧ added.getMessage = act.getMessage

/-- `ANLFilterNothing`. -/
def ANLFilterNothing : FilterFunction := fun _ inout =>
  .ok (inout.foldl (fun tmp act => if alreadyAdded tmp act then tmp else tmp ++ [act]) [])

/-- The body of the counting loop of `ANLFilterNaive`; the state is the pair
of `sendingNeighbors` and `collisions`. -/
def countStep (counters : Nat × Nat) (ca : ComponentAction) : Nat × Nat :=
  if ca.getType = ActionType.RECEIVED then (counters.1 + 1, counters.2)
  else if ca.getType = ActionType.COLLISION then (counters.1, counters.2 + 1)
  else counters

/-- The counting loop of `ANLFilterNaive`: the pair of `sendingNeighbors` and
`collisions` after the loop. -/
def countNaive (inout : List ComponentAction) : Nat × Nat :=
  inout.foldl countStep (0, 0)

/-- `ANLFilterNaive`. -/
def ANLFilterNaive : FilterFunction := fun setup inout =>
  let sendingNeighbors := (countNaive inout).1
  let collisions := (countNaive inout).2
  if collisions = 0 then .ok inout
  else if sendingNeighbors > 1 then
    (ComponentTrait.new setup ActionType.COLLISION 0 none).bind fun collision => .ok [collision]
  else if ¬ sendingNeighbors = 1 then .error .naiveNotOneSender
  else
    let out := inout.filter fun action => ¬ (action.getType ≠ ActionType.RECEIVED)
    if out.length = 1 then .ok out else .error .naiveNotOneResult

/-- `enum class ANLSemantics`. -/
inductive ANLSemantics where
  | CANONICAL | NAIVE
  deriving DecidableEq, Repr

/-- The class `ANL`, as far as `transition` uses it. -/
structure ANL where
  mSetup : NetworkSetup
  mSemantics : ANLSemantics

/-- `ANL::transition`. -/
def ANL.transition (anl : ANL) (topo : NetworkTopology) (intent : IntentionAssignment) :
    Except Fatal (List NetworkState) :=
  let filter : FilterFunction :=
    match anl.mSemantics with
    | .CANONICAL => ANLFilterNothing
    | .NAIVE => ANLFilterNaive
  (ANLComputer.new anl.mSetup topo intent filter).transition

namespace NetworkSetup

/-- The constructor `NetworkSetup::NetworkSetup`: at least one tic per slot;
no message and no component is registered. -/
def new (ticsPerSlot : Nat) : Except Fatal NetworkSetup :=
  if ticsPerSlot > 0 then .ok ⟨ticsPerSlot, [], []⟩ else .error .noTicPerSlot

/-- `NetworkSetup::registerMessage`; `none` is `nullptr`. -/
def registerMessage (setup : NetworkSetup) (msg : Option Message) : Except Fatal NetworkSetup :=
  if setup.isMessage msg then .error .duplicateMessage
  else match msg with
    | none => .error .registerNullMessage
    | some m => .ok { setup with mMessages := setup.mMessages ++ [m] }

/-- `NetworkSetup::registerComponent`; `none` is `nullptr`. The component is
pushed to the back of `mComponents`. -/
def registerComponent (setup : NetworkSetup) (comp : Option Component) :
    Except Fatal NetworkSetup :=
  match comp with
  | none => .error .registerNullComponent
  | some c =>
    if setup.isComponent c then .error .duplicateComponent
    else .ok { setup with mComponents := setup.mComponents ++ [c] }

/-- `NetworkSetup::forEachComponent`: the callback `cb` is run on every element
of `mComponents`, front to back; `σ` is the state the callback works on. -/
def forEachComponent {σ : Type} (setup : NetworkSetup) (cb : σ → Component → Except Fatal σ)
    (init : σ) : Except Fatal σ :=
  setup.mComponents.foldlM cb init

end NetworkSetup

/-- `ExplicitNetworkTopology` of `topologies.h`: the map `mStorage` from a
sender to the set of the receivers it reaches. -/
structure ExplicitNetworkTopology where
  mStorage : List (Component × List Component)
  deriving DecidableEq, Repr

namespace ExplicitNetworkTopology

/-- The implicit default constructor: an empty map. -/
def new : ExplicitNetworkTopology := ⟨[]⟩

/-- `ExplicitNetworkTopology::addEdge(from, to)`: when `mStorage` has the key
`from`, `to` is inserted into the set stored there; otherwise `operator[]`
creates an empty set for `from` and `to` is inserted into it. -/
def addEdge (t : ExplicitNetworkTopology) (fromComp toComp : Component) :
    ExplicitNetworkTopology :=
  if (t.mStorage.lookup fromComp).isSome then
    ⟨t.mStorage.map fun entry =>
      if entry.1 = fromComp then (entry.1, setInsert entry.2 toComp) else entry⟩
  else ⟨t.mStorage ++ [(fromComp, setInsert [] toComp)]⟩

/-- `ExplicitNetworkTopology::doCanReach`. -/
def doCanReach (t : ExplicitNetworkTopology) (sndr rcvr : Component) : Bool :=
  match t.mStorage.lookup sndr with
  | some receivers => decide (rcvr ∈ receivers)
  | none => false

/-- Modelled from the spec: the body of the non-virtual
`NetworkTopology::canReach` is not part of the sources; `types.h` declares
`doCanReach` as its "virtual delegate for checking whether a component can
reach another component". The topology that an explicit topology is, is the
function `doCanReach` computes. -/
def toTopology (t : ExplicitNetworkTopology) : NetworkTopology :=
  fun sndr rcvr => t.doCanReach sndr rcvr

end ExplicitNetworkTopology

/-- The class `ANLView` of `anl.h`. The member `mTargetIntent` is a pointer to
an intention assignment that the view does not own; the three intention
setters take the assignment it points to as an argument and return it
modified. That assignment is one over the view's setup, as in `ANL::runSlot`. -/
structure ANLView where
  mSetup : NetworkSetup
  mSlot : Nat
  mComponent : Component
  mPreviousAction : ComponentAction
  mHasPreviousAction : Bool
  mActed : Bool
  deriving DecidableEq, Repr

namespace ANLView

/-- The constructor `ANLView::ANLView` with a previous action. -/
def newWithPrevious (setup : NetworkSetup) (slot : Nat) (comp : Component)
    (prev : ComponentAction) : Except Fatal ANLView :=
  if setup.isComponent comp then .ok ⟨setup, slot, comp, prev, true, false⟩
  else .error .unknownComponent

/-- The constructor `ANLView::ANLView` without a previous action: the member
`mPreviousAction` is initialised with a freshly constructed `IDLE` action. -/
def new (setup : NetworkSetup) (slot : Nat) (comp : Component) : Except Fatal ANLView :=
  (ComponentTrait.new setup ActionType.IDLE 0 none).bind fun prev =>
    if setup.isComponent comp then .ok ⟨setup, slot, comp, prev, false, false⟩
    else .error .unknownComponent

/-- `ANLView::idle`. -/
def idle (v : ANLView) (targetIntent : IntentionAssignment) :
    Except Fatal (ANLView × IntentionAssignment) :=
  if v.mActed then .error .alreadyActed
  else
    (ComponentTrait.new v.mSetup IntentionType.IDLE 0 none).bind fun intention =>
      (targetIntent.setTraitFor v.mSetup v.mComponent intention).bind fun target =>
        .ok ({ v with mActed := true }, target)

/-- `ANLView::send`. -/
def send (v : ANLView) (targetIntent : IntentionAssignment) (msg : Option Message)
    (tic : Nat) (carrierSensing : Bool) : Except Fatal (ANLView × IntentionAssignment) :=
  if v.mActed then .error .alreadyActed
  else
    let type := if carrierSensing then IntentionType.SEND else IntentionType.SEND_FORCE
    (ComponentTrait.new v.mSetup type tic msg).bind fun intention =>
      (targetIntent.setTraitFor v.mSetup v.mComponent intention).bind fun target =>
        .ok ({ v with mActed := true }, target)

/-- `ANLView::listen`. -/
def listen (v : ANLView) (targetIntent : IntentionAssignment) :
    Except Fatal (ANLView × IntentionAssignment) :=
  if v.mActed then .error .alreadyActed
  else
    (ComponentTrait.new v.mSetup IntentionType.LISTEN 0 none).bind fun intention =>
      (targetIntent.setTraitFor v.mSetup v.mComponent intention).bind fun target =>
        .ok ({ v with mActed := true }, target)

/-- `ANLView::getPreviousAction`. -/
def getPreviousAction (v : ANLView) : Except Fatal ComponentAction :=
  if v.mHasPreviousAction then .ok v.mPreviousAction else .error .noPreviousAction

/-- `hasPreviousAction`. -/
def hasPreviousAction (v : ANLView) : Bool := v.mHasPreviousAction

/-- `getSlotNumber`. -/
def getSlotNumber (v : ANLView) : Nat := v.mSlot

/-- `hasActed`. -/
def hasActed (v : ANLView) : Bool := v.mActed

end ANLView

/-- One call that a protocol callback makes on the view it was given; the
getters that cannot fail and do not change the view are left out. -/
inductive ViewCall where
  | idle
  | listen
  | send (msg : Option Message) (tic : Nat) (carrierSensing : Bool)
  | getPreviousAction
  deriving DecidableEq, Repr

/-- The view method that a `ViewCall` stands for, run on the view and the
target intention assignment. -/
def ANLView.call (v : ANLView) (targetIntent : IntentionAssignment) :
    ViewCall → Except Fatal (ANLView × IntentionAssignment)
  | .idle => v.idle targetIntent
  | .listen => v.listen targetIntent
  | .send msg tic carrierSensing => v.send targetIntent msg tic carrierSensing
  | .getPreviousAction => v.getPreviousAction.bind fun _ => .ok (v, targetIntent)

/-- The protocol callbacks `doAct` of the components, which are not part of
the core: given the component, the view it receives and the memory `σ` of the
component objects, a callback decides the calls it makes on the view, in
order, and the memory it leaves behind. -/
abbrev Protocol (σ : Type) := Component → ANLView → σ → List ViewCall × σ

/-- Modelled from the spec: the body of `Component::onAct` is not part of the
sources; `types.h` says it "lets the component act by invoking its protocol
callback" on the view, and the callback runs to completion. The calls of the
callback are made one after the other on the view. -/
def Component.onAct {σ : Type} (protocol : Protocol σ) (comp : Component) (view : ANLView)
    (targetIntent : IntentionAssignment) (memory : σ) :
    Except Fatal (ANLView × IntentionAssignment × σ) :=
  ((protocol comp view memory).1.foldlM
      (fun (state : ANLView × IntentionAssignment) call => state.1.call state.2 call)
      (view, targetIntent)).bind
    fun state => .ok (state.1, state.2, (protocol comp view memory).2)

/-- The view that the callback of `ANL::runSlot` constructs for `comp`: with
the action of `comp` in `prevState` when there is a previous state (`none` is
`nullptr`), without a previous action otherwise. -/
def ANL.makeView (anl : ANL) (slot : Nat) (prevState : Option NetworkState)
    (comp : Component) : Except Fatal ANLView :=
  match prevState with
  | some prev =>
    (prev.getTraitFor anl.mSetup comp).bind fun prevAction =>
      ANLView.newWithPrevious anl.mSetup slot comp prevAction
  | none => ANLView.new anl.mSetup slot comp

/-- The callback of `ANL::runSlot`, run for one component: the view is
constructed, the component acts on it, and the view must then have acted. The
state is the target intention assignment and the memory of the components. -/
def ANL.runSlotStep {σ : Type} (anl : ANL) (protocol : Protocol σ) (slot : Nat)
    (prevState : Option NetworkState) (state : IntentionAssignment × σ) (comp : Component) :
    Except Fatal (IntentionAssignment × σ) :=
  (anl.makeView slot prevState comp).bind fun view =>
    (Component.onAct protocol comp view state.1 state.2).bind fun acted =>
      if acted.1.hasActed then .ok (acted.2.1, acted.2.2)
      else .error .didNotChoose

/-- `ANL::runSlot`. -/
def ANL.runSlot {σ : Type} (anl : ANL) (protocol : Protocol σ) (slot : Nat)
    (prevState : Option NetworkState) (targetIntent : IntentionAssignment) (memory : σ) :
    Except Fatal (IntentionAssignment × σ) :=
  anl.mSetup.forEachComponent (anl.runSlotStep protocol slot prevState) (targetIntent, memory)

/-- A call that the simulator makes on its output module. -/
inductive OutputEvent where
  | onSimulationBegin (numSlots : Nat)
  | onSlotBegin (slotNumber : Nat)
  | onIntentChosen (intent : IntentionAssignment)
  | onTransitionComputed (outcomes : List NetworkState)
  | onResultChosen (state : NetworkState)
  | onSlotEnd
  | onSimulationEnd
  deriving DecidableEq, Repr

/-- The number of values of `std::size_t`, on a target with 64-bit addresses. -/
def sizeRange : Nat := 2 ^ 64

/-- The class `Simulator` of `simulator.h`. The output module is an object
the simulator points to (`none` is `nullptr`); it is represented by the list
of the calls it has received. The member `mANL` holds a pointer to `mSetup`
and the constant semantics `NAIVE`; it is `Simulator.mANL` below. The error
tracer only keeps the section names that it prints before a fatal exit; its
own requirements (a non-empty section name on `enter`, a non-empty stack on
`leave`) hold at every call of `simulator.cpp`. -/
structure Simulator where
  mOutputModule : Option (List OutputEvent)
  mSetup : NetworkSetup
  mTopology : Option NetworkTopology
  mSlotNumber : Nat
  mPreviousState : NetworkState
  mHasBegun : Bool

namespace Simulator

/-- The member `mANL`, initialised as `mANL(&mSetup, ANLSemantics::NAIVE)`. -/
def mANL (sim : Simulator) : ANL := ⟨sim.mSetup, ANLSemantics.NAIVE⟩

/-- The constructor `Simulator::Simulator`; `defaultOutModule` is the value of
the global `gDefaultOutModule` at that time. -/
def new (defaultOutModule : Option (List OutputEvent)) (ticsPerSlot : Nat) :
    Except Fatal Simulator :=
  (NetworkSetup.new ticsPerSlot).bind fun setup =>
    .ok { mOutputModule := defaultOutModule, mSetup := setup, mTopology := none,
          mSlotNumber := 0, mPreviousState := TraitMapping.new, mHasBegun := false }

/-- `Simulator::useTopology`; `none` is `nullptr`. -/
def useTopology (sim : Simulator) (topo : Option NetworkTopology) : Except Fatal Simulator :=
  match topo with
  | none => .error .topologyNull
  | some t => .ok { sim with mTopology := some t }

/-- `Simulator::useOutputModule`; `none` is `nullptr`. -/
def useOutputModule (sim : Simulator) (outModule : Option (List OutputEvent)) :
    Except Fatal Simulator :=
  match outModule with
  | none => .error .outputModuleNull
  | some out => .ok { sim with mOutputModule := some out }

/-- The body of the loop of `Simulator::useComponents`, run for one array
element. -/
def useComponent (sim : Simulator) (comp : Option Component) : Except Fatal Simulator :=
  match comp with
  | none => .error .componentPointerNull
  | some c =>
    if sim.mSetup.isComponent c then .error .componentRegisteredTwice
    else (sim.mSetup.registerComponent (some c)).bind fun setup =>
      .ok { sim with mSetup := setup }

/-- `Simulator::useComponents`; the array `compStart[0 .. count-1]` is the list
`comps`, `none` a null array pointer. -/
def useComponents (sim : Simulator) (comps : Option (List (Option Component))) :
    Except Fatal Simulator :=
  match comps with
  | none => .error .componentArrayNull
  | some l => l.foldlM useComponent sim

/-- The body of the loop of `Simulator::useMessages`, run for one array
element. -/
def useMessage (sim : Simulator) (msg : Option Message) : Except Fatal Simulator :=
  match msg with
  | none => .error .messagePointerNull
  | some m =>
    if sim.mSetup.isMessage (some m) then .error .messageRegisteredTwice
    else (sim.mSetup.registerMessage (some m)).bind fun setup =>
      .ok { sim with mSetup := setup }

/-- `Simulator::useMessages`. -/
def useMessages (sim : Simulator) (msgs : Option (List (Option Message))) :
    Except Fatal Simulator :=
  match msgs with
  | none => .error .messageArrayNull
  | some l => l.foldlM useMessage sim

/-- The private `Simulator::runSlot`. It dereferences `mOutputModule` and
`mTopology`; `runSingle`, its only caller, has required both to be non-null,
and `out` and `topo` are what they point to. The state is the simulator and
the memory of the components. -/
def runSlot {σ : Type} (protocol : Protocol σ) (out : List OutputEvent)
    (topo : NetworkTopology) (state : Simulator × σ) : Except Fatal (Simulator × σ) :=
  let sim := state.1
  let out1 := out ++ [OutputEvent.onSlotBegin sim.mSlotNumber]
  let oldState := if sim.mSlotNumber = 0 then none else some sim.mPreviousState
  (sim.mANL.runSlot protocol sim.mSlotNumber oldState TraitMapping.new state.2).bind fun ran =>
    if ran.1.isPartial then .error .partialIntentProduced
    else
      let out2 := out1 ++ [OutputEvent.onIntentChosen ran.1]
      (sim.mANL.transition topo ran.1).bind fun outcomes =>
        let out3 := out2 ++ [OutputEvent.onTransitionComputed outcomes]
        match outcomes with
        | [front] =>
          .ok ({ sim with
                  mPreviousState := front,
                  mOutputModule := some
                    (out3 ++ [OutputEvent.onResultChosen front, OutputEvent.onSlotEnd]) },
               ran.2)
        | _ => .error .notDeterministic

/-- `Simulator::runSingle`. The slot counter is a `std::size_t`. -/
def runSingle {σ : Type} (protocol : Protocol σ) (intendedSlots : Nat)
    (state : Simulator × σ) : Except Fatal (Simulator × σ) :=
  match state.1.mTopology with
  | none => .error .topologyNotSet
  | some topo =>
    match state.1.mOutputModule with
    | none => .error .outputModuleNotSet
    | some out =>
      let out1 :=
        if state.1.mHasBegun then out
        else out ++ [OutputEvent.onSimulationBegin intendedSlots]
      (runSlot protocol out1 topo ({ state.1 with mHasBegun := true }, state.2)).bind
        fun ran => .ok ({ ran.1 with mSlotNumber := (ran.1.mSlotNumber + 1) % sizeRange }, ran.2)

/-- `Simulator::endSingle`. -/
def endSingle (sim : Simulator) : Except Fatal Simulator :=
  match sim.mOutputModule with
  | none => .error .outputModuleNotSet
  | some out => .ok { sim with mOutputModule := some (out ++ [OutputEvent.onSimulationEnd]) }

/-- The loop of `Simulator::run`: `count` calls of `runSingle(numSlots)`. -/
def runLoop {σ : Type} (protocol : Protocol σ) (numSlots : Nat) :
    Nat → Simulator × σ → Except Fatal (Simulator × σ)
  | 0, state => .ok state
  | count + 1, state => (runSingle protocol numSlots state).bind (runLoop protocol numSlots count)

/-- `Simulator::run`. -/
def run {σ : Type} (protocol : Protocol σ) (numSlots : Nat) (state : Simulator × σ) :
    Except Fatal (Simulator × σ) :=
  if numSlots = 0 then .error .zeroDuration
  else
    (runLoop protocol numSlots numSlots state).bind fun ran =>
      ran.1.endSingle.bind fun sim => .ok (sim, ran.2)

end Simulator

/-- `Misc::Asserts::require` of `asserts.cpp`: when the condition fails it
prints "Assertion failed: " with the message and calls `std::exit(1)`. -/
def Asserts.exitCode : Nat := 1

/-- `ErrorTracer::require` of `errortrace.cpp`: when the condition fails it
prints the message and the section trace and calls `std::exit(2)`. -/
def ErrorTracer.exitCode : Nat := 2

/-- The exit code of the process at a fatal stop. The requirements of
`simulator.cpp` that go through `mErrorTracer.require` end in the exit of
`ErrorTracer::require`; every other requirement of the core is a call of
`Misc::Asserts::require`. `outOfRange` is the exception `std::out_of_range`
of `mMapping.at`, which no code catches: the process is ended by
`std::terminate` and not by a call of `std::exit`. -/
def Fatal.exitCode : Fatal → Option Nat
  | .outOfRange => none
  | .topologyNull | .outputModuleNull | .componentArrayNull | .componentPointerNull
  | .componentRegisteredTwice | .messageArrayNull | .messagePointerNull
  | .messageRegisteredTwice | .zeroDuration | .topologyNotSet | .outputModuleNotSet
  | .partialIntentProduced => some ErrorTracer.exitCode
  | _ => some Asserts.exitCode

/-- `EchoServerComponent::doAct` of `bbtest/src/silence/SilenceMain.cpp`: with
a previous action that is `RECEIVED` the received message is sent at tic 0
(carrier sensing is the default argument of `send`); otherwise the component
listens. `getPreviousAction` is called only after `hasPreviousAction`. -/
def EchoServerComponent.doAct : Protocol Unit := fun _ view memory =>
  if view.hasPreviousAction then
    match view.getPreviousAction with
    | .ok act =>
      if act.getType = ActionType.RECEIVED then
        ([ViewCall.getPreviousAction, ViewCall.send act.getMessage 0 true], memory)
      else ([ViewCall.getPreviousAction, ViewCall.listen], memory)
    | .error _ => ([ViewCall.getPreviousAction], memory)
  else ([ViewCall.listen], memory)

/-- `enum class AlarmState` of `alarm/src/alarm.h`. -/
inductive AlarmState where
  | INITIAL_CU
  | WAITING_CU
  | INITIAL_REP
  | WAIT_FOR_ALARM_REP
  | FORWARD_ALARMS_REP
  | ATTEMPTED_REP
  | WAIT_FOR_ACK_REP
  | INITIAL_SEN
  | ATTEMPTED_SEN
  | WAIT_FOR_ACK_SEN
  | DONE_SEN
  deriving DecidableEq, Repr

/-- `enum class MessageType` of `alarm.h`. -/
inductive MessageType where
  | ALARM
  | ACK
  deriving DecidableEq, Repr

/-- The members of `ProtocolMessage` of `alarm.h`; the three components are
pointers. -/
structure ProtocolMessage where
  mType : MessageType
  mFrom : Component
  mTo : Component
  mData : Component
  deriving DecidableEq, Repr

namespace ProtocolMessage

/-- `getType`. -/
def getType (msg : ProtocolMessage) : MessageType := msg.mType

/-- `getFrom`. -/
def getFrom (msg : ProtocolMessage) : Component := msg.mFrom

/-- `getTo`. -/
def getTo (msg : ProtocolMessage) : Component := msg.mTo

/-- `getData`. -/
def getData (msg : ProtocolMessage) : Component := msg.mData

end ProtocolMessage

/-- What the protocol callbacks of the alarm example take from outside their
class: the global array `gRepeaters` (read at an index that the caller
computes), the global `gCentralUnit`, the address of the message object that
`ProtocolMessage::getMessage` of `message.cpp` returns for a tuple of
parameters (it keeps one object per tuple in `gMessageMap`), and what
`dynamic_cast<const ProtocolMessage*>` makes of the address of a message
(`none` is `nullptr`). -/
structure AlarmGlobals where
  gRepeaters : Nat → Component
  gCentralUnit : Component
  getMessage : ProtocolMessage → Message
  dynamicCast : Message → Option ProtocolMessage

/-- The value of `dynamic_cast<const ProtocolMessage*>(msg)` for a message
pointer that may be null: the cast of `nullptr` is `nullptr`. -/
def AlarmGlobals.castMessage (g : AlarmGlobals) (msg : Option Message) :
    Option ProtocolMessage :=
  msg.bind g.dynamicCast

/-- How a call of `doStateAct` ends when it does not return: in a fatal
requirement of the core (here "no previous action!" of
`ANLView::getPreviousAction`), in the `std::exit(1)` of `Repeater::addAlarm`
after "Too many alarms.", or in an access to `mAlarms` to which the language
gives no meaning: a read of an element that was never written, or an access
outside the array. -/
inductive AlarmStop where
  | fatal (e : Fatal)
  | tooManyAlarms
  | undefinedAccess
  deriving DecidableEq, Repr

/-- What a call of `doStateAct` does: the calls it makes on the view, in
order, and how it ends, with the state it returns and the members of the
component after the call when it returns. `logProtocol`, which only prints,
is left out. -/
abbrev Acted (α : Type) := List ViewCall × Except AlarmStop α

/-- The calls `calls` on the view, followed by what `rest` does. -/
def Acted.after {α : Type} (calls : List ViewCall) (rest : Acted α) : Acted α :=
  (calls ++ rest.1, rest.2)

/-- `StateMachineComponent<T>::doAct` of `statemachine.h`:
`mState = doStateAct(view, mState)`. The component is its member `mState`
with the members `μ` that the derived class adds; `doStateAct` is the virtual
method of the derived class. -/
def StateMachineComponent.doAct {T μ : Type} (doStateAct : μ → ANLView → T → Acted (T × μ))
    (comp : T × μ) (view : ANLView) : Acted (T × μ) :=
  doStateAct comp.2 view comp.1

/-- The members that `Sensor` of `alarm.h` adds to its base class. -/
structure Sensor where
  mId : Nat
  mNum : Nat
  mPriority : Nat
  mCollision : Nat
  deriving DecidableEq, Repr

namespace Sensor

/-- The constructor `Sensor::Sensor`: the state is `INITIAL_SEN`. -/
def new (id num : Nat) : AlarmState × Sensor :=
  (AlarmState.INITIAL_SEN, ⟨id, num, 8, 0⟩)

/-- `Sensor::failure`. The shift `128 >> mCollision` is that of an `int`, for
a shift count below its width; the counter is a `std::size_t`. -/
def failure (s : Sensor) : Sensor :=
  let left := (s.mId &&& (128 >>> s.mCollision)) == 0
  let s1 :=
    if left then
      if s.mPriority ≤ 1 then { s with mPriority := 8 }
      else { s with mPriority := s.mPriority - 1 }
    else s
  let s2 := { s1 with mCollision := (s1.mCollision + 1) % sizeRange }
  if s2.mCollision = 9 then { s2 with mCollision := 0, mPriority := 8 } else s2

/-- The case `INITIAL_SEN` of `Sensor::doStateAct`; `self` is `this`. -/
def actInitial (g : AlarmGlobals) (self : Component) (s : Sensor) :
    Acted (AlarmState × Sensor) :=
  let msg := g.getMessage ⟨MessageType.ALARM, self, g.gRepeaters 4, self⟩
  ([ViewCall.send (some msg) s.mPriority true], .ok (AlarmState.ATTEMPTED_SEN, s))

/-- The end of the case `WAIT_FOR_ACK_SEN` when no acknowledgement for this
sensor was received: `failure()` and then `doStateAct(view, INITIAL_SEN)`,
which runs the case `INITIAL_SEN`. -/
def actUnacknowledged (g : AlarmGlobals) (self : Component) (s : Sensor) :
    Acted (AlarmState × Sensor) :=
  actInitial g self s.failure

/-- `Sensor::doStateAct`; `self` is `this`. -/
def doStateAct (g : AlarmGlobals) (self : Component) (s : Sensor) (view : ANLView)
    (state : AlarmState) : Acted (AlarmState × Sensor) :=
  match state with
  | .INITIAL_SEN => actInitial g self s
  | .ATTEMPTED_SEN =>
    match view.getPreviousAction with
    | .error e => ([ViewCall.getPreviousAction], .error (.fatal e))
    | .ok prev =>
      if prev.getType = ActionType.CANCELLED then
        ([ViewCall.getPreviousAction, ViewCall.idle], .ok (AlarmState.INITIAL_SEN, s))
      else
        ([ViewCall.getPreviousAction, ViewCall.listen], .ok (AlarmState.WAIT_FOR_ACK_SEN, s))
  | .WAIT_FOR_ACK_SEN =>
    match view.getPreviousAction with
    | .error e => ([ViewCall.getPreviousAction], .error (.fatal e))
    | .ok prev =>
      if prev.getType = ActionType.RECEIVED then
        match g.castMessage prev.getMessage with
        | some msg =>
          if msg.getType = MessageType.ACK ∧ self = msg.getTo then
            ([ViewCall.getPreviousAction, ViewCall.getPreviousAction, ViewCall.idle],
              .ok (AlarmState.DONE_SEN, s))
          else
            Acted.after [ViewCall.getPreviousAction, ViewCall.getPreviousAction]
              (actUnacknowledged g self s)
        | none =>
          Acted.after [ViewCall.getPreviousAction, ViewCall.getPreviousAction]
            (actUnacknowledged g self s)
      else Acted.after [ViewCall.getPreviousAction] (actUnacknowledged g self s)
  | .DONE_SEN => ([ViewCall.idle], .ok (AlarmState.DONE_SEN, s))
  | other => ([], .ok (other, s))

end Sensor

/-- The members that `Repeater` of `alarm.h` adds to its base class. The array
`mAlarms[10]` is the list of its ten elements; an element that was never
written is `none`. -/
structure Repeater where
  mNum : Nat
  mPriority : Nat
  mCollision : Nat
  mAlarms : List (Option Component)
  mAlarmCount : Nat
  deriving DecidableEq, Repr

namespace Repeater

/-- The constructor `Repeater::Repeater`: the state is `INITIAL_REP`; the
array `mAlarms` is not initialised. -/
def new (num : Nat) : AlarmState × Repeater :=
  (AlarmState.INITIAL_REP, ⟨num, 0, 0, List.replicate 10 none, 0⟩)

/-- `Repeater::failure`. -/
def failure (r : Repeater) : Repeater :=
  let left := (r.mNum &&& (128 >>> r.mCollision)) == 0
  let r1 :=
    if left then
      if r.mPriority ≤ 1 then { r with mPriority := 8 }
      else { r with mPriority := r.mPriority - 1 }
    else r
  let r2 := { r1 with mCollision := (r1.mCollision + 1) % sizeRange }
  if r2.mCollision = 9 then { r2 with mCollision := 0, mPriority := 8 } else r2

/-- A read of `mAlarms[i]`. -/
def readAlarm (r : Repeater) (i : Nat) : Except AlarmStop Component :=
  match r.mAlarms.get? i with
  | some (some comp) => .ok comp
  | _ => .error .undefinedAccess

/-- The loop of `Repeater::addAlarm` over the indices `indices`: `true` when
an element equal to `comp` is found, where the method returns. -/
def searchAlarm (r : Repeater) (comp : Component) : List Nat → Except AlarmStop Bool
  | [] => .ok false
  | i :: rest =>
    (r.readAlarm i).bind fun entry =>
      if entry = comp then .ok true else searchAlarm r comp rest

/-- `Repeater::addAlarm`. -/
def addAlarm (r : Repeater) (comp : Component) : Except AlarmStop Repeater :=
  (r.searchAlarm comp (List.range r.mAlarmCount)).bind fun found =>
    if found then .ok r
    else if r.mAlarmCount = 10 then .error .tooManyAlarms
    else if r.mAlarmCount < r.mAlarms.length then
      .ok { r with
        mAlarms := r.mAlarms.set r.mAlarmCount (some comp),
        mAlarmCount := (r.mAlarmCount + 1) % sizeRange }
    else .error .undefinedAccess

/-- The case `FORWARD_ALARMS_REP` of `Repeater::doStateAct`; `self` is `this`.
The index `mNum - 2` and the index `mAlarmCount - 1` are computed in
`std::size_t`. -/
def actForward (g : AlarmGlobals) (self : Component) (r : Repeater) :
    Acted (AlarmState × Repeater) :=
  let target :=
    if r.mNum = 1 then g.gCentralUnit else g.gRepeaters ((r.mNum + sizeRange - 2) % sizeRange)
  match r.readAlarm ((r.mAlarmCount + sizeRange - 1) % sizeRange) with
  | .error stop => ([], .error stop)
  | .ok data =>
    let fwd := g.getMessage ⟨MessageType.ALARM, self, target, data⟩
    ([ViewCall.send (some fwd) r.mPriority true], .ok (AlarmState.ATTEMPTED_REP, r))

/-- The end of the case `WAIT_FOR_ALARM_REP` when no alarm for this repeater
was received. -/
def actNoAlarm (r : Repeater) : Acted (AlarmState × Repeater) :=
  if r.mAlarmCount > 0 then ([ViewCall.idle], .ok (AlarmState.FORWARD_ALARMS_REP, r))
  else ([ViewCall.idle], .ok (AlarmState.INITIAL_REP, r))

/-- The end of the case `WAIT_FOR_ACK_REP` when no acknowledgement for this
repeater was received: `failure()` and then
`doStateAct(view, FORWARD_ALARMS_REP)`, which runs the case
`FORWARD_ALARMS_REP`. -/
def actUnacknowledged (g : AlarmGlobals) (self : Component) (r : Repeater) :
    Acted (AlarmState × Repeater) :=
  actForward g self r.failure

/-- `Repeater::doStateAct`; `self` is `this`. -/
def doStateAct (g : AlarmGlobals) (self : Component) (r : Repeater) (view : ANLView)
    (state : AlarmState) : Acted (AlarmState × Repeater) :=
  match state with
  | .INITIAL_REP => ([ViewCall.listen], .ok (AlarmState.WAIT_FOR_ALARM_REP, r))
  | .WAIT_FOR_ALARM_REP =>
    match view.getPreviousAction with
    | .error e => ([ViewCall.getPreviousAction], .error (.fatal e))
    | .ok prev =>
      if prev.getType = ActionType.RECEIVED then
        match g.castMessage prev.getMessage with
        | some msg =>
          if msg.getType = MessageType.ALARM ∧ self = msg.getTo then
            let reply := g.getMessage ⟨MessageType.ACK, self, msg.getFrom, msg.getData⟩
            match r.addAlarm msg.getData with
            | .error stop =>
              ([ViewCall.getPreviousAction, ViewCall.getPreviousAction], .error stop)
            | .ok r1 =>
              ([ViewCall.getPreviousAction, ViewCall.getPreviousAction,
                  ViewCall.send (some reply) 0 false],
                .ok (AlarmState.FORWARD_ALARMS_REP, r1))
          else
            Acted.after [ViewCall.getPreviousAction, ViewCall.getPreviousAction] (actNoAlarm r)
        | none =>
          Acted.after [ViewCall.getPreviousAction, ViewCall.getPreviousAction] (actNoAlarm r)
      else Acted.after [ViewCall.getPreviousAction] (actNoAlarm r)
  | .FORWARD_ALARMS_REP => actForward g self r
  | .ATTEMPTED_REP =>
    match view.getPreviousAction with
    | .error e => ([ViewCall.getPreviousAction], .error (.fatal e))
    | .ok prev =>
      if prev.getType = ActionType.CANCELLED then
        ([ViewCall.getPreviousAction, ViewCall.idle], .ok (AlarmState.FORWARD_ALARMS_REP, r))
      else
        ([ViewCall.getPreviousAction, ViewCall.listen], .ok (AlarmState.WAIT_FOR_ACK_REP, r))
  | .WAIT_FOR_ACK_REP =>
    match view.getPreviousAction with
    | .error e => ([ViewCall.getPreviousAction], .error (.fatal e))
    | .ok prev =>
      if prev.getType = ActionType.RECEIVED then
        match g.castMessage prev.getMessage with
        | some msg =>
          if msg.getType = MessageType.ACK ∧ self = msg.getTo then
            ([ViewCall.getPreviousAction, ViewCall.getPreviousAction, ViewCall.listen],
              .ok (AlarmState.WAIT_FOR_ALARM_REP,
                { r with
                  mAlarmCount := (r.mAlarmCount + sizeRange - 1) % sizeRange,
                  mPriority := 0, mCollision := 0 }))
          else
            Acted.after [ViewCall.getPreviousAction, ViewCall.getPreviousAction]
              (actUnacknowledged g self r)
        | none =>
          Acted.after [ViewCall.getPreviousAction, ViewCall.getPreviousAction]
            (actUnacknowledged g self r)
      else Acted.after [ViewCall.getPreviousAction] (actUnacknowledged g self r)
  | other => ([], .ok (other, r))

end Repeater

/-! ## Definitions used to state the theorems -/

/-- The trait mapping over `setup` with the entries `l`: `mPartial` is what the
invariant of trait mappings forces it to be. -/
def TraitMapping.ofList {T : Type} (setup : NetworkSetup) (l : List (Component × ComponentTrait T)) :
    TraitMapping T :=
  ⟨l, l.isEmpty || decide (l.length ≠ setup.mComponents.length)⟩

instance (setup : NetworkSetup) (tm : IntentionAssignment) : Decidable (tm.Inv setup) := by
  unfold TraitMapping.Inv; infer_instance

/-- A total intention assignment over `setup`: the mapping satisfies the
invariant of trait mappings, is not partial, and every intention in it was
accepted by the trait constructor for `setup` (its tic is below the tics per
slot). -/
def IntentionAssignment.Total (setup : NetworkSetup) (intent : IntentionAssignment) : Prop :=
  intent.Inv setup ∧ intent.isPartial = false ∧
    ∀ p ∈ intent.mMapping, p.2.mTic < setup.mTicsPerSlot

instance (setup : NetworkSetup) (intent : IntentionAssignment) :
    Decidable (IntentionAssignment.Total setup intent) := by
  unfold IntentionAssignment.Total; infer_instance

/-- Every `SEND` and `SEND_FORCE` intention carries a message. -/
def IntentionAssignment.SendsCarryMessage (intent : IntentionAssignment) : Prop :=
  ∀ p ∈ intent.mMapping,
    (p.2.mType = IntentionType.SEND ∨ p.2.mType = IntentionType.SEND_FORCE) → p.2.mMessage ≠ none

instance (intent : IntentionAssignment) : Decidable intent.SendsCarryMessage := by
  unfold IntentionAssignment.SendsCarryMessage; infer_instance

/-- Whether `c` starts to transmit in tic `t` when the components `S` are
already transmitting. -/
def startsAt (topo : NetworkTopology) (intent : IntentionAssignment) (S : List Component)
    (t : Nat) (c : Component) : Bool :=
  match intent.mMapping.lookup c with
  | some tr =>
    decide (tr.mTic = t) &&
      (decide (tr.mType = IntentionType.SEND_FORCE) ||
        (decide (tr.mType = IntentionType.SEND) && !(S.any fun a => topo a c)))
  | none => false

/-- The `SENT` action the solver records for a sender `c`. -/
def sentAction (intent : IntentionAssignment) (c : Component) : ComponentAction :=
  match intent.mMapping.lookup c with
  | some tr => ⟨ActionType.SENT, tr.mTic, tr.mMessage⟩
  | none => ⟨ActionType.SENT, 0, none⟩

/-- The components that transmit and started in a tic below `t`, in the order
in which the solver finds them. -/
def sendersBefore (setup : NetworkSetup) (topo : NetworkTopology) (intent : IntentionAssignment) :
    Nat → List Component
  | 0 => []
  | t + 1 =>
    sendersBefore setup topo intent t ++
      setup.mComponents.filter (startsAt topo intent (sendersBefore setup topo intent t) t)

/-- The sentinel of the sender-set representation. -/
def idleAction : ComponentAction := ⟨ActionType.IDLE, 0, none⟩

/-- The entries of the sender-set representation: the senders with their
`SENT` actions, then the other components with the sentinel. -/
def senderSetEntries (setup : NetworkSetup) (topo : NetworkTopology)
    (intent : IntentionAssignment) : List (Component × ComponentAction) :=
  ((sendersBefore setup topo intent setup.mTicsPerSlot).map fun c => (c, sentAction intent c)) ++
    ((setup.mComponents.filter
      fun c => decide (c ∉ sendersBefore setup topo intent setup.mTicsPerSlot)).map
        fun c => (c, idleAction))

/-- The sender-set representation that `getSenderSet` returns. -/
def senderSet (setup : NetworkSetup) (topo : NetworkTopology) (intent : IntentionAssignment) :
    SenderSetRepresentation :=
  TraitMapping.ofList setup (senderSetEntries setup topo intent)

/-- What the sender-set representation holds for a registered component. -/
def senderSetQuery (setup : NetworkSetup) (topo : NetworkTopology) (intent : IntentionAssignment)
    (c : Component) : ComponentAction :=
  if c ∈ sendersBefore setup topo intent setup.mTicsPerSlot then sentAction intent c
  else idleAction

/-- The setup of the sender-set tests: ten tics per slot, two messages, two
components. -/
def exampleSetup : NetworkSetup := ⟨10, [100, 101], [1, 2]⟩

/-- The trivial topology: everyone reaches everyone. -/
def trivialTopology : NetworkTopology := fun _ _ => true

/-- Component 1 sends message 100 at tic 3, component 2 sends message 101 at
tic 7, both with carrier sensing. -/
def exampleIntent37 : IntentionAssignment :=
  ⟨[(1, ⟨IntentionType.SEND, 3, some 100⟩), (2, ⟨IntentionType.SEND, 7, some 101⟩)], false⟩

/-- Component 1 sends message 100 at tic 5 with carrier sensing, component 2
sends message 101 at tic 1 without carrier sensing. -/
def exampleIntent15Force : IntentionAssignment :=
  ⟨[(1, ⟨IntentionType.SEND, 5, some 100⟩), (2, ⟨IntentionType.SEND_FORCE, 1, some 101⟩)], false⟩

/-- Both components send with carrier sensing at tic 7. -/
def exampleIntent77 : IntentionAssignment :=
  ⟨[(1, ⟨IntentionType.SEND, 7, some 100⟩), (2, ⟨IntentionType.SEND, 7, some 101⟩)], false⟩

/-- The `COLLISION` action. -/
def collisionAction : ComponentAction := ⟨ActionType.COLLISION, 0, none⟩

/-- The `SILENCE` action. -/
def silenceAction : ComponentAction := ⟨ActionType.SILENCE, 0, none⟩

/-- Whether the sender-set representation `ss` holds a `SENT` action for `p`. -/
def isSender (setup : NetworkSetup) (ss : SenderSetRepresentation) (p : Component) : Bool :=
  match TraitMapping.getTraitFor setup ss p with
  | .ok q => decide (q.getType = ActionType.SENT)
  | .error _ => false

/-- The registered components of the sender set `ss` that can reach `comp`, in
registration order. -/
def reachableSenders (setup : NetworkSetup) (topo : NetworkTopology)
    (ss : SenderSetRepresentation) (comp : Component) : List Component :=
  setup.mComponents.filter fun p => topo.canReach p comp && isSender setup ss p

/-- The `RECEIVED` action with the tic and message that `ss` holds for `p`. -/
def receivedFrom (setup : NetworkSetup) (ss : SenderSetRepresentation) (p : Component) :
    ComponentAction :=
  match TraitMapping.getTraitFor setup ss p with
  | .ok q => ⟨ActionType.RECEIVED, q.getTic, q.getMessage⟩
  | .error _ => ⟨ActionType.RECEIVED, 0, none⟩

/-- What the `LISTEN` loop appends for the reachable senders `l`, given the
value of `hasMessages` before. -/
def listenAdd (setup : NetworkSetup) (ss : SenderSetRepresentation) (hasMessages : Bool)
    (l : List Component) : List ComponentAction :=
  if hasMessages then l.map (receivedFrom setup ss)
  else
    match l with
    | [] => []
    | p :: ps => receivedFrom setup ss p :: collisionAction :: ps.map (receivedFrom setup ss)

/-- The list `getPossibleActions` builds for `comp`. -/
def possibleActions (setup : NetworkSetup) (topo : NetworkTopology)
    (intent : IntentionAssignment) (comp : Component) : List ComponentAction :=
  match intent.mMapping.lookup comp with
  | none => []
  | some tr =>
    match tr.mType with
    | .IDLE => [idleAction]
    | .LISTEN =>
      match reachableSenders setup topo (senderSet setup topo intent) comp with
      | [] => [silenceAction]
      | p :: ps => listenAdd setup (senderSet setup topo intent) false (p :: ps)
    | _ =>
      if isSender setup (senderSet setup topo intent) comp then
        [⟨ActionType.SENT, tr.mTic, tr.mMessage⟩]
      else [⟨ActionType.CANCELLED, tr.mTic, tr.mMessage⟩]

/-- The list `ANLFilterNothing` returns for `l`. -/
def uniqueActions (l : List ComponentAction) : List ComponentAction :=
  l.foldl (fun tmp act => if alreadyAdded tmp act then tmp else tmp ++ [act]) []

/-- The list `ANLFilterNaive` returns for the possible actions of `comp`. -/
def naiveActions (setup : NetworkSetup) (topo : NetworkTopology)
    (intent : IntentionAssignment) (comp : Component) : List ComponentAction :=
  match intent.mMapping.lookup comp with
  | none => []
  | some tr =>
    match tr.mType with
    | .LISTEN =>
      match reachableSenders setup topo (senderSet setup topo intent) comp with
      | [] => [silenceAction]
      | [p] => [receivedFrom setup (senderSet setup topo intent) p]
      | _ :: _ :: _ => [collisionAction]
    | _ => possibleActions setup topo intent comp

/-- The filtered possible actions of `comp` under the given semantics. -/
def filteredActions (semantics : ANLSemantics) (setup : NetworkSetup) (topo : NetworkTopology)
    (intent : IntentionAssignment) (comp : Component) : List ComponentAction :=
  match semantics with
  | .CANONICAL => uniqueActions (possibleActions setup topo intent comp)
  | .NAIVE => naiveActions setup topo intent comp

/-- The entry lists of the states that the cross product of `transition`
builds from the entry lists `acc` when it runs over the components `cs`, each
component `c` taking its actions from `F c`. -/
def crossProduct (F : Component → List ComponentAction) :
    List (List (Component × ComponentAction)) → List Component →
      List (List (Component × ComponentAction))
  | acc, [] => acc
  | acc, c :: cs => crossProduct F (acc.flatMap fun l => (F c).map fun a => l ++ [(c, a)]) cs

/-- The setup of the listening tests: twenty tics per slot, two messages, three
components. -/
def listenSetup : NetworkSetup := ⟨20, [100, 101], [1, 2, 3]⟩

/-- Component 1 listens, components 2 and 3 send the same message 100 at tic 2
with carrier sensing. -/
def listenIntentIdentical : IntentionAssignment :=
  ⟨[(1, ⟨IntentionType.LISTEN, 0, none⟩), (2, ⟨IntentionType.SEND, 2, some 100⟩),
    (3, ⟨IntentionType.SEND, 2, some 100⟩)], false⟩

/-- Component 1 idles, component 2 sends message 100 at tic 1 without carrier
sensing, component 3 sends message 101 at tic 2 with carrier sensing. -/
def listenIntentCancelled : IntentionAssignment :=
  ⟨[(1, ⟨IntentionType.IDLE, 0, none⟩), (2, ⟨IntentionType.SEND_FORCE, 1, some 100⟩),
    (3, ⟨IntentionType.SEND, 2, some 101⟩)], false⟩

/-- Component 1 listens, component 2 sends message 100 at tic 2 with carrier
sensing, component 3 idles. -/
def listenIntentOne : IntentionAssignment :=
  ⟨[(1, ⟨IntentionType.LISTEN, 0, none⟩), (2, ⟨IntentionType.SEND, 2, some 100⟩),
    (3, ⟨IntentionType.IDLE, 0, none⟩)], false⟩

/-- The tic and message that the sender-set representation `ss` holds for
`p`. -/
def senderPayload (setup : NetworkSetup) (ss : SenderSetRepresentation) (p : Component) :
    Nat × Option Message :=
  match TraitMapping.getTraitFor setup ss p with
  | .ok q => (q.getTic, q.getMessage)
  | .error _ => (0, none)

/-- The `RECEIVED` action with the given tic and message. -/
def receivedOf (payload : Nat × Option Message) : ComponentAction :=
  ⟨ActionType.RECEIVED, payload.1, payload.2⟩

/-- The setup of `listenToOne`: twenty tics per slot, one message, two
components. -/
def listenToOneSetup : NetworkSetup := ⟨20, [100], [1, 2]⟩

/-- The intention assignment of `listenToOne`: component 1 listens, component 2
sends message 100 at tic 2 with carrier sensing. -/
def listenToOneIntent : IntentionAssignment :=
  ⟨[(1, ⟨IntentionType.LISTEN, 0, none⟩), (2, ⟨IntentionType.SEND, 2, some 100⟩)], false⟩

/-- The sender set of `listenToOne`: component 2 sent, component 1 did not. -/
def listenToOneSenderSet : SenderSetRepresentation :=
  ⟨[(2, ⟨ActionType.SENT, 2, some 100⟩), (1, ⟨ActionType.IDLE, 0, none⟩)], false⟩

/-- The setup of the motivational example: twenty tics per slot, one message,
three components. -/
def chainSetup : NetworkSetup := ⟨20, [100], [1, 2, 3]⟩

/-- The topology of the motivational example: the directed chain 1 → 2 → 3. -/
def chainTopology : NetworkTopology := fun sndr rcvr =>
  (sndr == 1 && rcvr == 2) || (sndr == 2 && rcvr == 3)

/-- The intention assignment of the motivational example: component `i` sends
message 100 at tic `i` with carrier sensing. -/
def chainIntent : IntentionAssignment :=
  ⟨[(1, ⟨IntentionType.SEND, 1, some 100⟩), (2, ⟨IntentionType.SEND, 2, some 100⟩),
    (3, ⟨IntentionType.SEND, 3, some 100⟩)], false⟩

/-- The successor of the motivational example: component 1 sent, component 2
cancelled, component 3 sent. -/
def chainSuccessor : NetworkState :=
  ⟨[(1, ⟨ActionType.SENT, 1, some 100⟩), (2, ⟨ActionType.CANCELLED, 2, some 100⟩),
    (3, ⟨ActionType.SENT, 3, some 100⟩)], false⟩

/-- Whether two actions are duplicates: the same action type, the same tic and
the same message handle. -/
def sameAction (a b : ComponentAction) : Bool :=
  decide (a.getType = b.getType ∧ a.getTic = b.getTic ∧ a.getMessage = b.getMessage)

/-- The list `l` with every later duplicate removed: the first entry stays, its
later duplicates go, and so on for the rest. -/
def removeLaterDuplicates : List ComponentAction → List ComponentAction
  | [] => []
  | a :: l => a :: (removeLaterDuplicates l).filter fun b => !sameAction a b

/-- The list that `filter` returns for the possible actions of `c`; the empty
list if the filter fails. -/
def filteredBy (filter : FilterFunction) (setup : NetworkSetup) (topo : NetworkTopology)
    (intent : IntentionAssignment) (c : Component) : List ComponentAction :=
  match filter setup (possibleActions setup topo intent c) with
  | .ok l => l
  | .error _ => []

/-- The intention assignment of the test `listenToMultiple`: component 1
listens, components 2 and 3 send the messages 100 and 101 at tic 2 with carrier
sensing. -/
def listenIntentMultiple : IntentionAssignment :=
  ⟨[(1, ⟨IntentionType.LISTEN, 0, none⟩), (2, ⟨IntentionType.SEND, 2, some 100⟩),
    (3, ⟨IntentionType.SEND, 2, some 101⟩)], false⟩

/-- The three canonical successors of `listenToMultiple`. -/
def listenMultipleSuccessors : List NetworkState :=
  [⟨[(1, ⟨ActionType.RECEIVED, 2, some 100⟩), (2, ⟨ActionType.SENT, 2, some 100⟩),
      (3, ⟨ActionType.SENT, 2, some 101⟩)], false⟩,
    ⟨[(1, ⟨ActionType.COLLISION, 0, none⟩), (2, ⟨ActionType.SENT, 2, some 100⟩),
      (3, ⟨ActionType.SENT, 2, some 101⟩)], false⟩,
    ⟨[(1, ⟨ActionType.RECEIVED, 2, some 101⟩), (2, ⟨ActionType.SENT, 2, some 100⟩),
      (3, ⟨ActionType.SENT, 2, some 101⟩)], false⟩]

/-- The filter of the test `tooRestrictiveFilterFails`: it clears the list. -/
def clearingFilter : FilterFunction := fun _ _ => .ok []

/-- The setup of the test `tooRestrictiveFilterFails`: twenty tics per slot,
one component, no message. -/
def singleSetup : NetworkSetup := ⟨20, [], [1]⟩

/-- The intention assignment of the test `tooRestrictiveFilterFails`: the only
component idles. -/
def singleIdleIntent : IntentionAssignment := ⟨[(1, ⟨IntentionType.IDLE, 0, none⟩)], false⟩

/-- The setup of the test `sendInvalidMessageFails`: twenty tics per slot, two
components, no message. -/
def invalidMessageSetup : NetworkSetup := ⟨20, [], [1, 2]⟩

/-- The intention assignment of the test `sendInvalidMessageFails`: component 1
idles, component 2 intends to send a null message at tic 0. -/
def invalidMessageIntent : IntentionAssignment :=
  ⟨[(1, ⟨IntentionType.IDLE, 0, none⟩), (2, ⟨IntentionType.SEND, 0, none⟩)], false⟩

/-- A sequence of `setTraitFor` calls on a trait mapping, each given by the
component and the trait it passes. -/
def TraitMapping.setAll {T : Type} (setup : NetworkSetup) (tm : TraitMapping T)
    (calls : List (Component × ComponentTrait T)) : Except Fatal (TraitMapping T) :=
  calls.foldlM (fun mapping call => mapping.setTraitFor setup call.1 call.2) tm

/-- The setup of the tests `isPartial` and `getTraitFor`: twenty tics per slot,
no message, two components. -/
def twoSetup : NetworkSetup := ⟨20, [], [1, 2]⟩

/-- The calls of the tests `isPartial` and `getTraitFor`: `IDLE` for the first
component, `COLLISION` for the second. -/
def twoCalls : List (Component × ComponentAction) :=
  [(1, ⟨ActionType.IDLE, 0, none⟩), (2, ⟨ActionType.COLLISION, 0, none⟩)]

/-- Whether an action type has a payload (a tic and a message). -/
def ActionType.hasPayload : ActionType → Bool
  | .RECEIVED | .SENT | .CANCELLED => true
  | .IDLE | .SILENCE | .COLLISION => false

/-- Whether an intention type has a payload (a tic and a message). -/
def IntentionType.hasPayload : IntentionType → Bool
  | .SEND | .SEND_FORCE => true
  | .IDLE | .LISTEN => false

/-- The data-model invariant of traits: without payload the tic is 0 and there
is no message; with payload the tic is below the tics per slot and the message
is not null. -/
def dataModelInvariant (setup : NetworkSetup) (payload : Bool) (tic : Nat)
    (message : Option Message) : Prop :=
  if payload then tic < setup.mTicsPerSlot ∧ message ≠ none else tic = 0 ∧ message = none

/-- A sequence of `registerComponent` calls, each given by the pointer it
passes. -/
def NetworkSetup.registerAll (setup : NetworkSetup) (comps : List (Option Component)) :
    Except Fatal NetworkSetup :=
  comps.foldlM NetworkSetup.registerComponent setup

/-- The sequence of components that `forEachComponent` visits: what a callback
that appends its argument to a list has collected at the end. -/
def NetworkSetup.visited (setup : NetworkSetup) : Except Fatal (List Component) :=
  setup.forEachComponent (fun seen comp => .ok (seen ++ [comp])) []

/-- A sequence of `addEdge` calls, each given by its two arguments. -/
def ExplicitNetworkTopology.addEdges (t : ExplicitNetworkTopology)
    (edges : List (Component × Component)) : ExplicitNetworkTopology :=
  edges.foldl (fun topo edge => topo.addEdge edge.1 edge.2) t

/-- The intention that an intention setter passes to `setTraitFor`; `none` for
a call that is not an intention setter. -/
def ViewCall.intention? : ViewCall → Option ComponentIntention
  | .idle => some ⟨IntentionType.IDLE, 0, none⟩
  | .listen => some ⟨IntentionType.LISTEN, 0, none⟩
  | .send msg tic carrierSensing =>
    some ⟨if carrierSensing then IntentionType.SEND else IntentionType.SEND_FORCE, tic, msg⟩
  | .getPreviousAction => none

/-- Whether a call is one of the intention setters `idle`, `listen`, `send`. -/
def ViewCall.isSetter (call : ViewCall) : Bool := call.intention?.isSome

/-- What a returning intention setter has done to the target intention
assignment: the entry of the view's component is appended and is `intention`,
the entry of every other component is as before, and once the assignment is
total `getTraitFor` returns `intention` for the view's component. -/
def ANLView.Recorded (v : ANLView) (before after : IntentionAssignment)
    (intention : ComponentIntention) : Prop :=
  after.mMapping = before.mMapping ++ [(v.mComponent, intention)] ∧
  after.mMapping.lookup v.mComponent = some intention ∧
  (∀ c, c ≠ v.mComponent → after.mMapping.lookup c = before.mMapping.lookup c) ∧
  (after.isPartial = false → after.getTraitFor v.mSetup v.mComponent = .ok intention)

/-- The protocol in which every component idles in every slot. -/
def idleProtocol : Protocol Unit := fun _ _ memory => ([ViewCall.idle], memory)

/-- The protocol in which every component returns without a call on its view. -/
def silentProtocol : Protocol Unit := fun _ _ memory => ([], memory)

/-- A view of the only component of `singleSetup` that has not acted. -/
def singleView : ANLView := ⟨singleSetup, 0, 1, ⟨ActionType.IDLE, 0, none⟩, false, false⟩

/-- The view that the simulator hands to the callback of `comp` in its current
slot: the one `ANL::runSlot` constructs when `Simulator::runSlot` calls it with
`mSlotNumber` and with the previous state, or `nullptr` in slot 0. -/
def Simulator.viewFor (sim : Simulator) (comp : Component) : Except Fatal ANLView :=
  sim.mANL.makeView sim.mSlotNumber
    (if sim.mSlotNumber = 0 then none else some sim.mPreviousState) comp

/-- A simulator with twenty tics per slot, the trivial topology, an output
module and one component, before its first slot. -/
def singleSimulator : Simulator :=
  { mOutputModule := some [], mSetup := singleSetup, mTopology := some trivialTopology,
    mSlotNumber := 0, mPreviousState := TraitMapping.new, mHasBegun := false }

/-- The network state in which the only component of `singleSetup` idled. -/
def singleIdleState : NetworkState := ⟨[(1, ⟨ActionType.IDLE, 0, none⟩)], false⟩

/-- The calls that the output module of `singleSimulator` has received after
two slots of `idleProtocol`. -/
def singleOutputAfterTwo : List OutputEvent :=
  [OutputEvent.onSimulationBegin 2,
    OutputEvent.onSlotBegin 0, OutputEvent.onIntentChosen singleIdleIntent,
    OutputEvent.onTransitionComputed [singleIdleState],
    OutputEvent.onResultChosen singleIdleState, OutputEvent.onSlotEnd,
    OutputEvent.onSlotBegin 1, OutputEvent.onIntentChosen singleIdleIntent,
    OutputEvent.onTransitionComputed [singleIdleState],
    OutputEvent.onResultChosen singleIdleState, OutputEvent.onSlotEnd]

/-- The simulator `singleSimulator` after two slots of `idleProtocol`. -/
def singleSimulatorAfterTwo : Simulator :=
  { mOutputModule := some singleOutputAfterTwo, mSetup := singleSetup,
    mTopology := some trivialTopology, mSlotNumber := 2, mPreviousState := singleIdleState,
    mHasBegun := true }

/-- One call in a sequence of `registerComponent` calls on a setup and
`setTraitFor` calls on a trait mapping over that setup. -/
inductive MappingCall (T : Type) where
  | registerComponent (comp : Option Component)
  | setTraitFor (comp : Component) (trait : ComponentTrait T)

/-- The call `call`, made on the setup and the trait mapping over it. -/
def MappingCall.run {T : Type} (state : NetworkSetup × TraitMapping T) :
    MappingCall T → Except Fatal (NetworkSetup × TraitMapping T)
  | .registerComponent comp =>
    (state.1.registerComponent comp).bind fun setup => .ok (setup, state.2)
  | .setTraitFor comp trait =>
    (state.2.setTraitFor state.1 comp trait).bind fun mapping => .ok (state.1, mapping)

/-- The calls `calls`, made in order. -/
def MappingCall.runAll {T : Type} (calls : List (MappingCall T))
    (state : NetworkSetup × TraitMapping T) : Except Fatal (NetworkSetup × TraitMapping T) :=
  calls.foldlM MappingCall.run state

/-- Component 1 is registered and gets the action `IDLE`, which makes the
network state total; then component 2 is registered. -/
def lateRegistration : List (MappingCall ActionType) :=
  [.registerComponent (some 1), .setTraitFor 1 ⟨ActionType.IDLE, 0, none⟩,
    .registerComponent (some 2)]

/-- A setup with one tic per slot, one message and eight components. -/
def eightSetup : NetworkSetup := ⟨1, [100], [1, 2, 3, 4, 5, 6, 7, 8]⟩

/-- Component 1 sends message 100 at tic 0 without carrier sensing, the
components 2 to 8 listen. -/
def eightIntent : IntentionAssignment :=
  ⟨[(1, ⟨IntentionType.SEND_FORCE, 0, some 100⟩), (2, ⟨IntentionType.LISTEN, 0, none⟩),
    (3, ⟨IntentionType.LISTEN, 0, none⟩), (4, ⟨IntentionType.LISTEN, 0, none⟩),
    (5, ⟨IntentionType.LISTEN, 0, none⟩), (6, ⟨IntentionType.LISTEN, 0, none⟩),
    (7, ⟨IntentionType.LISTEN, 0, none⟩), (8, ⟨IntentionType.LISTEN, 0, none⟩)], false⟩

/-- The invariant of a setup and a trait mapping over it that every
`registerComponent` and every `setTraitFor` keeps. -/
def MappingCall.Kept {T : Type} (state : NetworkSetup × TraitMapping T) : Prop :=
  state.1.mComponents.Nodup ∧ state.2.keys.Nodup ∧ ∀ c ∈ state.2.keys, c ∈ state.1.mComponents

/-- The states of the protocol of a sensor. -/
def AlarmState.isSensorState : AlarmState → Bool
  | .INITIAL_SEN | .ATTEMPTED_SEN | .WAIT_FOR_ACK_SEN | .DONE_SEN => true
  | _ => false

/-- The states of the protocol of a repeater. -/
def AlarmState.isRepeaterState : AlarmState → Bool
  | .INITIAL_REP | .WAIT_FOR_ALARM_REP | .FORWARD_ALARMS_REP | .ATTEMPTED_REP
  | .WAIT_FOR_ACK_REP => true
  | _ => false

/-- The states of a sensor or a repeater in which `doStateAct` asks the view
for the previous action. -/
def AlarmState.readsPrevious : AlarmState → Bool
  | .ATTEMPTED_SEN | .WAIT_FOR_ACK_SEN | .WAIT_FOR_ALARM_REP | .ATTEMPTED_REP
  | .WAIT_FOR_ACK_REP => true
  | _ => false

/-- A repeater, its state and its members, that is reachable from its
constructor by calls of `doAct`, each on some view, that return. -/
inductive Repeater.Reachable (g : AlarmGlobals) (self : Component) (num : Nat) :
    AlarmState × Repeater → Prop where
  | constructed : Repeater.Reachable g self num (Repeater.new num)
  | acted {comp next : AlarmState × Repeater} (view : ANLView) :
      Repeater.Reachable g self num comp →
      (StateMachineComponent.doAct (Repeater.doStateAct g self) comp view).2 = .ok next →
      Repeater.Reachable g self num next

/-- What holds of every reachable repeater: the array has its ten elements;
no alarm is stored while the repeater waits for one; and exactly one alarm is
stored, in the first element, while the repeater forwards it. -/
def Repeater.Settled (comp : AlarmState × Repeater) : Prop :=
  comp.2.mAlarms.length = 10 ∧
  match comp.1 with
  | .INITIAL_REP | .WAIT_FOR_ALARM_REP => comp.2.mAlarmCount = 0
  | .FORWARD_ALARMS_REP | .ATTEMPTED_REP | .WAIT_FOR_ACK_REP =>
    comp.2.mAlarmCount = 1 ∧ ∃ c, comp.2.mAlarms.get? 0 = some (some c)
  | _ => False

/-- Globals for an example: the repeaters are the components 11, 12, ..., the
central unit is component 10, every message object has the address 500, and
message 500 is an alarm from component 20 to component 15 about component
20. -/
def exampleGlobals : AlarmGlobals :=
  { gRepeaters := fun i => 11 + i, gCentralUnit := 10, getMessage := fun _ => 500,
    dynamicCast := fun m => if m = 500 then some ⟨MessageType.ALARM, 20, 15, 20⟩ else none }

/-- A view, of a setup with 25 tics per slot, whose previous action is the
reception of message 500 at tic 8. -/
def alarmView : ANLView :=
  ⟨⟨25, [500], [15, 20]⟩, 2, 15, ⟨ActionType.RECEIVED, 8, some 500⟩, true, false⟩

/-- The members of repeater 5 after it has stored the alarm of component 20. -/
def exampleRepeater : Repeater :=
  ⟨5, 0, 0, [some 20, none, none, none, none, none, none, none, none, none], 1⟩

/-- The setup of `SilenceMain.cpp`: one tic per slot, the message `msg` (here
100) and the echo server (here component 1). -/
def silenceSetup : NetworkSetup := ⟨1, [100], [1]⟩

/-- The simulator of `SilenceMain.cpp` before `run`: the default output module,
which has received no call, one tic per slot, the trivial topology, the echo
server and the message. -/
def silenceSimulator : Simulator :=
  { mOutputModule := some [], mSetup := silenceSetup, mTopology := some trivialTopology,
    mSlotNumber := 0, mPreviousState := TraitMapping.new, mHasBegun := false }

/-- The intention assignment in which the echo server listens. -/
def silenceIntent : IntentionAssignment := ⟨[(1, ⟨IntentionType.LISTEN, 0, none⟩)], false⟩

/-- The network state in which the echo server received silence. -/
def silenceState : NetworkState := ⟨[(1, ⟨ActionType.SILENCE, 0, none⟩)], false⟩

/-- The calls that the output module receives in slot `i` of the echo server:
the intention chosen is to listen, the only outcome and the result chosen are
silence. -/
def silenceSlot (i : Nat) : List OutputEvent :=
  [OutputEvent.onSlotBegin i, OutputEvent.onIntentChosen silenceIntent,
    OutputEvent.onTransitionComputed [silenceState], OutputEvent.onResultChosen silenceState,
    OutputEvent.onSlotEnd]

/-- The calls that the output module receives in the slots `0 .. n-1` of the
echo server. -/
def silenceSlots : Nat → List OutputEvent
  | 0 => []
  | n + 1 => silenceSlots n ++ silenceSlot n

/-- The simulator of `SilenceMain.cpp` after `n` calls of
`runSingle(intended)`. -/
def silenceSimulatorAfter (intended : Nat) : Nat → Simulator
  | 0 => silenceSimulator
  | n + 1 =>
    { mOutputModule := some (OutputEvent.onSimulationBegin intended :: silenceSlots (n + 1)),
      mSetup := silenceSetup, mTopology := some trivialTopology, mSlotNumber := n + 1,
      mPreviousState := silenceState, mHasBegun := true }

end Core

namespace Core

/-! ## Auxiliary facts about association lists and trait mappings -/

theorem bind_ok {α β : Type} (a : α) (f : α → Except Fatal β) :
    (Except.ok a : Except Fatal α).bind f = f a := rfl

theorem bind_error {α β : Type} (e : Fatal) (f : α → Except Fatal β) :
    (Except.error e : Except Fatal α).bind f = .error e := rfl

theorem isComponent_iff (setup : NetworkSetup) (c : Component) :
    setup.isComponent c = true ↔ c ∈ setup.mComponents := by
  simp [NetworkSetup.isComponent]

theorem lookup_isSome_iff {β : Type} (l : List (Component × β)) (c : Component) :
    (l.lookup c).isSome = true ↔ c ∈ l.map Prod.fst := by
  induction l with
  | nil => simp
  | cons x xs ih =>
    obtain ⟨k, v⟩ := x
    by_cases h : c = k
    · subst h; simp [List.lookup_cons]
    · have h1 : (c == k) = false := by simpa using h
      rw [List.lookup_cons, h1]
      simp only [List.map_cons, List.mem_cons, h, false_or]
      exact ih

theorem lookup_eq_none_iff {β : Type} (l : List (Component × β)) (c : Component) :
    l.lookup c = none ↔ c ∉ l.map Prod.fst := by
  rw [← lookup_isSome_iff]
  cases l.lookup c <;> simp

theorem lookup_mem {β : Type} (l : List (Component × β)) (c : Component) (v : β)
    (h : l.lookup c = some v) : (c, v) ∈ l := by
  induction l with
  | nil => simp at h
  | cons x xs ih =>
    obtain ⟨k, w⟩ := x
    by_cases hk : c = k
    · subst hk
      simp [List.lookup_cons] at h
      simp [h]
    · have h1 : (c == k) = false := by simpa using hk
      rw [List.lookup_cons, h1] at h
      exact List.mem_cons_of_mem _ (ih h)

theorem lookup_graph {β : Type} (f : Component → β) (l : List Component) (c : Component) :
    (l.map fun x => (x, f x)).lookup c = if c ∈ l then some (f c) else none := by
  induction l with
  | nil => simp
  | cons x xs ih =>
    by_cases h : c = x
    · subst h; simp [List.lookup_cons]
    · have h1 : (c == x) = false := by simpa using h
      rw [List.map_cons, List.lookup_cons, h1]
      simp only [List.mem_cons, h, false_or]
      exact ih

theorem foldlM_cons_ok {α β : Type} (f : β → α → Except Fatal β) {b b' : β} {a : α}
    (l : List α) (h : f b a = .ok b') : List.foldlM f b (a :: l) = List.foldlM f b' l := by
  rw [List.foldlM_cons, h]; rfl

theorem map_fst_graph {β : Type} (f : Component → β) (l : List Component) :
    (l.map fun x => (x, f x)).map Prod.fst = l := by
  induction l with
  | nil => rfl
  | cons x xs ih => simp [ih]

theorem length_lt_of_nodup_snoc {l comps : List Component} {c : Component}
    (hnd : (l ++ [c]).Nodup) (hsub : ∀ x ∈ l ++ [c], x ∈ comps) : l.length < comps.length := by
  have h := (List.Nodup.subperm hnd hsub).length_le
  simp at h
  omega

theorem TraitMapping.eq_ofList {T : Type} {setup : NetworkSetup} {tm : TraitMapping T}
    (h : tm.Inv setup) : tm = TraitMapping.ofList setup tm.mMapping := by
  obtain ⟨l, p⟩ := tm
  obtain ⟨-, -, h3⟩ := h
  simp only [TraitMapping.ofList, TraitMapping.mk.injEq, true_and]
  cases p with
  | false =>
    obtain ⟨h4, h5⟩ := h3.1 rfl
    cases l with
    | nil => exact absurd rfl h4
    | cons x xs => simp at h5 ⊢; exact h5
  | true =>
    cases l with
    | nil => simp
    | cons x xs =>
      simp only [List.isEmpty_cons, Bool.false_or]
      by_contra hc
      have : (x :: xs).length = setup.mComponents.length := by simpa using hc
      have := h3.2 ⟨by simp, this⟩
      simp at this

theorem TraitMapping.new_eq_ofList {T : Type} (setup : NetworkSetup) :
    (TraitMapping.new : TraitMapping T) = TraitMapping.ofList setup [] := by
  simp [TraitMapping.new, TraitMapping.ofList]

theorem TraitMapping.setTraitFor_ofList {T : Type} (setup : NetworkSetup)
    (l : List (Component × ComponentTrait T)) (c : Component) (tr : ComponentTrait T)
    (hc : c ∈ setup.mComponents) (hk : c ∉ l.map Prod.fst)
    (hlen : l.length < setup.mComponents.length) :
    TraitMapping.setTraitFor setup (TraitMapping.ofList setup l) c tr
      = .ok (TraitMapping.ofList setup (l ++ [(c, tr)])) := by
  have h1 : setup.isComponent c = true := (isComponent_iff setup c).2 hc
  have h2 : l.lookup c = none := (lookup_eq_none_iff l c).2 hk
  simp only [TraitMapping.setTraitFor, TraitMapping.ofList, h1, h2,
    NetworkSetup.getComponentCount]
  by_cases h : l.length + 1 = setup.mComponents.length
  · simp [h]
  · have : l.length ≠ setup.mComponents.length := by omega
    simp [h, this]

theorem TraitMapping.getTraitFor_ofList {T : Type} (setup : NetworkSetup)
    (l : List (Component × ComponentTrait T)) (c : Component)
    (hlen : l.length = setup.mComponents.length) (hne : l ≠ []) :
    TraitMapping.getTraitFor setup (TraitMapping.ofList setup l) c =
      if c ∈ setup.mComponents then
        match l.lookup c with
        | some trait => .ok trait
        | none => .error .outOfRange
      else .error .notAComponent := by
  have h0 : l.isEmpty = false := by cases l <;> simp at hne ⊢
  by_cases hc : c ∈ setup.mComponents
  · have h1 : setup.isComponent c = true := (isComponent_iff setup c).2 hc
    simp [TraitMapping.getTraitFor, TraitMapping.ofList, h0, hlen, h1, hc]
  · have h1 : setup.isComponent c = false := by
      rw [← Bool.not_eq_true, isComponent_iff]; exact hc
    simp [TraitMapping.getTraitFor, TraitMapping.ofList, h0, hlen, h1, hc]

/-! ## Closed form of the sender-set solver -/

theorem Total.keys_perm {setup : NetworkSetup} {intent : IntentionAssignment}
    (hi : IntentionAssignment.Total setup intent) :
    intent.keys.Perm setup.mComponents := by
  obtain ⟨⟨h1, h2, h3⟩, h4, -⟩ := hi
  have h5 := (h3.1 h4).2
  refine (List.Nodup.subperm h1 h2).perm_of_length_le ?_
  simp [TraitMapping.keys, h5]

theorem Total.lookup {setup : NetworkSetup} {intent : IntentionAssignment}
    (hi : IntentionAssignment.Total setup intent) {c : Component}
    (hc : c ∈ setup.mComponents) :
    ∃ tr, intent.mMapping.lookup c = some tr ∧ tr.mTic < setup.mTicsPerSlot := by
  have hk : c ∈ intent.mMapping.map Prod.fst := (Total.keys_perm hi).mem_iff.2 hc
  have := (lookup_isSome_iff intent.mMapping c).2 hk
  obtain ⟨tr, htr⟩ := Option.isSome_iff_exists.1 this
  exact ⟨tr, htr, hi.2.2 _ (lookup_mem _ _ _ htr)⟩

theorem Total.getTraitFor {setup : NetworkSetup} {intent : IntentionAssignment}
    (hi : IntentionAssignment.Total setup intent) (c : Component) :
    TraitMapping.getTraitFor setup intent c =
      if c ∈ setup.mComponents then
        match intent.mMapping.lookup c with
        | some trait => .ok trait
        | none => .error .outOfRange
      else .error .notAComponent := by
  have h1 : intent.mPartial = false := hi.2.1
  by_cases hc : c ∈ setup.mComponents
  · have h2 : setup.isComponent c = true := (isComponent_iff setup c).2 hc
    simp only [TraitMapping.getTraitFor, h1, h2, hc, if_true, Bool.false_eq_true, if_false,
      Bool.not_true]
    cases List.lookup c intent.mMapping <;> rfl
  · have h2 : setup.isComponent c = false := by
      rw [← Bool.not_eq_true, isComponent_iff]; exact hc
    simp [TraitMapping.getTraitFor, h1, h2, hc]

theorem Total.components_ne_nil {setup : NetworkSetup} {intent : IntentionAssignment}
    (hi : IntentionAssignment.Total setup intent) : setup.mComponents ≠ [] := by
  obtain ⟨⟨-, -, h3⟩, h4, -⟩ := hi
  obtain ⟨h5, h6⟩ := h3.1 h4
  intro h
  rw [h] at h6
  exact h5 (List.length_eq_zero.1 h6)

theorem updateTicSetForComponent_eq_local {setup : NetworkSetup} {topo : NetworkTopology}
    {intent : IntentionAssignment}
    (hi : IntentionAssignment.Total setup intent)
    (t : Nat) (S N : List Component) (l : List (Component × ComponentAction)) (c : Component)
    (ht : t < setup.mTicsPerSlot) (hc : c ∈ setup.mComponents)
    (hmc : ∀ tr, intent.mMapping.lookup c = some tr →
      (tr.mType = IntentionType.SEND ∨ tr.mType = IntentionType.SEND_FORCE) →
        tr.mMessage ≠ none)
    (hnew : startsAt topo intent S t c = true →
      c ∉ l.map Prod.fst ∧ l.length < setup.mComponents.length ∧ c ∉ N) :
    SenderSetComputer.updateTicSetForComponent
        ⟨setup, topo, intent, t, S, N, TraitMapping.ofList setup l⟩ c =
      .ok (if startsAt topo intent S t c then
          ⟨setup, topo, intent, t, S, N ++ [c],
            TraitMapping.ofList setup (l ++ [(c, sentAction intent c)])⟩
        else ⟨setup, topo, intent, t, S, N, TraitMapping.ofList setup l⟩) := by
  obtain ⟨tr, htr, -⟩ := Total.lookup hi hc
  have hmsg := hmc tr htr
  have hget : TraitMapping.getTraitFor setup intent c = .ok tr := by
    rw [Total.getTraitFor hi, if_pos hc, htr]
  have hadd : startsAt topo intent S t c = true →
      SenderSetComputer.addSender ⟨setup, topo, intent, t, S, N, TraitMapping.ofList setup l⟩ c tr
        = .ok ⟨setup, topo, intent, t, S, N ++ [c],
            TraitMapping.ofList setup (l ++ [(c, sentAction intent c)])⟩ := by
    intro h
    obtain ⟨h1, h2, h3⟩ := hnew h
    have h4 : tr.mTic = t := by
      simp only [startsAt, htr, Bool.and_eq_true, decide_eq_true_eq] at h
      exact h.1
    simp only [SenderSetComputer.addSender, ComponentTrait.new, NetworkSetup.getTicsPerSlot,
      gt_iff_lt, ht, if_true, bind_ok, TraitMapping.setTraitFor_ofList setup l c _ hc h1 h2,
      setInsert, h3, if_false, sentAction, htr, ComponentTrait.getMessage, h4]
  unfold SenderSetComputer.updateTicSetForComponent
  simp only [hget, bind_ok, ComponentTrait.getType, ComponentTrait.getMessage,
    ComponentTrait.getTic, NetworkTopology.canReach]
  by_cases hst : startsAt topo intent S t c = true
  · rw [if_pos hst]
    have hst2 := hst
    simp only [startsAt, htr, Bool.and_eq_true, decide_eq_true_eq, Bool.or_eq_true,
      Bool.not_eq_true', ] at hst2
    obtain ⟨h1, h2⟩ := hst2
    rcases h2 with h2 | ⟨h2, h3⟩
    · have := hmsg (Or.inr h2)
      simp [h2, this, h1, hadd hst]
    · have := hmsg (Or.inl h2)
      simp [h2, this, h1, hadd hst, h3]
  · rw [if_neg hst]
    simp only [startsAt, htr, Bool.and_eq_true, decide_eq_true_eq, Bool.or_eq_true,
      Bool.not_eq_true', not_and, not_or] at hst
    by_cases h1 : tr.mType = IntentionType.SEND ∨ tr.mType = IntentionType.SEND_FORCE
    · have := hmsg h1
      by_cases h2 : tr.mTic = t
      · obtain ⟨h3, h4⟩ := hst h2
        have h5 : tr.mType = IntentionType.SEND := by tauto
        have h6 := h4 h5
        simp [h5, this, h2, h6]
      · have h2' : ¬ t = tr.mTic := fun h => h2 h.symm
        rcases h1 with h1 | h1 <;> simp [h1, this, h2']
    · have h3 : tr.mType ≠ IntentionType.SEND ∧ tr.mType ≠ IntentionType.SEND_FORCE := by
        tauto
      simp [h3]

theorem updateTicSetForComponent_eq {setup : NetworkSetup} {topo : NetworkTopology}
    {intent : IntentionAssignment}
    (hi : IntentionAssignment.Total setup intent) (hm : intent.SendsCarryMessage)
    (t : Nat) (S N : List Component) (l : List (Component × ComponentAction)) (c : Component)
    (ht : t < setup.mTicsPerSlot) (hc : c ∈ setup.mComponents)
    (hnew : startsAt topo intent S t c = true →
      c ∉ l.map Prod.fst ∧ l.length < setup.mComponents.length ∧ c ∉ N) :
    SenderSetComputer.updateTicSetForComponent
        ⟨setup, topo, intent, t, S, N, TraitMapping.ofList setup l⟩ c =
      .ok (if startsAt topo intent S t c then
          ⟨setup, topo, intent, t, S, N ++ [c],
            TraitMapping.ofList setup (l ++ [(c, sentAction intent c)])⟩
        else ⟨setup, topo, intent, t, S, N, TraitMapping.ofList setup l⟩) :=
  updateTicSetForComponent_eq_local hi t S N l c ht hc
    (fun _ htr => hm _ (lookup_mem _ _ _ htr)) hnew

theorem Total.wellFormed {setup : NetworkSetup} {intent : IntentionAssignment}
    (hi : IntentionAssignment.Total setup intent) : setup.WellFormed := by
  refine ⟨?_, (Total.keys_perm hi).nodup_iff.1 hi.1.1⟩
  obtain ⟨c, hc⟩ := List.exists_mem_of_ne_nil _ (Total.components_ne_nil hi)
  obtain ⟨tr, -, h⟩ := Total.lookup hi hc
  omega

theorem computeTicSet_fold_local {setup : NetworkSetup} (topo : NetworkTopology)
    {intent : IntentionAssignment}
    (hi : IntentionAssignment.Total setup intent)
    (t : Nat) (S : List Component) (ht : t < setup.mTicsPerSlot) (rest : List Component) :
    ∀ (N : List Component) (l : List (Component × ComponentAction)),
      (∀ c ∈ rest, ∀ tr, intent.mMapping.lookup c = some tr →
        (tr.mType = IntentionType.SEND ∨ tr.mType = IntentionType.SEND_FORCE) →
          tr.mMessage ≠ none) →
      (∀ c ∈ rest, c ∈ setup.mComponents) →
      (∀ c ∈ l.map Prod.fst, c ∈ setup.mComponents) →
      (l.map Prod.fst ++ rest.filter (startsAt topo intent S t)).Nodup →
      (N ++ rest.filter (startsAt topo intent S t)).Nodup →
      rest.foldlM SenderSetComputer.updateTicSetForComponent
          ⟨setup, topo, intent, t, S, N, TraitMapping.ofList setup l⟩ =
        .ok ⟨setup, topo, intent, t, S, N ++ rest.filter (startsAt topo intent S t),
          TraitMapping.ofList setup
            (l ++ (rest.filter (startsAt topo intent S t)).map fun c => (c, sentAction intent c))⟩ := by
  induction rest with
  | nil => intro N l _ _ _ _ _; simp [pure, Except.pure]
  | cons c rest ih =>
    intro N l hmr hrest hl hnd hN
    have hmr2 : ∀ x ∈ rest, ∀ tr, intent.mMapping.lookup x = some tr →
        (tr.mType = IntentionType.SEND ∨ tr.mType = IntentionType.SEND_FORCE) →
          tr.mMessage ≠ none :=
      fun x hx => hmr x (List.mem_cons_of_mem _ hx)
    have hc : c ∈ setup.mComponents := hrest c (List.mem_cons_self _ _)
    have hrest2 : ∀ x ∈ rest, x ∈ setup.mComponents :=
      fun x hx => hrest x (List.mem_cons_of_mem _ hx)
    by_cases hst : startsAt topo intent S t c = true
    · have hf : (c :: rest).filter (startsAt topo intent S t)
          = c :: rest.filter (startsAt topo intent S t) := by simp [List.filter_cons, hst]
      rw [hf] at hnd hN ⊢
      have hnd2 : ((l.map Prod.fst ++ [c]) ++ rest.filter (startsAt topo intent S t)).Nodup := by
        simpa using hnd
      have hN2 : ((N ++ [c]) ++ rest.filter (startsAt topo intent S t)).Nodup := by
        simpa using hN
      have hk : c ∉ l.map Prod.fst := by
        have := (List.nodup_append.1 hnd2).1
        simpa using (List.nodup_append.1 this).2.2
      have hcN : c ∉ N := by
        have := (List.nodup_append.1 hN2).1
        simpa using (List.nodup_append.1 this).2.2
      have hlen : l.length < setup.mComponents.length := by
        have h1 := (List.nodup_append.1 hnd2).1
        have := length_lt_of_nodup_snoc h1 (by
          intro x hx
          rcases List.mem_append.1 hx with hx | hx
          · exact hl x hx
          · simp at hx; subst hx; exact hc)
        simpa using this
      rw [List.foldlM_cons, updateTicSetForComponent_eq_local hi t S N l c ht hc
        (hmr c (List.mem_cons_self _ _))
        (fun _ => ⟨hk, hlen, hcN⟩), if_pos hst]
      have := ih (N ++ [c]) (l ++ [(c, sentAction intent c)]) hmr2 hrest2 (by
          intro x hx
          simp only [List.map_append, List.map_cons, List.map_nil, List.mem_append,
            List.mem_singleton] at hx
          rcases hx with hx | hx
          · exact hl x hx
          · subst hx; exact hc) (by simpa using hnd2) hN2
      simp only [bind, Except.bind] at this ⊢
      rw [this]
      simp
    · have hf : (c :: rest).filter (startsAt topo intent S t)
          = rest.filter (startsAt topo intent S t) := by simp [List.filter_cons, hst]
      rw [hf] at hnd hN ⊢
      rw [List.foldlM_cons, updateTicSetForComponent_eq_local hi t S N l c ht hc
        (hmr c (List.mem_cons_self _ _))
        (fun h => absurd h hst), if_neg hst]
      have := ih N l hmr2 hrest2 hl hnd hN
      simp only [bind, Except.bind] at this ⊢
      rw [this]

theorem computeTicSet_fold {setup : NetworkSetup} (topo : NetworkTopology)
    {intent : IntentionAssignment}
    (hi : IntentionAssignment.Total setup intent) (hm : intent.SendsCarryMessage)
    (t : Nat) (S : List Component) (ht : t < setup.mTicsPerSlot) (rest : List Component) :
    ∀ (N : List Component) (l : List (Component × ComponentAction)),
      (∀ c ∈ rest, c ∈ setup.mComponents) →
      (∀ c ∈ l.map Prod.fst, c ∈ setup.mComponents) →
      (l.map Prod.fst ++ rest.filter (startsAt topo intent S t)).Nodup →
      (N ++ rest.filter (startsAt topo intent S t)).Nodup →
      rest.foldlM SenderSetComputer.updateTicSetForComponent
          ⟨setup, topo, intent, t, S, N, TraitMapping.ofList setup l⟩ =
        .ok ⟨setup, topo, intent, t, S, N ++ rest.filter (startsAt topo intent S t),
          TraitMapping.ofList setup
            (l ++ (rest.filter (startsAt topo intent S t)).map fun c => (c, sentAction intent c))⟩ := by
  intro N l h1 h2 h3 h4
  exact computeTicSet_fold_local topo hi t S ht rest N l
    (fun c _ tr htr => hm _ (lookup_mem _ _ _ htr)) h1 h2 h3 h4

theorem foldl_setInsert (N : List Component) :
    ∀ S : List Component, (S ++ N).Nodup → N.foldl setInsert S = S ++ N := by
  induction N with
  | nil => intro S _; simp
  | cons c N ih =>
    intro S h
    have h2 : ((S ++ [c]) ++ N).Nodup := by simpa using h
    have hc : c ∉ S := by
      have := (List.nodup_append.1 h2).1
      simpa using (List.nodup_append.1 this).2.2
    rw [List.foldl_cons, setInsert, if_neg hc, ih _ h2]
    simp

theorem startsAt_iff (topo : NetworkTopology) (intent : IntentionAssignment)
    (S : List Component) (t : Nat) (c : Component) :
    startsAt topo intent S t c = true ↔
      ∃ tr, intent.mMapping.lookup c = some tr ∧ tr.mTic = t ∧
        (tr.mType = IntentionType.SEND_FORCE ∨
          (tr.mType = IntentionType.SEND ∧ ∀ a ∈ S, topo a c = false)) := by
  unfold startsAt
  cases h : intent.mMapping.lookup c with
  | none => simp
  | some tr => simp

theorem mem_sendersBefore (setup : NetworkSetup) (topo : NetworkTopology)
    (intent : IntentionAssignment) (t : Nat) (c : Component) :
    c ∈ sendersBefore setup topo intent t ↔
      c ∈ setup.mComponents ∧ ∃ tr, intent.mMapping.lookup c = some tr ∧ tr.mTic < t ∧
        (tr.mType = IntentionType.SEND_FORCE ∨
          (tr.mType = IntentionType.SEND ∧
            ∀ a ∈ sendersBefore setup topo intent tr.mTic, topo a c = false)) := by
  induction t with
  | zero => simp [sendersBefore]
  | succ t ih =>
    rw [sendersBefore, List.mem_append, List.mem_filter, startsAt_iff, ih]
    constructor
    · rintro (⟨hc, tr, h1, h2, h3⟩ | ⟨hc, tr, h1, h2, h3⟩)
      · exact ⟨hc, tr, h1, by omega, h3⟩
      · exact ⟨hc, tr, h1, by omega, by rw [h2]; exact h3⟩
    · rintro ⟨hc, tr, h1, h2, h3⟩
      by_cases h : tr.mTic < t
      · exact Or.inl ⟨hc, tr, h1, h, h3⟩
      · have h4 : tr.mTic = t := by omega
        exact Or.inr ⟨hc, tr, h1, h4, by rw [← h4]; exact h3⟩

theorem sendersBefore_nodup {setup : NetworkSetup} (topo : NetworkTopology)
    (intent : IntentionAssignment) (hs : setup.mComponents.Nodup) (t : Nat) :
    (sendersBefore setup topo intent t ++
      setup.mComponents.filter (startsAt topo intent (sendersBefore setup topo intent t) t)).Nodup := by
  induction t with
  | zero => simpa [sendersBefore] using hs.filter _
  | succ t ih =>
    rw [List.nodup_append]
    refine ⟨by rw [sendersBefore]; exact ih, hs.filter _, ?_⟩
    intro a ha hb
    obtain ⟨-, tr, h1, h2, -⟩ := (mem_sendersBefore setup topo intent (t + 1) a).1 ha
    obtain ⟨tr2, h3, h4, -⟩ := (startsAt_iff _ _ _ _ _).1 (List.mem_filter.1 hb).2
    rw [h1] at h3
    cases h3
    omega

theorem iteration_eq {setup : NetworkSetup} {topo : NetworkTopology}
    {intent : IntentionAssignment}
    (hi : IntentionAssignment.Total setup intent) (hm : intent.SendsCarryMessage)
    (t : Nat) (ht : t < setup.mTicsPerSlot) (t0 : Nat) (N0 : List Component) :
    SenderSetComputer.iteration
        ⟨setup, topo, intent, t0, sendersBefore setup topo intent t, N0,
          TraitMapping.ofList setup
            ((sendersBefore setup topo intent t).map fun c => (c, sentAction intent c))⟩ t =
      .ok ⟨setup, topo, intent, t, sendersBefore setup topo intent (t + 1),
          setup.mComponents.filter (startsAt topo intent (sendersBefore setup topo intent t) t),
          TraitMapping.ofList setup
            ((sendersBefore setup topo intent (t + 1)).map fun c => (c, sentAction intent c))⟩ := by
  have hs := (Total.wellFormed hi).2
  have hnd := sendersBefore_nodup topo intent hs t
  have hfold := computeTicSet_fold topo hi hm t (sendersBefore setup topo intent t) ht
    setup.mComponents []
    ((sendersBefore setup topo intent t).map fun c => (c, sentAction intent c))
    (fun c hc => hc)
    (by
      intro c hc
      rw [map_fst_graph] at hc
      exact ((mem_sendersBefore setup topo intent t c).1 hc).1)
    (by rw [map_fst_graph]; exact hnd)
    (by simpa using hs.filter _)
  simp only [SenderSetComputer.iteration, SenderSetComputer.initializeIteration,
    List.length_nil, ne_eq, not_true_eq_false, if_false, SenderSetComputer.computeTicSet,
    NetworkSetup.getTicsPerSlot, ht, hfold, bind_ok, List.nil_append, if_true,
    SenderSetComputer.completeIteration, foldl_setInsert _ _ hnd]
  simp [sendersBefore]

theorem getSenderSet_loop {setup : NetworkSetup} (topo : NetworkTopology)
    {intent : IntentionAssignment}
    (hi : IntentionAssignment.Total setup intent) (hm : intent.SendsCarryMessage)
    (t : Nat) (ht : t ≤ setup.mTicsPerSlot) :
    ∃ t0 N0, (List.range t).foldlM SenderSetComputer.iteration
        ⟨setup, topo, intent, 0, [], [], TraitMapping.new⟩ =
      .ok ⟨setup, topo, intent, t0, sendersBefore setup topo intent t, N0,
          TraitMapping.ofList setup
            ((sendersBefore setup topo intent t).map fun c => (c, sentAction intent c))⟩ := by
  induction t with
  | zero =>
    exact ⟨0, [], by simp [sendersBefore, TraitMapping.new_eq_ofList setup, pure, Except.pure]⟩
  | succ t ih =>
    obtain ⟨t0, N0, h⟩ := ih (by omega)
    refine ⟨t, setup.mComponents.filter
      (startsAt topo intent (sendersBefore setup topo intent t) t), ?_⟩
    rw [List.range_succ, List.foldlM_append, h]
    simp only [bind, Except.bind, List.foldlM_cons, List.foldlM_nil]
    rw [iteration_eq hi hm t (by omega)]
    rfl

theorem finishAlgorithm_fold {setup : NetworkSetup} (topo : NetworkTopology)
    (intent : IntentionAssignment) (hT : 0 < setup.mTicsPerSlot)
    (t0 : Nat) (S N0 : List Component) (rest : List Component) :
    ∀ (l : List (Component × ComponentAction)),
      (∀ c ∈ rest, c ∈ setup.mComponents) →
      (∀ c ∈ l.map Prod.fst, c ∈ setup.mComponents) →
      (l.map Prod.fst ++ rest.filter (fun c => decide (c ∉ S))).Nodup →
      rest.foldlM SenderSetComputer.finishStep
          ⟨setup, topo, intent, t0, S, N0, TraitMapping.ofList setup l⟩ =
        .ok ⟨setup, topo, intent, t0, S, N0,
          TraitMapping.ofList setup
            (l ++ (rest.filter (fun c => decide (c ∉ S))).map fun c => (c, idleAction))⟩ := by
  induction rest with
  | nil => intro l _ _ _; simp [pure, Except.pure]
  | cons c rest ih =>
    intro l hrest hl hnd
    have hc : c ∈ setup.mComponents := hrest c (List.mem_cons_self _ _)
    have hrest2 : ∀ x ∈ rest, x ∈ setup.mComponents :=
      fun x hx => hrest x (List.mem_cons_of_mem _ hx)
    by_cases hS : c ∈ S
    · have hf : (c :: rest).filter (fun c => decide (c ∉ S))
          = rest.filter (fun c => decide (c ∉ S)) := by simp [List.filter_cons, hS]
      rw [hf] at hnd ⊢
      have hstep : SenderSetComputer.finishStep
          ⟨setup, topo, intent, t0, S, N0, TraitMapping.ofList setup l⟩ c
          = .ok ⟨setup, topo, intent, t0, S, N0, TraitMapping.ofList setup l⟩ := by
        simp only [SenderSetComputer.finishStep, hS, if_true]
      rw [foldlM_cons_ok _ _ hstep]
      exact ih l hrest2 hl hnd
    · have hf : (c :: rest).filter (fun c => decide (c ∉ S))
          = c :: rest.filter (fun c => decide (c ∉ S)) := by simp [List.filter_cons, hS]
      rw [hf] at hnd ⊢
      have hnd2 : ((l.map Prod.fst ++ [c]) ++ rest.filter (fun c => decide (c ∉ S))).Nodup := by
        simpa using hnd
      have hk : c ∉ l.map Prod.fst := by
        have := (List.nodup_append.1 hnd2).1
        simpa using (List.nodup_append.1 this).2.2
      have hlen : l.length < setup.mComponents.length := by
        have h1 := (List.nodup_append.1 hnd2).1
        have := length_lt_of_nodup_snoc h1 (by
          intro x hx
          rcases List.mem_append.1 hx with hx | hx
          · exact hl x hx
          · simp at hx; subst hx; exact hc)
        simpa using this
      have := ih (l ++ [(c, idleAction)]) hrest2 (by
          intro x hx
          simp only [List.map_append, List.map_cons, List.map_nil, List.mem_append,
            List.mem_singleton] at hx
          rcases hx with hx | hx
          · exact hl x hx
          · subst hx; exact hc) (by simpa using hnd2)
      have hstep : SenderSetComputer.finishStep
          ⟨setup, topo, intent, t0, S, N0, TraitMapping.ofList setup l⟩ c
          = .ok ⟨setup, topo, intent, t0, S, N0,
              TraitMapping.ofList setup (l ++ [(c, idleAction)])⟩ := by
        simp only [SenderSetComputer.finishStep, hS, if_false, ComponentTrait.new,
          NetworkSetup.getTicsPerSlot, gt_iff_lt, hT, if_true, bind_ok,
          TraitMapping.setTraitFor_ofList setup l c _ hc hk hlen, idleAction]
      rw [foldlM_cons_ok _ _ hstep, this]
      simp

theorem getSenderSet_eq {setup : NetworkSetup} (topo : NetworkTopology)
    {intent : IntentionAssignment}
    (hi : IntentionAssignment.Total setup intent) (hm : intent.SendsCarryMessage) :
    (SenderSetComputer.new setup topo intent).bind SenderSetComputer.getSenderSet
      = .ok (senderSet setup topo intent) := by
  have hp : intent.isPartial = false := hi.2.1
  have hw := Total.wellFormed hi
  obtain ⟨t0, N0, hloop⟩ := getSenderSet_loop topo hi hm setup.mTicsPerSlot le_rfl
  have hnd : (sendersBefore setup topo intent setup.mTicsPerSlot ++
      setup.mComponents.filter
        (fun c => decide (c ∉ sendersBefore setup topo intent setup.mTicsPerSlot))).Nodup := by
    rw [List.nodup_append]
    refine ⟨?_, hw.2.filter _, ?_⟩
    · cases h : setup.mTicsPerSlot with
      | zero => simp [sendersBefore]
      | succ n =>
        have := (List.nodup_append.1 (sendersBefore_nodup topo intent hw.2 n)).1
        rw [sendersBefore] ; exact sendersBefore_nodup topo intent hw.2 n
    · intro a ha hb
      simpa [ha] using (List.mem_filter.1 hb).2
  have hfin := finishAlgorithm_fold topo intent hw.1 t0
    (sendersBefore setup topo intent setup.mTicsPerSlot) N0 setup.mComponents
    ((sendersBefore setup topo intent setup.mTicsPerSlot).map fun c => (c, sentAction intent c))
    (fun c hc => hc)
    (by
      intro c hc
      rw [map_fst_graph] at hc
      exact ((mem_sendersBefore setup topo intent _ c).1 hc).1)
    (by rw [map_fst_graph]; exact hnd)
  simp only [SenderSetComputer.new, hp, Bool.false_eq_true, if_false, bind_ok,
    SenderSetComputer.getSenderSet, NetworkSetup.getTicsPerSlot, hloop,
    SenderSetComputer.finishAlgorithm, hfin]
  rfl

theorem sendersBefore_final_nodup {setup : NetworkSetup} (topo : NetworkTopology)
    (intent : IntentionAssignment) (hs : setup.mComponents.Nodup) (t : Nat) :
    (sendersBefore setup topo intent t).Nodup := by
  cases t with
  | zero => simp [sendersBefore]
  | succ n => rw [sendersBefore]; exact sendersBefore_nodup topo intent hs n

theorem senderSetEntries_keys_perm {setup : NetworkSetup} (topo : NetworkTopology)
    (intent : IntentionAssignment) (hs : setup.mComponents.Nodup) :
    ((senderSetEntries setup topo intent).map Prod.fst).Perm setup.mComponents := by
  have hnd := sendersBefore_final_nodup topo intent hs setup.mTicsPerSlot
  rw [senderSetEntries, List.map_append, map_fst_graph, map_fst_graph]
  have h1 : (fun c => decide (c ∉ sendersBefore setup topo intent setup.mTicsPerSlot))
      = fun x => !decide (x ∈ sendersBefore setup topo intent setup.mTicsPerSlot) := by
    funext x; simp
  rw [h1]
  have h2 : (sendersBefore setup topo intent setup.mTicsPerSlot).Perm
      (setup.mComponents.filter
        fun c => decide (c ∈ sendersBefore setup topo intent setup.mTicsPerSlot)) := by
    rw [List.perm_ext_iff_of_nodup hnd (hs.filter _)]
    intro a
    simp only [List.mem_filter, decide_eq_true_eq]
    exact ⟨fun h => ⟨((mem_sendersBefore setup topo intent _ a).1 h).1, h⟩, fun h => h.2⟩
  exact (List.Perm.append_right _ h2).trans (List.filter_append_perm _ _)

theorem senderSet_getTraitFor {setup : NetworkSetup} (topo : NetworkTopology)
    {intent : IntentionAssignment} (hi : IntentionAssignment.Total setup intent)
    (c : Component) :
    TraitMapping.getTraitFor setup (senderSet setup topo intent) c =
      if c ∈ setup.mComponents then .ok (senderSetQuery setup topo intent c)
      else .error .notAComponent := by
  have hw := Total.wellFormed hi
  have hperm := senderSetEntries_keys_perm topo intent hw.2
  have hlen : (senderSetEntries setup topo intent).length = setup.mComponents.length := by
    simpa using hperm.length_eq
  have hne : senderSetEntries setup topo intent ≠ [] := by
    intro h
    rw [h] at hlen
    exact Total.components_ne_nil hi (List.length_eq_zero.1 hlen.symm)
  rw [senderSet, TraitMapping.getTraitFor_ofList setup _ c hlen hne]
  by_cases hc : c ∈ setup.mComponents
  · simp only [hc, if_true]
    rw [senderSetEntries, List.lookup_append, lookup_graph, lookup_graph, senderSetQuery]
    by_cases hS : c ∈ sendersBefore setup topo intent setup.mTicsPerSlot
    · simp [hS]
    · simp [hS, hc]
  · simp [hc]

theorem mem_sendersBefore_of_le (setup : NetworkSetup) (topo : NetworkTopology)
    (intent : IntentionAssignment) (t : Nat) (ht : t ≤ setup.mTicsPerSlot) (a : Component) :
    a ∈ sendersBefore setup topo intent t ↔
      a ∈ sendersBefore setup topo intent setup.mTicsPerSlot ∧
        ∃ tr, intent.mMapping.lookup a = some tr ∧ tr.mTic < t := by
  rw [mem_sendersBefore, mem_sendersBefore]
  constructor
  · rintro ⟨hc, tr, h1, h2, h3⟩
    exact ⟨⟨hc, tr, h1, by omega, h3⟩, tr, h1, h2⟩
  · rintro ⟨⟨hc, tr, h1, h2, h3⟩, tr2, h4, h5⟩
    rw [h1] at h4
    cases h4
    exact ⟨hc, tr, h1, h5, h3⟩

theorem senderSet_sent_iff {setup : NetworkSetup} (topo : NetworkTopology)
    {intent : IntentionAssignment} (hi : IntentionAssignment.Total setup intent)
    (c : Component) (t : Nat) (m : Option Message) :
    TraitMapping.getTraitFor setup (senderSet setup topo intent) c = .ok ⟨ActionType.SENT, t, m⟩ ↔
      c ∈ sendersBefore setup topo intent setup.mTicsPerSlot ∧
        ∃ tr, intent.mMapping.lookup c = some tr ∧ tr.mTic = t ∧ tr.mMessage = m := by
  rw [senderSet_getTraitFor topo hi]
  by_cases hc : c ∈ setup.mComponents
  · simp only [hc, if_true, Except.ok.injEq, senderSetQuery]
    by_cases hS : c ∈ sendersBefore setup topo intent setup.mTicsPerSlot
    · obtain ⟨-, tr, h1, -⟩ := (mem_sendersBefore setup topo intent _ c).1 hS
      simp [hS, sentAction, h1]
    · simp [hS, idleAction]
  · have : c ∉ sendersBefore setup topo intent setup.mTicsPerSlot :=
      fun h => hc ((mem_sendersBefore setup topo intent _ c).1 h).1
    simp [hc, this]

theorem Total.getTraitFor_eq_ok {setup : NetworkSetup} {intent : IntentionAssignment}
    (hi : IntentionAssignment.Total setup intent) (c : Component) (tr : ComponentIntention) :
    TraitMapping.getTraitFor setup intent c = .ok tr ↔
      c ∈ setup.mComponents ∧ intent.mMapping.lookup c = some tr := by
  rw [Total.getTraitFor hi]
  by_cases hc : c ∈ setup.mComponents
  · obtain ⟨tr2, h, -⟩ := Total.lookup hi hc
    simp [hc, h]
  · simp [hc]

theorem senderSet_characterisation {setup : NetworkSetup} (topo : NetworkTopology)
    {intent : IntentionAssignment} (hi : IntentionAssignment.Total setup intent)
    (c : Component) (t : Nat) (m : Option Message) :
    TraitMapping.getTraitFor setup (senderSet setup topo intent) c = .ok ⟨ActionType.SENT, t, m⟩ ↔
      ∃ ty, TraitMapping.getTraitFor setup intent c = .ok ⟨ty, t, m⟩ ∧
        (ty = IntentionType.SEND ∨ ty = IntentionType.SEND_FORCE) ∧
        (ty = IntentionType.SEND_FORCE ∨
          ¬ ∃ c' t' m',
            TraitMapping.getTraitFor setup (senderSet setup topo intent) c'
                = .ok ⟨ActionType.SENT, t', m'⟩ ∧
              t' < t ∧ topo.canReach c' c = true) := by
  rw [senderSet_sent_iff topo hi]
  constructor
  · rintro ⟨hS, tr, h1, h2, h3⟩
    obtain ⟨hc, tr2, h4, h5, h6⟩ := (mem_sendersBefore setup topo intent _ c).1 hS
    rw [h1] at h4
    cases h4
    obtain ⟨ty, tic, msg⟩ := tr
    simp only at h2 h3 h5 h6
    subst h2 h3
    refine ⟨ty, (Total.getTraitFor_eq_ok hi _ _).2 ⟨hc, h1⟩, ?_, ?_⟩
    · tauto
    · rcases h6 with h6 | ⟨-, h6⟩
      · exact Or.inl h6
      · right
        rintro ⟨c', t', m', h7, h8, h9⟩
        obtain ⟨hS', tr', h10, h11, -⟩ := (senderSet_sent_iff topo hi c' t' m').1 h7
        have := (mem_sendersBefore_of_le setup topo intent tic (by omega) c').2
          ⟨hS', tr', h10, by omega⟩
        have := h6 c' this
        simp [NetworkTopology.canReach, this] at h9
  · rintro ⟨ty, h1, h2, h3⟩
    obtain ⟨hc, h4⟩ := (Total.getTraitFor_eq_ok hi _ _).1 h1
    have h5 : t < setup.mTicsPerSlot := hi.2.2 _ (lookup_mem _ _ _ h4)
    refine ⟨(mem_sendersBefore setup topo intent _ c).2 ⟨hc, _, h4, h5, ?_⟩, _, h4, rfl, rfl⟩
    rcases h2 with h2 | h2
    · right
      have h3 : ¬ ∃ c' t' m',
          TraitMapping.getTraitFor setup (senderSet setup topo intent) c'
              = .ok ⟨ActionType.SENT, t', m'⟩ ∧
            t' < t ∧ topo.canReach c' c = true := by
        rcases h3 with h3 | h3
        · rw [h2] at h3; cases h3
        · exact h3
      refine ⟨h2, ?_⟩
      intro a ha
      obtain ⟨hS', tr', h10, h11⟩ :=
        (mem_sendersBefore_of_le setup topo intent t (by simpa using h5.le) a).1 ha
      by_contra hreach
      exact h3 ⟨a, tr'.mTic, tr'.mMessage,
        (senderSet_sent_iff topo hi a _ _).2 ⟨hS', tr', h10, rfl, rfl⟩, h11,
        by simpa [NetworkTopology.canReach] using hreach⟩
    · exact Or.inl h2

/-! ## The sender-set solver: claims -/

/-- C1: for a total intention assignment whose send intentions carry a message,
`getSenderSet` returns a sender set, and it maps a component `c` to
`Sent{t, m}` exactly if the intention of `c` is `SEND` or `SEND_FORCE` with tic
`t` and message `m` and either the intention is `SEND_FORCE` or no component
`c'` that the same result maps to `Sent{t', m'}` with `t' < t` can reach `c`. -/
theorem getSenderSet_sent_iff (setup : NetworkSetup) (topo : NetworkTopology)
    (intent : IntentionAssignment) (hi : IntentionAssignment.Total setup intent)
    (hm : intent.SendsCarryMessage) :
    ∃ ss, (SenderSetComputer.new setup topo intent).bind SenderSetComputer.getSenderSet = .ok ss ∧
      ∀ (c : Component) (t : Nat) (m : Option Message),
        TraitMapping.getTraitFor setup ss c = .ok ⟨ActionType.SENT, t, m⟩ ↔
          ∃ ty, TraitMapping.getTraitFor setup intent c = .ok ⟨ty, t, m⟩ ∧
            (ty = IntentionType.SEND ∨ ty = IntentionType.SEND_FORCE) ∧
            (ty = IntentionType.SEND_FORCE ∨
              ¬ ∃ c' t' m',
                TraitMapping.getTraitFor setup ss c' = .ok ⟨ActionType.SENT, t', m'⟩ ∧
                  t' < t ∧ topo.canReach c' c = true) :=
  ⟨senderSet setup topo intent, getSenderSet_eq topo hi hm,
    fun c t m => senderSet_characterisation topo hi c t m⟩

/-- The instance of C1 at the two senders of tics 3 and 7 in the trivial
topology. -/
theorem getSenderSet_sent_iff_witness :
    IntentionAssignment.Total exampleSetup exampleIntent37 ∧
    exampleIntent37.SendsCarryMessage ∧
    ∃ ss, (SenderSetComputer.new exampleSetup trivialTopology exampleIntent37).bind
        SenderSetComputer.getSenderSet = .ok ss ∧
      ∀ (c : Component) (t : Nat) (m : Option Message),
        TraitMapping.getTraitFor exampleSetup ss c = .ok ⟨ActionType.SENT, t, m⟩ ↔
          ∃ ty, TraitMapping.getTraitFor exampleSetup exampleIntent37 c = .ok ⟨ty, t, m⟩ ∧
            (ty = IntentionType.SEND ∨ ty = IntentionType.SEND_FORCE) ∧
            (ty = IntentionType.SEND_FORCE ∨
              ¬ ∃ c' t' m',
                TraitMapping.getTraitFor exampleSetup ss c' = .ok ⟨ActionType.SENT, t', m'⟩ ∧
                  t' < t ∧ trivialTopology.canReach c' c = true) :=
  ⟨by decide, by decide,
    getSenderSet_sent_iff exampleSetup trivialTopology exampleIntent37 (by decide) (by decide)⟩

/-! ## Closed form of the possible actions -/

theorem senderSetQuery_tic_lt {setup : NetworkSetup} (topo : NetworkTopology)
    {intent : IntentionAssignment} (hi : IntentionAssignment.Total setup intent)
    {c : Component} (hc : c ∈ setup.mComponents) :
    (senderSetQuery setup topo intent c).mTic < setup.mTicsPerSlot := by
  obtain ⟨tr, h1, h2⟩ := Total.lookup hi hc
  unfold senderSetQuery
  split
  · simpa [sentAction, h1] using h2
  · simpa [idleAction] using (Total.wellFormed hi).1

theorem isSender_iff {setup : NetworkSetup} (topo : NetworkTopology)
    {intent : IntentionAssignment} (hi : IntentionAssignment.Total setup intent)
    (c : Component) :
    isSender setup (senderSet setup topo intent) c = true ↔
      c ∈ sendersBefore setup topo intent setup.mTicsPerSlot := by
  unfold isSender
  rw [senderSet_getTraitFor topo hi]
  by_cases hc : c ∈ setup.mComponents
  · simp only [hc, if_true, senderSetQuery]
    by_cases hS : c ∈ sendersBefore setup topo intent setup.mTicsPerSlot
    · obtain ⟨-, tr, h1, -⟩ := (mem_sendersBefore setup topo intent _ c).1 hS
      simp [hS, sentAction, h1, ComponentTrait.getType]
    · simp [hS, idleAction, ComponentTrait.getType]
  · have : c ∉ sendersBefore setup topo intent setup.mTicsPerSlot :=
      fun h => hc ((mem_sendersBefore setup topo intent _ c).1 h).1
    simp [hc, this]

theorem listenStep_eq {setup : NetworkSetup} (topo : NetworkTopology)
    {intent : IntentionAssignment} (hi : IntentionAssignment.Total setup intent)
    (filter : FilterFunction) (comp : Component) (acts : List ComponentAction) (has : Bool)
    (p : Component) (hp : p ∈ setup.mComponents) :
    ANLComputer.listenStep ⟨setup, topo, intent, filter, senderSet setup topo intent⟩ comp
        (acts, has) p =
      .ok (if topo.canReach p comp && isSender setup (senderSet setup topo intent) p then
          (acts ++ listenAdd setup (senderSet setup topo intent) has [p], true)
        else (acts, has)) := by
  have hq := senderSet_getTraitFor topo hi p
  rw [if_pos hp] at hq
  have hlt := senderSetQuery_tic_lt topo hi hp
  have hT := (Total.wellFormed hi).1
  unfold ANLComputer.listenStep
  by_cases hr : topo.canReach p comp = true
  · simp only [hr, if_true, hq, bind_ok, Bool.true_and]
    by_cases hs : isSender setup (senderSet setup topo intent) p = true
    · have hs2 : (senderSetQuery setup topo intent p).getType = ActionType.SENT := by
        simpa [isSender, hq] using hs
      simp only [hs2, if_true, hs, ComponentTrait.new, NetworkSetup.getTicsPerSlot, gt_iff_lt,
        ComponentTrait.getTic, hlt, bind_ok, hT, listenAdd, receivedFrom, hq]
      cases has <;>
        simp [collisionAction, ComponentTrait.getMessage, ComponentTrait.getTic, receivedFrom, hq]
    · have hs2 : ¬ (senderSetQuery setup topo intent p).getType = ActionType.SENT := by
        simpa [isSender, hq] using hs
      simp [hs2, hs]
  · simp [hr]

theorem listenAdd_cons (setup : NetworkSetup) (ss : SenderSetRepresentation) (has : Bool)
    (p : Component) (l : List Component) :
    listenAdd setup ss has (p :: l) = listenAdd setup ss has [p] ++ listenAdd setup ss true l := by
  cases has <;> simp [listenAdd]

theorem listen_fold {setup : NetworkSetup} (topo : NetworkTopology)
    {intent : IntentionAssignment} (hi : IntentionAssignment.Total setup intent)
    (filter : FilterFunction) (comp : Component) (rest : List Component) :
    ∀ (acts : List ComponentAction) (has : Bool), (∀ p ∈ rest, p ∈ setup.mComponents) →
      rest.foldlM
          (ANLComputer.listenStep ⟨setup, topo, intent, filter, senderSet setup topo intent⟩ comp)
          (acts, has) =
        .ok (acts ++ listenAdd setup (senderSet setup topo intent) has
              (rest.filter fun p =>
                topo.canReach p comp && isSender setup (senderSet setup topo intent) p),
            has || !(rest.filter fun p =>
                topo.canReach p comp && isSender setup (senderSet setup topo intent) p).isEmpty) := by
  induction rest with
  | nil => intro acts has _; cases has <;> simp [listenAdd, pure, Except.pure]
  | cons p rest ih =>
    intro acts has hrest
    have hp := hrest p (List.mem_cons_self _ _)
    rw [foldlM_cons_ok _ _ (listenStep_eq topo hi filter comp acts has p hp)]
    by_cases hr : (topo.canReach p comp && isSender setup (senderSet setup topo intent) p) = true
    · rw [if_pos hr, ih _ _ (fun x hx => hrest x (List.mem_cons_of_mem _ hx))]
      simp only [List.filter_cons, hr, if_true]
      conv_rhs => rw [listenAdd_cons setup _ has p]
      simp
    · rw [if_neg hr, ih _ _ (fun x hx => hrest x (List.mem_cons_of_mem _ hx))]
      simp only [List.filter_cons, hr]
      simp

theorem getPossibleActions_eq {setup : NetworkSetup} (topo : NetworkTopology)
    {intent : IntentionAssignment} (hi : IntentionAssignment.Total setup intent)
    (filter : FilterFunction) (c : Component) (hc : c ∈ setup.mComponents) :
    ANLComputer.getPossibleActions ⟨setup, topo, intent, filter, senderSet setup topo intent⟩ c
      = .ok (possibleActions setup topo intent c) := by
  obtain ⟨tr, h1, h2⟩ := Total.lookup hi hc
  have hget := (Total.getTraitFor_eq_ok hi c tr).2 ⟨hc, h1⟩
  have hq := senderSet_getTraitFor topo hi c
  rw [if_pos hc] at hq
  have hT := (Total.wellFormed hi).1
  unfold ANLComputer.getPossibleActions possibleActions
  simp only [hget, bind_ok, h1, ComponentTrait.getType, ComponentTrait.getTic,
    ComponentTrait.getMessage]
  obtain ⟨ty, tic, msg⟩ := tr
  simp only at h2
  cases ty with
  | IDLE => simp [ComponentTrait.new, NetworkSetup.getTicsPerSlot, hT, bind_ok, idleAction]
  | LISTEN =>
    simp only [reduceCtorEq, if_false, false_or, if_true,
      listen_fold topo hi filter c setup.mComponents [] false (fun p hp => hp), bind_ok,
      List.nil_append, Bool.false_or, reachableSenders]
    cases hrs : setup.mComponents.filter fun p =>
        topo.canReach p c && isSender setup (senderSet setup topo intent) p with
    | nil =>
      simp [ComponentTrait.new, NetworkSetup.getTicsPerSlot, hT, bind_ok, listenAdd,
        silenceAction]
    | cons p ps => simp
  | SEND =>
    by_cases hs : isSender setup (senderSet setup topo intent) c = true
    · have hs2 : (senderSetQuery setup topo intent c).mType = ActionType.SENT := by
        simpa [isSender, hq, ComponentTrait.getType] using hs
      simp [hq, bind_ok, hs2, hs, ComponentTrait.new, NetworkSetup.getTicsPerSlot, h2]
    · have hs2 : (senderSetQuery setup topo intent c).mType = ActionType.IDLE := by
        have h3 : c ∉ sendersBefore setup topo intent setup.mTicsPerSlot :=
          fun h => hs ((isSender_iff topo hi c).2 h)
        simp [senderSetQuery, h3, idleAction]
      simp [hq, bind_ok, hs2, hs, ComponentTrait.new, NetworkSetup.getTicsPerSlot, h2]
  | SEND_FORCE =>
    by_cases hs : isSender setup (senderSet setup topo intent) c = true
    · have hs2 : (senderSetQuery setup topo intent c).mType = ActionType.SENT := by
        simpa [isSender, hq, ComponentTrait.getType] using hs
      simp [hq, bind_ok, hs2, hs, ComponentTrait.new, NetworkSetup.getTicsPerSlot, h2]
    · have hs2 : (senderSetQuery setup topo intent c).mType = ActionType.IDLE := by
        have h3 : c ∉ sendersBefore setup topo intent setup.mTicsPerSlot :=
          fun h => hs ((isSender_iff topo hi c).2 h)
        simp [senderSetQuery, h3, idleAction]
      simp [hq, bind_ok, hs2, hs, ComponentTrait.new, NetworkSetup.getTicsPerSlot, h2]

/-! ## Closed form of the filters and of the cross product -/

theorem alreadyAdded_iff (tmp : List ComponentAction) (act : ComponentAction) :
    alreadyAdded tmp act = true ↔ act ∈ tmp := by
  unfold alreadyAdded
  rw [List.any_eq_true]
  constructor
  · rintro ⟨x, hx, h⟩
    obtain ⟨a, b, c⟩ := x
    obtain ⟨a', b', c'⟩ := act
    simp only [ComponentTrait.getType, ComponentTrait.getTic, ComponentTrait.getMessage,
      decide_eq_true_eq] at h
    obtain ⟨rfl, rfl, rfl⟩ := h
    exact hx
  · intro h
    exact ⟨act, h, by simp⟩

theorem uniqueFold_spec (l : List ComponentAction) :
    ∀ acc : List ComponentAction, acc.Nodup →
      (l.foldl (fun tmp act => if alreadyAdded tmp act then tmp else tmp ++ [act]) acc).Nodup ∧
      ∀ x, x ∈ l.foldl (fun tmp act => if alreadyAdded tmp act then tmp else tmp ++ [act]) acc ↔
        x ∈ acc ∨ x ∈ l := by
  induction l with
  | nil => intro acc h; simp [h]
  | cons a l ih =>
    intro acc h
    rw [List.foldl_cons]
    by_cases ha : alreadyAdded acc a = true
    · rw [if_pos ha]
      obtain ⟨h1, h2⟩ := ih acc h
      refine ⟨h1, fun x => ?_⟩
      rw [h2 x, List.mem_cons]
      have := (alreadyAdded_iff acc a).1 ha
      constructor
      · rintro (h | h)
        · exact Or.inl h
        · exact Or.inr (Or.inr h)
      · rintro (h | h | h)
        · exact Or.inl h
        · exact Or.inl (h ▸ this)
        · exact Or.inr h
    · rw [if_neg ha]
      have hna : a ∉ acc := fun h => ha ((alreadyAdded_iff acc a).2 h)
      obtain ⟨h1, h2⟩ := ih (acc ++ [a]) (by
        rw [List.nodup_append]
        exact ⟨h, List.nodup_singleton a, by
          intro x hx hy
          rw [List.mem_singleton] at hy
          exact hna (hy ▸ hx)⟩)
      refine ⟨h1, fun x => ?_⟩
      rw [h2 x, List.mem_append, List.mem_singleton, List.mem_cons]
      tauto

theorem uniqueActions_nodup (l : List ComponentAction) : (uniqueActions l).Nodup :=
  (uniqueFold_spec l [] List.nodup_nil).1

theorem mem_uniqueActions (l : List ComponentAction) (x : ComponentAction) :
    x ∈ uniqueActions l ↔ x ∈ l := by
  have := (uniqueFold_spec l [] List.nodup_nil).2 x
  simpa [uniqueActions] using this

theorem uniqueActions_length (l : List ComponentAction) :
    (uniqueActions l).length = l.toFinset.card := by
  rw [← List.toFinset_card_of_nodup (uniqueActions_nodup l)]
  congr 1
  ext x
  simp [mem_uniqueActions]

theorem uniqueActions_ne_nil {l : List ComponentAction} (h : l ≠ []) : uniqueActions l ≠ [] := by
  obtain ⟨x, hx⟩ := List.exists_mem_of_ne_nil l h
  exact List.ne_nil_of_mem ((mem_uniqueActions l x).2 hx)

theorem ANLFilterNothing_eq (setup : NetworkSetup) (l : List ComponentAction) :
    ANLFilterNothing setup l = .ok (uniqueActions l) := rfl

theorem countNaive_fold (l : List ComponentAction) :
    ∀ n m : Nat,
      l.foldl countStep (n, m) =
        (n + l.countP (fun ca => decide (ca.mType = ActionType.RECEIVED)),
          m + l.countP (fun ca => decide (ca.mType = ActionType.COLLISION))) := by
  induction l with
  | nil => intro n m; simp
  | cons a l ih =>
    intro n m
    rw [List.foldl_cons]
    by_cases h1 : a.mType = ActionType.RECEIVED
    · have h2 : a.mType ≠ ActionType.COLLISION := by rw [h1]; decide
      have hstep : countStep (n, m) a = (n + 1, m) := by
        simp [countStep, ComponentTrait.getType, h1]
      rw [hstep, ih]
      simp only [List.countP_cons, h1, decide_True, decide_False, if_true,
        Bool.false_eq_true, if_false, Prod.mk.injEq, reduceCtorEq]
      omega
    · by_cases h2 : a.mType = ActionType.COLLISION
      · have hstep : countStep (n, m) a = (n, m + 1) := by
          simp [countStep, ComponentTrait.getType, h2]
        rw [hstep, ih]
        simp only [List.countP_cons, h2, decide_True, decide_False, if_true,
          Bool.false_eq_true, if_false, Prod.mk.injEq, reduceCtorEq]
        omega
      · have hstep : countStep (n, m) a = (n, m) := by
          simp [countStep, ComponentTrait.getType, h1, h2]
        rw [hstep, ih]
        simp only [List.countP_cons, h1, h2, decide_False, Bool.false_eq_true, if_false,
          Prod.mk.injEq]
        omega

theorem countNaive_eq (l : List ComponentAction) :
    countNaive l =
      (l.countP (fun ca => decide (ca.mType = ActionType.RECEIVED)),
        l.countP (fun ca => decide (ca.mType = ActionType.COLLISION))) := by
  simpa [countNaive] using countNaive_fold l 0 0

theorem receivedFrom_type (setup : NetworkSetup) (ss : SenderSetRepresentation) (p : Component) :
    (receivedFrom setup ss p).mType = ActionType.RECEIVED := by
  unfold receivedFrom
  split <;> rfl

theorem countP_received_map (setup : NetworkSetup) (ss : SenderSetRepresentation)
    (ps : List Component) :
    (ps.map (receivedFrom setup ss)).countP (fun ca => decide (ca.mType = ActionType.RECEIVED))
      = ps.length := by
  induction ps with
  | nil => rfl
  | cons p ps ih => simp [List.countP_cons, receivedFrom_type, ih]

theorem countP_collision_map (setup : NetworkSetup) (ss : SenderSetRepresentation)
    (ps : List Component) :
    (ps.map (receivedFrom setup ss)).countP (fun ca => decide (ca.mType = ActionType.COLLISION))
      = 0 := by
  induction ps with
  | nil => rfl
  | cons p ps ih => simp [List.countP_cons, receivedFrom_type, ih]

theorem ANLFilterNaive_eq (setup : NetworkSetup) (topo : NetworkTopology)
    (intent : IntentionAssignment) (hT : 0 < setup.mTicsPerSlot) (c : Component) :
    ANLFilterNaive setup (possibleActions setup topo intent c)
      = .ok (naiveActions setup topo intent c) := by
  unfold ANLFilterNaive
  cases h : intent.mMapping.lookup c with
  | none => simp [possibleActions, naiveActions, h, countNaive_eq]
  | some tr =>
    obtain ⟨ty, tic, msg⟩ := tr
    cases ty with
    | IDLE => simp [possibleActions, naiveActions, h, countNaive_eq, idleAction]
    | SEND =>
      simp only [possibleActions, naiveActions, h]
      split <;> simp [countNaive_eq]
    | SEND_FORCE =>
      simp only [possibleActions, naiveActions, h]
      split <;> simp [countNaive_eq]
    | LISTEN =>
      simp only [possibleActions, naiveActions, h]
      cases reachableSenders setup topo (senderSet setup topo intent) c with
      | nil => simp [countNaive_eq, silenceAction]
      | cons p ps =>
        cases ps with
        | nil =>
          simp [countNaive_eq, listenAdd, collisionAction, receivedFrom_type,
            List.countP_cons, List.filter_cons, ComponentTrait.getType]
        | cons q qs =>
          simp [countNaive_eq, listenAdd, collisionAction, receivedFrom_type,
            List.countP_cons, countP_received_map, countP_collision_map, ComponentTrait.new,
            NetworkSetup.getTicsPerSlot, hT, bind_ok]

/-! ## Closed form of the transition -/

theorem extendState_eq (setup : NetworkSetup) (c : Component)
    (l : List (Component × ComponentAction)) (hc : c ∈ setup.mComponents)
    (hk : c ∉ l.map Prod.fst) (hlen : l.length < setup.mComponents.length)
    (acts : List ComponentAction) :
    ∀ front : List NetworkState,
      ANLComputer.extendState setup c acts front (TraitMapping.ofList setup l) =
        .ok (front ++ acts.map fun a => TraitMapping.ofList setup (l ++ [(c, a)])) := by
  unfold ANLComputer.extendState
  induction acts with
  | nil => intro front; simp [pure, Except.pure]
  | cons a acts ih =>
    intro front
    rw [@foldlM_cons_ok _ _ _ front (front ++ [TraitMapping.ofList setup (l ++ [(c, a)])]) a acts
      (by simp only [TraitMapping.setTraitFor_ofList setup l c _ hc hk hlen, bind_ok]), ih]
    simp

theorem extendStates_fold (setup : NetworkSetup) (c : Component) (hc : c ∈ setup.mComponents)
    (acts : List ComponentAction) (acc : List (List (Component × ComponentAction))) :
    ∀ front : List NetworkState,
      (∀ l ∈ acc, c ∉ l.map Prod.fst ∧ l.length < setup.mComponents.length) →
      (acc.map (TraitMapping.ofList setup)).foldlM (ANLComputer.extendState setup c acts) front =
        .ok (front ++
          (acc.flatMap fun l => acts.map fun a => l ++ [(c, a)]).map (TraitMapping.ofList setup)) := by
  induction acc with
  | nil => intro front _; simp [pure, Except.pure]
  | cons l acc ih =>
    intro front h
    obtain ⟨hk, hlen⟩ := h l (List.mem_cons_self _ _)
    rw [List.map_cons, foldlM_cons_ok _ _ (extendState_eq setup c l hc hk hlen acts front),
      ih _ (fun l' hl' => h l' (List.mem_cons_of_mem _ hl'))]
    simp [List.flatMap_cons, Function.comp_def]

theorem transitionStep_eq (a : ANLComputer) (c : Component) (hc : c ∈ a.mSetup.mComponents)
    (P F : List ComponentAction) (hP : a.getPossibleActions c = .ok P)
    (hF : a.mFilter a.mSetup P = .ok F) (hne : F ≠ [])
    (acc : List (List (Component × ComponentAction))) (back : List NetworkState)
    (hacc : ∀ l ∈ acc, c ∉ l.map Prod.fst ∧ l.length < a.mSetup.mComponents.length) :
    a.transitionStep (acc.map (TraitMapping.ofList a.mSetup), back) c =
      .ok ((acc.flatMap fun l => F.map fun x => l ++ [(c, x)]).map (TraitMapping.ofList a.mSetup),
        acc.map (TraitMapping.ofList a.mSetup)) := by
  have hlen : F.length > 0 := List.length_pos.2 hne
  simp only [ANLComputer.transitionStep, hP, bind_ok, hF, hlen, not_true_eq_false, if_false,
    ANLComputer.extendStates, extendStates_fold a.mSetup c hc F acc [] hacc, List.nil_append]

theorem transition_fold (a : ANLComputer) (F : Component → List ComponentAction)
    (rest : List Component) :
    ∀ (acc : List (List (Component × ComponentAction))) (back : List NetworkState)
      (pre : List Component),
      (∀ l ∈ acc, l.map Prod.fst = pre) → (pre ++ rest).Nodup →
      (∀ c ∈ pre ++ rest, c ∈ a.mSetup.mComponents) →
      (∀ c ∈ rest, (a.getPossibleActions c).bind (a.mFilter a.mSetup) = .ok (F c) ∧ F c ≠ []) →
      ∃ back', rest.foldlM a.transitionStep (acc.map (TraitMapping.ofList a.mSetup), back) =
        .ok ((crossProduct F acc rest).map (TraitMapping.ofList a.mSetup), back') := by
  induction rest with
  | nil => intro acc back pre _ _ _ _; exact ⟨back, by simp [crossProduct, pure, Except.pure]⟩
  | cons c rest ih =>
    intro acc back pre hacc hnd hsub hF
    obtain ⟨h1, h2⟩ := hF c (List.mem_cons_self _ _)
    have hc : c ∈ a.mSetup.mComponents := hsub c (by simp)
    obtain ⟨P, hP, hFP⟩ : ∃ P, a.getPossibleActions c = .ok P ∧ a.mFilter a.mSetup P = .ok (F c) := by
      cases hP : a.getPossibleActions c with
      | error e => rw [hP] at h1; cases h1
      | ok P => rw [hP] at h1; exact ⟨P, rfl, h1⟩
    have hnd2 : ((pre ++ [c]) ++ rest).Nodup := by simpa using hnd
    have hcpre : c ∉ pre := by
      have := (List.nodup_append.1 hnd2).1
      simpa using (List.nodup_append.1 this).2.2
    have hlt : pre.length < a.mSetup.mComponents.length :=
      length_lt_of_nodup_snoc (List.nodup_append.1 hnd2).1 (by
        intro x hx
        exact hsub x (by
          rcases List.mem_append.1 hx with hx | hx
          · exact List.mem_append_left _ hx
          · simp at hx; simp [hx]))
    have hacc2 : ∀ l ∈ acc, c ∉ l.map Prod.fst ∧ l.length < a.mSetup.mComponents.length := by
      intro l hl
      have := hacc l hl
      refine ⟨by rw [this]; exact hcpre, ?_⟩
      have h3 : l.length = pre.length := by rw [← this]; simp
      omega
    rw [foldlM_cons_ok _ _ (transitionStep_eq a c hc P (F c) hP hFP h2 acc back hacc2)]
    obtain ⟨back', hb⟩ := ih (acc.flatMap fun l => (F c).map fun x => l ++ [(c, x)])
      (acc.map (TraitMapping.ofList a.mSetup)) (pre ++ [c])
      (by
        intro l hl
        simp only [List.mem_flatMap, List.mem_map] at hl
        obtain ⟨l0, hl0, x, -, rfl⟩ := hl
        simp [hacc l0 hl0])
      hnd2 (by simpa using hsub) (fun x hx => hF x (List.mem_cons_of_mem _ hx))
    exact ⟨back', by rw [hb, crossProduct]⟩

theorem transition_eq {setup : NetworkSetup} (topo : NetworkTopology)
    {intent : IntentionAssignment} (hi : IntentionAssignment.Total setup intent)
    (hm : intent.SendsCarryMessage) (filter : FilterFunction)
    (ss0 : SenderSetRepresentation) (F : Component → List ComponentAction)
    (hF : ∀ c ∈ setup.mComponents,
      filter setup (possibleActions setup topo intent c) = .ok (F c) ∧ F c ≠ []) :
    ANLComputer.transition ⟨setup, topo, intent, filter, ss0⟩ =
      .ok ((crossProduct F [[]] setup.mComponents).map (TraitMapping.ofList setup)) := by
  have hss := getSenderSet_eq topo hi hm
  cases hnew : SenderSetComputer.new setup topo intent with
  | error e => rw [hnew] at hss; cases hss
  | ok sc =>
    rw [hnew, bind_ok] at hss
    obtain ⟨back', hb⟩ := transition_fold ⟨setup, topo, intent, filter, senderSet setup topo intent⟩
      F setup.mComponents [[]] [] []
      (by simp) (by simpa using (Total.wellFormed hi).2) (by simp)
      (by
        intro c hc
        simp only [getPossibleActions_eq topo hi filter c hc, bind_ok]
        exact hF c hc)
    simp only [ANLComputer.transition, hnew, bind_ok, hss]
    have h0 : ([TraitMapping.new] : List NetworkState)
        = List.map (TraitMapping.ofList setup) [[]] := by
      simp [TraitMapping.new_eq_ofList setup]
    rw [h0, hb]
    rfl

theorem ANL_transition_eq {setup : NetworkSetup} (topo : NetworkTopology)
    {intent : IntentionAssignment} (hi : IntentionAssignment.Total setup intent)
    (hm : intent.SendsCarryMessage) (semantics : ANLSemantics) :
    ANL.transition ⟨setup, semantics⟩ topo intent =
      .ok ((crossProduct (filteredActions semantics setup topo intent) [[]]
        setup.mComponents).map (TraitMapping.ofList setup)) := by
  have hT := (Total.wellFormed hi).1
  have hne : ∀ c ∈ setup.mComponents, possibleActions setup topo intent c ≠ [] := by
    intro c hc
    obtain ⟨tr, h1, -⟩ := Total.lookup hi hc
    obtain ⟨ty, tic, msg⟩ := tr
    simp only [possibleActions, h1]
    cases ty with
    | IDLE => simp
    | SEND => simp only []; split <;> simp
    | SEND_FORCE => simp only []; split <;> simp
    | LISTEN => simp only []; split <;> simp [listenAdd]
  cases semantics with
  | CANONICAL =>
    exact transition_eq topo hi hm ANLFilterNothing _ _ (fun c hc =>
      ⟨ANLFilterNothing_eq setup _, uniqueActions_ne_nil (hne c hc)⟩)
  | NAIVE =>
    refine transition_eq topo hi hm ANLFilterNaive _ _ (fun c hc =>
      ⟨ANLFilterNaive_eq setup topo intent hT c, ?_⟩)
    obtain ⟨tr, h1, -⟩ := Total.lookup hi hc
    obtain ⟨ty, tic, msg⟩ := tr
    simp only [filteredActions, naiveActions, h1]
    cases ty with
    | IDLE => simp [possibleActions, h1]
    | SEND => simpa [possibleActions, h1] using hne c hc
    | SEND_FORCE => simpa [possibleActions, h1] using hne c hc
    | LISTEN => simp only []; split <;> simp

theorem mem_crossProduct (F : Component → List ComponentAction) (cs : List Component) :
    ∀ (acc : List (List (Component × ComponentAction))) (l : List (Component × ComponentAction)),
      l ∈ crossProduct F acc cs ↔
        ∃ l0 ∈ acc, ∃ ext : List (Component × ComponentAction),
          l = l0 ++ ext ∧ ext.map Prod.fst = cs ∧ ∀ x ∈ ext, x.2 ∈ F x.1 := by
  induction cs with
  | nil =>
    intro acc l
    simp only [crossProduct, List.map_eq_nil_iff]
    constructor
    · intro h; exact ⟨l, h, [], by simp⟩
    · rintro ⟨l0, h0, ext, rfl, rfl, -⟩; simpa using h0
  | cons c cs ih =>
    intro acc l
    rw [crossProduct, ih]
    constructor
    · rintro ⟨l1, h1, ext, rfl, h2, h3⟩
      simp only [List.mem_flatMap, List.mem_map] at h1
      obtain ⟨l0, h0, a, ha, rfl⟩ := h1
      refine ⟨l0, h0, (c, a) :: ext, by simp, by simp [h2], ?_⟩
      intro x hx
      rcases List.mem_cons.1 hx with rfl | hx
      · exact ha
      · exact h3 x hx
    · rintro ⟨l0, h0, ext, rfl, h2, h3⟩
      cases ext with
      | nil => simp at h2
      | cons x ext =>
        obtain ⟨k, a⟩ := x
        simp only [List.map_cons, List.cons.injEq] at h2
        obtain ⟨rfl, h2⟩ := h2
        refine ⟨l0 ++ [(k, a)], ?_, ext, by simp, h2, fun x hx => h3 x (List.mem_cons_of_mem _ hx)⟩
        simp only [List.mem_flatMap, List.mem_map]
        exact ⟨l0, h0, a, h3 (k, a) (List.mem_cons_self _ _), rfl⟩

theorem length_crossProduct (F : Component → List ComponentAction) (cs : List Component) :
    ∀ acc : List (List (Component × ComponentAction)),
      (crossProduct F acc cs).length = acc.length * (cs.map fun c => (F c).length).prod := by
  induction cs with
  | nil => intro acc; simp [crossProduct]
  | cons c cs ih =>
    intro acc
    rw [crossProduct, ih]
    have : (acc.flatMap fun l => (F c).map fun a => l ++ [(c, a)]).length
        = acc.length * (F c).length := by
      induction acc with
      | nil => simp
      | cons l acc ih2 => simp only [List.flatMap_cons, List.length_append, ih2,
          List.length_map, List.length_cons]; ring
    rw [this, List.map_cons, List.prod_cons, Nat.mul_assoc]

theorem state_getTraitFor {setup : NetworkSetup} (hne : setup.mComponents ≠ [])
    (F : Component → List ComponentAction)
    (l : List (Component × ComponentAction))
    (hl : l ∈ crossProduct F [[]] setup.mComponents) (c : Component) :
    (c ∈ setup.mComponents →
      ∃ x, TraitMapping.getTraitFor setup (TraitMapping.ofList setup l) c = .ok x ∧ x ∈ F c) ∧
    (c ∉ setup.mComponents →
      TraitMapping.getTraitFor setup (TraitMapping.ofList setup l) c = .error .notAComponent) := by
  obtain ⟨l0, h0, ext, rfl, h2, h3⟩ := (mem_crossProduct F _ _ _).1 hl
  simp only [List.mem_singleton] at h0
  subst h0
  simp only [List.nil_append] at *
  have hlen : ext.length = setup.mComponents.length := by rw [← h2]; simp
  have hne2 : ext ≠ [] := by
    intro h; rw [h] at hlen; exact hne (List.length_eq_zero.1 hlen.symm)
  rw [TraitMapping.getTraitFor_ofList setup ext c hlen hne2]
  constructor
  · intro hc
    rw [if_pos hc]
    have : (ext.lookup c).isSome = true := (lookup_isSome_iff ext c).2 (by rw [h2]; exact hc)
    obtain ⟨x, hx⟩ := Option.isSome_iff_exists.1 this
    exact ⟨x, by rw [hx], h3 (c, x) (lookup_mem _ _ _ hx)⟩
  · intro hc
    rw [if_neg hc]

/-! ## Shapes of the action lists -/

theorem isSender_sent (setup : NetworkSetup) (ss : SenderSetRepresentation) (p : Component)
    (h : isSender setup ss p = true) :
    ∃ t m, TraitMapping.getTraitFor setup ss p = .ok ⟨ActionType.SENT, t, m⟩ ∧
      receivedFrom setup ss p = ⟨ActionType.RECEIVED, t, m⟩ := by
  unfold isSender at h
  unfold receivedFrom
  cases hq : TraitMapping.getTraitFor setup ss p with
  | error e => rw [hq] at h; cases h
  | ok q =>
    rw [hq] at h
    obtain ⟨ty, t, m⟩ := q
    simp only [ComponentTrait.getType, decide_eq_true_eq] at h
    subst h
    exact ⟨t, m, rfl, rfl⟩

theorem mem_reachableSenders (setup : NetworkSetup) (topo : NetworkTopology)
    (ss : SenderSetRepresentation) (c p : Component) :
    p ∈ reachableSenders setup topo ss c ↔
      p ∈ setup.mComponents ∧ topo.canReach p c = true ∧ isSender setup ss p = true := by
  simp [reachableSenders, List.mem_filter]

theorem possibleActions_listen {setup : NetworkSetup} (topo : NetworkTopology)
    {intent : IntentionAssignment} {c : Component} {tr : ComponentIntention}
    (h1 : intent.mMapping.lookup c = some tr) (h2 : tr.mType = IntentionType.LISTEN) :
    possibleActions setup topo intent c =
      match reachableSenders setup topo (senderSet setup topo intent) c with
      | [] => [silenceAction]
      | p :: ps =>
        receivedFrom setup (senderSet setup topo intent) p :: collisionAction ::
          ps.map (receivedFrom setup (senderSet setup topo intent)) := by
  obtain ⟨ty, tic, msg⟩ := tr
  simp only at h2
  subst h2
  simp only [possibleActions, h1]
  cases reachableSenders setup topo (senderSet setup topo intent) c <;> simp [listenAdd]

theorem naiveActions_listen {setup : NetworkSetup} (topo : NetworkTopology)
    {intent : IntentionAssignment} {c : Component} {tr : ComponentIntention}
    (h1 : intent.mMapping.lookup c = some tr) (h2 : tr.mType = IntentionType.LISTEN) :
    naiveActions setup topo intent c =
      match reachableSenders setup topo (senderSet setup topo intent) c with
      | [] => [silenceAction]
      | [p] => [receivedFrom setup (senderSet setup topo intent) p]
      | _ :: _ :: _ => [collisionAction] := by
  obtain ⟨ty, tic, msg⟩ := tr
  simp only at h2
  subst h2
  simp only [naiveActions, h1]

theorem possibleActions_nonListen {setup : NetworkSetup} (topo : NetworkTopology)
    {intent : IntentionAssignment} {c : Component} {tr : ComponentIntention}
    (h1 : intent.mMapping.lookup c = some tr) (h2 : tr.mType ≠ IntentionType.LISTEN) :
    possibleActions setup topo intent c =
      [if tr.mType = IntentionType.IDLE then ⟨ActionType.IDLE, 0, none⟩
        else if isSender setup (senderSet setup topo intent) c then
          ⟨ActionType.SENT, tr.mTic, tr.mMessage⟩
        else ⟨ActionType.CANCELLED, tr.mTic, tr.mMessage⟩] := by
  obtain ⟨ty, tic, msg⟩ := tr
  simp only [possibleActions, h1]
  cases ty with
  | IDLE => simp [idleAction]
  | LISTEN => exact absurd rfl h2
  | SEND => simp only [reduceCtorEq, if_false]; split <;> rfl
  | SEND_FORCE => simp only [reduceCtorEq, if_false]; split <;> rfl

theorem filteredActions_nonListen {setup : NetworkSetup} (topo : NetworkTopology)
    {intent : IntentionAssignment} {c : Component} {tr : ComponentIntention}
    (h1 : intent.mMapping.lookup c = some tr) (h2 : tr.mType ≠ IntentionType.LISTEN)
    (semantics : ANLSemantics) :
    filteredActions semantics setup topo intent c = possibleActions setup topo intent c := by
  cases semantics with
  | CANONICAL =>
    rw [filteredActions, possibleActions_nonListen topo h1 h2]
    simp [uniqueActions, alreadyAdded]
  | NAIVE =>
    obtain ⟨ty, tic, msg⟩ := tr
    simp only [filteredActions, naiveActions, h1]

theorem naiveActions_length {setup : NetworkSetup} (topo : NetworkTopology)
    {intent : IntentionAssignment} (hi : IntentionAssignment.Total setup intent)
    {c : Component} (hc : c ∈ setup.mComponents) :
    (naiveActions setup topo intent c).length = 1 := by
  obtain ⟨tr, h1, -⟩ := Total.lookup hi hc
  by_cases h2 : tr.mType = IntentionType.LISTEN
  · rw [naiveActions_listen topo h1 h2]
    split <;> rfl
  · have := @filteredActions_nonListen setup topo _ _ _ h1 h2 ANLSemantics.NAIVE
    simp only [filteredActions] at this
    rw [this, possibleActions_nonListen topo h1 h2]
    rfl

theorem filteredActions_pos {setup : NetworkSetup} (topo : NetworkTopology)
    {intent : IntentionAssignment} (hi : IntentionAssignment.Total setup intent)
    (semantics : ANLSemantics) {c : Component} (hc : c ∈ setup.mComponents) :
    0 < (filteredActions semantics setup topo intent c).length := by
  obtain ⟨tr, h1, -⟩ := Total.lookup hi hc
  cases semantics with
  | NAIVE => simp only [filteredActions]; rw [naiveActions_length topo hi hc]; exact Nat.one_pos
  | CANONICAL =>
    simp only [filteredActions]
    apply List.length_pos.2
    apply uniqueActions_ne_nil
    by_cases h2 : tr.mType = IntentionType.LISTEN
    · rw [possibleActions_listen topo h1 h2]
      split <;> simp
    · rw [possibleActions_nonListen topo h1 h2]
      simp

theorem crossProduct_ne_nil {setup : NetworkSetup} (topo : NetworkTopology)
    {intent : IntentionAssignment} (hi : IntentionAssignment.Total setup intent)
    (semantics : ANLSemantics) :
    (crossProduct (filteredActions semantics setup topo intent) [[]] setup.mComponents).map
      (TraitMapping.ofList setup) ≠ [] := by
  apply List.ne_nil_of_length_pos
  rw [List.length_map, length_crossProduct]
  simp only [List.length_singleton, one_mul]
  apply List.prod_pos
  intro n hn
  obtain ⟨c, hc, rfl⟩ := List.mem_map.1 hn
  exact filteredActions_pos topo hi semantics hc

theorem transition_state_action {setup : NetworkSetup} (topo : NetworkTopology)
    {intent : IntentionAssignment} (hi : IntentionAssignment.Total setup intent)
    (semantics : ANLSemantics) (s : NetworkState)
    (hs : s ∈ (crossProduct (filteredActions semantics setup topo intent) [[]]
      setup.mComponents).map (TraitMapping.ofList setup))
    (c : Component) (hc : c ∈ setup.mComponents) :
    ∃ x, TraitMapping.getTraitFor setup s c = .ok x ∧
      x ∈ filteredActions semantics setup topo intent c := by
  obtain ⟨l, hl, rfl⟩ := List.mem_map.1 hs
  exact (state_getTraitFor (Total.components_ne_nil hi) _ l hl c).1 hc

theorem naive_transition_single {setup : NetworkSetup} (topo : NetworkTopology)
    {intent : IntentionAssignment} (hi : IntentionAssignment.Total setup intent)
    (hm : intent.SendsCarryMessage) :
    ∃ s, ANL.transition ⟨setup, ANLSemantics.NAIVE⟩ topo intent = .ok [s] ∧
      s ∈ (crossProduct (filteredActions ANLSemantics.NAIVE setup topo intent) [[]]
        setup.mComponents).map (TraitMapping.ofList setup) := by
  have h := ANL_transition_eq topo hi hm ANLSemantics.NAIVE
  have hlen : ((crossProduct (filteredActions ANLSemantics.NAIVE setup topo intent) [[]]
      setup.mComponents).map (TraitMapping.ofList setup)).length = 1 := by
    rw [List.length_map, length_crossProduct]
    simp only [List.length_singleton, one_mul]
    apply List.prod_eq_one
    intro n hn
    obtain ⟨c, hc, rfl⟩ := List.mem_map.1 hn
    exact naiveActions_length topo hi hc
  obtain ⟨s, hs⟩ := List.length_eq_one.1 hlen
  rw [hs] at h
  exact ⟨s, h, by rw [hs]; exact List.mem_singleton_self s⟩

/-! ## A returning solver implies that send intentions carry a message -/

theorem lookup_of_mem_nodup {β : Type} (l : List (Component × β))
    (hnd : (l.map Prod.fst).Nodup) (c : Component) (v : β) (h : (c, v) ∈ l) :
    l.lookup c = some v := by
  induction l with
  | nil => cases h
  | cons x xs ih =>
    obtain ⟨k, w⟩ := x
    simp only [List.map_cons, List.nodup_cons] at hnd
    rcases List.mem_cons.1 h with h' | h'
    · cases h'; simp [List.lookup_cons]
    · have hk : c ≠ k := by
        rintro rfl
        exact hnd.1 (List.mem_map.2 ⟨(c, v), h', rfl⟩)
      have h1 : (c == k) = false := by simpa using hk
      rw [List.lookup_cons, h1]
      exact ih hnd.2 h'

theorem foldlM_ok_mem {α β : Type} (f : β → α → Except Fatal β) (P : β → Prop)
    (hP : ∀ b a b', P b → f b a = .ok b' → P b') :
    ∀ (l : List α) (b b' : β), P b → l.foldlM f b = .ok b' →
      ∀ a ∈ l, ∃ b1 b2, P b1 ∧ f b1 a = .ok b2 := by
  intro l
  induction l with
  | nil => intro b b' _ _ a ha; cases ha
  | cons x xs ih =>
    intro b b' hb h a ha
    rw [List.foldlM_cons] at h
    cases hf : f b x with
    | error e => rw [hf] at h; cases h
    | ok b1 =>
      rw [hf] at h
      rcases List.mem_cons.1 ha with rfl | ha
      · exact ⟨b, b1, hb, hf⟩
      · exact ih b1 b' (hP b x b1 hb hf) h a ha

theorem addSender_fields (s s' : SenderSetComputer) (c : Component) (tr : ComponentIntention)
    (h : SenderSetComputer.addSender s c tr = .ok s') :
    s'.mIntent = s.mIntent ∧ s'.mSetup = s.mSetup := by
  unfold SenderSetComputer.addSender at h
  cases h1 : ComponentTrait.new s.mSetup ActionType.SENT s.mIterationTic tr.getMessage with
  | error e => rw [h1] at h; cases h
  | ok act =>
    rw [h1, bind_ok] at h
    cases h2 : TraitMapping.setTraitFor s.mSetup s.mResult c act with
    | error e => rw [h2] at h; cases h
    | ok res =>
      rw [h2, bind_ok] at h
      cases h
      exact ⟨rfl, rfl⟩

theorem updateTicSetForComponent_ok (s s' : SenderSetComputer) (c : Component)
    (h : SenderSetComputer.updateTicSetForComponent s c = .ok s') :
    (s'.mIntent = s.mIntent ∧ s'.mSetup = s.mSetup) ∧
    ∃ tr, TraitMapping.getTraitFor s.mSetup s.mIntent c = .ok tr ∧
      (tr.mType = IntentionType.SEND ∨ tr.mType = IntentionType.SEND_FORCE →
        tr.mMessage ≠ none) := by
  unfold SenderSetComputer.updateTicSetForComponent at h
  cases hg : TraitMapping.getTraitFor s.mSetup s.mIntent c with
  | error e => rw [hg] at h; cases h
  | ok tr =>
    rw [hg, bind_ok] at h
    simp only [ComponentTrait.getType, ComponentTrait.getMessage, ComponentTrait.getTic] at h
    by_cases h1 : tr.mType ≠ IntentionType.SEND ∧ tr.mType ≠ IntentionType.SEND_FORCE
    · rw [if_pos h1] at h
      cases h
      exact ⟨⟨rfl, rfl⟩, tr, rfl, fun hs => by tauto⟩
    · rw [if_neg h1] at h
      by_cases h2 : tr.mMessage = none
      · rw [if_pos h2] at h; cases h
      · rw [if_neg h2] at h
        refine ⟨?_, tr, rfl, fun _ => h2⟩
        by_cases h3 : s.mIterationTic ≠ tr.mTic
        · rw [if_pos h3] at h; cases h; exact ⟨rfl, rfl⟩
        · rw [if_neg h3] at h
          by_cases h4 : tr.mType = IntentionType.SEND_FORCE
          · rw [if_pos h4] at h; exact addSender_fields s s' c tr h
          · rw [if_neg h4] at h
            split at h
            · cases h; exact ⟨rfl, rfl⟩
            · exact addSender_fields s s' c tr h

theorem getSenderSet_ok_sendsCarryMessage {setup : NetworkSetup} (topo : NetworkTopology)
    {intent : IntentionAssignment} (hi : IntentionAssignment.Total setup intent)
    (ss : SenderSetRepresentation)
    (h : (SenderSetComputer.new setup topo intent).bind SenderSetComputer.getSenderSet = .ok ss) :
    intent.SendsCarryMessage := by
  have hp : intent.isPartial = false := hi.2.1
  have hT := (Total.wellFormed hi).1
  simp only [SenderSetComputer.new, hp, Bool.false_eq_true, if_false, bind_ok,
    SenderSetComputer.getSenderSet, NetworkSetup.getTicsPerSlot] at h
  obtain ⟨n, hn⟩ : ∃ n, setup.mTicsPerSlot = n + 1 := ⟨setup.mTicsPerSlot - 1, by omega⟩
  rw [hn, List.range_succ_eq_map, List.foldlM_cons] at h
  cases h1 : SenderSetComputer.iteration
      ⟨setup, topo, intent, 0, [], [], TraitMapping.new⟩ 0 with
  | error e => rw [h1] at h; cases h
  | ok s1 =>
    clear h
    simp only [SenderSetComputer.iteration, SenderSetComputer.initializeIteration,
      List.length_nil, ne_eq, not_true_eq_false, if_false, SenderSetComputer.computeTicSet,
      NetworkSetup.getTicsPerSlot, hT, not_true_eq_false] at h1
    cases h2 : setup.mComponents.foldlM SenderSetComputer.updateTicSetForComponent
        ⟨setup, topo, intent, 0, [], [], TraitMapping.new⟩ with
    | error e => rw [h2] at h1; cases h1
    | ok s2 =>
      have hall := foldlM_ok_mem SenderSetComputer.updateTicSetForComponent
        (fun s => s.mIntent = intent ∧ s.mSetup = setup)
        (by
          intro b a b' hb hf
          obtain ⟨⟨h3, h4⟩, -⟩ := updateTicSetForComponent_ok b b' a hf
          exact ⟨h3.trans hb.1, h4.trans hb.2⟩)
        setup.mComponents _ s2 ⟨rfl, rfl⟩ h2
      intro p hpmem hsend
      obtain ⟨c, tr⟩ := p
      have hc : c ∈ setup.mComponents :=
        hi.1.2.1 c (List.mem_map.2 ⟨(c, tr), hpmem, rfl⟩)
      obtain ⟨b1, b2, ⟨hb1, hb2⟩, hf⟩ := hall c hc
      obtain ⟨-, tr2, h5, h6⟩ := updateTicSetForComponent_ok b1 b2 c hf
      rw [hb1, hb2] at h5
      have h7 := lookup_of_mem_nodup intent.mMapping hi.1.1 c tr hpmem
      have h8 := ((Total.getTraitFor_eq_ok hi c tr2).1 h5).2
      rw [h7] at h8
      cases h8
      exact h6 hsend

theorem transition_ok_getSenderSet (a : ANLComputer) (states : List NetworkState)
    (h : a.transition = .ok states) :
    ∃ ss, (SenderSetComputer.new a.mSetup a.mTopology a.mIntent).bind
      SenderSetComputer.getSenderSet = .ok ss := by
  unfold ANLComputer.transition at h
  cases h1 : SenderSetComputer.new a.mSetup a.mTopology a.mIntent with
  | error e => rw [h1] at h; cases h
  | ok sc =>
    rw [h1, bind_ok] at h
    cases h2 : sc.getSenderSet with
    | error e => rw [h2] at h; cases h
    | ok ss => exact ⟨ss, by rw [bind_ok, h2]⟩

theorem naive_subset_canonical_actions {setup : NetworkSetup} (topo : NetworkTopology)
    {intent : IntentionAssignment} (hi : IntentionAssignment.Total setup intent)
    {c : Component} (hc : c ∈ setup.mComponents) (x : ComponentAction)
    (hx : x ∈ filteredActions ANLSemantics.NAIVE setup topo intent c) :
    x ∈ filteredActions ANLSemantics.CANONICAL setup topo intent c := by
  obtain ⟨tr, h1, -⟩ := Total.lookup hi hc
  by_cases h2 : tr.mType = IntentionType.LISTEN
  · simp only [filteredActions] at hx ⊢
    rw [naiveActions_listen topo h1 h2] at hx
    rw [mem_uniqueActions, possibleActions_listen topo h1 h2]
    cases hrs : reachableSenders setup topo (senderSet setup topo intent) c with
    | nil => rw [hrs] at hx; exact hx
    | cons p ps =>
      rw [hrs] at hx
      cases ps with
      | nil => simp only [List.mem_singleton] at hx; simp [hx]
      | cons q qs => simp only [List.mem_singleton] at hx; simp [hx]
  · rw [filteredActions_nonListen topo h1 h2] at hx ⊢
    exact hx

theorem getSenderSet_ok_iff {setup : NetworkSetup} (topo : NetworkTopology)
    {intent : IntentionAssignment} (hi : IntentionAssignment.Total setup intent)
    (ss : SenderSetRepresentation) :
    (SenderSetComputer.new setup topo intent).bind SenderSetComputer.getSenderSet = .ok ss ↔
      intent.SendsCarryMessage ∧ ss = senderSet setup topo intent := by
  constructor
  · intro h
    have hm := getSenderSet_ok_sendsCarryMessage topo hi ss h
    rw [getSenderSet_eq topo hi hm] at h
    cases h
    exact ⟨hm, rfl⟩
  · rintro ⟨hm, rfl⟩
    exact getSenderSet_eq topo hi hm

/-! ## The transition: claims -/

/-- C2: for a total intention assignment whose send intentions carry a message,
`ANL::transition` under `NAIVE` semantics, which is `ANLComputer::transition`
with `ANLFilterNaive`, returns a vector of exactly one network state. -/
theorem transition_naive_single (setup : NetworkSetup) (topo : NetworkTopology)
    (intent : IntentionAssignment) (hi : IntentionAssignment.Total setup intent)
    (hm : intent.SendsCarryMessage) :
    ∃ s, ANL.transition ⟨setup, ANLSemantics.NAIVE⟩ topo intent = .ok [s] ∧
      (ANLComputer.new setup topo intent ANLFilterNaive).transition = .ok [s] := by
  obtain ⟨s, hs, -⟩ := naive_transition_single topo hi hm
  exact ⟨s, hs, hs⟩

/-- The instance of C2 at one listener and two senders of the same message. -/
theorem transition_naive_single_witness :
    IntentionAssignment.Total listenSetup listenIntentIdentical ∧
    listenIntentIdentical.SendsCarryMessage ∧
    ∃ s, ANL.transition ⟨listenSetup, ANLSemantics.NAIVE⟩ trivialTopology listenIntentIdentical
        = .ok [s] ∧
      (ANLComputer.new listenSetup trivialTopology listenIntentIdentical ANLFilterNaive).transition
        = .ok [s] :=
  ⟨by decide, by decide,
    transition_naive_single listenSetup trivialTopology listenIntentIdentical
      (by decide) (by decide)⟩

/-- C3: for a component that does not listen, `getPossibleActions` returns
exactly one action: `Idle` (tic 0, no message) for an `IDLE` intention,
`Sent{tic, m}` for a `SEND` or `SEND_FORCE` intention `{tic, m}` of a component
in the sender set, `Cancelled{tic, m}` for such an intention of a component not
in the sender set. Under both semantics the transition returns at least one
successor state and every successor state carries that action for the
component. The sender set is any that `getSenderSet` returns, and it returns
one whenever all send intentions carry a message. -/
theorem nonListener_single_action (setup : NetworkSetup) (topo : NetworkTopology)
    (intent : IntentionAssignment) (hi : IntentionAssignment.Total setup intent)
    (filter : FilterFunction) :
    (∀ ss, (SenderSetComputer.new setup topo intent).bind SenderSetComputer.getSenderSet = .ok ss →
      ∀ (c : Component) (tr : ComponentIntention),
        TraitMapping.getTraitFor setup intent c = .ok tr → tr.getType ≠ IntentionType.LISTEN →
        ∃ act, ANLComputer.getPossibleActions ⟨setup, topo, intent, filter, ss⟩ c = .ok [act] ∧
          (tr.getType = IntentionType.IDLE → act = ⟨ActionType.IDLE, 0, none⟩) ∧
          (tr.getType = IntentionType.SEND ∨ tr.getType = IntentionType.SEND_FORCE →
            isSender setup ss c = true → act = ⟨ActionType.SENT, tr.getTic, tr.getMessage⟩) ∧
          (tr.getType = IntentionType.SEND ∨ tr.getType = IntentionType.SEND_FORCE →
            isSender setup ss c = false →
              act = ⟨ActionType.CANCELLED, tr.getTic, tr.getMessage⟩) ∧
          ∀ semantics : ANLSemantics,
            ∃ states, ANL.transition ⟨setup, semantics⟩ topo intent = .ok states ∧
              states ≠ [] ∧ ∀ s ∈ states, TraitMapping.getTraitFor setup s c = .ok act) ∧
    (intent.SendsCarryMessage →
      ∃ ss, (SenderSetComputer.new setup topo intent).bind SenderSetComputer.getSenderSet
        = .ok ss) := by
  refine ⟨fun ss hss => ?_, fun hm => ⟨_, getSenderSet_eq topo hi hm⟩⟩
  obtain ⟨hm, rfl⟩ := (getSenderSet_ok_iff topo hi ss).1 hss
  intro c tr hget hnl
  obtain ⟨hc, h1⟩ := (Total.getTraitFor_eq_ok hi c tr).1 hget
  simp only [ComponentTrait.getType, ComponentTrait.getTic, ComponentTrait.getMessage] at hnl ⊢
  have hP := @possibleActions_nonListen setup topo _ _ _ h1 hnl
  refine ⟨_, by rw [getPossibleActions_eq topo hi filter c hc, hP], ?_, ?_, ?_, ?_⟩
  · intro h; rw [if_pos h]
  · intro h hs
    have : tr.mType ≠ IntentionType.IDLE := by rcases h with h | h <;> rw [h] <;> decide
    rw [if_neg this, if_pos hs]
  · intro h hs
    have : tr.mType ≠ IntentionType.IDLE := by rcases h with h | h <;> rw [h] <;> decide
    rw [if_neg this, hs]
    rfl
  · intro semantics
    refine ⟨_, ANL_transition_eq topo hi hm semantics, crossProduct_ne_nil topo hi semantics, ?_⟩
    intro s hs
    obtain ⟨x, hx1, hx2⟩ := transition_state_action topo hi semantics s hs c hc
    rw [filteredActions_nonListen topo h1 hnl, hP, List.mem_singleton] at hx2
    rw [hx1, hx2]

/-- The instance of C3 at an idle component, a forced sender and a cancelled
carrier-sensing sender. -/
theorem nonListener_single_action_witness :
    IntentionAssignment.Total listenSetup listenIntentCancelled ∧
    (∀ ss, (SenderSetComputer.new listenSetup trivialTopology listenIntentCancelled).bind
        SenderSetComputer.getSenderSet = .ok ss →
      ∀ (c : Component) (tr : ComponentIntention),
        TraitMapping.getTraitFor listenSetup listenIntentCancelled c = .ok tr →
        tr.getType ≠ IntentionType.LISTEN →
        ∃ act, ANLComputer.getPossibleActions
            ⟨listenSetup, trivialTopology, listenIntentCancelled, ANLFilterNaive, ss⟩ c
              = .ok [act] ∧
          (tr.getType = IntentionType.IDLE → act = ⟨ActionType.IDLE, 0, none⟩) ∧
          (tr.getType = IntentionType.SEND ∨ tr.getType = IntentionType.SEND_FORCE →
            isSender listenSetup ss c = true →
              act = ⟨ActionType.SENT, tr.getTic, tr.getMessage⟩) ∧
          (tr.getType = IntentionType.SEND ∨ tr.getType = IntentionType.SEND_FORCE →
            isSender listenSetup ss c = false →
              act = ⟨ActionType.CANCELLED, tr.getTic, tr.getMessage⟩) ∧
          ∀ semantics : ANLSemantics,
            ∃ states,
              ANL.transition ⟨listenSetup, semantics⟩ trivialTopology listenIntentCancelled
                = .ok states ∧
              states ≠ [] ∧ ∀ s ∈ states, TraitMapping.getTraitFor listenSetup s c = .ok act) ∧
    (listenIntentCancelled.SendsCarryMessage →
      ∃ ss, (SenderSetComputer.new listenSetup trivialTopology listenIntentCancelled).bind
        SenderSetComputer.getSenderSet = .ok ss) :=
  ⟨by decide,
    nonListener_single_action listenSetup trivialTopology listenIntentCancelled
      (by decide) ANLFilterNaive⟩

/-- C4: under `NAIVE` semantics the single successor assigns to every component
with a `LISTEN` intention `Silence` if no component of the sender set can reach
it, `Received{t, m}` if exactly one component of the sender set can reach it
and that component is `Sent{t, m}`, and `Collision` (tic 0, no message) if two
or more components of the sender set can reach it, whatever they send. The
sender set is any that `getSenderSet` returns, and it returns one whenever all
send intentions carry a message. -/
theorem naive_listener_outcome (setup : NetworkSetup) (topo : NetworkTopology)
    (intent : IntentionAssignment) (hi : IntentionAssignment.Total setup intent) :
    (∀ ss, (SenderSetComputer.new setup topo intent).bind SenderSetComputer.getSenderSet = .ok ss →
      ∃ s, ANL.transition ⟨setup, ANLSemantics.NAIVE⟩ topo intent = .ok [s] ∧
        ∀ (c : Component) (tr : ComponentIntention),
          TraitMapping.getTraitFor setup intent c = .ok tr → tr.getType = IntentionType.LISTEN →
          (reachableSenders setup topo ss c = [] →
            TraitMapping.getTraitFor setup s c = .ok ⟨ActionType.SILENCE, 0, none⟩) ∧
          (∀ (p : Component) (t : Nat) (m : Option Message),
            reachableSenders setup topo ss c = [p] →
            TraitMapping.getTraitFor setup ss p = .ok ⟨ActionType.SENT, t, m⟩ →
            TraitMapping.getTraitFor setup s c = .ok ⟨ActionType.RECEIVED, t, m⟩) ∧
          (2 ≤ (reachableSenders setup topo ss c).length →
            TraitMapping.getTraitFor setup s c = .ok ⟨ActionType.COLLISION, 0, none⟩)) ∧
    (intent.SendsCarryMessage →
      ∃ ss, (SenderSetComputer.new setup topo intent).bind SenderSetComputer.getSenderSet
        = .ok ss) := by
  refine ⟨fun ss hss => ?_, fun hm => ⟨_, getSenderSet_eq topo hi hm⟩⟩
  obtain ⟨hm, rfl⟩ := (getSenderSet_ok_iff topo hi ss).1 hss
  obtain ⟨s, hs, hmem⟩ := naive_transition_single topo hi hm
  refine ⟨s, hs, ?_⟩
  intro c tr hget hl
  obtain ⟨hc, h1⟩ := (Total.getTraitFor_eq_ok hi c tr).1 hget
  obtain ⟨x, hx1, hx2⟩ := transition_state_action topo hi ANLSemantics.NAIVE s hmem c hc
  simp only [filteredActions] at hx2
  rw [naiveActions_listen topo h1 hl] at hx2
  refine ⟨?_, ?_, ?_⟩
  · intro hrs
    rw [hrs] at hx2
    rw [hx1, List.mem_singleton.1 hx2]
    rfl
  · intro p t m hrs hp
    rw [hrs] at hx2
    rw [hx1, List.mem_singleton.1 hx2]
    simp only [receivedFrom, hp, ComponentTrait.getTic, ComponentTrait.getMessage]
  · intro hrs
    cases h : reachableSenders setup topo (senderSet setup topo intent) c with
    | nil => rw [h] at hrs; simp at hrs
    | cons p ps =>
      cases ps with
      | nil => rw [h] at hrs; simp at hrs
      | cons q qs =>
        rw [h] at hx2
        rw [hx1, List.mem_singleton.1 hx2]
        rfl

/-- The instance of C4 at one listener, one sender and one idle component. -/
theorem naive_listener_outcome_witness :
    IntentionAssignment.Total listenSetup listenIntentOne ∧
    (∀ ss, (SenderSetComputer.new listenSetup trivialTopology listenIntentOne).bind
        SenderSetComputer.getSenderSet = .ok ss →
      ∃ s, ANL.transition ⟨listenSetup, ANLSemantics.NAIVE⟩ trivialTopology listenIntentOne
          = .ok [s] ∧
        ∀ (c : Component) (tr : ComponentIntention),
          TraitMapping.getTraitFor listenSetup listenIntentOne c = .ok tr →
          tr.getType = IntentionType.LISTEN →
          (reachableSenders listenSetup trivialTopology ss c = [] →
            TraitMapping.getTraitFor listenSetup s c = .ok ⟨ActionType.SILENCE, 0, none⟩) ∧
          (∀ (p : Component) (t : Nat) (m : Option Message),
            reachableSenders listenSetup trivialTopology ss c = [p] →
            TraitMapping.getTraitFor listenSetup ss p = .ok ⟨ActionType.SENT, t, m⟩ →
            TraitMapping.getTraitFor listenSetup s c = .ok ⟨ActionType.RECEIVED, t, m⟩) ∧
          (2 ≤ (reachableSenders listenSetup trivialTopology ss c).length →
            TraitMapping.getTraitFor listenSetup s c = .ok ⟨ActionType.COLLISION, 0, none⟩)) ∧
    (listenIntentOne.SendsCarryMessage →
      ∃ ss, (SenderSetComputer.new listenSetup trivialTopology listenIntentOne).bind
        SenderSetComputer.getSenderSet = .ok ss) :=
  ⟨by decide, naive_listener_outcome listenSetup trivialTopology listenIntentOne (by decide)⟩

/-! ## Canonical semantics: the possible actions of a listener -/

theorem receivedFrom_eq (setup : NetworkSetup) (ss : SenderSetRepresentation) (p : Component) :
    receivedFrom setup ss p = receivedOf (senderPayload setup ss p) := by
  unfold receivedFrom senderPayload receivedOf
  cases TraitMapping.getTraitFor setup ss p <;> rfl

theorem receivedOf_injective : Function.Injective receivedOf := by
  rintro ⟨t, m⟩ ⟨t', m'⟩ h
  simp only [receivedOf, ComponentTrait.mk.injEq, true_and] at h
  simp [h.1, h.2]

theorem listen_toFinset (setup : NetworkSetup) (ss : SenderSetRepresentation)
    (p : Component) (ps : List Component) :
    (receivedFrom setup ss p :: collisionAction :: ps.map (receivedFrom setup ss)).toFinset =
      insert collisionAction (((p :: ps).map (senderPayload setup ss)).toFinset.image receivedOf) := by
  ext x
  simp only [List.toFinset_cons, Finset.mem_insert, List.mem_toFinset, List.mem_map,
    Finset.mem_image, List.mem_cons, exists_eq_or_imp, receivedFrom_eq]
  constructor
  · rintro (h | h | ⟨q, hq, rfl⟩)
    · exact Or.inr ⟨_, Or.inl rfl, h.symm⟩
    · exact Or.inl h
    · exact Or.inr ⟨_, Or.inr ⟨q, hq, rfl⟩, rfl⟩
  · rintro (h | ⟨y, h | ⟨q, hq, rfl⟩, rfl⟩)
    · exact Or.inr (Or.inl h)
    · exact Or.inl (by rw [h])
    · exact Or.inr (Or.inr ⟨q, hq, rfl⟩)

theorem listen_unique_length (setup : NetworkSetup) (ss : SenderSetRepresentation)
    (p : Component) (ps : List Component) :
    (uniqueActions
      (receivedFrom setup ss p :: collisionAction :: ps.map (receivedFrom setup ss))).length =
      1 + ((p :: ps).map (senderPayload setup ss)).toFinset.card := by
  rw [uniqueActions_length, listen_toFinset, Finset.card_insert_of_not_mem,
    Finset.card_image_of_injective _ receivedOf_injective, Nat.add_comm]
  simp [collisionAction, receivedOf]

theorem mem_listen_unique (setup : NetworkSetup) (ss : SenderSetRepresentation)
    (p : Component) (ps : List Component) (x : ComponentAction) :
    x ∈ uniqueActions
        (receivedFrom setup ss p :: collisionAction :: ps.map (receivedFrom setup ss)) ↔
      x = collisionAction ∨ ∃ q ∈ p :: ps, x = receivedFrom setup ss q := by
  rw [mem_uniqueActions]
  simp only [List.mem_cons, List.mem_map, exists_eq_or_imp]
  constructor
  · rintro (h | h | ⟨q, hq, rfl⟩)
    · exact Or.inr (Or.inl h)
    · exact Or.inl h
    · exact Or.inr (Or.inr ⟨q, hq, rfl⟩)
  · rintro (h | h | ⟨q, hq, rfl⟩)
    · exact Or.inr (Or.inl h)
    · exact Or.inl h
    · exact Or.inr (Or.inr ⟨q, hq, rfl⟩)

/-- C5, counterexample: in `listenToOne` the listener has one reachable sender
(`k = 1`), and its possible actions under canonical semantics are the two
actions `Received{2, 100}` and `Collision`, not `2 + k = 3` actions. -/
theorem canonical_listener_count_counterexample :
    (SenderSetComputer.new listenToOneSetup trivialTopology listenToOneIntent).bind
        SenderSetComputer.getSenderSet = .ok listenToOneSenderSet ∧
    (reachableSenders listenToOneSetup trivialTopology listenToOneSenderSet 1).length = 1 ∧
    (ANLComputer.getPossibleActions
        ⟨listenToOneSetup, trivialTopology, listenToOneIntent, ANLFilterNothing,
          listenToOneSenderSet⟩ 1).bind (ANLFilterNothing listenToOneSetup)
      = .ok [⟨ActionType.RECEIVED, 2, some 100⟩, ⟨ActionType.COLLISION, 0, none⟩] ∧
    ([⟨ActionType.RECEIVED, 2, some 100⟩, ⟨ActionType.COLLISION, 0, none⟩] :
      List ComponentAction).length ≠ 2 + 1 :=
  ⟨rfl, rfl, rfl, by decide⟩

/-- C5, amended: for a component with a `LISTEN` intention that has `k`
components of the sender set able to reach it, `getPossibleActions` returns
exactly `1 + k` actions when `k >= 1` and exactly one action when `k = 0`; of
these the canonical filter `ANLFilterNothing` keeps one when `k = 0` and, when
`k >= 1`, one plus the number of distinct (tic, message) pairs of the reachable
senders, which is at most `1 + k` and is `1 + k` when the pairs are pairwise
distinct. The sender set is any that `getSenderSet` returns, and it returns one
whenever all send intentions carry a message. -/
theorem canonical_listener_count (setup : NetworkSetup) (topo : NetworkTopology)
    (intent : IntentionAssignment) (hi : IntentionAssignment.Total setup intent) :
    (∀ ss, (SenderSetComputer.new setup topo intent).bind SenderSetComputer.getSenderSet = .ok ss →
      ∀ (c : Component) (tr : ComponentIntention),
        TraitMapping.getTraitFor setup intent c = .ok tr → tr.getType = IntentionType.LISTEN →
        ∃ acts filtered,
          ANLComputer.getPossibleActions ⟨setup, topo, intent, ANLFilterNothing, ss⟩ c = .ok acts ∧
          ANLFilterNothing setup acts = .ok filtered ∧
          ((reachableSenders setup topo ss c).length = 0 →
            acts.length = 1 ∧ filtered.length = 1) ∧
          (1 ≤ (reachableSenders setup topo ss c).length →
            acts.length = 1 + (reachableSenders setup topo ss c).length ∧
            filtered.length =
              1 + ((reachableSenders setup topo ss c).map (senderPayload setup ss)).toFinset.card ∧
            filtered.length ≤ 1 + (reachableSenders setup topo ss c).length ∧
            (((reachableSenders setup topo ss c).map (senderPayload setup ss)).Nodup →
              filtered.length = 1 + (reachableSenders setup topo ss c).length))) ∧
    (intent.SendsCarryMessage →
      ∃ ss, (SenderSetComputer.new setup topo intent).bind SenderSetComputer.getSenderSet
        = .ok ss) := by
  refine ⟨fun ss hss => ?_, fun hm => ⟨_, getSenderSet_eq topo hi hm⟩⟩
  obtain ⟨hm, rfl⟩ := (getSenderSet_ok_iff topo hi ss).1 hss
  intro c tr hget hl
  obtain ⟨hc, h1⟩ := (Total.getTraitFor_eq_ok hi c tr).1 hget
  refine ⟨_, _, getPossibleActions_eq topo hi ANLFilterNothing c hc, ANLFilterNothing_eq _ _, ?_⟩
  rw [possibleActions_listen topo h1 hl]
  cases hrs : reachableSenders setup topo (senderSet setup topo intent) c with
  | nil => simp [uniqueActions, alreadyAdded]
  | cons p ps =>
    refine ⟨by simp, fun _ => ⟨by simp; omega, listen_unique_length _ _ p ps, ?_, ?_⟩⟩
    · rw [listen_unique_length]
      have := List.toFinset_card_le ((p :: ps).map (senderPayload setup (senderSet setup topo intent)))
      simp only [List.length_map] at this
      omega
    · intro hnd
      rw [listen_unique_length, List.toFinset_card_of_nodup hnd]
      simp

/-- The instance of the amended C5 at one listener and two senders of the same
message. -/
theorem canonical_listener_count_witness :
    IntentionAssignment.Total listenSetup listenIntentIdentical ∧
    (∀ ss, (SenderSetComputer.new listenSetup trivialTopology listenIntentIdentical).bind
        SenderSetComputer.getSenderSet = .ok ss →
      ∀ (c : Component) (tr : ComponentIntention),
        TraitMapping.getTraitFor listenSetup listenIntentIdentical c = .ok tr →
        tr.getType = IntentionType.LISTEN →
        ∃ acts filtered,
          ANLComputer.getPossibleActions
            ⟨listenSetup, trivialTopology, listenIntentIdentical, ANLFilterNothing, ss⟩ c
              = .ok acts ∧
          ANLFilterNothing listenSetup acts = .ok filtered ∧
          ((reachableSenders listenSetup trivialTopology ss c).length = 0 →
            acts.length = 1 ∧ filtered.length = 1) ∧
          (1 ≤ (reachableSenders listenSetup trivialTopology ss c).length →
            acts.length = 1 + (reachableSenders listenSetup trivialTopology ss c).length ∧
            filtered.length =
              1 + ((reachableSenders listenSetup trivialTopology ss c).map
                (senderPayload listenSetup ss)).toFinset.card ∧
            filtered.length ≤ 1 + (reachableSenders listenSetup trivialTopology ss c).length ∧
            (((reachableSenders listenSetup trivialTopology ss c).map
                (senderPayload listenSetup ss)).Nodup →
              filtered.length =
                1 + (reachableSenders listenSetup trivialTopology ss c).length))) ∧
    (listenIntentIdentical.SendsCarryMessage →
      ∃ ss, (SenderSetComputer.new listenSetup trivialTopology listenIntentIdentical).bind
        SenderSetComputer.getSenderSet = .ok ss) :=
  ⟨by decide,
    canonical_listener_count listenSetup trivialTopology listenIntentIdentical (by decide)⟩

theorem canonical_listen_filtered {setup : NetworkSetup} (topo : NetworkTopology)
    {intent : IntentionAssignment} {c : Component} {tr : ComponentIntention}
    (h1 : intent.mMapping.lookup c = some tr) (h2 : tr.mType = IntentionType.LISTEN) :
    (reachableSenders setup topo (senderSet setup topo intent) c ≠ [] →
      ∀ x, x ∈ filteredActions ANLSemantics.CANONICAL setup topo intent c ↔
        x = collisionAction ∨
          ∃ q ∈ reachableSenders setup topo (senderSet setup topo intent) c,
            x = receivedFrom setup (senderSet setup topo intent) q) ∧
    (reachableSenders setup topo (senderSet setup topo intent) c = [] →
      filteredActions ANLSemantics.CANONICAL setup topo intent c = [silenceAction]) := by
  simp only [filteredActions]
  rw [possibleActions_listen topo h1 h2]
  cases hrs : reachableSenders setup topo (senderSet setup topo intent) c with
  | nil => simp [uniqueActions, alreadyAdded]
  | cons p ps =>
    refine ⟨fun _ x => mem_listen_unique _ _ p ps x, fun h => by cases h⟩

theorem received_of_sent (setup : NetworkSetup) (ss : SenderSetRepresentation) (p : Component)
    (t : Nat) (m : Option Message)
    (h : TraitMapping.getTraitFor setup ss p = .ok ⟨ActionType.SENT, t, m⟩) :
    receivedFrom setup ss p = ⟨ActionType.RECEIVED, t, m⟩ := by
  simp [receivedFrom, h, ComponentTrait.getTic, ComponentTrait.getMessage]

/-- C6: under canonical semantics the transition returns successor states, and
for every component with a `LISTEN` intention that is reachable from at least
one component of the sender set the possible actions are exactly `Collision`
and the `Received` actions of the reachable senders, and every successor state
assigns one of them, never `Silence`; with no reachable sender the only
possible action is `Silence`. The sender set is any that `getSenderSet`
returns, and it returns one whenever all send intentions carry a message. -/
theorem canonical_listener_actions (setup : NetworkSetup) (topo : NetworkTopology)
    (intent : IntentionAssignment) (hi : IntentionAssignment.Total setup intent) :
    (∀ ss, (SenderSetComputer.new setup topo intent).bind SenderSetComputer.getSenderSet = .ok ss →
      ∃ states,
        ANL.transition ⟨setup, ANLSemantics.CANONICAL⟩ topo intent = .ok states ∧ states ≠ [] ∧
        ∀ (c : Component) (tr : ComponentIntention),
          TraitMapping.getTraitFor setup intent c = .ok tr → tr.getType = IntentionType.LISTEN →
          ∃ filtered,
            (ANLComputer.getPossibleActions ⟨setup, topo, intent, ANLFilterNothing, ss⟩ c).bind
              (ANLFilterNothing setup) = .ok filtered ∧
            (reachableSenders setup topo ss c ≠ [] →
              (∀ x, x ∈ filtered ↔
                x = ⟨ActionType.COLLISION, 0, none⟩ ∨
                  ∃ p ∈ reachableSenders setup topo ss c, ∃ t m,
                    TraitMapping.getTraitFor setup ss p = .ok ⟨ActionType.SENT, t, m⟩ ∧
                      x = ⟨ActionType.RECEIVED, t, m⟩) ∧
              ∀ s ∈ states, ∃ x ∈ filtered,
                TraitMapping.getTraitFor setup s c = .ok x ∧ x.getType ≠ ActionType.SILENCE) ∧
            (reachableSenders setup topo ss c = [] →
              filtered = [⟨ActionType.SILENCE, 0, none⟩])) ∧
    (intent.SendsCarryMessage →
      ∃ ss, (SenderSetComputer.new setup topo intent).bind SenderSetComputer.getSenderSet
        = .ok ss) := by
  refine ⟨fun ss hss => ?_, fun hm => ⟨_, getSenderSet_eq topo hi hm⟩⟩
  obtain ⟨hm, rfl⟩ := (getSenderSet_ok_iff topo hi ss).1 hss
  refine ⟨_, ANL_transition_eq topo hi hm ANLSemantics.CANONICAL,
    crossProduct_ne_nil topo hi ANLSemantics.CANONICAL, ?_⟩
  intro c tr hget hl
  obtain ⟨hc, h1⟩ := (Total.getTraitFor_eq_ok hi c tr).1 hget
  obtain ⟨hA, hB⟩ := @canonical_listen_filtered setup topo _ _ _ h1 hl
  refine ⟨filteredActions ANLSemantics.CANONICAL setup topo intent c, ?_, ?_, hB⟩
  · rw [getPossibleActions_eq topo hi ANLFilterNothing c hc, bind_ok, ANLFilterNothing_eq]
    rfl
  · intro hne
    have hchar : ∀ x, x ∈ filteredActions ANLSemantics.CANONICAL setup topo intent c ↔
        x = ⟨ActionType.COLLISION, 0, none⟩ ∨
          ∃ p ∈ reachableSenders setup topo (senderSet setup topo intent) c, ∃ t m,
            TraitMapping.getTraitFor setup (senderSet setup topo intent) p
                = .ok ⟨ActionType.SENT, t, m⟩ ∧
              x = ⟨ActionType.RECEIVED, t, m⟩ := by
      intro x
      rw [hA hne x]
      constructor
      · rintro (h | ⟨q, hq, rfl⟩)
        · exact Or.inl h
        · obtain ⟨t, m, h3, h4⟩ := isSender_sent setup _ q
            ((mem_reachableSenders setup topo _ c q).1 hq).2.2
          exact Or.inr ⟨q, hq, t, m, h3, h4⟩
      · rintro (h | ⟨q, hq, t, m, h3, rfl⟩)
        · exact Or.inl h
        · exact Or.inr ⟨q, hq, (received_of_sent setup _ q t m h3).symm⟩
    refine ⟨hchar, ?_⟩
    intro s hs
    obtain ⟨x, hx1, hx2⟩ := transition_state_action topo hi ANLSemantics.CANONICAL s hs c hc
    refine ⟨x, hx2, hx1, ?_⟩
    rcases (hchar x).1 hx2 with h | ⟨_, _, _, _, _, h⟩ <;> rw [h] <;>
      simp [ComponentTrait.getType]

/-- The instance of C6 at one listener, one sender and one idle component. -/
theorem canonical_listener_actions_witness :
    IntentionAssignment.Total listenSetup listenIntentOne ∧
    (∀ ss, (SenderSetComputer.new listenSetup trivialTopology listenIntentOne).bind
        SenderSetComputer.getSenderSet = .ok ss →
      ∃ states,
        ANL.transition ⟨listenSetup, ANLSemantics.CANONICAL⟩ trivialTopology listenIntentOne
          = .ok states ∧ states ≠ [] ∧
        ∀ (c : Component) (tr : ComponentIntention),
          TraitMapping.getTraitFor listenSetup listenIntentOne c = .ok tr →
          tr.getType = IntentionType.LISTEN →
          ∃ filtered,
            (ANLComputer.getPossibleActions
              ⟨listenSetup, trivialTopology, listenIntentOne, ANLFilterNothing, ss⟩ c).bind
              (ANLFilterNothing listenSetup) = .ok filtered ∧
            (reachableSenders listenSetup trivialTopology ss c ≠ [] →
              (∀ x, x ∈ filtered ↔
                x = ⟨ActionType.COLLISION, 0, none⟩ ∨
                  ∃ p ∈ reachableSenders listenSetup trivialTopology ss c, ∃ t m,
                    TraitMapping.getTraitFor listenSetup ss p = .ok ⟨ActionType.SENT, t, m⟩ ∧
                      x = ⟨ActionType.RECEIVED, t, m⟩) ∧
              ∀ s ∈ states, ∃ x ∈ filtered,
                TraitMapping.getTraitFor listenSetup s c = .ok x ∧
                  x.getType ≠ ActionType.SILENCE) ∧
            (reachableSenders listenSetup trivialTopology ss c = [] →
              filtered = [⟨ActionType.SILENCE, 0, none⟩])) ∧
    (listenIntentOne.SendsCarryMessage →
      ∃ ss, (SenderSetComputer.new listenSetup trivialTopology listenIntentOne).bind
        SenderSetComputer.getSenderSet = .ok ss) :=
  ⟨by decide, canonical_listener_actions listenSetup trivialTopology listenIntentOne (by decide)⟩

theorem prod_map_single {cs : List Component} (hnd : cs.Nodup) (f : Component → Nat)
    {c : Component} (hc : c ∈ cs) (h1 : ∀ x ∈ cs, x ≠ c → f x = 1) :
    (cs.map f).prod = f c := by
  induction cs with
  | nil => cases hc
  | cons x xs ih =>
    rw [List.map_cons, List.prod_cons]
    rw [List.nodup_cons] at hnd
    rcases List.mem_cons.1 hc with rfl | hc
    · have : (xs.map f).prod = 1 := by
        apply List.prod_eq_one
        intro n hn
        obtain ⟨y, hy, rfl⟩ := List.mem_map.1 hn
        exact h1 y (List.mem_cons_of_mem _ hy) (fun h => hnd.1 (h ▸ hy))
      rw [this, Nat.mul_one]
    · have hx : x ≠ c := fun h => hnd.1 (h ▸ hc)
      rw [h1 x (List.mem_cons_self _ _) hx, Nat.one_mul]
      exact ih hnd.2 hc (fun y hy => h1 y (List.mem_cons_of_mem _ hy))

/-- C7: under canonical semantics, for a listener with at least one reachable
sender and all other components non-listening, the number of successor states
is one (`Collision`) plus the number of distinct (tic, message handle) pairs
among the reachable senders. The sender set is any that `getSenderSet`
returns, and it returns one whenever all send intentions carry a message. -/
theorem canonical_successor_count (setup : NetworkSetup) (topo : NetworkTopology)
    (intent : IntentionAssignment) (hi : IntentionAssignment.Total setup intent)
    (c : Component) (tr : ComponentIntention)
    (hget : TraitMapping.getTraitFor setup intent c = .ok tr)
    (hl : tr.getType = IntentionType.LISTEN)
    (hothers : ∀ c' tr', c' ≠ c → TraitMapping.getTraitFor setup intent c' = .ok tr' →
      tr'.getType ≠ IntentionType.LISTEN) :
    (∀ ss, (SenderSetComputer.new setup topo intent).bind SenderSetComputer.getSenderSet = .ok ss →
      reachableSenders setup topo ss c ≠ [] →
      ∃ states,
        ANL.transition ⟨setup, ANLSemantics.CANONICAL⟩ topo intent = .ok states ∧
        states.length =
          1 + ((reachableSenders setup topo ss c).map (senderPayload setup ss)).toFinset.card) ∧
    (intent.SendsCarryMessage →
      ∃ ss, (SenderSetComputer.new setup topo intent).bind SenderSetComputer.getSenderSet
        = .ok ss) := by
  refine ⟨fun ss hss => ?_, fun hm => ⟨_, getSenderSet_eq topo hi hm⟩⟩
  obtain ⟨hm, rfl⟩ := (getSenderSet_ok_iff topo hi ss).1 hss
  intro hne
  refine ⟨_, ANL_transition_eq topo hi hm ANLSemantics.CANONICAL, ?_⟩
  obtain ⟨hc, h1⟩ := (Total.getTraitFor_eq_ok hi c tr).1 hget
  rw [List.length_map, length_crossProduct, List.length_singleton, Nat.one_mul,
    prod_map_single (Total.wellFormed hi).2 _ hc]
  · simp only [filteredActions]
    rw [possibleActions_listen topo h1 hl]
    cases hrs : reachableSenders setup topo (senderSet setup topo intent) c with
    | nil => exact absurd hrs hne
    | cons p ps => exact listen_unique_length _ _ p ps
  · intro x hx hxc
    obtain ⟨tr', h3, -⟩ := Total.lookup hi hx
    have h4 := hothers x tr' hxc ((Total.getTraitFor_eq_ok hi x tr').2 ⟨hx, h3⟩)
    rw [filteredActions_nonListen topo h3 h4, possibleActions_nonListen topo h3 h4]
    rfl

/-- The instance of C7 at one listener and two senders of the same message at
the same tic. -/
theorem canonical_successor_count_witness :
    IntentionAssignment.Total listenSetup listenIntentIdentical ∧
    (∀ ss, (SenderSetComputer.new listenSetup trivialTopology listenIntentIdentical).bind
        SenderSetComputer.getSenderSet = .ok ss →
      reachableSenders listenSetup trivialTopology ss 1 ≠ [] →
      ∃ states,
        ANL.transition ⟨listenSetup, ANLSemantics.CANONICAL⟩ trivialTopology
          listenIntentIdentical = .ok states ∧
        states.length =
          1 + ((reachableSenders listenSetup trivialTopology ss 1).map
            (senderPayload listenSetup ss)).toFinset.card) ∧
    (listenIntentIdentical.SendsCarryMessage →
      ∃ ss, (SenderSetComputer.new listenSetup trivialTopology listenIntentIdentical).bind
        SenderSetComputer.getSenderSet = .ok ss) :=
  ⟨by decide,
    canonical_successor_count listenSetup trivialTopology listenIntentIdentical
      (by decide) 1 ⟨IntentionType.LISTEN, 0, none⟩ rfl rfl
      (by
        intro c' tr' hne hget
        have hi : IntentionAssignment.Total listenSetup listenIntentIdentical := by decide
        obtain ⟨hc, hlk⟩ := (Total.getTraitFor_eq_ok hi c' tr').1 hget
        have hc' : c' = 1 ∨ c' = 2 ∨ c' = 3 := by simpa [listenSetup] using hc
        rcases hc' with rfl | rfl | rfl
        · exact absurd rfl hne
        · cases hlk; decide
        · cases hlk; decide)⟩

/-- C8: every network state that `ANL::transition` returns under `NAIVE`
semantics is also returned under `CANONICAL` semantics for the same setup,
topology and total intention assignment: the canonical call returns too, and
one of its states holds, for every registered component, the same action
(type, tic and message handle). -/
theorem naive_states_in_canonical (setup : NetworkSetup) (topo : NetworkTopology)
    (intent : IntentionAssignment) (hi : IntentionAssignment.Total setup intent)
    (states : List NetworkState)
    (h : ANL.transition ⟨setup, ANLSemantics.NAIVE⟩ topo intent = .ok states) :
    ∃ states', ANL.transition ⟨setup, ANLSemantics.CANONICAL⟩ topo intent = .ok states' ∧
      ∀ s ∈ states, ∃ s' ∈ states', ∀ c ∈ setup.mComponents,
        ∃ x, TraitMapping.getTraitFor setup s c = .ok x ∧
          TraitMapping.getTraitFor setup s' c = .ok x := by
  obtain ⟨ss, hss⟩ := transition_ok_getSenderSet _ states h
  have hm := getSenderSet_ok_sendsCarryMessage topo hi ss hss
  rw [ANL_transition_eq topo hi hm ANLSemantics.NAIVE] at h
  simp only [Except.ok.injEq] at h
  subst h
  refine ⟨_, ANL_transition_eq topo hi hm ANLSemantics.CANONICAL, ?_⟩
  intro s hs
  obtain ⟨l, hl, rfl⟩ := List.mem_map.1 hs
  have hl2 : l ∈ crossProduct (filteredActions ANLSemantics.CANONICAL setup topo intent) [[]]
      setup.mComponents := by
    obtain ⟨l0, h0, ext, rfl, h2, h3⟩ := (mem_crossProduct _ _ _ _).1 hl
    refine (mem_crossProduct _ _ _ _).2 ⟨l0, h0, ext, rfl, h2, ?_⟩
    intro x hx
    have hxc : x.1 ∈ setup.mComponents := by
      rw [← h2]; exact List.mem_map.2 ⟨x, hx, rfl⟩
    exact naive_subset_canonical_actions topo hi hxc _ (h3 x hx)
  refine ⟨TraitMapping.ofList setup l, List.mem_map.2 ⟨l, hl2, rfl⟩, ?_⟩
  intro c hc
  obtain ⟨x, hx, -⟩ := (state_getTraitFor (Total.components_ne_nil hi) _ l hl c).1 hc
  exact ⟨x, hx, hx⟩

/-- The instance of C8 at one listener and two senders of the same message,
where the naive successor holds a collision for the listener. -/
theorem naive_states_in_canonical_witness :
    IntentionAssignment.Total listenSetup listenIntentIdentical ∧
    ANL.transition ⟨listenSetup, ANLSemantics.NAIVE⟩ trivialTopology listenIntentIdentical
      = .ok [⟨[(1, ⟨ActionType.COLLISION, 0, none⟩), (2, ⟨ActionType.SENT, 2, some 100⟩),
          (3, ⟨ActionType.SENT, 2, some 100⟩)], false⟩] ∧
    ∃ states',
      ANL.transition ⟨listenSetup, ANLSemantics.CANONICAL⟩ trivialTopology listenIntentIdentical
        = .ok states' ∧
      ∀ s ∈ [(⟨[(1, ⟨ActionType.COLLISION, 0, none⟩), (2, ⟨ActionType.SENT, 2, some 100⟩),
          (3, ⟨ActionType.SENT, 2, some 100⟩)], false⟩ : NetworkState)],
        ∃ s' ∈ states', ∀ c ∈ listenSetup.mComponents,
          ∃ x, TraitMapping.getTraitFor listenSetup s c = .ok x ∧
            TraitMapping.getTraitFor listenSetup s' c = .ok x :=
  ⟨by decide, rfl,
    naive_states_in_canonical listenSetup trivialTopology listenIntentIdentical (by decide) _ rfl⟩

/-! ## The sender-set solver: forced and simultaneous senders -/

/-- C9: for a total intention assignment and any topology, a component whose
intention is `SEND_FORCE{t, m}` with a message `m` is mapped to `Sent{t, m}` by
every sender set that `getSenderSet` returns, whatever the other components
intend; and `getSenderSet` returns one whenever all send intentions carry a
message. -/
theorem getSenderSet_force_sent (setup : NetworkSetup) (topo : NetworkTopology)
    (intent : IntentionAssignment) (hi : IntentionAssignment.Total setup intent)
    (c : Component) (t : Nat) (m : Message)
    (hc : TraitMapping.getTraitFor setup intent c = .ok ⟨IntentionType.SEND_FORCE, t, some m⟩) :
    (∀ ss, (SenderSetComputer.new setup topo intent).bind SenderSetComputer.getSenderSet = .ok ss →
      TraitMapping.getTraitFor setup ss c = .ok ⟨ActionType.SENT, t, some m⟩) ∧
    (intent.SendsCarryMessage →
      ∃ ss, (SenderSetComputer.new setup topo intent).bind SenderSetComputer.getSenderSet
        = .ok ss) := by
  refine ⟨fun ss hss => ?_, fun hm => ⟨_, getSenderSet_eq topo hi hm⟩⟩
  have hm := getSenderSet_ok_sendsCarryMessage topo hi ss hss
  rw [getSenderSet_eq topo hi hm] at hss
  cases hss
  exact (senderSet_characterisation topo hi c t (some m)).2
    ⟨IntentionType.SEND_FORCE, hc, Or.inr rfl, Or.inl rfl⟩

/-- The instance of C9 at a forced sender of tic 1 beside a carrier-sensing
sender of tic 5. -/
theorem getSenderSet_force_sent_witness :
    IntentionAssignment.Total exampleSetup exampleIntent15Force ∧
    (∀ ss, (SenderSetComputer.new exampleSetup trivialTopology exampleIntent15Force).bind
        SenderSetComputer.getSenderSet = .ok ss →
      TraitMapping.getTraitFor exampleSetup ss 2 = .ok ⟨ActionType.SENT, 1, some 101⟩) ∧
    (exampleIntent15Force.SendsCarryMessage →
      ∃ ss, (SenderSetComputer.new exampleSetup trivialTopology exampleIntent15Force).bind
        SenderSetComputer.getSenderSet = .ok ss) :=
  ⟨by decide,
    getSenderSet_force_sent exampleSetup trivialTopology exampleIntent15Force
      (by decide) 2 1 101 rfl⟩

/-- C10: if two components intend `SEND` (carrier sensing) at the same tic `t`
and every registered component that can reach either of them is one of the two,
then every sender set that `getSenderSet` returns maps both to `Sent` at tic
`t` with their own messages; and `getSenderSet` returns one whenever all send
intentions carry a message. -/
theorem getSenderSet_same_tic_both_sent (setup : NetworkSetup) (topo : NetworkTopology)
    (intent : IntentionAssignment) (hi : IntentionAssignment.Total setup intent)
    (a b : Component) (t : Nat) (ma mb : Option Message)
    (ha : TraitMapping.getTraitFor setup intent a = .ok ⟨IntentionType.SEND, t, ma⟩)
    (hb : TraitMapping.getTraitFor setup intent b = .ok ⟨IntentionType.SEND, t, mb⟩)
    (honly : ∀ c ∈ setup.mComponents,
      topo.canReach c a = true ∨ topo.canReach c b = true → c = a ∨ c = b) :
    (∀ ss, (SenderSetComputer.new setup topo intent).bind SenderSetComputer.getSenderSet = .ok ss →
      TraitMapping.getTraitFor setup ss a = .ok ⟨ActionType.SENT, t, ma⟩ ∧
      TraitMapping.getTraitFor setup ss b = .ok ⟨ActionType.SENT, t, mb⟩) ∧
    (intent.SendsCarryMessage →
      ∃ ss, (SenderSetComputer.new setup topo intent).bind SenderSetComputer.getSenderSet
        = .ok ss) := by
  have key : ∀ x : Component, x = a ∨ x = b →
      ¬ ∃ c' t' m',
        TraitMapping.getTraitFor setup (senderSet setup topo intent) c'
            = .ok ⟨ActionType.SENT, t', m'⟩ ∧
          t' < t ∧ topo.canReach c' x = true := by
    rintro x hx ⟨c', t', m', h1, h2, h3⟩
    obtain ⟨ty, h4, -, -⟩ := (senderSet_characterisation topo hi c' t' m').1 h1
    have hc' : c' ∈ setup.mComponents := ((Total.getTraitFor_eq_ok hi _ _).1 h4).1
    have h5 : c' = a ∨ c' = b := by
      rcases hx with hx | hx
      · exact honly c' hc' (Or.inl (hx ▸ h3))
      · exact honly c' hc' (Or.inr (hx ▸ h3))
    rcases h5 with h5 | h5
    · rw [h5, ha] at h4
      simp only [Except.ok.injEq, ComponentTrait.mk.injEq] at h4
      omega
    · rw [h5, hb] at h4
      simp only [Except.ok.injEq, ComponentTrait.mk.injEq] at h4
      omega
  refine ⟨fun ss hss => ?_, fun hm => ⟨_, getSenderSet_eq topo hi hm⟩⟩
  have hm := getSenderSet_ok_sendsCarryMessage topo hi ss hss
  rw [getSenderSet_eq topo hi hm] at hss
  cases hss
  exact ⟨(senderSet_characterisation topo hi a t ma).2
      ⟨IntentionType.SEND, ha, Or.inl rfl, Or.inr (key a (Or.inl rfl))⟩,
    (senderSet_characterisation topo hi b t mb).2
      ⟨IntentionType.SEND, hb, Or.inl rfl, Or.inr (key b (Or.inr rfl))⟩⟩

/-- The instance of C10 at two carrier-sensing senders of tic 7 in the trivial
topology. -/
theorem getSenderSet_same_tic_both_sent_witness :
    IntentionAssignment.Total exampleSetup exampleIntent77 ∧
    (∀ c ∈ exampleSetup.mComponents,
      trivialTopology.canReach c 1 = true ∨ trivialTopology.canReach c 2 = true → c = 1 ∨ c = 2) ∧
    (∀ ss, (SenderSetComputer.new exampleSetup trivialTopology exampleIntent77).bind
        SenderSetComputer.getSenderSet = .ok ss →
      TraitMapping.getTraitFor exampleSetup ss 1 = .ok ⟨ActionType.SENT, 7, some 100⟩ ∧
      TraitMapping.getTraitFor exampleSetup ss 2 = .ok ⟨ActionType.SENT, 7, some 101⟩) ∧
    (exampleIntent77.SendsCarryMessage →
      ∃ ss, (SenderSetComputer.new exampleSetup trivialTopology exampleIntent77).bind
        SenderSetComputer.getSenderSet = .ok ss) :=
  ⟨by decide, by decide,
    getSenderSet_same_tic_both_sent exampleSetup trivialTopology exampleIntent77
      (by decide) 1 2 7 (some 100) (some 101) rfl rfl (by decide)⟩

/-! ## The invariant of trait mappings -/

theorem TraitMapping.inv_new {T : Type} (setup : NetworkSetup) :
    (TraitMapping.new : TraitMapping T).Inv setup := by
  simp [TraitMapping.Inv, TraitMapping.new, TraitMapping.keys]

theorem TraitMapping.inv_setTraitFor {T : Type} {setup : NetworkSetup} {tm tm' : TraitMapping T}
    {c : Component} {tr : ComponentTrait T} (h : tm.Inv setup)
    (hs : TraitMapping.setTraitFor setup tm c tr = .ok tm') : tm'.Inv setup := by
  obtain ⟨h1, h2, h3⟩ := h
  unfold TraitMapping.setTraitFor at hs
  by_cases hc : setup.isComponent c = true
  · have hc' := (isComponent_iff setup c).1 hc
    by_cases hk : (tm.mMapping.lookup c).isSome = true
    · simp [hc, hk] at hs
    · have hk' : c ∉ tm.mMapping.map Prod.fst := fun h => hk ((lookup_isSome_iff _ _).2 h)
      simp only [hc, Bool.not_true, Bool.false_eq_true, if_false, hk, Except.ok.injEq] at hs
      subst hs
      have hnd : (tm.mMapping.map Prod.fst ++ [c]).Nodup := by
        rw [List.nodup_append]
        refine ⟨h1, List.nodup_singleton c, ?_⟩
        intro x hx hy
        rw [List.mem_singleton] at hy
        exact hk' (hy ▸ hx)
      have hsub : ∀ x ∈ tm.mMapping.map Prod.fst ++ [c], x ∈ setup.mComponents := by
        intro x hx
        rcases List.mem_append.1 hx with hx | hx
        · exact h2 x hx
        · rw [List.mem_singleton] at hx; exact hx ▸ hc'
      have hlt := length_lt_of_nodup_snoc hnd hsub
      simp only [List.length_map] at hlt
      refine ⟨by simpa [TraitMapping.keys] using hnd, by simpa [TraitMapping.keys] using hsub, ?_⟩
      simp only [NetworkSetup.getComponentCount, List.length_append, List.length_singleton]
      by_cases hlen : tm.mMapping.length + 1 = setup.mComponents.length
      · simp [hlen]
      · simp only [hlen, if_false, and_false, iff_false]
        intro hp
        have := (h3.1 hp).2
        omega
  · simp [hc] at hs

/-! ## The sender-set solver: form of the result and the motivational chain -/

theorem sentAction_type (intent : IntentionAssignment) (c : Component) :
    (sentAction intent c).mType = ActionType.SENT := by
  unfold sentAction
  split <;> rfl

theorem senderSet_entries_form (setup : NetworkSetup) (topo : NetworkTopology)
    (intent : IntentionAssignment) (p : Component × ComponentAction)
    (hp : p ∈ senderSetEntries setup topo intent) :
    p.2.mType = ActionType.SENT ∨ p.2 = ⟨ActionType.IDLE, 0, none⟩ := by
  simp only [senderSetEntries, List.mem_append, List.mem_map] at hp
  rcases hp with ⟨c, -, rfl⟩ | ⟨c, -, rfl⟩
  · exact Or.inl (sentAction_type intent c)
  · exact Or.inr rfl

theorem senderSet_isPartial {setup : NetworkSetup} (topo : NetworkTopology)
    {intent : IntentionAssignment} (hi : IntentionAssignment.Total setup intent) :
    (senderSet setup topo intent).isPartial = false := by
  have hw := Total.wellFormed hi
  have hperm := senderSetEntries_keys_perm topo intent hw.2
  have hlen : (senderSetEntries setup topo intent).length = setup.mComponents.length := by
    simpa using hperm.length_eq
  have hne : senderSetEntries setup topo intent ≠ [] := by
    intro h
    rw [h] at hlen
    exact Total.components_ne_nil hi (List.length_eq_zero.1 hlen.symm)
  have h0 : (senderSetEntries setup topo intent).isEmpty = false := by
    cases h : senderSetEntries setup topo intent with
    | nil => exact absurd h hne
    | cons x xs => rfl
  simp [senderSet, TraitMapping.ofList, TraitMapping.isPartial, h0, hlen]

/-- C12: for a total intention assignment whose send intentions carry a
message, `getSenderSet` returns a mapping that is total (not partial, an entry
for exactly the registered components) and holds for every registered component
either a `Sent` action or the `Idle` sentinel (tic 0, no message); it contains
no `Cancelled`, `Received`, `Silence` or `Collision`. -/
theorem getSenderSet_total_sent_or_idle (setup : NetworkSetup) (topo : NetworkTopology)
    (intent : IntentionAssignment) (hi : IntentionAssignment.Total setup intent)
    (hm : intent.SendsCarryMessage) :
    ∃ ss, (SenderSetComputer.new setup topo intent).bind SenderSetComputer.getSenderSet = .ok ss ∧
      ss.isPartial = false ∧ ss.keys.Perm setup.mComponents ∧
      (∀ c ∈ setup.mComponents, ∃ x, TraitMapping.getTraitFor setup ss c = .ok x ∧
        (x.getType = ActionType.SENT ∨ x = ⟨ActionType.IDLE, 0, none⟩)) ∧
      ∀ p ∈ ss.mMapping,
        (p.2.getType = ActionType.SENT ∨ p.2 = ⟨ActionType.IDLE, 0, none⟩) ∧
        p.2.getType ≠ ActionType.CANCELLED ∧ p.2.getType ≠ ActionType.RECEIVED ∧
        p.2.getType ≠ ActionType.SILENCE ∧ p.2.getType ≠ ActionType.COLLISION := by
  refine ⟨senderSet setup topo intent, getSenderSet_eq topo hi hm, senderSet_isPartial topo hi,
    senderSetEntries_keys_perm topo intent (Total.wellFormed hi).2, ?_, ?_⟩
  · intro c hc
    refine ⟨senderSetQuery setup topo intent c, by rw [senderSet_getTraitFor topo hi, if_pos hc], ?_⟩
    unfold senderSetQuery
    split
    · exact Or.inl (sentAction_type intent c)
    · exact Or.inr rfl
  · intro p hp
    have h := senderSet_entries_form setup topo intent p hp
    simp only [ComponentTrait.getType]
    refine ⟨h, ?_, ?_, ?_, ?_⟩ <;> rcases h with h | h <;> rw [h] <;> decide

/-- The instance of C12 at the motivational chain. -/
theorem getSenderSet_total_sent_or_idle_witness :
    IntentionAssignment.Total chainSetup chainIntent ∧ chainIntent.SendsCarryMessage ∧
    ∃ ss, (SenderSetComputer.new chainSetup chainTopology chainIntent).bind
        SenderSetComputer.getSenderSet = .ok ss ∧
      ss.isPartial = false ∧ ss.keys.Perm chainSetup.mComponents ∧
      (∀ c ∈ chainSetup.mComponents, ∃ x, TraitMapping.getTraitFor chainSetup ss c = .ok x ∧
        (x.getType = ActionType.SENT ∨ x = ⟨ActionType.IDLE, 0, none⟩)) ∧
      ∀ p ∈ ss.mMapping,
        (p.2.getType = ActionType.SENT ∨ p.2 = ⟨ActionType.IDLE, 0, none⟩) ∧
        p.2.getType ≠ ActionType.CANCELLED ∧ p.2.getType ≠ ActionType.RECEIVED ∧
        p.2.getType ≠ ActionType.SILENCE ∧ p.2.getType ≠ ActionType.COLLISION :=
  ⟨by decide, by decide,
    getSenderSet_total_sent_or_idle chainSetup chainTopology chainIntent (by decide) (by decide)⟩

/-- C11: carrier sensing detects only components that actually transmit. For a
total intention assignment, every sender set that `getSenderSet` returns maps a
component `c` with intention `SEND{t, m}` to `Sent{t, m}` whenever every
component `c'` that can reach `c` and has a send intention at a tic below `t`
is absent from that sender set; `getSenderSet` returns one whenever all send
intentions carry a message. In the chain 1 → 2 → 3 with carrier-sensing sends
at tics 1, 2, 3 the transition returns, under both semantics, the single
successor with component 1 `Sent`, component 2 `Cancelled` and component 3
`Sent`. -/
theorem carrier_sense_ignores_cancelled (setup : NetworkSetup) (topo : NetworkTopology)
    (intent : IntentionAssignment) (hi : IntentionAssignment.Total setup intent)
    (c : Component) (t : Nat) (m : Option Message)
    (hc : TraitMapping.getTraitFor setup intent c = .ok ⟨IntentionType.SEND, t, m⟩) :
    (∀ ss, (SenderSetComputer.new setup topo intent).bind SenderSetComputer.getSenderSet = .ok ss →
      (∀ (c' : Component) (tr' : ComponentIntention), topo.canReach c' c = true →
        TraitMapping.getTraitFor setup intent c' = .ok tr' →
        (tr'.getType = IntentionType.SEND ∨ tr'.getType = IntentionType.SEND_FORCE) →
        tr'.getTic < t → isSender setup ss c' = false) →
      TraitMapping.getTraitFor setup ss c = .ok ⟨ActionType.SENT, t, m⟩) ∧
    (intent.SendsCarryMessage →
      ∃ ss, (SenderSetComputer.new setup topo intent).bind SenderSetComputer.getSenderSet
        = .ok ss) ∧
    ANL.transition ⟨chainSetup, ANLSemantics.CANONICAL⟩ chainTopology chainIntent
      = .ok [chainSuccessor] ∧
    ANL.transition ⟨chainSetup, ANLSemantics.NAIVE⟩ chainTopology chainIntent
      = .ok [chainSuccessor] := by
  refine ⟨fun ss hss habsent => ?_, fun hm => ⟨_, getSenderSet_eq topo hi hm⟩, rfl, rfl⟩
  obtain ⟨hm, rfl⟩ := (getSenderSet_ok_iff topo hi ss).1 hss
  refine (senderSet_characterisation topo hi c t m).2
    ⟨IntentionType.SEND, hc, Or.inl rfl, Or.inr ?_⟩
  rintro ⟨c', t', m', h1, h2, h3⟩
  obtain ⟨ty, h4, h5, -⟩ := (senderSet_characterisation topo hi c' t' m').1 h1
  have h6 := habsent c' ⟨ty, t', m'⟩ h3 h4 h5 h2
  simp [isSender, h1, ComponentTrait.getType] at h6

/-- The instance of C11 at component 3 of the motivational chain, whose only
reaching component 2 was cancelled. -/
theorem carrier_sense_ignores_cancelled_witness :
    IntentionAssignment.Total chainSetup chainIntent ∧
    (∀ ss, (SenderSetComputer.new chainSetup chainTopology chainIntent).bind
        SenderSetComputer.getSenderSet = .ok ss →
      (∀ (c' : Component) (tr' : ComponentIntention), chainTopology.canReach c' 3 = true →
        TraitMapping.getTraitFor chainSetup chainIntent c' = .ok tr' →
        (tr'.getType = IntentionType.SEND ∨ tr'.getType = IntentionType.SEND_FORCE) →
        tr'.getTic < 3 → isSender chainSetup ss c' = false) →
      TraitMapping.getTraitFor chainSetup ss 3 = .ok ⟨ActionType.SENT, 3, some 100⟩) ∧
    (chainIntent.SendsCarryMessage →
      ∃ ss, (SenderSetComputer.new chainSetup chainTopology chainIntent).bind
        SenderSetComputer.getSenderSet = .ok ss) ∧
    ANL.transition ⟨chainSetup, ANLSemantics.CANONICAL⟩ chainTopology chainIntent
      = .ok [chainSuccessor] ∧
    ANL.transition ⟨chainSetup, ANLSemantics.NAIVE⟩ chainTopology chainIntent
      = .ok [chainSuccessor] :=
  ⟨by decide,
    carrier_sense_ignores_cancelled chainSetup chainTopology chainIntent (by decide)
      3 3 (some 100) rfl⟩

/-! ## The filters on arbitrary lists -/

theorem sameAction_iff (a b : ComponentAction) : sameAction a b = true ↔ a = b := by
  obtain ⟨ty, t, m⟩ := a
  obtain ⟨ty', t', m'⟩ := b
  simp [sameAction, ComponentTrait.getType, ComponentTrait.getTic, ComponentTrait.getMessage]

theorem uniqueFold_eq (l : List ComponentAction) :
    ∀ acc : List ComponentAction,
      l.foldl (fun tmp act => if alreadyAdded tmp act then tmp else tmp ++ [act]) acc =
        acc ++ (removeLaterDuplicates l).filter fun b => decide (b ∉ acc) := by
  induction l with
  | nil => intro acc; simp [removeLaterDuplicates]
  | cons a l ih =>
    intro acc
    rw [List.foldl_cons, removeLaterDuplicates]
    by_cases ha : a ∈ acc
    · rw [if_pos ((alreadyAdded_iff acc a).2 ha), ih acc]
      congr 1
      rw [List.filter_cons, if_neg (by simpa using ha), List.filter_filter]
      apply List.filter_congr
      intro b _
      by_cases hb : b ∈ acc
      · simp [hb]
      · have : a ≠ b := fun h => hb (h ▸ ha)
        have h2 : sameAction a b = false := by
          rw [← Bool.not_eq_true, sameAction_iff]; exact this
        simp [hb, h2]
    · have hna : ¬ alreadyAdded acc a = true := fun h => ha ((alreadyAdded_iff acc a).1 h)
      rw [if_neg hna, ih (acc ++ [a])]
      rw [List.filter_cons, if_pos (by simpa using ha), List.filter_filter, List.append_assoc]
      congr 1
      simp only [List.singleton_append, List.cons.injEq, true_and]
      apply List.filter_congr
      intro b _
      by_cases hab : a = b
      · subst hab
        have h2 : sameAction a a = true := (sameAction_iff a a).2 rfl
        simp [h2]
      · have h2 : sameAction a b = false := by
          rw [← Bool.not_eq_true, sameAction_iff]; exact hab
        have : ¬ b = a := fun h => hab h.symm
        simp [h2, this]

theorem uniqueActions_eq (l : List ComponentAction) :
    uniqueActions l = removeLaterDuplicates l := by
  simpa [uniqueActions] using uniqueFold_eq l []

theorem removeLaterDuplicates_sublist (l : List ComponentAction) :
    (removeLaterDuplicates l).Sublist l := by
  induction l with
  | nil => exact List.Sublist.refl _
  | cons a l ih =>
    rw [removeLaterDuplicates]
    exact List.Sublist.cons₂ a ((List.filter_sublist _).trans ih)

theorem removeLaterDuplicates_of_nodup (l : List ComponentAction) (h : l.Nodup) :
    removeLaterDuplicates l = l := by
  induction l with
  | nil => rfl
  | cons a l ih =>
    rw [List.nodup_cons] at h
    rw [removeLaterDuplicates, ih h.2, List.filter_eq_self.2]
    intro b hb
    have : a ≠ b := fun hab => h.1 (hab ▸ hb)
    have h2 : sameAction a b = false := by
      rw [← Bool.not_eq_true, sameAction_iff]; exact this
    simp [h2]

/-- C15: `ANLFilterNothing` returns, for every list of component actions, the
input with every later duplicate removed, two actions being duplicates when
they have the same action type, tic and message handle. The output has no two
duplicate entries, contains exactly the actions of the input, keeps the kept
entries in their input order, and is the input itself when the input has no
duplicates. -/
theorem ANLFilterNothing_removes_later_duplicates (setup : NetworkSetup)
    (l : List ComponentAction) :
    ∃ out, ANLFilterNothing setup l = .ok out ∧ out = removeLaterDuplicates l ∧
      out.Pairwise (fun a b =>
        ¬ (a.getType = b.getType ∧ a.getTic = b.getTic ∧ a.getMessage = b.getMessage)) ∧
      (∀ x, x ∈ out ↔ x ∈ l) ∧ out.Sublist l ∧
      (l.Pairwise (fun a b =>
          ¬ (a.getType = b.getType ∧ a.getTic = b.getTic ∧ a.getMessage = b.getMessage)) →
        out = l) := by
  have hpw : ∀ l' : List ComponentAction,
      l'.Pairwise (fun a b =>
        ¬ (a.getType = b.getType ∧ a.getTic = b.getTic ∧ a.getMessage = b.getMessage)) ↔
      l'.Nodup := by
    intro l'
    unfold List.Nodup
    constructor
    · intro h
      refine h.imp ?_
      intro a b hab heq
      exact hab (by rw [heq]; exact ⟨rfl, rfl, rfl⟩)
    · intro h
      refine h.imp ?_
      intro a b hab hsame
      exact hab ((sameAction_iff a b).1 (by simpa [sameAction] using hsame))
  refine ⟨uniqueActions l, ANLFilterNothing_eq setup l, uniqueActions_eq l,
    (hpw _).2 (uniqueActions_nodup l), mem_uniqueActions l, ?_, ?_⟩
  · rw [uniqueActions_eq]; exact removeLaterDuplicates_sublist l
  · intro h
    rw [uniqueActions_eq]
    exact removeLaterDuplicates_of_nodup l ((hpw l).1 h)

theorem exists_collision_iff (l : List ComponentAction) :
    (∃ x ∈ l, x.getType = ActionType.COLLISION) ↔
      0 < l.countP (fun ca => decide (ca.mType = ActionType.COLLISION)) := by
  rw [List.countP_pos_iff]
  simp [ComponentTrait.getType]

/-- C16: for every list of component actions that contains a `Collision`, in
any order of its entries, `ANLFilterNaive` returns exactly
`[Collision (tic 0, no message)]` when the list contains two or more `Received`
entries, and exactly the one-element list holding the `Received` entry when the
list contains exactly one. The setup has at least one tic per slot, as its
constructor requires. -/
theorem ANLFilterNaive_with_collision (setup : NetworkSetup) (hT : 0 < setup.mTicsPerSlot)
    (l : List ComponentAction) (hcol : ∃ x ∈ l, x.getType = ActionType.COLLISION) :
    (2 ≤ l.countP (fun ca => decide (ca.getType = ActionType.RECEIVED)) →
      ANLFilterNaive setup l = .ok [⟨ActionType.COLLISION, 0, none⟩]) ∧
    (l.countP (fun ca => decide (ca.getType = ActionType.RECEIVED)) = 1 →
      ∃ r ∈ l, r.getType = ActionType.RECEIVED ∧ ANLFilterNaive setup l = .ok [r]) := by
  have hc := (exists_collision_iff l).1 hcol
  have hc' : ¬ l.countP (fun ca => decide (ca.mType = ActionType.COLLISION)) = 0 := by omega
  simp only [ComponentTrait.getType]
  constructor
  · intro h2
    have h2' : l.countP (fun ca => decide (ca.mType = ActionType.RECEIVED)) > 1 := by omega
    simp only [ANLFilterNaive, countNaive_eq, hc', if_false, h2', if_true, ComponentTrait.new,
      NetworkSetup.getTicsPerSlot, gt_iff_lt, hT, bind_ok]
  · intro h1
    have hlen : (l.filter fun ca => decide (ca.mType = ActionType.RECEIVED)).length = 1 := by
      rw [← List.countP_eq_length_filter]; exact h1
    obtain ⟨r, hr⟩ := List.length_eq_one.1 hlen
    have hrmem : r ∈ l.filter fun ca => decide (ca.mType = ActionType.RECEIVED) := by
      rw [hr]; exact List.mem_singleton_self r
    obtain ⟨hrl, hrt⟩ := List.mem_filter.1 hrmem
    refine ⟨r, hrl, by simpa using hrt, ?_⟩
    have hf : (l.filter fun action =>
        decide ¬ (ComponentTrait.getType action ≠ ActionType.RECEIVED)) = [r] := by
      rw [← hr]
      apply List.filter_congr
      intro x _
      simp [ComponentTrait.getType]
    simp only [ANLFilterNaive, countNaive_eq, hc', if_false, h1, gt_iff_lt, lt_self_iff_false,
      not_true_eq_false, hf, List.length_singleton, if_true]

/-- The instance of C16 at the list `[Received, Collision, Received]` of the
test `multiSenderResultsInCollision`. -/
theorem ANLFilterNaive_with_collision_witness :
    (0 < listenSetup.mTicsPerSlot) ∧
    (∃ x ∈ ([⟨ActionType.RECEIVED, 6, some 100⟩, ⟨ActionType.COLLISION, 0, none⟩,
        ⟨ActionType.RECEIVED, 2, some 101⟩] : List ComponentAction),
      x.getType = ActionType.COLLISION) ∧
    (2 ≤ ([⟨ActionType.RECEIVED, 6, some 100⟩, ⟨ActionType.COLLISION, 0, none⟩,
        ⟨ActionType.RECEIVED, 2, some 101⟩] : List ComponentAction).countP
          (fun ca => decide (ca.getType = ActionType.RECEIVED)) →
      ANLFilterNaive listenSetup [⟨ActionType.RECEIVED, 6, some 100⟩,
        ⟨ActionType.COLLISION, 0, none⟩, ⟨ActionType.RECEIVED, 2, some 101⟩]
        = .ok [⟨ActionType.COLLISION, 0, none⟩]) ∧
    (([⟨ActionType.RECEIVED, 6, some 100⟩, ⟨ActionType.COLLISION, 0, none⟩,
        ⟨ActionType.RECEIVED, 2, some 101⟩] : List ComponentAction).countP
          (fun ca => decide (ca.getType = ActionType.RECEIVED)) = 1 →
      ∃ r ∈ ([⟨ActionType.RECEIVED, 6, some 100⟩, ⟨ActionType.COLLISION, 0, none⟩,
        ⟨ActionType.RECEIVED, 2, some 101⟩] : List ComponentAction),
        r.getType = ActionType.RECEIVED ∧
        ANLFilterNaive listenSetup [⟨ActionType.RECEIVED, 6, some 100⟩,
          ⟨ActionType.COLLISION, 0, none⟩, ⟨ActionType.RECEIVED, 2, some 101⟩] = .ok [r]) :=
  ⟨by decide, by decide,
    ANLFilterNaive_with_collision listenSetup (by decide) _ (by decide)⟩

/-- C18: for every list of component actions without a `Collision` entry,
`ANLFilterNaive` returns the list unchanged: the same entries in the same
order. -/
theorem ANLFilterNaive_without_collision (setup : NetworkSetup) (l : List ComponentAction)
    (h : ∀ x ∈ l, x.getType ≠ ActionType.COLLISION) : ANLFilterNaive setup l = .ok l := by
  have hc : l.countP (fun ca => decide (ca.mType = ActionType.COLLISION)) = 0 := by
    rw [List.countP_eq_zero]
    intro x hx
    simpa [ComponentTrait.getType] using h x hx
  simp only [ANLFilterNaive, countNaive_eq, hc, if_true]

/-- The instance of C18 at the list `[Silence]` of the test
`noSenderResultsInSilence`. -/
theorem ANLFilterNaive_without_collision_witness :
    (∀ x ∈ ([⟨ActionType.SILENCE, 0, none⟩] : List ComponentAction),
      x.getType ≠ ActionType.COLLISION) ∧
    ANLFilterNaive listenSetup [⟨ActionType.SILENCE, 0, none⟩]
      = .ok [⟨ActionType.SILENCE, 0, none⟩] :=
  ⟨by decide, ANLFilterNaive_without_collision listenSetup _ (by decide)⟩

/-! ## The transition with an arbitrary filter -/

theorem transitionStep_ok (a : ANLComputer) (b b' : List NetworkState × List NetworkState)
    (c : Component) (h : a.transitionStep b c = .ok b') :
    ∃ P F, a.getPossibleActions c = .ok P ∧ a.mFilter a.mSetup P = .ok F ∧ F ≠ [] := by
  unfold ANLComputer.transitionStep at h
  cases hP : a.getPossibleActions c with
  | error e => rw [hP] at h; cases h
  | ok P =>
    rw [hP, bind_ok] at h
    cases hF : a.mFilter a.mSetup P with
    | error e => rw [hF] at h; cases h
    | ok F =>
      rw [hF, bind_ok] at h
      refine ⟨P, F, rfl, hF, ?_⟩
      intro hnil
      rw [hnil] at h
      simp at h

theorem filteredBy_of_ok {filter : FilterFunction} {setup : NetworkSetup}
    {topo : NetworkTopology} {intent : IntentionAssignment} {c : Component}
    {F : List ComponentAction}
    (h : filter setup (possibleActions setup topo intent c) = .ok F) :
    filteredBy filter setup topo intent c = F := by
  simp [filteredBy, h]

theorem transition_ok_closed {setup : NetworkSetup} (topo : NetworkTopology)
    {intent : IntentionAssignment} (hi : IntentionAssignment.Total setup intent)
    (filter : FilterFunction) (ss0 : SenderSetRepresentation) (states : List NetworkState)
    (h : ANLComputer.transition ⟨setup, topo, intent, filter, ss0⟩ = .ok states) :
    intent.SendsCarryMessage ∧
    (∀ c ∈ setup.mComponents,
      filter setup (possibleActions setup topo intent c)
          = .ok (filteredBy filter setup topo intent c) ∧
        filteredBy filter setup topo intent c ≠ []) ∧
    states = (crossProduct (filteredBy filter setup topo intent) [[]] setup.mComponents).map
      (TraitMapping.ofList setup) := by
  obtain ⟨ss, hss⟩ := transition_ok_getSenderSet _ states h
  have hm := getSenderSet_ok_sendsCarryMessage topo hi ss hss
  have hF : ∀ c ∈ setup.mComponents,
      filter setup (possibleActions setup topo intent c)
          = .ok (filteredBy filter setup topo intent c) ∧
        filteredBy filter setup topo intent c ≠ [] := by
    have hget := getSenderSet_eq topo hi hm
    cases hnew : SenderSetComputer.new setup topo intent with
    | error e => rw [hnew] at hget; cases hget
    | ok sc =>
      rw [hnew, bind_ok] at hget
      have h2 := h
      simp only [ANLComputer.transition, hnew, bind_ok, hget] at h2
      cases hfold : setup.mComponents.foldlM
          (ANLComputer.transitionStep ⟨setup, topo, intent, filter, senderSet setup topo intent⟩)
          ([TraitMapping.new], []) with
      | error e => rw [hfold] at h2; cases h2
      | ok buffers =>
        intro c hc
        obtain ⟨b1, b2, -, hstep⟩ := foldlM_ok_mem _ (fun _ => True) (fun _ _ _ _ _ => trivial)
          setup.mComponents _ buffers trivial hfold c hc
        obtain ⟨P, F, hP, hFl, hne⟩ := transitionStep_ok _ b1 b2 c hstep
        rw [getPossibleActions_eq topo hi filter c hc] at hP
        cases hP
        rw [filteredBy_of_ok hFl]
        exact ⟨hFl, hne⟩
  refine ⟨hm, hF, ?_⟩
  have := transition_eq topo hi hm filter ss0 _ hF
  rw [this] at h
  cases h
  rfl

theorem crossProduct_keys (F : Component → List ComponentAction) (cs : List Component)
    (l : List (Component × ComponentAction)) (hl : l ∈ crossProduct F [[]] cs) :
    l.map Prod.fst = cs := by
  obtain ⟨l0, h0, ext, rfl, h2, -⟩ := (mem_crossProduct F _ _ _).1 hl
  simp only [List.mem_singleton] at h0
  subst h0
  simpa using h2

theorem ofList_isPartial {setup : NetworkSetup} (hne : setup.mComponents ≠ [])
    (l : List (Component × ComponentAction)) (hl : l.map Prod.fst = setup.mComponents) :
    (TraitMapping.ofList setup l).isPartial = false := by
  have hlen : l.length = setup.mComponents.length := by rw [← hl]; simp
  have h0 : l.isEmpty = false := by
    cases l with
    | nil => exact absurd hl.symm hne
    | cons x xs => rfl
  simp [TraitMapping.ofList, TraitMapping.isPartial, h0, hlen]

/-- C13: for every call of `ANLComputer::transition` that returns, whatever the
filter, every returned network state is total (not partial) and its entries are
those of the registered components, one each and no other: its keys are the
registered components in registration order, without repetition. -/
theorem transition_states_total (setup : NetworkSetup) (topo : NetworkTopology)
    (intent : IntentionAssignment) (hi : IntentionAssignment.Total setup intent)
    (filter : FilterFunction) (ss0 : SenderSetRepresentation) (states : List NetworkState)
    (h : ANLComputer.transition ⟨setup, topo, intent, filter, ss0⟩ = .ok states) :
    ∀ s ∈ states, s.isPartial = false ∧ s.keys = setup.mComponents ∧ s.keys.Nodup ∧
      (∀ c ∈ setup.mComponents, ∃ x, TraitMapping.getTraitFor setup s c = .ok x) ∧
      (∀ c, c ∉ setup.mComponents → ∀ x, (c, x) ∉ s.mMapping) := by
  obtain ⟨-, -, rfl⟩ := transition_ok_closed topo hi filter ss0 states h
  intro s hs
  obtain ⟨l, hl, rfl⟩ := List.mem_map.1 hs
  have hk := crossProduct_keys _ _ l hl
  have hne := Total.components_ne_nil hi
  refine ⟨ofList_isPartial hne l hk, hk, ?_, ?_, ?_⟩
  · show (l.map Prod.fst).Nodup
    rw [hk]; exact (Total.wellFormed hi).2
  · intro c hc
    obtain ⟨x, hx, -⟩ := (state_getTraitFor hne _ l hl c).1 hc
    exact ⟨x, hx⟩
  · intro c hc x hx
    apply hc
    rw [← hk]
    exact List.mem_map.2 ⟨(c, x), hx, rfl⟩

/-- The instance of C13 at the canonical call of `listenToMultiple`. -/
theorem transition_states_total_witness :
    IntentionAssignment.Total listenSetup listenIntentMultiple ∧
    ANLComputer.transition
      ⟨listenSetup, trivialTopology, listenIntentMultiple, ANLFilterNothing, TraitMapping.new⟩
        = .ok listenMultipleSuccessors ∧
    ∀ s ∈ listenMultipleSuccessors,
      s.isPartial = false ∧ s.keys = listenSetup.mComponents ∧ s.keys.Nodup ∧
      (∀ c ∈ listenSetup.mComponents, ∃ x, TraitMapping.getTraitFor listenSetup s c = .ok x) ∧
      (∀ c, c ∉ listenSetup.mComponents → ∀ x, (c, x) ∉ s.mMapping) :=
  ⟨by decide, rfl,
    transition_states_total listenSetup trivialTopology listenIntentMultiple (by decide)
      ANLFilterNothing TraitMapping.new listenMultipleSuccessors rfl⟩

theorem ofList_injective (setup : NetworkSetup) :
    Function.Injective (TraitMapping.ofList setup : List (Component × ComponentAction) → _) := by
  intro l1 l2 h
  exact congrArg TraitMapping.mMapping h

theorem eq_graph_of_lookup (g : Component → ComponentAction) :
    ∀ (ext : List (Component × ComponentAction)) (cs : List Component),
      ext.map Prod.fst = cs → cs.Nodup → (∀ c ∈ cs, ext.lookup c = some (g c)) →
      ext = cs.map fun c => (c, g c) := by
  intro ext
  induction ext with
  | nil => intro cs h _ _; subst h; rfl
  | cons x ext ih =>
    intro cs h hnd hl
    obtain ⟨k, v⟩ := x
    subst h
    simp only [List.map_cons, List.nodup_cons] at hnd
    have hk := hl k (by simp)
    simp only [List.lookup_cons, beq_self_eq_true, Option.some.injEq] at hk
    subst hk
    simp only [List.map_cons]
    congr 1
    apply ih _ rfl hnd.2
    intro c hc
    have h1 := hl c (List.mem_cons_of_mem _ hc)
    have hne : (c == k) = false := by
      have : c ≠ k := by rintro rfl; exact hnd.1 hc
      simpa using this
    rw [List.lookup_cons, hne] at h1
    exact h1

theorem crossProduct_nodup (F : Component → List ComponentAction)
    (cs : List Component) (hF : ∀ c ∈ cs, (F c).Nodup) :
    ∀ acc : List (List (Component × ComponentAction)), acc.Nodup →
      (∀ l1 ∈ acc, ∀ l2 ∈ acc, l1.length = l2.length) →
      (crossProduct F acc cs).Nodup := by
  induction cs with
  | nil => intro acc h _; simpa [crossProduct] using h
  | cons c cs ih =>
    intro acc hacc hlen
    rw [crossProduct]
    apply ih (fun x hx => hF x (List.mem_cons_of_mem _ hx))
    · rw [List.nodup_flatMap]
      refine ⟨?_, ?_⟩
      · intro l _
        refine (hF c (List.mem_cons_self _ _)).map ?_
        intro a b hab
        have := List.append_cancel_left hab
        simpa using this
      · refine hacc.imp_of_mem ?_
        intro l1 l2 h1 h2 hne
        show List.Disjoint _ _
        intro x hx1 hx2
        obtain ⟨a, -, rfl⟩ := List.mem_map.1 hx1
        obtain ⟨b, -, hb⟩ := List.mem_map.1 hx2
        exact hne ((List.append_inj' hb rfl).1.symm)
    · intro l1 h1 l2 h2
      obtain ⟨a1, ha1, b1, -, rfl⟩ : ∃ a1 ∈ acc, ∃ b1 ∈ F c, a1 ++ [(c, b1)] = l1 := by
        simpa [List.mem_flatMap] using h1
      obtain ⟨a2, ha2, b2, -, rfl⟩ : ∃ a2 ∈ acc, ∃ b2 ∈ F c, a2 ++ [(c, b2)] = l2 := by
        simpa [List.mem_flatMap] using h2
      simp [hlen a1 ha1 a2 ha2]

theorem crossProduct_choice {setup : NetworkSetup} (hwf : setup.WellFormed)
    (hne : setup.mComponents ≠ []) (F : Component → List ComponentAction)
    (choice : Component → ComponentAction)
    (hch : ∀ c ∈ setup.mComponents, choice c ∈ F c) :
    ∃! s, s ∈ (crossProduct F [[]] setup.mComponents).map (TraitMapping.ofList setup) ∧
      ∀ c ∈ setup.mComponents, TraitMapping.getTraitFor setup s c = .ok (choice c) := by
  have hget : ∀ (l : List (Component × ComponentAction)), l.map Prod.fst = setup.mComponents →
      ∀ c ∈ setup.mComponents, ∀ x,
        TraitMapping.getTraitFor setup (TraitMapping.ofList setup l) c = .ok x ↔
          l.lookup c = some x := by
    intro l hl c hc x
    have hlen : l.length = setup.mComponents.length := by rw [← hl]; simp
    have hl0 : l ≠ [] := by rintro rfl; exact hne hl.symm
    rw [TraitMapping.getTraitFor_ofList setup l c hlen hl0, if_pos hc]
    cases List.lookup c l with
    | none => simp
    | some v => simp
  refine ⟨TraitMapping.ofList setup (setup.mComponents.map fun c => (c, choice c)), ⟨?_, ?_⟩, ?_⟩
  · apply List.mem_map_of_mem
    rw [mem_crossProduct]
    refine ⟨[], by simp, _, (List.nil_append _).symm, map_fst_graph _ _, ?_⟩
    intro x hx
    obtain ⟨c, hc, rfl⟩ := List.mem_map.1 hx
    exact hch c hc
  · intro c hc
    rw [hget _ (map_fst_graph _ _) c hc, lookup_graph, if_pos hc]
  · rintro s ⟨hs, hall⟩
    obtain ⟨l, hl, rfl⟩ := List.mem_map.1 hs
    have hk := crossProduct_keys _ _ l hl
    congr 1
    apply eq_graph_of_lookup choice l _ hk hwf.2
    intro c hc
    exact (hget l hk c hc _).1 (hall c hc)

/-- C14: for a setup with at least one component, a total intention assignment
for which the sender-set solver returns, and a filter that returns a non-empty
list for the possible actions of every registered component,
`ANLComputer::transition` returns the cross product, in registration order, of
the filtered possible-action lists `F c`: the returned vector has as many
entries as the product of the lengths of the lists `F c`, for every choice of
one action of `F c` per component exactly one network state of the vector
assigns those actions, and the vector has no repeated entry as soon as no list
`F c` has one. -/
theorem transition_cross_product (setup : NetworkSetup) (topo : NetworkTopology)
    (intent : IntentionAssignment) (hi : IntentionAssignment.Total setup intent)
    (hne : setup.mComponents ≠ [])
    (filter : FilterFunction) (ss0 ss : SenderSetRepresentation)
    (hss : (SenderSetComputer.new setup topo intent).bind SenderSetComputer.getSenderSet
      = .ok ss)
    (hfilter : ∀ c ∈ setup.mComponents, ∀ acts,
      ANLComputer.getPossibleActions ⟨setup, topo, intent, filter, ss⟩ c = .ok acts →
        ∃ l, filter setup acts = .ok l ∧ l ≠ []) :
    ∃ (states : List NetworkState) (F : Component → List ComponentAction),
      ANLComputer.transition ⟨setup, topo, intent, filter, ss0⟩ = .ok states ∧
      (∀ c ∈ setup.mComponents, ∃ acts,
        ANLComputer.getPossibleActions ⟨setup, topo, intent, filter, ss⟩ c = .ok acts ∧
          filter setup acts = .ok (F c)) ∧
      states = (crossProduct F [[]] setup.mComponents).map (TraitMapping.ofList setup) ∧
      states.length = (setup.mComponents.map fun c => (F c).length).prod ∧
      (∀ choice : Component → ComponentAction,
        (∀ c ∈ setup.mComponents, choice c ∈ F c) →
        ∃! s, s ∈ states ∧
          ∀ c ∈ setup.mComponents, TraitMapping.getTraitFor setup s c = .ok (choice c)) ∧
      ((∀ c ∈ setup.mComponents, (F c).Nodup) → states.Nodup) := by
  obtain ⟨hm, rfl⟩ := (getSenderSet_ok_iff topo hi ss).1 hss
  have hF : ∀ c ∈ setup.mComponents,
      filter setup (possibleActions setup topo intent c)
          = .ok (filteredBy filter setup topo intent c) ∧
        filteredBy filter setup topo intent c ≠ [] := by
    intro c hc
    obtain ⟨l, h1, h2⟩ := hfilter c hc _ (getPossibleActions_eq topo hi filter c hc)
    rw [filteredBy_of_ok h1]
    exact ⟨h1, h2⟩
  refine ⟨_, filteredBy filter setup topo intent, transition_eq topo hi hm filter ss0 _ hF,
    ?_, rfl, ?_, ?_, ?_⟩
  · intro c hc
    exact ⟨_, getPossibleActions_eq topo hi filter c hc, (hF c hc).1⟩
  · rw [List.length_map, length_crossProduct]
    simp
  · intro choice hch
    exact crossProduct_choice (Total.wellFormed hi) hne _ choice hch
  · intro hnd
    refine List.Nodup.map (ofList_injective setup) ?_
    apply crossProduct_nodup _ _ hnd
    · simp
    · intro l1 h1 l2 h2
      simp only [List.mem_singleton] at h1 h2
      rw [h1, h2]

/-- The instance of C14 at the canonical call of `listenToMultiple`, which
returns three network states. -/
theorem transition_cross_product_witness :
    IntentionAssignment.Total listenSetup listenIntentMultiple ∧
    ∃ (states : List NetworkState) (F : Component → List ComponentAction),
      ANLComputer.transition
        ⟨listenSetup, trivialTopology, listenIntentMultiple, ANLFilterNothing,
          TraitMapping.new⟩ = .ok states ∧
      (∀ c ∈ listenSetup.mComponents, ∃ acts,
        ANLComputer.getPossibleActions
          ⟨listenSetup, trivialTopology, listenIntentMultiple, ANLFilterNothing,
            senderSet listenSetup trivialTopology listenIntentMultiple⟩ c = .ok acts ∧
          ANLFilterNothing listenSetup acts = .ok (F c)) ∧
      states = (crossProduct F [[]] listenSetup.mComponents).map
        (TraitMapping.ofList listenSetup) ∧
      states.length = (listenSetup.mComponents.map fun c => (F c).length).prod ∧
      (∀ choice : Component → ComponentAction,
        (∀ c ∈ listenSetup.mComponents, choice c ∈ F c) →
        ∃! s, s ∈ states ∧
          ∀ c ∈ listenSetup.mComponents,
            TraitMapping.getTraitFor listenSetup s c = .ok (choice c)) ∧
      ((∀ c ∈ listenSetup.mComponents, (F c).Nodup) → states.Nodup) :=
  ⟨by decide,
    transition_cross_product listenSetup trivialTopology listenIntentMultiple (by decide)
      (by decide) ANLFilterNothing TraitMapping.new
      (senderSet listenSetup trivialTopology listenIntentMultiple)
      (getSenderSet_eq trivialTopology (by decide) (by decide))
      (fun c hc acts hacts =>
        ⟨uniqueActions acts, ANLFilterNothing_eq listenSetup acts, by
          have hi : IntentionAssignment.Total listenSetup listenIntentMultiple := by decide
          rw [getPossibleActions_eq trivialTopology hi ANLFilterNothing c hc] at hacts
          cases hacts
          exact List.ne_nil_of_length_pos
            (filteredActions_pos trivialTopology hi ANLSemantics.CANONICAL hc)⟩)⟩

/-! ## Fatal exits of the transition and of the sender-set solver -/

theorem transitionStep_error (a : ANLComputer) (b : List NetworkState × List NetworkState)
    (c : Component) (P : List ComponentAction) (hP : a.getPossibleActions c = .ok P)
    (e : Fatal)
    (h : a.mFilter a.mSetup P = .error e ∨
      (a.mFilter a.mSetup P = .ok [] ∧ e = Fatal.filterRemovedAll)) :
    a.transitionStep b c = .error e := by
  unfold ANLComputer.transitionStep
  rw [hP, bind_ok]
  rcases h with h | ⟨h, rfl⟩
  · rw [h]; rfl
  · rw [h, bind_ok]; simp

theorem foldlM_cons_error {α β : Type} (f : β → α → Except Fatal β) {b : β} {a : α}
    {e : Fatal} (l : List α) (h : f b a = .error e) :
    List.foldlM f b (a :: l) = .error e := by
  rw [List.foldlM_cons, h]; rfl

theorem foldlM_append_ok {α β : Type} (f : β → α → Except Fatal β) {b b' : β}
    (l l' : List α) (h : List.foldlM f b l = .ok b') :
    List.foldlM f b (l ++ l') = List.foldlM f b' l' := by
  rw [List.foldlM_append, h]; rfl

theorem exists_first_not {α : Type} (p : α → Prop) :
    ∀ l : List α, (∃ a ∈ l, ¬ p a) →
      ∃ pre c post, l = pre ++ c :: post ∧ (∀ x ∈ pre, p x) ∧ ¬ p c := by
  intro l
  induction l with
  | nil => rintro ⟨a, ha, -⟩; cases ha
  | cons x xs ih =>
    rintro ⟨a, ha, hna⟩
    by_cases hx : p x
    · have : ∃ a ∈ xs, ¬ p a := by
        rcases List.mem_cons.1 ha with rfl | ha
        · exact absurd hx hna
        · exact ⟨a, ha, hna⟩
      obtain ⟨pre, c, post, h1, h2, h3⟩ := ih this
      refine ⟨x :: pre, c, post, by rw [h1]; rfl, ?_, h3⟩
      intro y hy
      rcases List.mem_cons.1 hy with rfl | hy
      · exact hx
      · exact h2 y hy
    · exact ⟨[], x, xs, rfl, by simp, hx⟩

theorem transition_first_failure {setup : NetworkSetup} (topo : NetworkTopology)
    {intent : IntentionAssignment} (hi : IntentionAssignment.Total setup intent)
    (hm : intent.SendsCarryMessage) (filter : FilterFunction) (ss0 : SenderSetRepresentation)
    (pre : List Component) (c : Component) (post : List Component)
    (hcs : setup.mComponents = pre ++ c :: post)
    (hgood : ∀ x ∈ pre, ∃ l, filter setup (possibleActions setup topo intent x) = .ok l ∧ l ≠ [])
    (e : Fatal)
    (hbad : filter setup (possibleActions setup topo intent c) = .error e ∨
      (filter setup (possibleActions setup topo intent c) = .ok [] ∧
        e = Fatal.filterRemovedAll)) :
    ANLComputer.transition ⟨setup, topo, intent, filter, ss0⟩ = .error e := by
  have hss := getSenderSet_eq topo hi hm
  have hnd := (Total.wellFormed hi).2
  have hsub : ∀ x ∈ pre, x ∈ setup.mComponents := by
    intro x hx; rw [hcs]; exact List.mem_append_left _ hx
  have hc : c ∈ setup.mComponents := by rw [hcs]; simp
  cases hnew : SenderSetComputer.new setup topo intent with
  | error e => rw [hnew] at hss; cases hss
  | ok sc =>
    rw [hnew, bind_ok] at hss
    obtain ⟨back', hb⟩ := transition_fold ⟨setup, topo, intent, filter, senderSet setup topo intent⟩
      (filteredBy filter setup topo intent) pre [[]] [] []
      (by simp)
      (by
        rw [hcs] at hnd
        simpa using (List.nodup_append.1 hnd).1)
      (by simpa using hsub)
      (by
        intro x hx
        simp only [getPossibleActions_eq topo hi filter x (hsub x hx), bind_ok]
        obtain ⟨l, h1, h2⟩ := hgood x hx
        rw [filteredBy_of_ok h1]
        exact ⟨h1, h2⟩)
    have h0 : ([TraitMapping.new] : List NetworkState)
        = List.map (TraitMapping.ofList setup) [[]] := by
      simp [TraitMapping.new_eq_ofList setup]
    have hstep := transitionStep_error
      ⟨setup, topo, intent, filter, senderSet setup topo intent⟩
      ((crossProduct (filteredBy filter setup topo intent) [[]] pre).map
        (TraitMapping.ofList setup), back') c _
      (getPossibleActions_eq topo hi filter c hc) e hbad
    have hfold : setup.mComponents.foldlM
        (ANLComputer.transitionStep ⟨setup, topo, intent, filter, senderSet setup topo intent⟩)
        ([TraitMapping.new], []) = .error e := by
      rw [hcs, h0, foldlM_append_ok _ _ _ hb, foldlM_cons_error _ _ hstep]
    simp only [ANLComputer.transition, hnew, bind_ok, hss]
    rw [hfold]
    rfl

theorem transition_fails_of_emptied {setup : NetworkSetup} (topo : NetworkTopology)
    {intent : IntentionAssignment} (hi : IntentionAssignment.Total setup intent)
    (hm : intent.SendsCarryMessage) (filter : FilterFunction) (ss0 : SenderSetRepresentation)
    (pre : List Component) (c : Component) (post : List Component)
    (hcs : setup.mComponents = pre ++ c :: post)
    (hempty : filter setup (possibleActions setup topo intent c) = .ok []) :
    ∃ e, ANLComputer.transition ⟨setup, topo, intent, filter, ss0⟩ = .error e ∧
      ((∀ x ∈ pre, ∃ l, filter setup (possibleActions setup topo intent x) = .ok l) →
        e = Fatal.filterRemovedAll) := by
  have hex : ∃ a ∈ pre ++ [c],
      ¬ ∃ l, filter setup (possibleActions setup topo intent a) = .ok l ∧ l ≠ [] := by
    refine ⟨c, by simp, ?_⟩
    rintro ⟨l, h1, h2⟩
    rw [hempty] at h1
    cases h1
    exact h2 rfl
  obtain ⟨pre1, c1, post1, h1, h2, h3⟩ := exists_first_not _ _ hex
  have hcs1 : setup.mComponents = pre1 ++ c1 :: (post1 ++ post) := by
    have : pre ++ c :: post = (pre ++ [c]) ++ post := by simp
    rw [hcs, this, h1]
    simp
  cases hf : filter setup (possibleActions setup topo intent c1) with
  | error e =>
    refine ⟨e, transition_first_failure topo hi hm filter ss0 pre1 c1 _ hcs1 h2 e (Or.inl hf), ?_⟩
    intro hall
    have hmem : c1 ∈ pre ++ [c] := by rw [h1]; simp
    rcases List.mem_append.1 hmem with hmem | hmem
    · obtain ⟨l, hl⟩ := hall c1 hmem
      rw [hf] at hl
      cases hl
    · simp only [List.mem_singleton] at hmem
      subst hmem
      rw [hf] at hempty
      cases hempty
  | ok l =>
    have hl : l = [] := by
      by_contra hne
      exact h3 ⟨l, hf, hne⟩
    subst hl
    exact ⟨Fatal.filterRemovedAll,
      transition_first_failure topo hi hm filter ss0 pre1 c1 _ hcs1 h2 _ (Or.inr ⟨hf, rfl⟩),
      fun _ => rfl⟩

/-- C20: for every filter and every total intention assignment for which the
sender-set solver returns, if the filter returns the empty list for the
possible actions of a registered component `c`, `ANLComputer::transition` is
fatal and returns no vector of states; the fatal requirement is "filter removed
all possibilities" whenever the filter itself returns for the components that
are registered before `c`. -/
theorem transition_filter_removed_all (setup : NetworkSetup) (topo : NetworkTopology)
    (intent : IntentionAssignment) (hi : IntentionAssignment.Total setup intent)
    (filter : FilterFunction) (ss0 ss : SenderSetRepresentation)
    (hss : (SenderSetComputer.new setup topo intent).bind SenderSetComputer.getSenderSet
      = .ok ss)
    (c : Component) (hc : c ∈ setup.mComponents) (acts : List ComponentAction)
    (hacts : ANLComputer.getPossibleActions ⟨setup, topo, intent, filter, ss⟩ c = .ok acts)
    (hempty : filter setup acts = .ok []) :
    (∃ e, ANLComputer.transition ⟨setup, topo, intent, filter, ss0⟩ = .error e) ∧
    (∀ states, ANLComputer.transition ⟨setup, topo, intent, filter, ss0⟩ ≠ .ok states) ∧
    (∀ pre post, setup.mComponents = pre ++ c :: post →
      (∀ x ∈ pre, ∀ actsx,
        ANLComputer.getPossibleActions ⟨setup, topo, intent, filter, ss⟩ x = .ok actsx →
          ∃ l, filter setup actsx = .ok l) →
      ANLComputer.transition ⟨setup, topo, intent, filter, ss0⟩
        = .error Fatal.filterRemovedAll) := by
  obtain ⟨hm, rfl⟩ := (getSenderSet_ok_iff topo hi ss).1 hss
  rw [getPossibleActions_eq topo hi filter c hc] at hacts
  cases hacts
  obtain ⟨pre0, post0, hcs0⟩ := List.append_of_mem hc
  obtain ⟨e, he, -⟩ := transition_fails_of_emptied topo hi hm filter ss0 pre0 c post0 hcs0 hempty
  refine ⟨⟨e, he⟩, ?_, ?_⟩
  · intro states h
    rw [he] at h
    cases h
  · intro pre post hcs hall
    obtain ⟨e1, he1, h1⟩ :=
      transition_fails_of_emptied topo hi hm filter ss0 pre c post hcs hempty
    rw [he1, h1]
    intro x hx
    have hxc : x ∈ setup.mComponents := by rw [hcs]; exact List.mem_append_left _ hx
    exact hall x hx _ (getPossibleActions_eq topo hi filter x hxc)

/-- The instance of C20 at the call of the test `tooRestrictiveFilterFails`. -/
theorem transition_filter_removed_all_witness :
    IntentionAssignment.Total singleSetup singleIdleIntent ∧
    ANLComputer.getPossibleActions
      ⟨singleSetup, trivialTopology, singleIdleIntent, clearingFilter,
        senderSet singleSetup trivialTopology singleIdleIntent⟩ 1
        = .ok [⟨ActionType.IDLE, 0, none⟩] ∧
    (∃ e, ANLComputer.transition
      ⟨singleSetup, trivialTopology, singleIdleIntent, clearingFilter, TraitMapping.new⟩
        = .error e) ∧
    (∀ states, ANLComputer.transition
      ⟨singleSetup, trivialTopology, singleIdleIntent, clearingFilter, TraitMapping.new⟩
        ≠ .ok states) ∧
    (∀ pre post, singleSetup.mComponents = pre ++ 1 :: post →
      (∀ x ∈ pre, ∀ actsx,
        ANLComputer.getPossibleActions
          ⟨singleSetup, trivialTopology, singleIdleIntent, clearingFilter,
            senderSet singleSetup trivialTopology singleIdleIntent⟩ x = .ok actsx →
          ∃ l, clearingFilter singleSetup actsx = .ok l) →
      ANLComputer.transition
        ⟨singleSetup, trivialTopology, singleIdleIntent, clearingFilter, TraitMapping.new⟩
          = .error Fatal.filterRemovedAll) :=
  ⟨by decide, rfl,
    transition_filter_removed_all singleSetup trivialTopology singleIdleIntent (by decide)
      clearingFilter TraitMapping.new (senderSet singleSetup trivialTopology singleIdleIntent)
      (getSenderSet_eq trivialTopology (by decide) (by decide)) 1 (by decide)
      [⟨ActionType.IDLE, 0, none⟩] rfl rfl⟩

theorem updateTicSetForComponent_noMessage {setup : NetworkSetup} {topo : NetworkTopology}
    {intent : IntentionAssignment} (hi : IntentionAssignment.Total setup intent)
    (t : Nat) (S N : List Component) (R : SenderSetRepresentation) (c : Component)
    (hc : c ∈ setup.mComponents) (tr : ComponentIntention)
    (htr : intent.mMapping.lookup c = some tr)
    (hty : tr.mType = IntentionType.SEND ∨ tr.mType = IntentionType.SEND_FORCE)
    (hmsg : tr.mMessage = none) :
    SenderSetComputer.updateTicSetForComponent ⟨setup, topo, intent, t, S, N, R⟩ c
      = .error Fatal.noMessage := by
  have hget : TraitMapping.getTraitFor setup intent c = .ok tr := by
    rw [Total.getTraitFor hi, if_pos hc, htr]
  unfold SenderSetComputer.updateTicSetForComponent
  simp only [hget, bind_ok, ComponentTrait.getType, ComponentTrait.getMessage, hmsg]
  rcases hty with h | h <;> simp [h]

theorem getSenderSet_noMessage {setup : NetworkSetup} (topo : NetworkTopology)
    {intent : IntentionAssignment} (hi : IntentionAssignment.Total setup intent)
    (hno : ∃ p ∈ intent.mMapping,
      (p.2.mType = IntentionType.SEND ∨ p.2.mType = IntentionType.SEND_FORCE) ∧
        p.2.mMessage = none) :
    (SenderSetComputer.new setup topo intent).bind SenderSetComputer.getSenderSet
      = .error Fatal.noMessage := by
  have hp : intent.isPartial = false := hi.2.1
  obtain ⟨hT, hnd⟩ := Total.wellFormed hi
  obtain ⟨q, hq, hqty, hqmsg⟩ := hno
  have hqc : q.1 ∈ setup.mComponents := hi.1.2.1 _ (List.mem_map_of_mem _ hq)
  have hql : intent.mMapping.lookup q.1 = some q.2 :=
    lookup_of_mem_nodup _ hi.1.1 q.1 q.2 hq
  obtain ⟨pre, c, post, hcs, hpre, hbad⟩ := exists_first_not
    (fun x => ∀ tr, intent.mMapping.lookup x = some tr →
      (tr.mType = IntentionType.SEND ∨ tr.mType = IntentionType.SEND_FORCE) →
        tr.mMessage ≠ none)
    setup.mComponents ⟨q.1, hqc, fun h => h q.2 hql hqty hqmsg⟩
  simp only [not_forall, not_not] at hbad
  obtain ⟨tr, htr, hty, hmsg⟩ := hbad
  have hsub : ∀ x ∈ pre, x ∈ setup.mComponents := by
    intro x hx; rw [hcs]; exact List.mem_append_left _ hx
  have hc : c ∈ setup.mComponents := by rw [hcs]; simp
  have hndpre : pre.Nodup := by
    rw [hcs] at hnd
    exact (List.nodup_append.1 hnd).1
  have hpref := computeTicSet_fold_local topo hi 0 [] hT pre [] [] hpre hsub (by simp)
    (by simpa using hndpre.filter _) (by simpa using hndpre.filter _)
  have hfold : setup.mComponents.foldlM SenderSetComputer.updateTicSetForComponent
      ⟨setup, topo, intent, 0, [], [], TraitMapping.ofList setup []⟩
        = .error Fatal.noMessage := by
    rw [hcs, foldlM_append_ok _ _ _ hpref,
      foldlM_cons_error _ _
        (updateTicSetForComponent_noMessage hi 0 [] _ _ c hc tr htr hty hmsg)]
  have hiter : SenderSetComputer.iteration
      ⟨setup, topo, intent, 0, [], [], TraitMapping.new⟩ 0 = .error Fatal.noMessage := by
    simp only [SenderSetComputer.iteration, SenderSetComputer.initializeIteration,
      List.length_nil, ne_eq, not_true_eq_false, if_false, SenderSetComputer.computeTicSet,
      NetworkSetup.getTicsPerSlot, hT, TraitMapping.new_eq_ofList setup, hfold, bind_error]
  obtain ⟨n, hn⟩ : ∃ n, setup.mTicsPerSlot = n + 1 := ⟨setup.mTicsPerSlot - 1, by omega⟩
  simp only [SenderSetComputer.new, hp, Bool.false_eq_true, if_false, bind_ok,
    SenderSetComputer.getSenderSet, NetworkSetup.getTicsPerSlot, hn, List.range_succ_eq_map,
    foldlM_cons_error _ _ hiter, bind_error]

/-- C19: for an intention assignment that satisfies the invariant of trait
mappings and whose intentions were accepted by the trait constructor,
constructing a `SenderSetComputer` and calling `getSenderSet` is fatal if and
only if the assignment is partial or some `SEND` or `SEND_FORCE` intention in it
has a null message; a partial assignment fails with "intent is partial", a
mapping that is not partial and holds a send intention with a null message
fails with "invalid message: no message"; and for every total assignment whose
send intentions all carry a message the call returns a result. -/
theorem getSenderSet_fatal_iff (setup : NetworkSetup) (topo : NetworkTopology)
    (intent : IntentionAssignment) (hinv : intent.Inv setup)
    (htic : ∀ p ∈ intent.mMapping, p.2.mTic < setup.mTicsPerSlot) :
    ((∃ e, (SenderSetComputer.new setup topo intent).bind SenderSetComputer.getSenderSet
        = .error e) ↔
      (intent.isPartial = true ∨
        ∃ p ∈ intent.mMapping,
          (p.2.mType = IntentionType.SEND ∨ p.2.mType = IntentionType.SEND_FORCE) ∧
            p.2.mMessage = none)) ∧
    (intent.isPartial = true →
      (SenderSetComputer.new setup topo intent).bind SenderSetComputer.getSenderSet
        = .error Fatal.intentPartial) ∧
    (intent.isPartial = false →
      (∃ p ∈ intent.mMapping,
        (p.2.mType = IntentionType.SEND ∨ p.2.mType = IntentionType.SEND_FORCE) ∧
          p.2.mMessage = none) →
      (SenderSetComputer.new setup topo intent).bind SenderSetComputer.getSenderSet
        = .error Fatal.noMessage) ∧
    (intent.isPartial = false → intent.SendsCarryMessage →
      ∃ ss, (SenderSetComputer.new setup topo intent).bind SenderSetComputer.getSenderSet
        = .ok ss) := by
  have hpart : intent.isPartial = true →
      (SenderSetComputer.new setup topo intent).bind SenderSetComputer.getSenderSet
        = .error Fatal.intentPartial := by
    intro hp
    simp [SenderSetComputer.new, hp, bind_error]
  refine ⟨⟨?_, ?_⟩, hpart,
    fun hp hno => getSenderSet_noMessage topo ⟨hinv, hp, htic⟩ hno, ?_⟩
  · rintro ⟨e, he⟩
    by_cases hp : intent.isPartial = true
    · exact Or.inl hp
    · right
      have hp2 : intent.isPartial = false := by simpa using hp
      by_contra hno
      have hm : intent.SendsCarryMessage := by
        intro p hp3 hty hmsg
        exact hno ⟨p, hp3, hty, hmsg⟩
      rw [getSenderSet_eq topo ⟨hinv, hp2, htic⟩ hm] at he
      cases he
  · rintro (hp | ⟨p, hp1, hty, hmsg⟩)
    · exact ⟨_, hpart hp⟩
    · by_cases hp : intent.isPartial = true
      · exact ⟨_, hpart hp⟩
      · have hp2 : intent.isPartial = false := by simpa using hp
        cases hget : (SenderSetComputer.new setup topo intent).bind
            SenderSetComputer.getSenderSet with
        | error e => exact ⟨e, rfl⟩
        | ok ss =>
          exact absurd hmsg
            (getSenderSet_ok_sendsCarryMessage topo ⟨hinv, hp2, htic⟩ ss hget p hp1 hty)
  · intro hp hm
    exact ⟨_, getSenderSet_eq topo ⟨hinv, hp, htic⟩ hm⟩

/-- The instance of C19 at the assignment of the test
`sendInvalidMessageFails`, for which the call is fatal. -/
theorem getSenderSet_fatal_iff_witness :
    TraitMapping.Inv invalidMessageSetup invalidMessageIntent ∧
    (SenderSetComputer.new invalidMessageSetup trivialTopology invalidMessageIntent).bind
      SenderSetComputer.getSenderSet = .error Fatal.noMessage ∧
    ((∃ e, (SenderSetComputer.new invalidMessageSetup trivialTopology
        invalidMessageIntent).bind SenderSetComputer.getSenderSet = .error e) ↔
      (invalidMessageIntent.isPartial = true ∨
        ∃ p ∈ invalidMessageIntent.mMapping,
          (p.2.mType = IntentionType.SEND ∨ p.2.mType = IntentionType.SEND_FORCE) ∧
            p.2.mMessage = none)) ∧
    (invalidMessageIntent.isPartial = true →
      (SenderSetComputer.new invalidMessageSetup trivialTopology invalidMessageIntent).bind
        SenderSetComputer.getSenderSet = .error Fatal.intentPartial) ∧
    (invalidMessageIntent.isPartial = false →
      (∃ p ∈ invalidMessageIntent.mMapping,
        (p.2.mType = IntentionType.SEND ∨ p.2.mType = IntentionType.SEND_FORCE) ∧
          p.2.mMessage = none) →
      (SenderSetComputer.new invalidMessageSetup trivialTopology invalidMessageIntent).bind
        SenderSetComputer.getSenderSet = .error Fatal.noMessage) ∧
    (invalidMessageIntent.isPartial = false → invalidMessageIntent.SendsCarryMessage →
      ∃ ss, (SenderSetComputer.new invalidMessageSetup trivialTopology
        invalidMessageIntent).bind SenderSetComputer.getSenderSet = .ok ss) :=
  ⟨by decide, rfl,
    getSenderSet_fatal_iff invalidMessageSetup trivialTopology invalidMessageIntent
      (by decide) (by decide)⟩

/-! ## Traits and trait mappings -/

theorem setTraitFor_ok_iff {T : Type} (setup : NetworkSetup) (tm tm' : TraitMapping T)
    (c : Component) (t : ComponentTrait T) :
    TraitMapping.setTraitFor setup tm c t = .ok tm' ↔
      c ∈ setup.mComponents ∧ c ∉ tm.keys ∧
        tm' = ⟨tm.mMapping ++ [(c, t)],
          if (tm.mMapping ++ [(c, t)]).length = setup.getComponentCount then false
          else tm.mPartial⟩ := by
  unfold TraitMapping.setTraitFor TraitMapping.keys
  by_cases hc : setup.isComponent c = true
  · have hc' := (isComponent_iff setup c).1 hc
    by_cases hk : (tm.mMapping.lookup c).isSome = true
    · have hk' := (lookup_isSome_iff _ _).1 hk
      simp [hc, hk, hk']
    · have hk' : c ∉ tm.mMapping.map Prod.fst := fun h => hk ((lookup_isSome_iff _ _).2 h)
      simp only [hc, Bool.not_true, Bool.false_eq_true, if_false, hk, Except.ok.injEq, hc',
        hk', not_false_eq_true, true_and]
      exact eq_comm
  · have hc' : c ∉ setup.mComponents := fun h => hc ((isComponent_iff setup c).2 h)
    simp [hc, hc']

theorem setTraitFor_error_iff {T : Type} (setup : NetworkSetup) (tm : TraitMapping T)
    (c : Component) (t : ComponentTrait T) :
    ((∃ e, TraitMapping.setTraitFor setup tm c t = .error e) ↔
      (c ∉ setup.mComponents ∨ c ∈ tm.keys)) ∧
    (c ∉ setup.mComponents →
      TraitMapping.setTraitFor setup tm c t = .error Fatal.notAComponent) ∧
    (c ∈ setup.mComponents → c ∈ tm.keys →
      TraitMapping.setTraitFor setup tm c t = .error Fatal.overrideTrait) := by
  have h1 : c ∉ setup.mComponents →
      TraitMapping.setTraitFor setup tm c t = .error Fatal.notAComponent := by
    intro hc
    have : setup.isComponent c = false := by
      rw [← Bool.not_eq_true, isComponent_iff]; exact hc
    simp [TraitMapping.setTraitFor, this]
  have h2 : c ∈ setup.mComponents → c ∈ tm.keys →
      TraitMapping.setTraitFor setup tm c t = .error Fatal.overrideTrait := by
    intro hc hk
    have h3 : setup.isComponent c = true := (isComponent_iff setup c).2 hc
    have h4 : (tm.mMapping.lookup c).isSome = true := (lookup_isSome_iff _ _).2 hk
    simp [TraitMapping.setTraitFor, h3, h4]
  refine ⟨⟨?_, ?_⟩, h1, h2⟩
  · rintro ⟨e, he⟩
    by_contra hno
    simp only [not_or, not_not] at hno
    have := (setTraitFor_ok_iff setup tm _ c t).2 ⟨hno.1, hno.2, rfl⟩
    rw [this] at he
    cases he
  · rintro (hc | hk)
    · exact ⟨_, h1 hc⟩
    · by_cases hc : c ∈ setup.mComponents
      · exact ⟨_, h2 hc hk⟩
      · exact ⟨_, h1 hc⟩

theorem lookup_append_single {β : Type} (l : List (Component × β)) (c : Component) (v : β)
    (c' : Component) :
    (l ++ [(c, v)]).lookup c' =
      match l.lookup c' with
      | some w => some w
      | none => if c' = c then some v else none := by
  induction l with
  | nil =>
    by_cases h : c' = c
    · subst h; simp [List.lookup_cons]
    · have h1 : (c' == c) = false := by simpa using h
      simp [List.lookup_cons, h1, h]
  | cons x xs ih =>
    obtain ⟨k, w⟩ := x
    by_cases h : c' = k
    · subst h; simp [List.lookup_cons]
    · have h1 : (c' == k) = false := by simpa using h
      simp only [List.cons_append, List.lookup_cons, h1]
      exact ih

/-- C21: `TraitMapping::setTraitFor(c, t)` is fatal if and only if `c` is not
registered in the mapping's setup or `c` already has an entry (with "not a
valid component" and "can not override" as the failing requirements). A call
that returns has appended the entry of `c` and nothing else: `c` now maps to
`t`, every other component maps to what it mapped to before, and every entry
that was there is still there, so no entry is ever overwritten; and the call
returns whenever `c` is registered and has no entry. -/
theorem setTraitFor_fatal_iff {T : Type} (setup : NetworkSetup) (tm : TraitMapping T)
    (c : Component) (t : ComponentTrait T) :
    ((∃ e, TraitMapping.setTraitFor setup tm c t = .error e) ↔
      (c ∉ setup.mComponents ∨ c ∈ tm.keys)) ∧
    (c ∉ setup.mComponents →
      TraitMapping.setTraitFor setup tm c t = .error Fatal.notAComponent) ∧
    (c ∈ setup.mComponents → c ∈ tm.keys →
      TraitMapping.setTraitFor setup tm c t = .error Fatal.overrideTrait) ∧
    (∀ tm', TraitMapping.setTraitFor setup tm c t = .ok tm' →
      tm'.mMapping = tm.mMapping ++ [(c, t)] ∧
      tm'.mMapping.lookup c = some t ∧
      (∀ c', c' ≠ c → tm'.mMapping.lookup c' = tm.mMapping.lookup c') ∧
      (∀ p ∈ tm.mMapping, p ∈ tm'.mMapping)) ∧
    (c ∈ setup.mComponents → c ∉ tm.keys →
      ∃ tm', TraitMapping.setTraitFor setup tm c t = .ok tm') := by
  obtain ⟨h1, h2, h3⟩ := setTraitFor_error_iff setup tm c t
  refine ⟨h1, h2, h3, ?_, ?_⟩
  · intro tm' h
    obtain ⟨-, hk, rfl⟩ := (setTraitFor_ok_iff setup tm tm' c t).1 h
    have hnone : tm.mMapping.lookup c = none := (lookup_eq_none_iff _ _).2 hk
    refine ⟨rfl, ?_, ?_, ?_⟩
    · show (tm.mMapping ++ [(c, t)]).lookup c = some t
      rw [lookup_append_single, hnone]
      simp
    · intro c' hne
      show (tm.mMapping ++ [(c, t)]).lookup c' = tm.mMapping.lookup c'
      rw [lookup_append_single]
      cases tm.mMapping.lookup c' with
      | none => simp [hne]
      | some w => rfl
    · intro p hp
      exact List.mem_append_left _ hp
  · intro hc hk
    exact ⟨_, (setTraitFor_ok_iff setup tm _ c t).2 ⟨hc, hk, rfl⟩⟩

theorem setAll_spec {T : Type} (setup : NetworkSetup) :
    ∀ (calls : List (Component × ComponentTrait T)) (tm tm' : TraitMapping T),
      tm.Inv setup → TraitMapping.setAll setup tm calls = .ok tm' →
      tm'.Inv setup ∧ tm'.mMapping = tm.mMapping ++ calls := by
  intro calls
  induction calls with
  | nil =>
    intro tm tm' hinv h
    simp only [TraitMapping.setAll, List.foldlM_nil, pure, Except.pure, Except.ok.injEq] at h
    subst h
    exact ⟨hinv, by simp⟩
  | cons x xs ih =>
    intro tm tm' hinv h
    unfold TraitMapping.setAll at h
    cases h1 : tm.setTraitFor setup x.1 x.2 with
    | error e =>
      rw [List.foldlM_cons, h1] at h
      cases h
    | ok tm1 =>
      rw [foldlM_cons_ok _ _ h1] at h
      obtain ⟨h2, h3⟩ := ih tm1 tm' (TraitMapping.inv_setTraitFor hinv h1) h
      obtain ⟨-, -, rfl⟩ := (setTraitFor_ok_iff setup tm tm1 x.1 x.2).1 h1
      exact ⟨h2, by rw [h3]; simp⟩

theorem inv_isPartial_iff {T : Type} {setup : NetworkSetup} {tm : TraitMapping T}
    (hinv : tm.Inv setup) (hn : 1 ≤ setup.getComponentCount) :
    tm.isPartial = true ↔ tm.keys.length < setup.getComponentCount := by
  obtain ⟨h1, h2, h3⟩ := hinv
  have hle : tm.keys.length ≤ setup.mComponents.length :=
    (List.Nodup.subperm h1 h2).length_le
  simp only [TraitMapping.keys, List.length_map, NetworkSetup.getComponentCount] at *
  constructor
  · intro hp
    by_contra hlt
    have hlen : tm.mMapping.length = setup.mComponents.length := by omega
    have hne : tm.mMapping ≠ [] := by
      intro h
      rw [h] at hlen
      simp at hlen
      omega
    have := h3.2 ⟨hne, hlen⟩
    simp [TraitMapping.isPartial, this] at hp
  · intro hlt
    cases hp : tm.mPartial with
    | true => exact hp
    | false =>
      have := (h3.1 hp).2
      omega

/-- C22: over a fixed setup with `n ≥ 1` registered components, the mapping
that any sequence of successful `setTraitFor` calls builds from a fresh one is
partial if and only if fewer than `n` components have an entry; its entries
are those of the calls, one per component and for registered components only.
So `isPartial()` is true on the fresh mapping, stays true until the last
missing component is set, and is false from then on. -/
theorem isPartial_iff_fewer_entries {T : Type} (setup : NetworkSetup)
    (hn : 1 ≤ setup.getComponentCount) (calls : List (Component × ComponentTrait T))
    (tm : TraitMapping T) (h : TraitMapping.setAll setup TraitMapping.new calls = .ok tm) :
    (tm.isPartial = true ↔ tm.keys.length < setup.getComponentCount) ∧
    tm.keys = calls.map Prod.fst ∧ tm.keys.Nodup ∧ (∀ c ∈ tm.keys, c ∈ setup.mComponents) ∧
    (TraitMapping.new : TraitMapping T).isPartial = true := by
  obtain ⟨hinv, hm⟩ := setAll_spec setup calls _ tm (TraitMapping.inv_new setup) h
  refine ⟨inv_isPartial_iff hinv hn, ?_, hinv.1, hinv.2.1, rfl⟩
  simp [TraitMapping.keys, hm, TraitMapping.new]

/-- The instance of C22 at the test `isPartial`: after the first call the
mapping is partial, after the second it is not. -/
theorem isPartial_iff_fewer_entries_witness :
    TraitMapping.setAll twoSetup TraitMapping.new twoCalls
      = .ok ⟨twoCalls, false⟩ ∧
    TraitMapping.setAll twoSetup TraitMapping.new (twoCalls.take 1)
      = .ok ⟨twoCalls.take 1, true⟩ ∧
    ((⟨twoCalls, false⟩ : NetworkState).isPartial = true ↔
      (⟨twoCalls, false⟩ : NetworkState).keys.length < twoSetup.getComponentCount) ∧
    (⟨twoCalls, false⟩ : NetworkState).keys = twoCalls.map Prod.fst ∧
    (⟨twoCalls, false⟩ : NetworkState).keys.Nodup ∧
    (∀ c ∈ (⟨twoCalls, false⟩ : NetworkState).keys, c ∈ twoSetup.mComponents) ∧
    (TraitMapping.new : NetworkState).isPartial = true :=
  ⟨rfl, rfl, isPartial_iff_fewer_entries twoSetup (by decide) twoCalls ⟨twoCalls, false⟩ rfl⟩

/-- C24: constructing a `ComponentAction` or a `ComponentIntention` (a
`ComponentTrait<T>`) for a setup with `T` tics per slot is fatal if and only if
`tic ≥ T`, the failing requirement being "invalid tic number"; whether the
message is registered, or null, plays no part; and a constructed trait returns
the given type, tic and message from its getters. -/
theorem ComponentTrait_new_fatal_iff {T : Type} (setup : NetworkSetup) (type : T) (tic : Nat)
    (message : Option Message) :
    ((∃ e, ComponentTrait.new setup type tic message = .error e) ↔
      setup.getTicsPerSlot ≤ tic) ∧
    (setup.getTicsPerSlot ≤ tic →
      ComponentTrait.new setup type tic message = .error Fatal.invalidTicNumber) ∧
    (tic < setup.getTicsPerSlot →
      ∃ x, ComponentTrait.new setup type tic message = .ok x ∧
        x.getType = type ∧ x.getTic = tic ∧ x.getMessage = message) ∧
    (∀ x, ComponentTrait.new setup type tic message = .ok x →
      x.getType = type ∧ x.getTic = tic ∧ x.getMessage = message) ∧
    (setup.isMessage message = false → tic < setup.getTicsPerSlot →
      ∃ x, ComponentTrait.new setup type tic message = .ok x) := by
  by_cases h : setup.getTicsPerSlot > tic
  · have h1 : ComponentTrait.new setup type tic message = .ok ⟨type, tic, message⟩ := by
      simp [ComponentTrait.new, h]
    refine ⟨⟨?_, fun h2 => absurd h (by omega)⟩, fun h2 => absurd h (by omega),
      fun _ => ⟨_, h1, rfl, rfl, rfl⟩, ?_, fun _ _ => ⟨_, h1⟩⟩
    · rintro ⟨e, he⟩
      rw [h1] at he
      cases he
    · intro x hx
      rw [h1] at hx
      cases hx
      exact ⟨rfl, rfl, rfl⟩
  · have h1 : ComponentTrait.new setup type tic message = .error Fatal.invalidTicNumber := by
      simp [ComponentTrait.new, h]
    refine ⟨⟨fun _ => by omega, fun _ => ⟨_, h1⟩⟩, fun _ => h1, fun h2 => absurd h2 (by omega),
      ?_, fun _ h2 => absurd h2 (by omega)⟩
    intro x hx
    rw [h1] at hx
    cases hx

/-- C25, counterexample: the trait constructor accepts the action `IDLE` with
tic 3 and a message, and the intention `SEND` with a null message (the one the
test `sendInvalidMessageFails` constructs); neither satisfies the data-model
invariant. -/
theorem ComponentTrait_new_invariant_counterexample :
    (∃ x, ComponentTrait.new invalidMessageSetup ActionType.IDLE 3 (some 100) = .ok x ∧
      ¬ dataModelInvariant invalidMessageSetup x.getType.hasPayload x.getTic x.getMessage) ∧
    (∃ x, ComponentTrait.new invalidMessageSetup IntentionType.SEND 0 none = .ok x ∧
      ¬ dataModelInvariant invalidMessageSetup x.getType.hasPayload x.getTic x.getMessage) :=
  ⟨⟨⟨ActionType.IDLE, 3, some 100⟩, rfl, by
      simp [dataModelInvariant, ActionType.hasPayload, ComponentTrait.getType,
        ComponentTrait.getTic]⟩,
    ⟨⟨IntentionType.SEND, 0, none⟩, rfl, by
      simp [dataModelInvariant, IntentionType.hasPayload, ComponentTrait.getType,
        ComponentTrait.getMessage]⟩⟩

/-- C25, amended: the trait constructor accepts a value if and only if its tic
is below the tics per slot, whatever the type and the message; the accepted
value holds the given type, tic and message unchanged, so it satisfies the
data-model invariant exactly when the arguments of the constructor do. -/
theorem ComponentTrait_new_accepts {T : Type} (setup : NetworkSetup) (type : T) (tic : Nat)
    (message : Option Message) (payload : T → Bool) :
    ((∃ x, ComponentTrait.new setup type tic message = .ok x) ↔ tic < setup.mTicsPerSlot) ∧
    (∀ x, ComponentTrait.new setup type tic message = .ok x →
      x.getTic < setup.mTicsPerSlot ∧ x = ⟨type, tic, message⟩ ∧
      (dataModelInvariant setup (payload x.getType) x.getTic x.getMessage ↔
        dataModelInvariant setup (payload type) tic message)) := by
  by_cases h : setup.mTicsPerSlot > tic
  · have h1 : ComponentTrait.new setup type tic message = .ok ⟨type, tic, message⟩ := by
      simp [ComponentTrait.new, NetworkSetup.getTicsPerSlot, h]
    refine ⟨⟨fun _ => h, fun _ => ⟨_, h1⟩⟩, ?_⟩
    intro x hx
    rw [h1] at hx
    cases hx
    exact ⟨h, rfl, Iff.rfl⟩
  · have h1 : ComponentTrait.new setup type tic message = .error Fatal.invalidTicNumber := by
      simp [ComponentTrait.new, NetworkSetup.getTicsPerSlot, h]
    refine ⟨⟨?_, fun h2 => absurd h2 h⟩, ?_⟩
    · rintro ⟨x, hx⟩
      rw [h1] at hx
      cases hx
    · intro x hx
      rw [h1] at hx
      cases hx

/-! ## The registry of components and the explicit topology -/

theorem foldlM_record (l : List Component) :
    ∀ seen : List Component,
      l.foldlM (fun (seen : List Component) comp => (Except.ok (seen ++ [comp]) : Except Fatal _))
        seen = .ok (seen ++ l) := by
  induction l with
  | nil => intro seen; simp [pure, Except.pure]
  | cons x xs ih =>
    intro seen
    rw [foldlM_cons_ok _ _ rfl, ih]
    simp

theorem visited_eq (setup : NetworkSetup) : setup.visited = .ok setup.mComponents := by
  unfold NetworkSetup.visited NetworkSetup.forEachComponent
  rw [foldlM_record]
  rfl

theorem foldlM_snoc {α β : Type} (f : β → α → Except Fatal β) (l : List α) (a : α) (b : β) :
    (l ++ [a]).foldlM f b = (l.foldlM f b).bind fun s => f s a := by
  rw [List.foldlM_append]
  cases l.foldlM f b with
  | error e => rfl
  | ok s =>
    show [a].foldlM f s = f s a
    rw [List.foldlM_cons]
    cases f s a <;> rfl

theorem registerComponent_ok_iff (setup setup' : NetworkSetup) (comp : Option Component) :
    setup.registerComponent comp = .ok setup' ↔
      ∃ c, comp = some c ∧ c ∉ setup.mComponents ∧
        setup' = { setup with mComponents := setup.mComponents ++ [c] } := by
  cases comp with
  | none => simp [NetworkSetup.registerComponent]
  | some c =>
    by_cases hc : setup.isComponent c = true
    · have hc' := (isComponent_iff setup c).1 hc
      simp [NetworkSetup.registerComponent, hc, hc']
    · have hc' : c ∉ setup.mComponents := fun h => hc ((isComponent_iff setup c).2 h)
      simp only [NetworkSetup.registerComponent, hc, Bool.false_eq_true, if_false,
        Except.ok.injEq, Option.some.injEq, exists_eq_left', hc', not_false_eq_true, true_and]
      exact eq_comm

theorem registerAll_spec :
    ∀ (comps : List (Option Component)) (setup setup' : NetworkSetup),
      setup.mComponents.Nodup → setup.registerAll comps = .ok setup' →
      setup'.mComponents.Nodup ∧ setup'.mTicsPerSlot = setup.mTicsPerSlot ∧
        setup'.mMessages = setup.mMessages ∧
        setup'.mComponents.map some = setup.mComponents.map some ++ comps := by
  intro comps
  induction comps with
  | nil =>
    intro setup setup' hnd h
    simp only [NetworkSetup.registerAll, List.foldlM_nil, pure, Except.pure,
      Except.ok.injEq] at h
    subst h
    exact ⟨hnd, rfl, rfl, by simp⟩
  | cons x xs ih =>
    intro setup setup' hnd h
    unfold NetworkSetup.registerAll at h
    cases h1 : setup.registerComponent x with
    | error e =>
      rw [List.foldlM_cons, h1] at h
      cases h
    | ok s1 =>
      rw [foldlM_cons_ok _ _ h1] at h
      obtain ⟨c, rfl, hc, rfl⟩ := (registerComponent_ok_iff setup s1 x).1 h1
      have hnd1 : (setup.mComponents ++ [c]).Nodup := by
        rw [List.nodup_append]
        refine ⟨hnd, List.nodup_singleton c, ?_⟩
        intro y hy hy2
        rw [List.mem_singleton] at hy2
        exact hc (hy2 ▸ hy)
      obtain ⟨h2, h3, h4, h5⟩ := ih _ setup' hnd1 h
      exact ⟨h2, h3, h4, by rw [h5]; simp⟩

/-- C26: `NetworkSetup` keeps its components in registration order.
`registerComponent(c)` is fatal if and only if `c` is null or already
registered. When it returns, `forEachComponent` visits the components it
visited before, in the same order, and then `c` (for the recording callback
and for every other callback), `getComponentCount` has grown by one and
`isComponent` is true for `c` and for what was registered, and for nothing
else. So, on a setup built from the constructor by a sequence of such calls,
`forEachComponent` visits every registered component exactly once, in
registration order. -/
theorem registerComponent_keeps_order (setup : NetworkSetup) (comp : Option Component) :
    ((∃ e, setup.registerComponent comp = .error e) ↔
      (comp = none ∨ ∃ c, comp = some c ∧ setup.isComponent c = true)) ∧
    (setup.registerComponent none = .error Fatal.registerNullComponent) ∧
    (∀ c, setup.isComponent c = true →
      setup.registerComponent (some c) = .error Fatal.duplicateComponent) ∧
    (∀ c, setup.isComponent c = false → ∃ setup', setup.registerComponent (some c) = .ok setup') ∧
    (∀ setup', setup.registerComponent comp = .ok setup' →
      ∃ c, comp = some c ∧
        setup.visited = .ok setup.mComponents ∧
        setup'.visited = .ok (setup.mComponents ++ [c]) ∧
        (∀ (σ : Type) (cb : σ → Component → Except Fatal σ) (init : σ),
          setup'.forEachComponent cb init =
            (setup.forEachComponent cb init).bind fun s => cb s c) ∧
        setup'.getComponentCount = setup.getComponentCount + 1 ∧
        (∀ x, setup'.isComponent x = true ↔ (x = c ∨ setup.isComponent x = true)) ∧
        setup'.getTicsPerSlot = setup.getTicsPerSlot ∧
        (∀ m, setup'.isMessage m = setup.isMessage m)) ∧
    (∀ (ticsPerSlot : Nat) (fresh : NetworkSetup) (comps : List (Option Component))
        (setup' : NetworkSetup),
      NetworkSetup.new ticsPerSlot = .ok fresh → fresh.registerAll comps = .ok setup' →
      (setup'.visited.map fun seen => seen.map some) = .ok comps ∧
      setup'.mComponents.Nodup ∧ setup'.getComponentCount = comps.length ∧
      ∀ x, setup'.isComponent x = true ↔ some x ∈ comps) := by
  refine ⟨⟨?_, ?_⟩, rfl, ?_, ?_, ?_, ?_⟩
  · rintro ⟨e, he⟩
    cases comp with
    | none => exact Or.inl rfl
    | some c =>
      right
      refine ⟨c, rfl, ?_⟩
      by_contra hc
      have hc' : c ∉ setup.mComponents := fun h => hc ((isComponent_iff setup c).2 h)
      rw [(registerComponent_ok_iff setup _ (some c)).2 ⟨c, rfl, hc', rfl⟩] at he
      cases he
  · rintro (rfl | ⟨c, rfl, hc⟩)
    · exact ⟨_, rfl⟩
    · exact ⟨Fatal.duplicateComponent, by simp [NetworkSetup.registerComponent, hc]⟩
  · intro c hc
    simp [NetworkSetup.registerComponent, hc]
  · intro c hc
    have hc' : c ∉ setup.mComponents := by
      intro h
      rw [(isComponent_iff setup c).2 h] at hc
      cases hc
    exact ⟨_, (registerComponent_ok_iff setup _ (some c)).2 ⟨c, rfl, hc', rfl⟩⟩
  · intro setup' h
    obtain ⟨c, rfl, hc, rfl⟩ := (registerComponent_ok_iff setup setup' comp).1 h
    refine ⟨c, rfl, visited_eq setup, visited_eq _, ?_, ?_, ?_, rfl, fun m => rfl⟩
    · intro σ cb init
      exact foldlM_snoc cb setup.mComponents c init
    · simp [NetworkSetup.getComponentCount]
    · intro x
      simp only [isComponent_iff, List.mem_append, List.mem_singleton]
      tauto
  · intro ticsPerSlot fresh comps setup' hnew hreg
    have hfresh : fresh.mComponents = [] := by
      unfold NetworkSetup.new at hnew
      by_cases h : ticsPerSlot > 0
      · simp only [h, if_true, Except.ok.injEq] at hnew
        subst hnew
        rfl
      · simp [h] at hnew
    obtain ⟨h1, -, -, h2⟩ := registerAll_spec comps fresh setup' (by simp [hfresh]) hreg
    rw [hfresh] at h2
    simp only [List.map_nil, List.nil_append] at h2
    refine ⟨?_, h1, ?_, ?_⟩
    · rw [visited_eq]
      show Except.ok (setup'.mComponents.map some) = Except.ok comps
      rw [h2]
    · rw [← h2]
      simp [NetworkSetup.getComponentCount]
    · intro x
      rw [isComponent_iff, ← h2]
      simp

theorem mem_setInsert (set : List Component) (y b : Component) :
    b ∈ setInsert set y ↔ (b ∈ set ∨ b = y) := by
  unfold setInsert
  by_cases h : y ∈ set
  · rw [if_pos h]
    constructor
    · exact Or.inl
    · rintro (h1 | rfl)
      · exact h1
      · exact h
  · rw [if_neg h]
    simp

theorem setInsert_idem (set : List Component) (y : Component) :
    setInsert (setInsert set y) y = setInsert set y := by
  have : y ∈ setInsert set y := (mem_setInsert set y y).2 (Or.inr rfl)
  conv_lhs => rw [setInsert, if_pos this]

theorem lookup_map_insert (l : List (Component × List Component)) (x y a : Component) :
    (l.map fun entry => if entry.1 = x then (entry.1, setInsert entry.2 y) else entry).lookup a
      = (l.lookup a).map fun set => if a = x then setInsert set y else set := by
  induction l with
  | nil => rfl
  | cons e es ih =>
    obtain ⟨k, s⟩ := e
    have hhead : (if k = x then (k, setInsert s y) else (k, s))
        = (k, if k = x then setInsert s y else s) := by
      by_cases hx : k = x <;> simp [hx]
    by_cases h : a = k
    · subst h
      simp only [List.map_cons, hhead, List.lookup_cons, beq_self_eq_true, Option.map_some']
    · have h1 : (a == k) = false := by simpa using h
      simp only [List.map_cons, hhead, List.lookup_cons, h1]
      exact ih

theorem doCanReach_addEdge (t : ExplicitNetworkTopology) (x y a b : Component) :
    (t.addEdge x y).doCanReach a b = (decide (a = x ∧ b = y) || t.doCanReach a b) := by
  unfold ExplicitNetworkTopology.addEdge
  cases hx : t.mStorage.lookup x with
  | some s0 =>
    simp only [Option.isSome_some, if_true, ExplicitNetworkTopology.doCanReach,
      lookup_map_insert]
    by_cases hax : a = x
    · subst hax
      rw [hx]
      simp only [Option.map_some', if_true, true_and]
      rw [Bool.eq_iff_iff]
      simp only [decide_eq_true_eq, Bool.or_eq_true, mem_setInsert]
      tauto
    · cases t.mStorage.lookup a with
      | none => simp [hax]
      | some s => simp [hax]
  | none =>
    simp only [Option.isSome_none, Bool.false_eq_true, if_false,
      ExplicitNetworkTopology.doCanReach, lookup_append_single]
    by_cases hax : a = x
    · subst hax
      rw [hx]
      simp only [if_true, true_and, Bool.or_false]
      rw [Bool.eq_iff_iff]
      simp [mem_setInsert]
    · cases t.mStorage.lookup a with
      | none => simp [hax]
      | some s => simp [hax]

theorem doCanReach_addEdges (edges : List (Component × Component)) (a b : Component) :
    ∀ t : ExplicitNetworkTopology,
      (t.addEdges edges).doCanReach a b = true ↔
        (t.doCanReach a b = true ∨ (a, b) ∈ edges) := by
  induction edges with
  | nil => intro t; simp [ExplicitNetworkTopology.addEdges]
  | cons e es ih =>
    intro t
    have := ih (t.addEdge e.1 e.2)
    unfold ExplicitNetworkTopology.addEdges at this ⊢
    rw [List.foldl_cons, this, doCanReach_addEdge]
    obtain ⟨e1, e2⟩ := e
    simp only [Bool.or_eq_true, decide_eq_true_eq, List.mem_cons, Prod.mk.injEq]
    tauto

theorem addEdge_idem (t : ExplicitNetworkTopology) (x y : Component) :
    (t.addEdge x y).addEdge x y = t.addEdge x y := by
  cases hx : t.mStorage.lookup x with
  | some s0 =>
    have h1 : t.addEdge x y = ⟨t.mStorage.map fun entry =>
        if entry.1 = x then (entry.1, setInsert entry.2 y) else entry⟩ := by
      simp [ExplicitNetworkTopology.addEdge, hx]
    rw [h1]
    unfold ExplicitNetworkTopology.addEdge
    simp only [lookup_map_insert, hx, Option.map_some', Option.isSome_some, if_true,
      List.map_map, ExplicitNetworkTopology.mk.injEq]
    apply List.map_congr_left
    intro entry _
    by_cases he : entry.1 = x
    · simp [he, setInsert_idem]
    · simp [he]
  | none =>
    have hk : x ∉ t.mStorage.map Prod.fst := (lookup_eq_none_iff _ _).1 hx
    have h1 : t.addEdge x y = ⟨t.mStorage ++ [(x, setInsert [] y)]⟩ := by
      simp [ExplicitNetworkTopology.addEdge, hx]
    rw [h1]
    unfold ExplicitNetworkTopology.addEdge
    have h2 : ((t.mStorage ++ [(x, setInsert [] y)]).lookup x).isSome = true := by
      rw [lookup_append_single, hx]
      simp
    simp only [h2, if_true, List.map_append, List.map_cons, List.map_nil,
      setInsert_idem, ExplicitNetworkTopology.mk.injEq]
    congr 1
    conv_rhs => rw [← List.map_id t.mStorage]
    apply List.map_congr_left
    intro entry hentry
    have : entry.1 ≠ x := by
      rintro rfl
      exact hk (List.mem_map_of_mem _ hentry)
    simp [this]

/-- C27: after any sequence of `addEdge` calls on a new
`ExplicitNetworkTopology`, `canReach(a, b)` (the virtual `doCanReach`) is true
if and only if `addEdge(a, b)` is one of the calls. Edges are directed: without
a call `addEdge(b, a)`, `canReach(b, a)` is false whatever else was added;
`addEdge(a, a)` makes `canReach(a, a)` true; and a second `addEdge(a, b)`
leaves the topology as the first one left it. -/
theorem addEdge_canReach_iff (edges : List (Component × Component)) (a b : Component) :
    ((ExplicitNetworkTopology.new.addEdges edges).doCanReach a b = true ↔ (a, b) ∈ edges) ∧
    (NetworkTopology.canReach (ExplicitNetworkTopology.new.addEdges edges).toTopology a b = true ↔
      (a, b) ∈ edges) ∧
    ((b, a) ∉ edges → (ExplicitNetworkTopology.new.addEdges edges).doCanReach b a = false) ∧
    ((ExplicitNetworkTopology.new.addEdges (edges ++ [(a, a)])).doCanReach a a = true) ∧
    (∀ t : ExplicitNetworkTopology, (t.addEdge a b).addEdge a b = t.addEdge a b) ∧
    (∀ x y, ((ExplicitNetworkTopology.new.addEdges edges).addEdge a b).doCanReach x y =
      (decide (x = a ∧ y = b) || (ExplicitNetworkTopology.new.addEdges edges).doCanReach x y)) := by
  have hnew : ∀ x y, ExplicitNetworkTopology.new.doCanReach x y = false := fun _ _ => rfl
  have hiff : ∀ (es : List (Component × Component)) (x y : Component),
      (ExplicitNetworkTopology.new.addEdges es).doCanReach x y = true ↔ (x, y) ∈ es := by
    intro es x y
    rw [doCanReach_addEdges, hnew]
    simp
  refine ⟨hiff edges a b, hiff edges a b, ?_, ?_, fun t => addEdge_idem t a b,
    fun x y => doCanReach_addEdge _ a b x y⟩
  · intro h
    rw [← Bool.not_eq_true, hiff]
    exact h
  · rw [hiff]
    simp

/-! ## The view of a component and the slot of the ANL -/

theorem call_setter (v : ANLView) (target : IntentionAssignment) (call : ViewCall)
    (i : ComponentIntention) (hi : call.intention? = some i) :
    v.call target call =
      if v.mActed then .error Fatal.alreadyActed
      else
        (ComponentTrait.new v.mSetup i.mType i.mTic i.mMessage).bind fun intention =>
          (target.setTraitFor v.mSetup v.mComponent intention).bind fun t =>
            .ok ({ v with mActed := true }, t) := by
  cases call with
  | idle => cases hi; rfl
  | listen => cases hi; rfl
  | send msg tic cs => cases hi; rfl
  | getPreviousAction => cases hi

theorem call_setter_ok (v : ANLView) (target : IntentionAssignment) (call : ViewCall)
    (i : ComponentIntention) (hi : call.intention? = some i) (v' : ANLView)
    (t' : IntentionAssignment) :
    v.call target call = .ok (v', t') ↔
      v.mActed = false ∧ i.mTic < v.mSetup.mTicsPerSlot ∧
        target.setTraitFor v.mSetup v.mComponent i = .ok t' ∧ v' = { v with mActed := true } := by
  rw [call_setter v target call i hi]
  cases hact : v.mActed with
  | true => simp
  | false =>
    simp only [Bool.false_eq_true, if_false, true_and]
    by_cases ht : v.mSetup.getTicsPerSlot > i.mTic
    · have hnew : ComponentTrait.new v.mSetup i.mType i.mTic i.mMessage = .ok i := by
        simp [ComponentTrait.new, ht]
      have ht' : i.mTic < v.mSetup.mTicsPerSlot := ht
      rw [hnew, bind_ok]
      cases hset : target.setTraitFor v.mSetup v.mComponent i with
      | error e => simp [bind_error]
      | ok t =>
        simp only [bind_ok, Except.ok.injEq, Prod.mk.injEq, ht', true_and]
        constructor
        · rintro ⟨h1, h2⟩; exact ⟨h2, h1.symm⟩
        · rintro ⟨h1, h2⟩; exact ⟨h2.symm, h1⟩
    · have hnew : ComponentTrait.new v.mSetup i.mType i.mTic i.mMessage
          = .error Fatal.invalidTicNumber := by
        simp [ComponentTrait.new, ht]
      have ht' : ¬ i.mTic < v.mSetup.mTicsPerSlot := ht
      rw [hnew, bind_error]
      simp [ht']

theorem call_get (v : ANLView) (target : IntentionAssignment) :
    v.call target ViewCall.getPreviousAction =
      if v.mHasPreviousAction then .ok (v, target) else .error Fatal.noPreviousAction := by
  unfold ANLView.call ANLView.getPreviousAction
  cases v.mHasPreviousAction <;> rfl

theorem intention_none_iff (call : ViewCall) :
    call.intention? = none ↔ call = ViewCall.getPreviousAction := by
  cases call <;> simp [ViewCall.intention?]

theorem calls_from_acted (calls : List ViewCall) (v v' : ANLView)
    (t t' : IntentionAssignment) (hact : v.mActed = true)
    (h : calls.foldlM
      (fun (state : ANLView × IntentionAssignment) call => state.1.call state.2 call) (v, t)
        = .ok (v', t')) :
    v' = v ∧ t' = t ∧ ∀ call ∈ calls, call.isSetter = false := by
  induction calls with
  | nil =>
    simp only [List.foldlM_nil, pure, Except.pure, Except.ok.injEq, Prod.mk.injEq] at h
    exact ⟨h.1.symm, h.2.symm, by simp⟩
  | cons call rest ih =>
    cases hi : call.intention? with
    | some i =>
      have : v.call t call = .error Fatal.alreadyActed := by
        rw [call_setter v t call i hi, hact]
        rfl
      rw [foldlM_cons_error _ _ this] at h
      cases h
    | none =>
      have hcall := (intention_none_iff call).1 hi
      subst hcall
      rcases Bool.eq_false_or_eq_true v.mHasPreviousAction with hp | hp
      swap
      · have : v.call t ViewCall.getPreviousAction = .error Fatal.noPreviousAction := by
          rw [call_get, hp]; rfl
        rw [foldlM_cons_error _ _ this] at h
        cases h
      · have : v.call t ViewCall.getPreviousAction = .ok (v, t) := by
          rw [call_get, hp]; rfl
        rw [foldlM_cons_ok _ _ this] at h
        obtain ⟨h1, h2, h3⟩ := ih h
        refine ⟨h1, h2, ?_⟩
        intro c hc
        rcases List.mem_cons.1 hc with rfl | hc
        · rfl
        · exact h3 c hc

theorem calls_ok_spec (calls : List ViewCall) (v v' : ANLView)
    (t t' : IntentionAssignment) (hact : v.mActed = false)
    (h : calls.foldlM
      (fun (state : ANLView × IntentionAssignment) call => state.1.call state.2 call) (v, t)
        = .ok (v', t')) :
    (v'.mActed = false ∧ v' = v ∧ t' = t ∧ ∀ call ∈ calls, call.isSetter = false) ∨
    (v' = { v with mActed := true } ∧ calls.countP ViewCall.isSetter = 1 ∧
      ∃ i, (∃ call ∈ calls, call.intention? = some i) ∧ i.mTic < v.mSetup.mTicsPerSlot ∧
        t.setTraitFor v.mSetup v.mComponent i = .ok t') := by
  induction calls with
  | nil =>
    simp only [List.foldlM_nil, pure, Except.pure, Except.ok.injEq, Prod.mk.injEq] at h
    left
    exact ⟨by rw [← h.1]; exact hact, h.1.symm, h.2.symm, by simp⟩
  | cons call rest ih =>
    cases hi : call.intention? with
    | some i =>
      have hset : call.isSetter = true := by simp [ViewCall.isSetter, hi]
      cases h1 : v.call t call with
      | error e =>
        rw [foldlM_cons_error _ _ h1] at h
        cases h
      | ok r =>
        obtain ⟨v1, t1⟩ := r
        rw [foldlM_cons_ok _ _ h1] at h
        obtain ⟨-, h3, h4, h5⟩ := (call_setter_ok v t call i hi v1 t1).1 h1
        subst h5
        obtain ⟨h6, h7, h8⟩ := calls_from_acted rest _ v' t1 t' rfl h
        right
        refine ⟨h6, ?_, i, ⟨call, List.mem_cons_self _ _, hi⟩, h3, by rw [h7]; exact h4⟩
        rw [List.countP_cons_of_pos _ _ hset]
        have : rest.countP ViewCall.isSetter = 0 := by
          rw [List.countP_eq_zero]
          intro c hc
          simp [h8 c hc]
        omega
    | none =>
      have hcall := (intention_none_iff call).1 hi
      subst hcall
      have hns : ViewCall.getPreviousAction.isSetter = false := rfl
      rcases Bool.eq_false_or_eq_true v.mHasPreviousAction with hp | hp
      swap
      · have : v.call t ViewCall.getPreviousAction = .error Fatal.noPreviousAction := by
          rw [call_get, hp]; rfl
        rw [foldlM_cons_error _ _ this] at h
        cases h
      · have : v.call t ViewCall.getPreviousAction = .ok (v, t) := by
          rw [call_get, hp]; rfl
        rw [foldlM_cons_ok _ _ this] at h
        rcases ih h with ⟨h1, h2, h3, h4⟩ | ⟨h1, h2, i, ⟨c, hc, hci⟩, h3, h4⟩
        · left
          refine ⟨h1, h2, h3, ?_⟩
          intro c hc
          rcases List.mem_cons.1 hc with rfl | hc
          · rfl
          · exact h4 c hc
        · right
          refine ⟨h1, ?_, i, ⟨c, List.mem_cons_of_mem _ hc, hci⟩, h3, h4⟩
          rw [List.countP_cons_of_neg _ _ (by simp [hns])]
          exact h2

theorem recorded_of_setTraitFor (v : ANLView) (t t' : IntentionAssignment)
    (i : ComponentIntention) (h : t.setTraitFor v.mSetup v.mComponent i = .ok t') :
    v.Recorded t t' i := by
  obtain ⟨hc, hk, rfl⟩ := (setTraitFor_ok_iff v.mSetup t t' v.mComponent i).1 h
  have hnone : t.mMapping.lookup v.mComponent = none := (lookup_eq_none_iff _ _).2 hk
  have hl : (t.mMapping ++ [(v.mComponent, i)]).lookup v.mComponent = some i := by
    rw [lookup_append_single, hnone]
    simp
  refine ⟨rfl, hl, ?_, ?_⟩
  · intro c hne
    show (t.mMapping ++ [(v.mComponent, i)]).lookup c = t.mMapping.lookup c
    rw [lookup_append_single]
    cases t.mMapping.lookup c with
    | none => simp [hne]
    | some w => rfl
  · intro hp
    have hp' : (if (t.mMapping ++ [(v.mComponent, i)]).length = v.mSetup.getComponentCount
        then false else t.mPartial) = false := hp
    have hcomp : v.mSetup.isComponent v.mComponent = true := (isComponent_iff _ _).2 hc
    simp only [TraitMapping.getTraitFor, hp', Bool.false_eq_true, if_false, hcomp,
      Bool.not_true, hl]

theorem makeView_ok (anl : ANL) (slot : Nat) (prevState : Option NetworkState)
    (c : Component) (view : ANLView) (h : anl.makeView slot prevState c = .ok view) :
    c ∈ anl.mSetup.mComponents ∧ view.mSetup = anl.mSetup ∧ view.mSlot = slot ∧
      view.mComponent = c ∧ view.mActed = false ∧
      view.mHasPreviousAction = prevState.isSome ∧
      (∀ prev, prevState = some prev → prev.getTraitFor anl.mSetup c = .ok view.mPreviousAction) ∧
      (prevState = none → 0 < anl.mSetup.mTicsPerSlot ∧
        view.mPreviousAction = ⟨ActionType.IDLE, 0, none⟩) := by
  cases prevState with
  | none =>
    simp only [ANL.makeView, ANLView.new, ComponentTrait.new, NetworkSetup.getTicsPerSlot] at h
    by_cases hT : anl.mSetup.mTicsPerSlot > 0
    · simp only [hT, if_true, bind_ok] at h
      by_cases hc : anl.mSetup.isComponent c = true
      · simp only [hc, if_true, Except.ok.injEq] at h
        subst h
        exact ⟨(isComponent_iff _ _).1 hc, rfl, rfl, rfl, rfl, rfl, by simp, fun _ => ⟨hT, rfl⟩⟩
      · simp [hc] at h
    · simp only [hT, if_false, bind_error] at h
      cases h
  | some prev =>
    simp only [ANL.makeView] at h
    cases hp : prev.getTraitFor anl.mSetup c with
    | error e => rw [hp, bind_error] at h; cases h
    | ok a =>
      rw [hp, bind_ok] at h
      unfold ANLView.newWithPrevious at h
      by_cases hc : anl.mSetup.isComponent c = true
      · simp only [hc, if_true, Except.ok.injEq] at h
        subst h
        refine ⟨(isComponent_iff _ _).1 hc, rfl, rfl, rfl, rfl, rfl, ?_, by simp⟩
        intro prev' hprev
        cases hprev
        exact hp
      · simp [hc] at h

theorem runSlotStep_ok {σ : Type} (anl : ANL) (protocol : Protocol σ) (slot : Nat)
    (prevState : Option NetworkState) (t t' : IntentionAssignment) (m m' : σ) (c : Component)
    (h : anl.runSlotStep protocol slot prevState (t, m) c = .ok (t', m')) :
    ∃ view i, anl.makeView slot prevState c = .ok view ∧
      (protocol c view m).1.countP ViewCall.isSetter = 1 ∧
      (∃ call ∈ (protocol c view m).1, call.intention? = some i) ∧
      i.mTic < anl.mSetup.mTicsPerSlot ∧
      t.setTraitFor anl.mSetup c i = .ok t' ∧ m' = (protocol c view m).2 := by
  unfold ANL.runSlotStep at h
  cases hv : anl.makeView slot prevState c with
  | error e => rw [hv, bind_error] at h; cases h
  | ok view =>
    rw [hv, bind_ok] at h
    obtain ⟨-, hs, -, hcomp, hact, -⟩ := makeView_ok anl slot prevState c view hv
    unfold Component.onAct at h
    cases hrun : (protocol c view m).1.foldlM
        (fun (state : ANLView × IntentionAssignment) call => state.1.call state.2 call)
        (view, t) with
    | error e =>
      simp only [hrun, bind_error] at h
      cases h
    | ok r =>
      obtain ⟨v1, t1⟩ := r
      simp only [hrun, bind_ok, ANLView.hasActed] at h
      cases hacted : v1.mActed with
      | false => simp [hacted] at h
      | true =>
        simp only [hacted, if_true, Except.ok.injEq, Prod.mk.injEq] at h
        obtain ⟨rfl, rfl⟩ := h
        rcases calls_ok_spec _ view v1 t t1 hact hrun with ⟨h1, -⟩ | ⟨-, h2, i, h3, h4, h5⟩
        · rw [hacted] at h1
          cases h1
        · rw [hs] at h4 h5
          rw [hcomp] at h5
          exact ⟨view, i, rfl, h2, h3, h4, h5, rfl⟩

theorem runSlot_fold_ok {σ : Type} (anl : ANL) (protocol : Protocol σ) (slot : Nat)
    (prevState : Option NetworkState) :
    ∀ (rest : List Component) (t t' : IntentionAssignment) (m m' : σ),
      rest.foldlM (anl.runSlotStep protocol slot prevState) (t, m) = .ok (t', m') →
      t.Inv anl.mSetup → (∀ p ∈ t.mMapping, p.2.mTic < anl.mSetup.mTicsPerSlot) →
      t'.Inv anl.mSetup ∧ (∀ p ∈ t'.mMapping, p.2.mTic < anl.mSetup.mTicsPerSlot) ∧
        t'.keys = t.keys ++ rest := by
  intro rest
  induction rest with
  | nil =>
    intro t t' m m' h hinv htic
    simp only [List.foldlM_nil, pure, Except.pure, Except.ok.injEq, Prod.mk.injEq] at h
    obtain ⟨rfl, rfl⟩ := h
    exact ⟨hinv, htic, by simp⟩
  | cons c rest ih =>
    intro t t' m m' h hinv htic
    cases hstep : anl.runSlotStep protocol slot prevState (t, m) c with
    | error e =>
      rw [foldlM_cons_error _ _ hstep] at h
      cases h
    | ok r =>
      obtain ⟨t1, m1⟩ := r
      rw [foldlM_cons_ok _ _ hstep] at h
      obtain ⟨view, i, -, -, -, hi, hset, -⟩ :=
        runSlotStep_ok anl protocol slot prevState t t1 m m1 c hstep
      obtain ⟨-, -, ht1⟩ := (setTraitFor_ok_iff anl.mSetup t t1 c i).1 hset
      have hinv1 := TraitMapping.inv_setTraitFor hinv hset
      have htic1 : ∀ p ∈ t1.mMapping, p.2.mTic < anl.mSetup.mTicsPerSlot := by
        intro p hp
        rw [ht1] at hp
        rcases List.mem_append.1 hp with hp | hp
        · exact htic p hp
        · simp only [List.mem_singleton] at hp
          subst hp
          exact hi
      obtain ⟨h1, h2, h3⟩ := ih t1 t' m1 m' h hinv1 htic1
      refine ⟨h1, h2, ?_⟩
      rw [h3, ht1]
      simp [TraitMapping.keys]

/-- C28: on a view that has not acted, whose component is registered and has
no entry yet in the target intention assignment, and with at least one tic
per slot: `idle()` records the intention `IDLE` with tic 0 and no message,
`listen()` records `LISTEN` with tic 0 and no message, and `send(m, t, cs)`
with `t` below the tics per slot records `SEND{t, m}` when `cs` is true and
`SEND_FORCE{t, m}` when it is false; each is recorded as the entry of the
view's component, leaves the entry of every other component as it was, and
returns a view for which `hasActed()` is true. -/
theorem view_setters_record (v : ANLView) (target : IntentionAssignment)
    (hacted : v.hasActed = false) (hc : v.mComponent ∈ v.mSetup.mComponents)
    (hfree : v.mComponent ∉ target.keys) (hT : 0 < v.mSetup.mTicsPerSlot) :
    (∃ v' t', v.idle target = .ok (v', t') ∧ v'.hasActed = true ∧
      v' = { v with mActed := true } ∧
      v.Recorded target t' ⟨IntentionType.IDLE, 0, none⟩) ∧
    (∃ v' t', v.listen target = .ok (v', t') ∧ v'.hasActed = true ∧
      v' = { v with mActed := true } ∧
      v.Recorded target t' ⟨IntentionType.LISTEN, 0, none⟩) ∧
    (∀ (msg : Option Message) (tic : Nat), tic < v.mSetup.mTicsPerSlot →
      (∃ v' t', v.send target msg tic true = .ok (v', t') ∧ v'.hasActed = true ∧
        v' = { v with mActed := true } ∧
        v.Recorded target t' ⟨IntentionType.SEND, tic, msg⟩) ∧
      (∃ v' t', v.send target msg tic false = .ok (v', t') ∧ v'.hasActed = true ∧
        v' = { v with mActed := true } ∧
        v.Recorded target t' ⟨IntentionType.SEND_FORCE, tic, msg⟩)) := by
  have hact : v.mActed = false := hacted
  have key : ∀ (call : ViewCall) (i : ComponentIntention), call.intention? = some i →
      i.mTic < v.mSetup.mTicsPerSlot →
      ∃ v' t', v.call target call = .ok (v', t') ∧ v'.hasActed = true ∧
        v' = { v with mActed := true } ∧ v.Recorded target t' i := by
    intro call i hi htic
    obtain ⟨t', ht'⟩ : ∃ t', target.setTraitFor v.mSetup v.mComponent i = .ok t' :=
      ⟨_, (setTraitFor_ok_iff v.mSetup target _ v.mComponent i).2 ⟨hc, hfree, rfl⟩⟩
    exact ⟨_, t', (call_setter_ok v target call i hi _ t').2 ⟨hact, htic, ht', rfl⟩, rfl, rfl,
      recorded_of_setTraitFor v target t' i ht'⟩
  refine ⟨key ViewCall.idle _ rfl hT, key ViewCall.listen _ rfl hT, ?_⟩
  intro msg tic htic
  exact ⟨key (ViewCall.send msg tic true) _ rfl htic,
    key (ViewCall.send msg tic false) _ rfl htic⟩

/-- The instance of C28 at a fresh view of the only component of
`singleSetup` and a fresh intention assignment. -/
theorem view_setters_record_witness :
    singleView.idle TraitMapping.new
      = .ok ({ singleView with mActed := true }, singleIdleIntent) ∧
    ((∃ v' t', singleView.idle TraitMapping.new = .ok (v', t') ∧ v'.hasActed = true ∧
      v' = { singleView with mActed := true } ∧
      singleView.Recorded TraitMapping.new t' ⟨IntentionType.IDLE, 0, none⟩) ∧
    (∃ v' t', singleView.listen TraitMapping.new = .ok (v', t') ∧ v'.hasActed = true ∧
      v' = { singleView with mActed := true } ∧
      singleView.Recorded TraitMapping.new t' ⟨IntentionType.LISTEN, 0, none⟩) ∧
    (∀ (msg : Option Message) (tic : Nat), tic < singleView.mSetup.mTicsPerSlot →
      (∃ v' t', singleView.send TraitMapping.new msg tic true = .ok (v', t') ∧
        v'.hasActed = true ∧ v' = { singleView with mActed := true } ∧
        singleView.Recorded TraitMapping.new t' ⟨IntentionType.SEND, tic, msg⟩) ∧
      (∃ v' t', singleView.send TraitMapping.new msg tic false = .ok (v', t') ∧
        v'.hasActed = true ∧ v' = { singleView with mActed := true } ∧
        singleView.Recorded TraitMapping.new t' ⟨IntentionType.SEND_FORCE, tic, msg⟩))) :=
  ⟨rfl, view_setters_record singleView TraitMapping.new rfl (by decide) (by decide)
    (by decide)⟩

theorem runSlot_examples :
    ANL.runSlot ⟨singleSetup, ANLSemantics.NAIVE⟩ idleProtocol 0 none TraitMapping.new ()
      = .ok (singleIdleIntent, ()) ∧
    ANL.runSlot ⟨singleSetup, ANLSemantics.NAIVE⟩ silentProtocol 0 none TraitMapping.new ()
      = .error Fatal.didNotChoose :=
  ⟨rfl, rfl⟩

/-! ## The slots of the simulator -/

theorem simulator_runSlot_ok {σ : Type} (protocol : Protocol σ) (out : List OutputEvent)
    (topo : NetworkTopology) (sim sim' : Simulator) (m m' : σ)
    (h : Simulator.runSlot protocol out topo (sim, m) = .ok (sim', m')) :
    ∃ intent,
      sim.mANL.runSlot protocol sim.mSlotNumber
        (if sim.mSlotNumber = 0 then none else some sim.mPreviousState) TraitMapping.new m
          = .ok (intent, m') ∧
      intent.isPartial = false ∧
      sim.mANL.transition topo intent = .ok [sim'.mPreviousState] ∧
      sim'.mSetup = sim.mSetup ∧ sim'.mSlotNumber = sim.mSlotNumber ∧
      sim'.mTopology = sim.mTopology ∧ sim'.mHasBegun = sim.mHasBegun := by
  unfold Simulator.runSlot at h
  simp only [] at h
  cases hrun : sim.mANL.runSlot protocol sim.mSlotNumber
      (if sim.mSlotNumber = 0 then none else some sim.mPreviousState) TraitMapping.new m with
  | error e => rw [hrun, bind_error] at h; cases h
  | ok r =>
    obtain ⟨intent, m1⟩ := r
    rw [hrun, bind_ok] at h
    cases hp : intent.isPartial with
    | true => simp [hp] at h
    | false =>
      simp only [hp, Bool.false_eq_true, if_false] at h
      cases htr : sim.mANL.transition topo intent with
      | error e => rw [htr, bind_error] at h; cases h
      | ok outcomes =>
        rw [htr, bind_ok] at h
        match outcomes, h with
        | [front], h =>
          simp only [Except.ok.injEq, Prod.mk.injEq] at h
          obtain ⟨rfl, rfl⟩ := h
          exact ⟨intent, rfl, hp, htr, rfl, rfl, rfl, rfl⟩
        | [], h => cases h
        | _ :: _ :: _, h => cases h

theorem runSingle_ok {σ : Type} (protocol : Protocol σ) (intended : Nat)
    (sim sim' : Simulator) (m m' : σ)
    (h : Simulator.runSingle protocol intended (sim, m) = .ok (sim', m')) :
    ∃ topo intent, sim.mTopology = some topo ∧
      sim.mANL.runSlot protocol sim.mSlotNumber
        (if sim.mSlotNumber = 0 then none else some sim.mPreviousState) TraitMapping.new m
          = .ok (intent, m') ∧
      intent.isPartial = false ∧
      sim.mANL.transition topo intent = .ok [sim'.mPreviousState] ∧
      sim'.mSetup = sim.mSetup ∧ sim'.mSlotNumber = (sim.mSlotNumber + 1) % sizeRange ∧
      sim'.mTopology = sim.mTopology := by
  obtain ⟨o, setup, tp, slot, prev, begun⟩ := sim
  unfold Simulator.runSingle at h
  cases tp with
  | none => simp at h
  | some topo =>
    cases o with
    | none => simp at h
    | some out =>
      simp only [] at h
      cases hslot : Simulator.runSlot protocol
          (if begun = true then out
            else out ++ [OutputEvent.onSimulationBegin intended]) topo
          (⟨some out, setup, some topo, slot, prev, true⟩, m) with
      | error e => rw [hslot, bind_error] at h; cases h
      | ok r =>
        obtain ⟨sim1, m1⟩ := r
        rw [hslot, bind_ok] at h
        simp only [Except.ok.injEq, Prod.mk.injEq] at h
        obtain ⟨rfl, rfl⟩ := h
        obtain ⟨intent, h1, h2, h3, h4, h5, h6, -⟩ :=
          simulator_runSlot_ok protocol _ topo _ sim1 m m1 hslot
        exact ⟨topo, intent, rfl, h1, h2, h3, h4, by simp only [h5], h6⟩

theorem runLoop_succ {σ : Type} (protocol : Protocol σ) (intended : Nat) :
    ∀ (n : Nat) (state : Simulator × σ),
      Simulator.runLoop protocol intended (n + 1) state =
        (Simulator.runLoop protocol intended n state).bind
          (Simulator.runSingle protocol intended) := by
  intro n
  induction n with
  | zero =>
    intro state
    simp only [Simulator.runLoop, bind_ok]
    cases Simulator.runSingle protocol intended state <;> rfl
  | succ k ih =>
    intro state
    conv_lhs => rw [Simulator.runLoop]
    cases h : Simulator.runSingle protocol intended state with
    | error e => simp [Simulator.runLoop, h, bind_error]
    | ok s1 =>
      rw [bind_ok, ih s1]
      conv_rhs => rw [Simulator.runLoop, h, bind_ok]

theorem runLoop_slotNumber {σ : Type} (protocol : Protocol σ) (intended : Nat) :
    ∀ (n : Nat) (sim0 sim : Simulator) (m0 m : σ),
      Simulator.runLoop protocol intended n (sim0, m0) = .ok (sim, m) →
      sim.mSlotNumber = (sim0.mSlotNumber + n) % sizeRange ∨ (n = 0 ∧ sim = sim0) := by
  intro n
  induction n with
  | zero =>
    intro sim0 sim m0 m h
    simp only [Simulator.runLoop, Except.ok.injEq, Prod.mk.injEq] at h
    exact Or.inr ⟨rfl, h.1.symm⟩
  | succ k ih =>
    intro sim0 sim m0 m h
    left
    rw [runLoop_succ] at h
    cases hk : Simulator.runLoop protocol intended k (sim0, m0) with
    | error e => rw [hk, bind_error] at h; cases h
    | ok r =>
      obtain ⟨sim1, m1⟩ := r
      rw [hk, bind_ok] at h
      obtain ⟨-, -, -, -, -, -, -, h1, -⟩ := runSingle_ok protocol intended sim1 sim m1 m h
      rcases ih sim0 sim1 m0 m1 hk with h2 | ⟨rfl, rfl⟩
      · rw [h1, h2]
        simp [Nat.add_assoc]
      · rw [h1]

theorem state_of_transition_getTraitFor (setup : NetworkSetup) (semantics : ANLSemantics)
    (topo : NetworkTopology) (intent : IntentionAssignment)
    (hi : IntentionAssignment.Total setup intent) (states : List NetworkState)
    (h : ANL.transition ⟨setup, semantics⟩ topo intent = .ok states) :
    ∀ s ∈ states, ∀ c ∈ setup.mComponents, ∃ a, s.getTraitFor setup c = .ok a := by
  intro s hs c hc
  have key : ∀ filter : FilterFunction,
      ANLComputer.transition ⟨setup, topo, intent, filter, TraitMapping.new⟩ = .ok states →
      ∃ a, s.getTraitFor setup c = .ok a := by
    intro filter h1
    obtain ⟨-, -, h2⟩ := transition_ok_closed topo hi filter _ states h1
    rw [h2] at hs
    obtain ⟨l, hl, rfl⟩ := List.mem_map.1 hs
    obtain ⟨x, hx, -⟩ := (state_getTraitFor (Total.components_ne_nil hi) _ l hl c).1 hc
    exact ⟨x, hx⟩
  cases semantics with
  | CANONICAL => exact key ANLFilterNothing h
  | NAIVE => exact key ANLFilterNaive h

theorem singleSimulator_built :
    ((Simulator.new none 20).bind fun sim =>
      (sim.useOutputModule (some [])).bind fun sim =>
        (sim.useTopology (some trivialTopology)).bind fun sim =>
          sim.useComponents (some [some 1])) = .ok singleSimulator :=
  rfl

/-- C30: in a simulation driven by `Simulator::runSingle` from a simulator at
slot 0, after `n` returning calls (`n` below the range of `std::size_t`) the
slot number is `n`, and the next call moves it to `n + 1`. The view that the
callback of a component receives in slot `n` is `Simulator.viewFor`: in slot 0
it has slot number 0 and no previous action, so `getPreviousAction` is fatal;
in a slot `n ≥ 1` it exists for every registered component, has slot number
`n`, and its previous action is the action of that component in the state
`mPreviousState`, which is the single state that the transition of slot
`n - 1` returned for the intention assignment collected in slot `n - 1`. -/
theorem runSingle_views {σ : Type} (protocol : Protocol σ) (intended : Nat)
    (sim0 : Simulator) (mem0 : σ) (h0 : sim0.mSlotNumber = 0) (n : Nat) (hn : n < sizeRange)
    (sim : Simulator) (mem : σ)
    (hrun : Simulator.runLoop protocol intended n (sim0, mem0) = .ok (sim, mem)) :
    sim.mSlotNumber = n ∧
    (∀ (state : IntentionAssignment × σ) (c : Component),
      sim.mANL.runSlotStep protocol sim.mSlotNumber
          (if sim.mSlotNumber = 0 then none else some sim.mPreviousState) state c =
        (sim.viewFor c).bind fun view =>
          (Component.onAct protocol c view state.1 state.2).bind fun acted =>
            if acted.1.hasActed then .ok (acted.2.1, acted.2.2)
            else .error Fatal.didNotChoose) ∧
    (n = 0 → ∀ c view, sim.viewFor c = .ok view →
      view.getSlotNumber = 0 ∧ view.hasPreviousAction = false ∧
        view.getPreviousAction = .error Fatal.noPreviousAction) ∧
    (1 ≤ n →
      (∃ (before : Simulator) (memBefore : σ) (topo : NetworkTopology)
          (intent : IntentionAssignment),
        Simulator.runLoop protocol intended (n - 1) (sim0, mem0) = .ok (before, memBefore) ∧
        Simulator.runSingle protocol intended (before, memBefore) = .ok (sim, mem) ∧
        before.mSlotNumber = n - 1 ∧ before.mTopology = some topo ∧
        before.mANL.runSlot protocol before.mSlotNumber
            (if before.mSlotNumber = 0 then none else some before.mPreviousState)
            TraitMapping.new memBefore = .ok (intent, mem) ∧
        before.mANL.transition topo intent = .ok [sim.mPreviousState]) ∧
      ∀ c ∈ sim.mSetup.mComponents, ∃ a view,
        sim.mPreviousState.getTraitFor sim.mSetup c = .ok a ∧
        sim.viewFor c = .ok view ∧ view.getSlotNumber = n ∧
        view.hasPreviousAction = true ∧ view.getPreviousAction = .ok a) ∧
    (∀ sim' mem', Simulator.runSingle protocol intended (sim, mem) = .ok (sim', mem') →
      sim'.mSlotNumber = (n + 1) % sizeRange ∧
        (n + 1 < sizeRange → sim'.mSlotNumber = n + 1)) := by
  have hslot : sim.mSlotNumber = n := by
    rcases runLoop_slotNumber protocol intended n sim0 sim mem0 mem hrun with h | ⟨rfl, rfl⟩
    · rw [h, h0, Nat.zero_add, Nat.mod_eq_of_lt hn]
    · exact h0
  refine ⟨hslot, fun _ _ => rfl, ?_, ?_, ?_⟩
  · intro hzero c view hview
    rw [hzero] at hslot
    unfold Simulator.viewFor at hview
    rw [hslot, if_pos rfl] at hview
    obtain ⟨-, -, h3, -, -, h6, -⟩ := makeView_ok _ 0 none c view hview
    have h6' : view.mHasPreviousAction = false := h6
    refine ⟨h3, h6', ?_⟩
    simp [ANLView.getPreviousAction, h6']
  · intro hpos
    obtain ⟨k, rfl⟩ : ∃ k, n = k + 1 := ⟨n - 1, by omega⟩
    rw [runLoop_succ] at hrun
    cases hk : Simulator.runLoop protocol intended k (sim0, mem0) with
    | error e => rw [hk, bind_error] at hrun; cases hrun
    | ok r =>
      obtain ⟨before, memBefore⟩ := r
      rw [hk, bind_ok] at hrun
      obtain ⟨topo, intent, h1, h2, h3, h4, h5, -, -⟩ :=
        runSingle_ok protocol intended before sim memBefore mem hrun
      have hbefore : before.mSlotNumber = k := by
        rcases runLoop_slotNumber protocol intended k sim0 before mem0 memBefore hk
          with h | ⟨rfl, rfl⟩
        · rw [h, h0, Nat.zero_add, Nat.mod_eq_of_lt (by omega)]
        · exact h0
      obtain ⟨hinv, htic, -⟩ := runSlot_fold_ok before.mANL protocol before.mSlotNumber _ _ _
        intent memBefore mem h2 (TraitMapping.inv_new _) (by simp [TraitMapping.new])
      have htotal : IntentionAssignment.Total before.mSetup intent := ⟨hinv, h3, htic⟩
      refine ⟨⟨before, memBefore, topo, intent, by simpa using hk, hrun,
        by simpa using hbefore, h1, h2, h4⟩, ?_⟩
      intro c hc
      rw [h5] at hc
      obtain ⟨a, ha⟩ := state_of_transition_getTraitFor before.mSetup ANLSemantics.NAIVE topo
        intent htotal _ h4 sim.mPreviousState (List.mem_singleton.2 rfl) c hc
      have hcomp : sim.mSetup.isComponent c = true := by
        rw [h5]; exact (isComponent_iff _ _).2 hc
      have hne : ¬ sim.mSlotNumber = 0 := by rw [hslot]; omega
      rw [← h5] at ha
      refine ⟨a, ⟨sim.mSetup, sim.mSlotNumber, c, a, true, false⟩, ha, ?_, hslot, rfl, rfl⟩
      simp only [Simulator.viewFor, if_neg hne, ANL.makeView, Simulator.mANL, ha, bind_ok,
        ANLView.newWithPrevious, hcomp, if_true]
  · intro sim' mem' hnext
    obtain ⟨-, -, -, -, -, -, -, h1, -⟩ := runSingle_ok protocol intended sim sim' mem mem' hnext
    rw [hslot] at h1
    exact ⟨h1, fun hlt => by rw [h1, Nat.mod_eq_of_lt hlt]⟩

/-- The instance of C30 at the simulator with one idling component, after two
slots. -/
theorem runSingle_views_witness :
    singleSimulator.mSlotNumber = 0 ∧ 2 < sizeRange ∧
    Simulator.runLoop idleProtocol 2 2 (singleSimulator, ())
      = .ok (singleSimulatorAfterTwo, ()) ∧
    singleSimulatorAfterTwo.viewFor 1
      = .ok ⟨singleSetup, 2, 1, ⟨ActionType.IDLE, 0, none⟩, true, false⟩ ∧
    singleSimulator.viewFor 1
      = .ok ⟨singleSetup, 0, 1, ⟨ActionType.IDLE, 0, none⟩, false, false⟩ ∧
    singleSimulatorAfterTwo.mSlotNumber = 2 ∧
    (1 ≤ 2 →
      ∀ c ∈ singleSimulatorAfterTwo.mSetup.mComponents, ∃ a view,
        singleSimulatorAfterTwo.mPreviousState.getTraitFor
          singleSimulatorAfterTwo.mSetup c = .ok a ∧
        singleSimulatorAfterTwo.viewFor c = .ok view ∧ view.getSlotNumber = 2 ∧
        view.hasPreviousAction = true ∧ view.getPreviousAction = .ok a) :=
  ⟨rfl, by decide, rfl, rfl, rfl,
    (runSingle_views idleProtocol 2 singleSimulator () rfl 2 (by decide)
      singleSimulatorAfterTwo () rfl).1,
    fun h => ((runSingle_views idleProtocol 2 singleSimulator () rfl 2 (by decide)
      singleSimulatorAfterTwo () rfl).2.2.2.1 h).2⟩

theorem ANL_transition_ok_closed {setup : NetworkSetup} (topo : NetworkTopology)
    {intent : IntentionAssignment} (hi : IntentionAssignment.Total setup intent)
    (semantics : ANLSemantics) (states : List NetworkState)
    (h : ANL.transition ⟨setup, semantics⟩ topo intent = .ok states) :
    intent.SendsCarryMessage ∧
      states = (crossProduct (filteredActions semantics setup topo intent) [[]]
        setup.mComponents).map (TraitMapping.ofList setup) := by
  have hm : intent.SendsCarryMessage := by
    cases semantics
    · exact (transition_ok_closed topo hi ANLFilterNothing TraitMapping.new states h).1
    · exact (transition_ok_closed topo hi ANLFilterNaive TraitMapping.new states h).1
  refine ⟨hm, ?_⟩
  rw [ANL_transition_eq topo hi hm semantics] at h
  cases h
  rfl

theorem mem_possibleActions_received {setup : NetworkSetup} (topo : NetworkTopology)
    {intent : IntentionAssignment} (hi : IntentionAssignment.Total setup intent)
    {c : Component} (hc : c ∈ setup.mComponents) (t : Nat) (m : Option Message)
    (hx : (⟨ActionType.RECEIVED, t, m⟩ : ComponentAction) ∈ possibleActions setup topo intent c) :
    (∃ tr, intent.mMapping.lookup c = some tr ∧ tr.mType = IntentionType.LISTEN) ∧
      ∃ p ∈ reachableSenders setup topo (senderSet setup topo intent) c,
        TraitMapping.getTraitFor setup (senderSet setup topo intent) p
          = .ok ⟨ActionType.SENT, t, m⟩ := by
  obtain ⟨tr, h1, -⟩ := Total.lookup hi hc
  by_cases hl : tr.mType = IntentionType.LISTEN
  · refine ⟨⟨tr, h1, hl⟩, ?_⟩
    rw [possibleActions_listen topo h1 hl] at hx
    have key : ∀ p ∈ reachableSenders setup topo (senderSet setup topo intent) c,
        (⟨ActionType.RECEIVED, t, m⟩ : ComponentAction)
          = receivedFrom setup (senderSet setup topo intent) p →
        TraitMapping.getTraitFor setup (senderSet setup topo intent) p
          = .ok ⟨ActionType.SENT, t, m⟩ := by
      intro p hp heq
      obtain ⟨-, -, hsend⟩ := (mem_reachableSenders setup topo _ c p).1 hp
      obtain ⟨t', m', hget, hrec⟩ := isSender_sent setup _ p hsend
      rw [hrec] at heq
      cases heq
      exact hget
    cases hr : reachableSenders setup topo (senderSet setup topo intent) c with
    | nil =>
      rw [hr] at hx
      simp [silenceAction] at hx
    | cons p ps =>
      rw [hr] at hx key
      simp only [List.mem_cons, List.mem_map] at hx
      rcases hx with hx | hx | ⟨q, hq, hx⟩
      · exact ⟨p, List.mem_cons_self _ _, key p (List.mem_cons_self _ _) hx⟩
      · simp [collisionAction] at hx
      · exact ⟨q, List.mem_cons_of_mem _ hq, key q (List.mem_cons_of_mem _ hq) hx.symm⟩
  · exfalso
    rw [possibleActions_nonListen topo h1 hl, List.mem_singleton] at hx
    split_ifs at hx <;> cases hx

theorem mem_filteredActions_possible {setup : NetworkSetup} (topo : NetworkTopology)
    {intent : IntentionAssignment} (hi : IntentionAssignment.Total setup intent)
    (semantics : ANLSemantics) {c : Component} (hc : c ∈ setup.mComponents)
    (x : ComponentAction) (hx : x ∈ filteredActions semantics setup topo intent c) :
    x ∈ possibleActions setup topo intent c := by
  have h : x ∈ filteredActions ANLSemantics.CANONICAL setup topo intent c := by
    cases semantics
    · exact hx
    · exact naive_subset_canonical_actions topo hi hc x hx
  exact (mem_uniqueActions _ x).1 h

/-- C37: no phantom reception. In every network state that `ANL::transition`
returns for a total intention assignment, under either semantics, a component
whose action is `Received{t, m}` had the intention `LISTEN`, and some
registered component that can reach it has the action `Sent{t, m}`, with the
same tic and the same message pointer, in that same state. The call returns a
non-empty list of states whenever all send intentions carry a message. -/
theorem received_has_sender (setup : NetworkSetup) (topo : NetworkTopology)
    (intent : IntentionAssignment) (hi : IntentionAssignment.Total setup intent)
    (semantics : ANLSemantics) :
    (∀ states, ANL.transition ⟨setup, semantics⟩ topo intent = .ok states →
      ∀ s ∈ states, ∀ (c : Component) (t : Nat) (m : Option Message),
        TraitMapping.getTraitFor setup s c = .ok ⟨ActionType.RECEIVED, t, m⟩ →
        (∃ tr, TraitMapping.getTraitFor setup intent c = .ok tr ∧
          tr.getType = IntentionType.LISTEN) ∧
        ∃ c', c' ∈ setup.mComponents ∧ topo.canReach c' c = true ∧
          TraitMapping.getTraitFor setup s c' = .ok ⟨ActionType.SENT, t, m⟩) ∧
    (intent.SendsCarryMessage →
      ∃ states, ANL.transition ⟨setup, semantics⟩ topo intent = .ok states ∧ states ≠ []) := by
  refine ⟨?_, fun hm =>
    ⟨_, ANL_transition_eq topo hi hm semantics, crossProduct_ne_nil topo hi semantics⟩⟩
  intro states h s hs c t m hget
  obtain ⟨-, rfl⟩ := ANL_transition_ok_closed topo hi semantics states h
  have hc : c ∈ setup.mComponents := by
    by_contra hc
    obtain ⟨l, hl, rfl⟩ := List.mem_map.1 hs
    rw [(state_getTraitFor (Total.components_ne_nil hi) _ l hl c).2 hc] at hget
    cases hget
  obtain ⟨x, hx1, hx2⟩ := transition_state_action topo hi semantics s hs c hc
  rw [hx1] at hget
  cases hget
  obtain ⟨⟨tr, h1, hl⟩, p, hp, hsent⟩ := mem_possibleActions_received topo hi hc t m
    (mem_filteredActions_possible topo hi semantics hc _ hx2)
  refine ⟨⟨tr, (Total.getTraitFor_eq_ok hi c tr).2 ⟨hc, h1⟩, hl⟩, ?_⟩
  obtain ⟨hpc, hreach, hsend⟩ := (mem_reachableSenders setup topo _ c p).1 hp
  refine ⟨p, hpc, hreach, ?_⟩
  obtain ⟨ty, hty, hsendty, -⟩ := (senderSet_characterisation topo hi p t m).1 hsent
  obtain ⟨-, h1p⟩ := (Total.getTraitFor_eq_ok hi p _).1 hty
  have hnl : (⟨ty, t, m⟩ : ComponentIntention).mType ≠ IntentionType.LISTEN := by
    rcases hsendty with h | h <;> rw [h] <;> simp
  have hni : (⟨ty, t, m⟩ : ComponentIntention).mType ≠ IntentionType.IDLE := by
    rcases hsendty with h | h <;> rw [h] <;> simp
  obtain ⟨y, hy1, hy2⟩ := transition_state_action topo hi semantics s hs p hpc
  rw [filteredActions_nonListen topo h1p hnl, possibleActions_nonListen topo h1p hnl,
    List.mem_singleton, if_neg hni, if_pos hsend] at hy2
  rw [hy1, hy2]

/-- The instance of C37 at the canonical transition in which component 1
listens to the two senders 2 and 3. -/
theorem received_has_sender_witness :
    IntentionAssignment.Total listenSetup listenIntentMultiple ∧
    (∀ states, ANL.transition ⟨listenSetup, ANLSemantics.CANONICAL⟩ trivialTopology
        listenIntentMultiple = .ok states →
      ∀ s ∈ states, ∀ (c : Component) (t : Nat) (m : Option Message),
        TraitMapping.getTraitFor listenSetup s c = .ok ⟨ActionType.RECEIVED, t, m⟩ →
        (∃ tr, TraitMapping.getTraitFor listenSetup listenIntentMultiple c = .ok tr ∧
          tr.getType = IntentionType.LISTEN) ∧
        ∃ c', c' ∈ listenSetup.mComponents ∧ trivialTopology.canReach c' c = true ∧
          TraitMapping.getTraitFor listenSetup s c' = .ok ⟨ActionType.SENT, t, m⟩) ∧
    (listenIntentMultiple.SendsCarryMessage →
      ∃ states, ANL.transition ⟨listenSetup, ANLSemantics.CANONICAL⟩ trivialTopology
        listenIntentMultiple = .ok states ∧ states ≠ []) :=
  ⟨by decide,
    received_has_sender listenSetup trivialTopology listenIntentMultiple (by decide)
      ANLSemantics.CANONICAL⟩

theorem possibleActions_shape {setup : NetworkSetup} (topo : NetworkTopology)
    {intent : IntentionAssignment} (hi : IntentionAssignment.Total setup intent)
    {c : Component} (hc : c ∈ setup.mComponents) :
    possibleActions setup topo intent c ≠ [] ∧
      ((∃ x ∈ possibleActions setup topo intent c, x.getType = ActionType.COLLISION) →
        ∃ y ∈ possibleActions setup topo intent c, y.getType = ActionType.RECEIVED) := by
  obtain ⟨tr, h1, -⟩ := Total.lookup hi hc
  by_cases hl : tr.mType = IntentionType.LISTEN
  · rw [possibleActions_listen topo h1 hl]
    cases hr : reachableSenders setup topo (senderSet setup topo intent) c with
    | nil =>
      refine ⟨by simp, ?_⟩
      rintro ⟨x, hx, hty⟩
      simp only [List.mem_singleton] at hx
      rw [hx] at hty
      cases hty
    | cons p ps =>
      refine ⟨by simp, fun _ => ⟨_, List.mem_cons_self _ _, ?_⟩⟩
      have hp : p ∈ reachableSenders setup topo (senderSet setup topo intent) c := by
        rw [hr]; exact List.mem_cons_self _ _
      obtain ⟨-, -, hsend⟩ := (mem_reachableSenders setup topo _ c p).1 hp
      obtain ⟨t, m, -, hrec⟩ := isSender_sent setup _ p hsend
      rw [hrec]
      rfl
  · rw [possibleActions_nonListen topo h1 hl]
    refine ⟨by simp, ?_⟩
    rintro ⟨x, hx, hty⟩
    rw [List.mem_singleton] at hx
    rw [hx] at hty
    split_ifs at hty <;> cases hty

/-- C38: for every setup, topology and total intention assignment over it (so
the setup has at least one component) whose send intentions all carry a
message, no fatal requirement is hit. `getSenderSet` returns a sender set; for
every registered component `getPossibleActions` returns a list that is not
empty and that holds a `COLLISION` only together with a `RECEIVED`;
`ANLFilterNaive` returns exactly one action for that list and
`ANLFilterNothing` a non-empty list; `ANLComputer::transition` returns with
either filter, from whatever value of `mSenderSet`, and `ANL::transition`
returns a non-empty list of states under either semantics. A call that returns
has passed every requirement on its way, among them "can not override
component trait for component" in the solver and in the cross product. -/
theorem transition_never_fatal (setup : NetworkSetup) (topo : NetworkTopology)
    (intent : IntentionAssignment) (hi : IntentionAssignment.Total setup intent)
    (hm : intent.SendsCarryMessage) :
    (∃ ss, (SenderSetComputer.new setup topo intent).bind SenderSetComputer.getSenderSet
        = .ok ss ∧
      ∀ (filter : FilterFunction), ∀ c ∈ setup.mComponents,
        ∃ actions,
          ANLComputer.getPossibleActions ⟨setup, topo, intent, filter, ss⟩ c = .ok actions ∧
          actions ≠ [] ∧
          ((∃ x ∈ actions, x.getType = ActionType.COLLISION) →
            ∃ y ∈ actions, y.getType = ActionType.RECEIVED) ∧
          (∃ x, ANLFilterNaive setup actions = .ok [x]) ∧
          (∃ kept, ANLFilterNothing setup actions = .ok kept ∧ kept ≠ [])) ∧
    (∀ ss0, ∃ states,
      ANLComputer.transition ⟨setup, topo, intent, ANLFilterNothing, ss0⟩ = .ok states ∧
        states ≠ []) ∧
    (∀ ss0, ∃ s,
      ANLComputer.transition ⟨setup, topo, intent, ANLFilterNaive, ss0⟩ = .ok [s]) ∧
    (∀ semantics : ANLSemantics,
      ∃ states, ANL.transition ⟨setup, semantics⟩ topo intent = .ok states ∧ states ≠ []) := by
  have hT := (Total.wellFormed hi).1
  refine ⟨⟨_, getSenderSet_eq topo hi hm, ?_⟩, ?_, ?_, ?_⟩
  · intro filter c hc
    obtain ⟨hne, hcol⟩ := possibleActions_shape topo hi hc
    refine ⟨_, getPossibleActions_eq topo hi filter c hc, hne, hcol, ?_,
      ⟨_, ANLFilterNothing_eq setup _, uniqueActions_ne_nil hne⟩⟩
    rw [ANLFilterNaive_eq setup topo intent hT c]
    have hlen := naiveActions_length topo hi hc
    match hna : naiveActions setup topo intent c, hlen with
    | [x], _ => exact ⟨x, rfl⟩
  · intro ss0
    refine ⟨_, transition_eq topo hi hm ANLFilterNothing ss0
      (filteredActions ANLSemantics.CANONICAL setup topo intent) ?_,
      crossProduct_ne_nil topo hi ANLSemantics.CANONICAL⟩
    intro c hc
    exact ⟨ANLFilterNothing_eq setup _,
      uniqueActions_ne_nil (possibleActions_shape topo hi hc).1⟩
  · intro ss0
    have htr := transition_eq topo hi hm ANLFilterNaive ss0
      (filteredActions ANLSemantics.NAIVE setup topo intent) (fun c hc =>
        ⟨ANLFilterNaive_eq setup topo intent hT c, by
          intro h0
          have := naiveActions_length topo hi hc
          simp only [filteredActions] at h0
          rw [h0] at this
          cases this⟩)
    obtain ⟨s, hs, -⟩ := naive_transition_single topo hi hm
    rw [ANL_transition_eq topo hi hm ANLSemantics.NAIVE] at hs
    rw [htr]
    exact ⟨s, hs⟩
  · intro semantics
    exact ⟨_, ANL_transition_eq topo hi hm semantics, crossProduct_ne_nil topo hi semantics⟩

/-- The instance of C38 at the call of `listenToMultiple`: component 1 listens
to the senders 2 and 3. -/
theorem transition_never_fatal_witness :
    IntentionAssignment.Total listenSetup listenIntentMultiple ∧
    listenIntentMultiple.SendsCarryMessage ∧
    (∃ ss, (SenderSetComputer.new listenSetup trivialTopology listenIntentMultiple).bind
          SenderSetComputer.getSenderSet = .ok ss ∧
      ∀ (filter : FilterFunction), ∀ c ∈ listenSetup.mComponents,
        ∃ actions,
          ANLComputer.getPossibleActions
            ⟨listenSetup, trivialTopology, listenIntentMultiple, filter, ss⟩ c = .ok actions ∧
          actions ≠ [] ∧
          ((∃ x ∈ actions, x.getType = ActionType.COLLISION) →
            ∃ y ∈ actions, y.getType = ActionType.RECEIVED) ∧
          (∃ x, ANLFilterNaive listenSetup actions = .ok [x]) ∧
          (∃ kept, ANLFilterNothing listenSetup actions = .ok kept ∧ kept ≠ [])) ∧
    (∀ ss0, ∃ states,
      ANLComputer.transition
        ⟨listenSetup, trivialTopology, listenIntentMultiple, ANLFilterNothing, ss0⟩
          = .ok states ∧ states ≠ []) ∧
    (∀ ss0, ∃ s,
      ANLComputer.transition
        ⟨listenSetup, trivialTopology, listenIntentMultiple, ANLFilterNaive, ss0⟩ = .ok [s]) ∧
    (∀ semantics : ANLSemantics,
      ∃ states, ANL.transition ⟨listenSetup, semantics⟩ trivialTopology listenIntentMultiple
        = .ok states ∧ states ≠ []) :=
  ⟨by decide, by decide,
    transition_never_fatal listenSetup trivialTopology listenIntentMultiple
      (by decide) (by decide)⟩

theorem setAll_empty_setup {T : Type} (setup : NetworkSetup) (h0 : setup.mComponents = [])
    (calls : List (Component × ComponentTrait T)) (tm tm' : TraitMapping T)
    (h : TraitMapping.setAll setup tm calls = .ok tm') : calls = [] ∧ tm' = tm := by
  cases calls with
  | nil => exact ⟨rfl, by cases h; rfl⟩
  | cons call rest =>
    exfalso
    have herr := (setTraitFor_error_iff setup tm call.1 call.2).2.1 (by rw [h0]; simp)
    unfold TraitMapping.setAll at h
    rw [foldlM_cons_error _ _ herr] at h
    cases h

/-- C39: over a setup with no registered component, a trait mapping is partial
after construction, every `setTraitFor` call on a trait mapping is fatal ("not
a valid component for associated network setup"), and so every trait mapping
that a sequence of `setTraitFor` calls has built from a fresh one is the fresh
one and is partial. For such an intention assignment the constructor of
`SenderSetComputer` is fatal ("intent is partial and thus not usable"), and so
are `ANLComputer::transition` with every filter and `ANL::transition` under
either semantics; none returns a list of states. A simulator slot on such a
setup is fatal whatever the protocol: `Simulator::runSlot` stops at "Protocol
produced a partial intention assignment.", and `runSingle` and `run` return
for no number of slots. -/
theorem empty_network_fatal (setup : NetworkSetup) (h0 : setup.mComponents = []) :
    (TraitMapping.new : IntentionAssignment).isPartial = true ∧
    (TraitMapping.new : NetworkState).isPartial = true ∧
    (∀ (tm : IntentionAssignment) (c : Component) (tr : ComponentIntention),
      tm.setTraitFor setup c tr = .error Fatal.notAComponent) ∧
    (∀ (tm : NetworkState) (c : Component) (a : ComponentAction),
      tm.setTraitFor setup c a = .error Fatal.notAComponent) ∧
    (∀ (calls : List (Component × ComponentIntention)) (intent : IntentionAssignment),
      TraitMapping.setAll setup TraitMapping.new calls = .ok intent →
      intent = TraitMapping.new ∧ intent.isPartial = true ∧
      ∀ topo : NetworkTopology,
        SenderSetComputer.new setup topo intent = .error Fatal.intentPartial ∧
        (∀ (filter : FilterFunction) (ss0 : SenderSetRepresentation),
          ANLComputer.transition ⟨setup, topo, intent, filter, ss0⟩
            = .error Fatal.intentPartial) ∧
        ∀ semantics : ANLSemantics,
          ANL.transition ⟨setup, semantics⟩ topo intent = .error Fatal.intentPartial) ∧
    (∀ (σ : Type) (protocol : Protocol σ) (sim : Simulator) (mem : σ), sim.mSetup = setup →
      (∀ (out : List OutputEvent) (topo : NetworkTopology),
        Simulator.runSlot protocol out topo (sim, mem) = .error Fatal.partialIntentProduced) ∧
      (∀ intended : Nat, ∃ e, Simulator.runSingle protocol intended (sim, mem) = .error e) ∧
      ∀ numSlots : Nat, ∃ e, Simulator.run protocol numSlots (sim, mem) = .error e) := by
  have hset : ∀ {T : Type} (tm : TraitMapping T) (c : Component) (tr : ComponentTrait T),
      tm.setTraitFor setup c tr = .error Fatal.notAComponent := fun tm c tr =>
    (setTraitFor_error_iff setup tm c tr).2.1 (by rw [h0]; simp)
  refine ⟨rfl, rfl, hset, hset, ?_, ?_⟩
  · intro calls intent h
    obtain ⟨-, rfl⟩ := setAll_empty_setup setup h0 calls _ _ h
    refine ⟨rfl, rfl, fun topo => ⟨rfl, fun filter ss0 => rfl, fun semantics => ?_⟩⟩
    cases semantics <;> rfl
  · intro σ protocol sim mem hsim
    have hslot : ∀ (out : List OutputEvent) (topo : NetworkTopology) (s : Simulator),
        s.mSetup = setup →
        Simulator.runSlot protocol out topo (s, mem) = .error Fatal.partialIntentProduced := by
      intro out topo s hs
      have hrun : s.mANL.runSlot protocol s.mSlotNumber
          (if s.mSlotNumber = 0 then none else some s.mPreviousState) TraitMapping.new mem
            = .ok (TraitMapping.new, mem) := by
        simp only [ANL.runSlot, NetworkSetup.forEachComponent, Simulator.mANL, hs, h0]
        rfl
      simp only [Simulator.runSlot]
      rw [hrun]
      rfl
    have hsingle : ∀ intended : Nat,
        ∃ e, Simulator.runSingle protocol intended (sim, mem) = .error e := by
      intro intended
      obtain ⟨o, su, tp, slot, prev, begun⟩ := sim
      cases tp with
      | none => exact ⟨_, rfl⟩
      | some topo =>
        cases o with
        | none => exact ⟨_, rfl⟩
        | some out =>
          refine ⟨Fatal.partialIntentProduced, ?_⟩
          simp only [Simulator.runSingle]
          rw [hslot _ topo ⟨some out, su, some topo, slot, prev, true⟩ hsim]
          rfl
    refine ⟨fun out topo => hslot out topo sim hsim, hsingle, ?_⟩
    intro numSlots
    cases numSlots with
    | zero => exact ⟨_, rfl⟩
    | succ n =>
      obtain ⟨e, he⟩ := hsingle (n + 1)
      refine ⟨e, ?_⟩
      simp only [Simulator.run, Simulator.runLoop]
      rw [he]
      rfl

/-- The instance of C39 at the setup with one tic per slot, no message and no
component. -/
theorem empty_network_fatal_witness :
    (⟨1, [], []⟩ : NetworkSetup).mComponents = [] ∧
    ∀ topo : NetworkTopology,
      SenderSetComputer.new ⟨1, [], []⟩ topo TraitMapping.new = .error Fatal.intentPartial ∧
      ∀ semantics : ANLSemantics,
        ANL.transition ⟨⟨1, [], []⟩, semantics⟩ topo TraitMapping.new
          = .error Fatal.intentPartial :=
  ⟨rfl, fun topo =>
    ⟨((empty_network_fatal ⟨1, [], []⟩ rfl).2.2.2.2.1 [] TraitMapping.new rfl).2.2 topo |>.1,
      ((empty_network_fatal ⟨1, [], []⟩ rfl).2.2.2.2.1 [] TraitMapping.new rfl).2.2 topo |>.2.2⟩⟩

theorem MappingCall.kept_run {T : Type} (state state' : NetworkSetup × TraitMapping T)
    (call : MappingCall T) (hk : MappingCall.Kept state)
    (h : MappingCall.run state call = .ok state') : MappingCall.Kept state' := by
  obtain ⟨setup, tm⟩ := state
  obtain ⟨h1, h2, h3⟩ := hk
  cases call with
  | registerComponent comp =>
    simp only [MappingCall.run] at h
    cases hr : setup.registerComponent comp with
    | error e => rw [hr] at h; cases h
    | ok setup' =>
      rw [hr, bind_ok] at h
      cases h
      obtain ⟨c, -, hc, rfl⟩ := (registerComponent_ok_iff setup setup' comp).1 hr
      refine ⟨?_, h2, fun x hx => List.mem_append_left _ (h3 x hx)⟩
      show (setup.mComponents ++ [c]).Nodup
      rw [List.nodup_append]
      exact ⟨h1, List.nodup_singleton c, by
        intro a ha hb
        rw [List.mem_singleton] at hb
        exact hc (hb ▸ ha)⟩
  | setTraitFor comp trait =>
    simp only [MappingCall.run] at h
    cases hs : tm.setTraitFor setup comp trait with
    | error e => rw [hs] at h; cases h
    | ok tm' =>
      rw [hs, bind_ok] at h
      cases h
      obtain ⟨hc, hfree, rfl⟩ := (setTraitFor_ok_iff setup tm tm' comp trait).1 hs
      refine ⟨h1, ?_, ?_⟩
      · show ((tm.mMapping ++ [(comp, trait)]).map Prod.fst).Nodup
        rw [List.map_append, List.nodup_append]
        exact ⟨h2, List.nodup_singleton _, by
          intro a ha hb
          simp only [List.map_cons, List.map_nil, List.mem_singleton] at hb
          exact hfree (hb ▸ ha)⟩
      · intro x hx
        have hx' : x ∈ tm.keys ∨ x = comp := by
          simpa [TraitMapping.keys] using hx
        rcases hx' with hx' | rfl
        · exact h3 x hx'
        · exact hc

theorem MappingCall.kept_runAll {T : Type} :
    ∀ (calls : List (MappingCall T)) (state state' : NetworkSetup × TraitMapping T),
      MappingCall.Kept state → MappingCall.runAll calls state = .ok state' →
      MappingCall.Kept state' := by
  intro calls
  induction calls with
  | nil => intro state state' hk h; cases h; exact hk
  | cons call rest ih =>
    intro state state' hk h
    unfold MappingCall.runAll at h
    cases hr : MappingCall.run state call with
    | error e => rw [foldlM_cons_error _ _ hr] at h; cases h
    | ok mid =>
      rw [foldlM_cons_ok _ _ hr] at h
      exact ih mid state' (MappingCall.kept_run state mid call hk hr) h

theorem MappingCall.kept_lookup {T : Type} (state : NetworkSetup × TraitMapping T)
    (hk : MappingCall.Kept state)
    (hlen : state.2.mMapping.length = state.1.getComponentCount) :
    ∀ c ∈ state.1.mComponents, ∃ t, state.2.mMapping.lookup c = some t := by
  obtain ⟨h1, h2, h3⟩ := hk
  have hperm : state.2.keys.Perm state.1.mComponents := by
    refine (List.Nodup.subperm h2 h3).perm_of_length_le ?_
    simp only [TraitMapping.keys, List.length_map, hlen, NetworkSetup.getComponentCount]
    exact Nat.le_refl _
  intro c hc
  have hmem : c ∈ state.2.keys := hperm.mem_iff.2 hc
  cases hl : state.2.mMapping.lookup c with
  | some t => exact ⟨t, rfl⟩
  | none =>
    exfalso
    rw [lookup_eq_none_iff] at hl
    exact hl hmem

/-- C35, the code at the failing input: a component that is registered after
the mapping became total has no entry in it although `isPartial()` stays
false. After `registerComponent(c1)`, `setTraitFor(c1, IDLE)` and
`registerComponent(c2)` on a fresh setup with twenty tics per slot and a fresh
network state over it, the state is not partial and `c2` is registered, so `getTraitFor(c2)` passes its two guards, but
the state has no entry for `c2` and the lookup `mMapping.at(c2)` fails. The
same happens through the simulator: after one slot with one component,
`useComponents` registers a second one and the next `runSingle` fails at that
lookup in the previous state. What does hold after every sequence of
`registerComponent` and `setTraitFor` calls from a fresh setup and a fresh
mapping: when the mapping has as many entries as there are registered
components, every registered component has an entry, and then a `getTraitFor`
call that passes its two guards returns that entry. -/
theorem getTraitFor_after_late_registration :
    (∃ setup state,
      MappingCall.runAll lateRegistration (⟨20, [], []⟩, TraitMapping.new) = .ok (setup, state) ∧
      state.isPartial = false ∧ setup.isComponent 2 = true ∧
      state.mMapping.lookup 2 = none ∧
      state.getTraitFor setup 2 = .error Fatal.outOfRange) ∧
    ((Simulator.runSingle idleProtocol 2 (singleSimulator, ())).bind fun ran =>
      (ran.1.useComponents (some [some 2])).bind fun sim =>
        Simulator.runSingle idleProtocol 2 (sim, ran.2)) = .error Fatal.outOfRange ∧
    (∀ (ticsPerSlot : Nat) (calls : List (MappingCall ActionType)) (setup : NetworkSetup)
        (state : NetworkState),
      MappingCall.runAll calls (⟨ticsPerSlot, [], []⟩, TraitMapping.new) = .ok (setup, state) →
      state.mMapping.length = setup.getComponentCount →
      ∀ c, setup.isComponent c = true →
        ∃ a, state.mMapping.lookup c = some a ∧
          (state.isPartial = false → state.getTraitFor setup c = .ok a)) := by
  refine ⟨⟨_, _, rfl, rfl, rfl, rfl, rfl⟩, rfl, ?_⟩
  intro ticsPerSlot calls setup state h hlen c hc
  have hk : MappingCall.Kept (setup, state) :=
    MappingCall.kept_runAll calls (⟨ticsPerSlot, [], []⟩, TraitMapping.new) (setup, state)
      ⟨List.nodup_nil, List.nodup_nil, fun x hx => by cases hx⟩ h
  obtain ⟨a, ha⟩ := MappingCall.kept_lookup (setup, state) hk hlen c
    ((isComponent_iff setup c).1 hc)
  refine ⟨a, ha, fun hp => ?_⟩
  have hp' : state.mPartial = false := hp
  simp only [TraitMapping.getTraitFor, hp', hc, ha]
  rfl

/-- C33, counterexample: the constructor `NetworkSetup(0)`, zero tics per
slot, stops in a failed `Misc::Asserts::require`, and the exit code of the
process is 1, not 2. -/
theorem require_exit_code_counterexample :
    ∃ e, NetworkSetup.new 0 = .error e ∧ e.exitCode = some 1 ∧ e.exitCode ≠ some 2 :=
  ⟨Fatal.noTicPerSlot, rfl, rfl, by decide⟩

/-- C33, amended: a contract violation that a failed `Misc::Asserts::require`
detects terminates the process with exit code 1: overwriting a trait, querying
a partial mapping, a tic out of range, a duplicate registration of a component
or of a message, zero tics per slot, and a second intention in one slot. Exit
code 2 is that of a failed `ErrorTracer::require`, by which the simulator
checks the calls of its own interface: a duration of zero slots, a null
topology, a null output module, a null component array, a component registered
twice, and a slot without a topology. Every fatal requirement of the core has
one of these two exit codes. -/
theorem require_exit_codes :
    (∀ (setup : NetworkSetup) (tm : IntentionAssignment) (c : Component)
        (tr : ComponentIntention), c ∈ setup.mComponents → c ∈ tm.keys →
      ∃ e, tm.setTraitFor setup c tr = .error e ∧ e.exitCode = some 1) ∧
    (∀ (setup : NetworkSetup) (tm : IntentionAssignment) (c : Component),
      tm.isPartial = true →
      ∃ e, tm.getTraitFor setup c = .error e ∧ e.exitCode = some 1) ∧
    (∀ (setup : NetworkSetup) (type : IntentionType) (tic : Nat) (msg : Option Message),
      setup.getTicsPerSlot ≤ tic →
      ∃ e, ComponentTrait.new setup type tic msg = .error e ∧ e.exitCode = some 1) ∧
    (∀ (setup : NetworkSetup) (c : Component), c ∈ setup.mComponents →
      ∃ e, setup.registerComponent (some c) = .error e ∧ e.exitCode = some 1) ∧
    (∀ (setup : NetworkSetup) (m : Message), m ∈ setup.mMessages →
      ∃ e, setup.registerMessage (some m) = .error e ∧ e.exitCode = some 1) ∧
    (∃ e, NetworkSetup.new 0 = .error e ∧ e.exitCode = some 1) ∧
    (∀ (v : ANLView) (target : IntentionAssignment) (call : ViewCall),
      v.mActed = true → call.isSetter = true →
      ∃ e, v.call target call = .error e ∧ e.exitCode = some 1) ∧
    (∀ (protocol : Protocol Unit) (state : Simulator × Unit),
      ∃ e, Simulator.run protocol 0 state = .error e ∧ e.exitCode = some 2) ∧
    (∀ sim : Simulator, ∃ e, sim.useTopology none = .error e ∧ e.exitCode = some 2) ∧
    (∀ sim : Simulator, ∃ e, sim.useOutputModule none = .error e ∧ e.exitCode = some 2) ∧
    (∀ sim : Simulator, ∃ e, sim.useComponents none = .error e ∧ e.exitCode = some 2) ∧
    (∀ (sim : Simulator) (c : Component), c ∈ sim.mSetup.mComponents →
      ∃ e, sim.useComponent (some c) = .error e ∧ e.exitCode = some 2) ∧
    (∀ (protocol : Protocol Unit) (intended : Nat) (state : Simulator × Unit),
      state.1.mTopology = none →
      ∃ e, Simulator.runSingle protocol intended state = .error e ∧ e.exitCode = some 2) ∧
    (∀ e : Fatal, e ≠ Fatal.outOfRange → e.exitCode = some 1 ∨ e.exitCode = some 2) := by
  refine ⟨?_, ?_, ?_, ?_, ?_, ⟨_, rfl, rfl⟩, ?_, ?_, ?_, ?_, ?_, ?_, ?_, ?_⟩
  · intro setup tm c tr hc hk
    exact ⟨_, (setTraitFor_error_iff setup tm c tr).2.2 hc hk, rfl⟩
  · intro setup tm c hp
    have hp' : tm.mPartial = true := hp
    exact ⟨Fatal.getFromPartial, by simp [TraitMapping.getTraitFor, hp'], rfl⟩
  · intro setup type tic msg h
    refine ⟨Fatal.invalidTicNumber, ?_, rfl⟩
    simp only [ComponentTrait.new]
    rw [if_neg (by omega)]
  · intro setup c hc
    refine ⟨Fatal.duplicateComponent, ?_, rfl⟩
    simp only [NetworkSetup.registerComponent]
    rw [if_pos ((isComponent_iff setup c).2 hc)]
  · intro setup m hm
    refine ⟨Fatal.duplicateMessage, ?_, rfl⟩
    have : setup.isMessage (some m) = true := by
      simp only [NetworkSetup.isMessage, List.any_eq_true, beq_iff_eq]
      exact ⟨m, hm, rfl⟩
    simp only [NetworkSetup.registerMessage]
    rw [if_pos this]
  · intro v target call ha hs
    refine ⟨Fatal.alreadyActed, ?_, rfl⟩
    cases call with
    | idle => simp [ANLView.call, ANLView.idle, ha]
    | listen => simp [ANLView.call, ANLView.listen, ha]
    | send msg tic cs => simp [ANLView.call, ANLView.send, ha]
    | getPreviousAction => cases hs
  · intro protocol state
    exact ⟨Fatal.zeroDuration, rfl, rfl⟩
  · intro sim
    exact ⟨Fatal.topologyNull, rfl, rfl⟩
  · intro sim
    exact ⟨Fatal.outputModuleNull, rfl, rfl⟩
  · intro sim
    exact ⟨Fatal.componentArrayNull, rfl, rfl⟩
  · intro sim c hc
    refine ⟨Fatal.componentRegisteredTwice, ?_, rfl⟩
    simp only [Simulator.useComponent]
    rw [if_pos ((isComponent_iff sim.mSetup c).2 hc)]
  · intro protocol intended state h
    refine ⟨Fatal.topologyNotSet, ?_, rfl⟩
    simp only [Simulator.runSingle, h]
  · intro e he
    cases e <;> first | exact absurd rfl he | exact Or.inl rfl | exact Or.inr rfl

/-- C34, counterexample: with the canonical filter and eight registered
components `ANL::transition` does not refuse; it returns the full cross
product, here the 128 states of seven listeners that each either receive the
message of the only sender or a collision. -/
theorem transition_canonical_eight_counterexample :
    eightSetup.getComponentCount = 8 ∧
    ∃ states,
      ANL.transition ⟨eightSetup, ANLSemantics.CANONICAL⟩ trivialTopology eightIntent
        = .ok states ∧
      states.length = 128 := by
  have hi : IntentionAssignment.Total eightSetup eightIntent := by decide
  have hm : eightIntent.SendsCarryMessage := by decide
  refine ⟨rfl, _, ANL_transition_eq trivialTopology hi hm ANLSemantics.CANONICAL, ?_⟩
  rw [List.length_map, length_crossProduct]
  decide

/-- C34, amended: `ANL::transition` and `ANLComputer::transition` make no
check of the number of components. With the canonical filter, for a setup with
more than seven components as for any other, a total intention assignment
whose send intentions carry a message makes both return the full cross product
of the filtered possible actions: the list is not empty and its length is the
product, over the registered components, of the numbers of their distinct
possible actions. The advice against the trivial filter for more than seven
components is a comment in `ANLComputer::transition`; no call fails on its
account, and the functions write nothing. -/
theorem transition_canonical_no_component_limit (setup : NetworkSetup)
    (topo : NetworkTopology) (intent : IntentionAssignment)
    (hi : IntentionAssignment.Total setup intent) (hm : intent.SendsCarryMessage) :
    7 < setup.getComponentCount →
    ∃ states,
      ANL.transition ⟨setup, ANLSemantics.CANONICAL⟩ topo intent = .ok states ∧
      ANLComputer.transition ⟨setup, topo, intent, ANLFilterNothing, TraitMapping.new⟩
        = .ok states ∧
      states ≠ [] ∧
      states = (crossProduct (fun c => uniqueActions (possibleActions setup topo intent c)) [[]]
        setup.mComponents).map (TraitMapping.ofList setup) ∧
      states.length =
        (setup.mComponents.map fun c =>
          (uniqueActions (possibleActions setup topo intent c)).length).prod := by
  intro _
  have h := ANL_transition_eq topo hi hm ANLSemantics.CANONICAL
  refine ⟨_, h, h, crossProduct_ne_nil topo hi ANLSemantics.CANONICAL, rfl, ?_⟩
  rw [List.length_map, length_crossProduct, List.length_singleton, Nat.one_mul]
  rfl

/-- The instance of C34 at eight components: one sender and seven listeners. -/
theorem transition_canonical_no_component_limit_witness :
    IntentionAssignment.Total eightSetup eightIntent ∧ eightIntent.SendsCarryMessage ∧
    7 < eightSetup.getComponentCount ∧
    ∃ states,
      ANL.transition ⟨eightSetup, ANLSemantics.CANONICAL⟩ trivialTopology eightIntent
        = .ok states ∧
      ANLComputer.transition
        ⟨eightSetup, trivialTopology, eightIntent, ANLFilterNothing, TraitMapping.new⟩
          = .ok states ∧
      states ≠ [] ∧
      states =
        (crossProduct (fun c => uniqueActions (possibleActions eightSetup trivialTopology
          eightIntent c)) [[]] eightSetup.mComponents).map (TraitMapping.ofList eightSetup) ∧
      states.length =
        (eightSetup.mComponents.map fun c =>
          (uniqueActions (possibleActions eightSetup trivialTopology eightIntent c)).length).prod :=
  ⟨by decide, by decide, by decide,
    transition_canonical_no_component_limit eightSetup trivialTopology eightIntent
      (by decide) (by decide) (by decide)⟩

theorem Repeater.failure_alarms (r : Repeater) :
    r.failure.mAlarms = r.mAlarms ∧ r.failure.mAlarmCount = r.mAlarmCount := by
  unfold Repeater.failure
  simp only []
  split_ifs <;> exact ⟨rfl, rfl⟩

theorem getPreviousAction_of_has (view : ANLView) (h : view.hasPreviousAction = true) :
    view.getPreviousAction = .ok view.mPreviousAction := by
  have h' : view.mHasPreviousAction = true := h
  simp [ANLView.getPreviousAction, h']

theorem Repeater.readAlarm_settled (r : Repeater) (h1 : r.mAlarmCount = 1)
    (c : Component) (hc : r.mAlarms.get? 0 = some (some c)) :
    r.readAlarm ((r.mAlarmCount + sizeRange - 1) % sizeRange) = .ok c := by
  have : (r.mAlarmCount + sizeRange - 1) % sizeRange = 0 := by
    rw [h1]
    decide
  rw [this]
  simp only [Repeater.readAlarm, hc]

theorem Repeater.actForward_settled (g : AlarmGlobals) (self : Component) (r : Repeater)
    (h1 : r.mAlarmCount = 1) (c : Component) (hc : r.mAlarms.get? 0 = some (some c)) :
    ∃ msg, Repeater.actForward g self r
      = ([ViewCall.send (some msg) r.mPriority true], .ok (AlarmState.ATTEMPTED_REP, r)) := by
  simp only [Repeater.actForward, Repeater.readAlarm_settled r h1 c hc]
  exact ⟨_, rfl⟩

theorem Repeater.addAlarm_empty (r : Repeater) (comp : Component) (h0 : r.mAlarmCount = 0)
    (hlen : r.mAlarms.length = 10) :
    r.addAlarm comp = .ok { r with mAlarms := r.mAlarms.set 0 (some comp), mAlarmCount := 1 } := by
  simp only [Repeater.addAlarm, h0, List.range_zero, Repeater.searchAlarm, hlen]
  rfl

/-- What a call of `Repeater::doStateAct` on a settled repeater does: it makes
exactly one of the calls `idle`, `listen`, `send`, and it returns with a
settled repeater, when the view has a previous action or the state does not
ask for it; without the previous action it asks for, the call ends in "no
previous action!" before any of the three calls. -/
theorem Repeater.doStateAct_settled (g : AlarmGlobals) (self : Component) (r : Repeater)
    (view : ANLView) (state : AlarmState) (hs : Repeater.Settled (state, r)) :
    (∃ next, (Repeater.doStateAct g self r view state).2 = .ok next ∧
      Repeater.Settled next ∧
      (Repeater.doStateAct g self r view state).1.countP ViewCall.isSetter = 1) ∨
    (state.readsPrevious = true ∧ view.hasPreviousAction = false ∧
      Repeater.doStateAct g self r view state
        = ([ViewCall.getPreviousAction], .error (.fatal Fatal.noPreviousAction))) := by
  obtain ⟨hlen, hst⟩ := hs
  have hfail := Repeater.failure_alarms r
  rcases Bool.eq_false_or_eq_true view.mHasPreviousAction with hp | hp
  · have hget := getPreviousAction_of_has view hp
    left
    cases state <;> simp only [] at hst
    · exact ⟨_, rfl, ⟨hlen, hst⟩, rfl⟩
    · simp only [Repeater.doStateAct, hget]
      by_cases hrec : view.mPreviousAction.getType = ActionType.RECEIVED
      · rw [if_pos hrec]
        cases hcast : g.castMessage view.mPreviousAction.getMessage with
        | none =>
          simp only [Repeater.actNoAlarm, hst, Acted.after]
          exact ⟨_, rfl, ⟨hlen, hst⟩, rfl⟩
        | some msg =>
          simp only []
          by_cases hmsg : msg.getType = MessageType.ALARM ∧ self = msg.getTo
          · rw [if_pos hmsg]
            simp only [Repeater.addAlarm_empty r msg.getData hst hlen]
            refine ⟨_, rfl, ⟨?_, ?_⟩, rfl⟩
            · simp [hlen]
            · refine ⟨rfl, msg.getData, ?_⟩
              cases hl : r.mAlarms with
              | nil => rw [hl] at hlen; cases hlen
              | cons x xs => rfl
          · rw [if_neg hmsg]
            simp only [Repeater.actNoAlarm, hst, Acted.after]
            exact ⟨_, rfl, ⟨hlen, hst⟩, rfl⟩
      · rw [if_neg hrec]
        simp only [Repeater.actNoAlarm, hst, Acted.after]
        exact ⟨_, rfl, ⟨hlen, hst⟩, rfl⟩
    · obtain ⟨h1, c, hc⟩ := hst
      obtain ⟨msg, hfw⟩ := Repeater.actForward_settled g self r h1 c hc
      simp only [Repeater.doStateAct, hfw]
      exact ⟨_, rfl, ⟨hlen, h1, c, hc⟩, rfl⟩
    · simp only [Repeater.doStateAct, hget]
      by_cases hcan : view.mPreviousAction.getType = ActionType.CANCELLED
      · rw [if_pos hcan]
        exact ⟨_, rfl, ⟨hlen, hst⟩, rfl⟩
      · rw [if_neg hcan]
        exact ⟨_, rfl, ⟨hlen, hst⟩, rfl⟩
    · obtain ⟨h1, c, hc⟩ := hst
      obtain ⟨msg, hfw⟩ := Repeater.actForward_settled g self r.failure
        (hfail.2.trans h1) c (by rw [hfail.1]; exact hc)
      have hun : ∀ calls : List ViewCall, calls.countP ViewCall.isSetter = 0 →
          ∃ next, (Acted.after calls (Repeater.actUnacknowledged g self r)).2 = .ok next ∧
            Repeater.Settled next ∧
            (Acted.after calls (Repeater.actUnacknowledged g self r)).1.countP
              ViewCall.isSetter = 1 := by
        intro calls h0
        simp only [Repeater.actUnacknowledged, hfw, Acted.after]
        refine ⟨_, rfl, ⟨by rw [hfail.1]; exact hlen, hfail.2.trans h1, c,
          by rw [hfail.1]; exact hc⟩, ?_⟩
        rw [List.countP_append, h0]
        rfl
      simp only [Repeater.doStateAct, hget]
      by_cases hrec : view.mPreviousAction.getType = ActionType.RECEIVED
      · rw [if_pos hrec]
        cases hcast : g.castMessage view.mPreviousAction.getMessage with
        | none => exact hun _ rfl
        | some msg =>
          simp only []
          by_cases hmsg : msg.getType = MessageType.ACK ∧ self = msg.getTo
          · rw [if_pos hmsg]
            refine ⟨_, rfl, ⟨hlen, ?_⟩, rfl⟩
            show (r.mAlarmCount + sizeRange - 1) % sizeRange = 0
            rw [h1]
            decide
          · rw [if_neg hmsg]
            exact hun _ rfl
      · rw [if_neg hrec]
        exact hun _ rfl
  · by_cases hreads : state.readsPrevious = true
    · right
      have hget : view.getPreviousAction = .error Fatal.noPreviousAction := by
        simp [ANLView.getPreviousAction, hp]
      refine ⟨hreads, hp, ?_⟩
      cases state <;> simp only [] at hst <;> first
        | (exact absurd hreads (by decide))
        | (simp only [Repeater.doStateAct, hget])
    · left
      cases state <;> simp only [] at hst
      · exact ⟨_, rfl, ⟨hlen, hst⟩, rfl⟩
      · exact absurd rfl hreads
      · obtain ⟨h1, c, hc⟩ := hst
        obtain ⟨msg, hfw⟩ := Repeater.actForward_settled g self r h1 c hc
        simp only [Repeater.doStateAct, hfw]
        exact ⟨_, rfl, ⟨hlen, h1, c, hc⟩, rfl⟩
      · exact absurd rfl hreads
      · exact absurd rfl hreads

theorem Repeater.reachable_settled (g : AlarmGlobals) (self : Component) (num : Nat)
    (comp : AlarmState × Repeater) (h : Repeater.Reachable g self num comp) :
    Repeater.Settled comp := by
  induction h with
  | constructed => exact ⟨rfl, rfl⟩
  | @acted comp next view _ hstep ih =>
    obtain ⟨state, r⟩ := comp
    rcases Repeater.doStateAct_settled g self r view state ih with
      ⟨next', hok, hset, -⟩ | ⟨-, -, herr⟩
    · have hstep' : (Repeater.doStateAct g self r view state).2 = .ok next := hstep
      rw [hok] at hstep'
      cases hstep'
      exact hset
    · have hstep' : (Repeater.doStateAct g self r view state).2 = .ok next := hstep
      rw [herr] at hstep'
      cases hstep'

theorem Repeater.actForward_calls (g : AlarmGlobals) (self : Component) (r : Repeater)
    (calls : List ViewCall) (h0 : calls.countP ViewCall.isSetter = 0) :
    (Acted.after calls (Repeater.actForward g self r)).1.countP ViewCall.isSetter ≤ 1 ∧
    ∀ next, (Acted.after calls (Repeater.actForward g self r)).2 = .ok next →
      (Acted.after calls (Repeater.actForward g self r)).1.countP ViewCall.isSetter = 1 := by
  simp only [Repeater.actForward, Acted.after]
  cases r.readAlarm ((r.mAlarmCount + sizeRange - 1) % sizeRange) with
  | error stop =>
    simp only [List.append_nil, h0]
    exact ⟨Nat.zero_le _, fun next h => by cases h⟩
  | ok data =>
    simp only [List.countP_append, h0]
    exact ⟨Nat.le_refl _, fun _ _ => rfl⟩

theorem Repeater.actNoAlarm_calls (r : Repeater) (calls : List ViewCall)
    (h0 : calls.countP ViewCall.isSetter = 0) :
    (Acted.after calls (Repeater.actNoAlarm r)).1.countP ViewCall.isSetter = 1 := by
  simp only [Repeater.actNoAlarm, Acted.after]
  split_ifs <;> simp only [List.countP_append, h0] <;> rfl

/-- For whatever members: a call of `Repeater::doStateAct` in a state of the
repeater makes at most one of the calls `idle`, `listen`, `send`, and exactly
one when it returns. -/
theorem Repeater.doStateAct_atMostOne (g : AlarmGlobals) (self : Component) (r : Repeater)
    (view : ANLView) (state : AlarmState) (hstate : state.isRepeaterState = true) :
    (Repeater.doStateAct g self r view state).1.countP ViewCall.isSetter ≤ 1 ∧
    ∀ next, (Repeater.doStateAct g self r view state).2 = .ok next →
      (Repeater.doStateAct g self r view state).1.countP ViewCall.isSetter = 1 := by
  have hone : ∀ (a : Acted (AlarmState × Repeater)), a.1.countP ViewCall.isSetter = 1 →
      a.1.countP ViewCall.isSetter ≤ 1 ∧
        ∀ next, a.2 = .ok next → a.1.countP ViewCall.isSetter = 1 :=
    fun a h => ⟨Nat.le_of_eq h, fun _ _ => h⟩
  have hzero : ∀ (calls : List ViewCall) (stop : AlarmStop),
      calls.countP ViewCall.isSetter = 0 →
      (calls, (Except.error stop : Except AlarmStop (AlarmState × Repeater))).1.countP
          ViewCall.isSetter ≤ 1 ∧
        ∀ next, (calls, (Except.error stop : Except AlarmStop (AlarmState × Repeater))).2
            = .ok next →
          (calls, (Except.error stop : Except AlarmStop (AlarmState × Repeater))).1.countP
            ViewCall.isSetter = 1 :=
    fun calls stop h => ⟨by simp only [h]; exact Nat.zero_le _, fun next hn => by cases hn⟩
  cases state <;> first | (exact absurd hstate (by decide)) | skip
  · exact hone _ rfl
  · simp only [Repeater.doStateAct]
    cases view.getPreviousAction with
    | error e => exact hzero _ _ rfl
    | ok prev =>
      simp only []
      by_cases hrec : prev.getType = ActionType.RECEIVED
      · rw [if_pos hrec]
        cases g.castMessage prev.getMessage with
        | none => exact hone _ (Repeater.actNoAlarm_calls r _ rfl)
        | some msg =>
          simp only []
          by_cases hmsg : msg.getType = MessageType.ALARM ∧ self = msg.getTo
          · rw [if_pos hmsg]
            cases r.addAlarm msg.getData with
            | error stop => exact hzero _ _ rfl
            | ok r1 => exact hone _ rfl
          · rw [if_neg hmsg]
            exact hone _ (Repeater.actNoAlarm_calls r _ rfl)
      · rw [if_neg hrec]
        exact hone _ (Repeater.actNoAlarm_calls r _ rfl)
  · have := Repeater.actForward_calls g self r [] rfl
    simpa [Acted.after, Repeater.doStateAct] using this
  · simp only [Repeater.doStateAct]
    cases view.getPreviousAction with
    | error e => exact hzero _ _ rfl
    | ok prev =>
      simp only []
      by_cases hcan : prev.getType = ActionType.CANCELLED
      · rw [if_pos hcan]; exact hone _ rfl
      · rw [if_neg hcan]; exact hone _ rfl
  · simp only [Repeater.doStateAct]
    cases view.getPreviousAction with
    | error e => exact hzero _ _ rfl
    | ok prev =>
      simp only []
      by_cases hrec : prev.getType = ActionType.RECEIVED
      · rw [if_pos hrec]
        cases g.castMessage prev.getMessage with
        | none => exact Repeater.actForward_calls g self r.failure _ rfl
        | some msg =>
          simp only []
          by_cases hmsg : msg.getType = MessageType.ACK ∧ self = msg.getTo
          · rw [if_pos hmsg]; exact hone _ rfl
          · rw [if_neg hmsg]
            exact Repeater.actForward_calls g self r.failure _ rfl
      · rw [if_neg hrec]
        exact Repeater.actForward_calls g self r.failure _ rfl

/-- What a call of `Sensor::doStateAct` in a state of the sensor does, for
whatever members, when the view has a previous action or the state does not
ask for it: it makes exactly one of the calls `idle`, `listen`, `send`, and it
returns. -/
theorem Sensor.doStateAct_exactlyOne (g : AlarmGlobals) (self : Component) (s : Sensor)
    (view : ANLView) (state : AlarmState) (hstate : state.isSensorState = true)
    (hprev : state.readsPrevious = true → view.hasPreviousAction = true) :
    (Sensor.doStateAct g self s view state).1.countP ViewCall.isSetter = 1 ∧
    ∃ next, (Sensor.doStateAct g self s view state).2 = .ok next := by
  cases state <;> first | (exact absurd hstate (by decide)) | skip
  · exact ⟨rfl, _, rfl⟩
  · simp only [Sensor.doStateAct, getPreviousAction_of_has view (hprev rfl)]
    by_cases hcan : view.mPreviousAction.getType = ActionType.CANCELLED
    · rw [if_pos hcan]; exact ⟨rfl, _, rfl⟩
    · rw [if_neg hcan]; exact ⟨rfl, _, rfl⟩
  · simp only [Sensor.doStateAct, getPreviousAction_of_has view (hprev rfl)]
    by_cases hrec : view.mPreviousAction.getType = ActionType.RECEIVED
    · rw [if_pos hrec]
      cases g.castMessage view.mPreviousAction.getMessage with
      | none => exact ⟨rfl, _, rfl⟩
      | some msg =>
        simp only []
        by_cases hmsg : msg.getType = MessageType.ACK ∧ self = msg.getTo
        · rw [if_pos hmsg]; exact ⟨rfl, _, rfl⟩
        · rw [if_neg hmsg]; exact ⟨rfl, _, rfl⟩
    · rw [if_neg hrec]; exact ⟨rfl, _, rfl⟩
  · exact ⟨rfl, _, rfl⟩

/-- C36: `Sensor::doStateAct` and `Repeater::doStateAct`, called through
`StateMachineComponent::doAct` in a state of the component's own protocol on a
view that has a previous action (or in a state that does not ask the view for
it, as in the first slot), make exactly one of the calls `idle`, `listen`,
`send` on the view and return; this holds on the paths that call `failure()`
and then `doStateAct` again, too. For the sensor this holds for whatever
members. For the repeater it holds for the members of every repeater that is
reachable from its constructor by calls of `doAct`; for whatever members the
repeater makes at most one of the three calls, and exactly one when the call
returns. -/
theorem doStateAct_one_intention (g : AlarmGlobals) (self : Component) (view : ANLView)
    (state : AlarmState)
    (hprev : state.readsPrevious = true → view.hasPreviousAction = true) :
    (state.isSensorState = true → ∀ s : Sensor,
      (StateMachineComponent.doAct (Sensor.doStateAct g self) (state, s) view).1.countP
          ViewCall.isSetter = 1 ∧
        ∃ next, (StateMachineComponent.doAct (Sensor.doStateAct g self) (state, s) view).2
          = .ok next) ∧
    (∀ (num : Nat) (r : Repeater), Repeater.Reachable g self num (state, r) →
      state.isRepeaterState = true ∧
      (StateMachineComponent.doAct (Repeater.doStateAct g self) (state, r) view).1.countP
          ViewCall.isSetter = 1 ∧
        ∃ next, (StateMachineComponent.doAct (Repeater.doStateAct g self) (state, r) view).2
          = .ok next) ∧
    (state.isRepeaterState = true → ∀ r : Repeater,
      (StateMachineComponent.doAct (Repeater.doStateAct g self) (state, r) view).1.countP
          ViewCall.isSetter ≤ 1 ∧
        ∀ next, (StateMachineComponent.doAct (Repeater.doStateAct g self) (state, r) view).2
            = .ok next →
          (StateMachineComponent.doAct (Repeater.doStateAct g self) (state, r) view).1.countP
            ViewCall.isSetter = 1) := by
  refine ⟨fun hstate s => Sensor.doStateAct_exactlyOne g self s view state hstate hprev, ?_,
    fun hstate r => Repeater.doStateAct_atMostOne g self r view state hstate⟩
  intro num r hreach
  have hs := Repeater.reachable_settled g self num (state, r) hreach
  have hrep : state.isRepeaterState = true := by
    obtain ⟨-, hst⟩ := hs
    cases state <;> first | rfl | (simp only [] at hst)
  refine ⟨hrep, ?_⟩
  rcases Repeater.doStateAct_settled g self r view state hs with
    ⟨next, hok, -, hcount⟩ | ⟨hreads, hno, -⟩
  · exact ⟨hcount, next, hok⟩
  · rw [hprev hreads] at hno
    cases hno

/-- The instance of C36 at a repeater that waits for an alarm and a view
whose previous action is the reception of an alarm for it. -/
theorem doStateAct_one_intention_witness :
    (AlarmState.WAIT_FOR_ALARM_REP.readsPrevious = true → alarmView.hasPreviousAction = true) ∧
    Repeater.Reachable exampleGlobals 15 5 (AlarmState.WAIT_FOR_ALARM_REP, (Repeater.new 5).2) ∧
    (AlarmState.WAIT_FOR_ALARM_REP.isSensorState = true → ∀ s : Sensor,
      (StateMachineComponent.doAct (Sensor.doStateAct exampleGlobals 15)
          (AlarmState.WAIT_FOR_ALARM_REP, s) alarmView).1.countP ViewCall.isSetter = 1 ∧
        ∃ next, (StateMachineComponent.doAct (Sensor.doStateAct exampleGlobals 15)
          (AlarmState.WAIT_FOR_ALARM_REP, s) alarmView).2 = .ok next) ∧
    (∀ (num : Nat) (r : Repeater),
      Repeater.Reachable exampleGlobals 15 num (AlarmState.WAIT_FOR_ALARM_REP, r) →
      AlarmState.WAIT_FOR_ALARM_REP.isRepeaterState = true ∧
      (StateMachineComponent.doAct (Repeater.doStateAct exampleGlobals 15)
          (AlarmState.WAIT_FOR_ALARM_REP, r) alarmView).1.countP ViewCall.isSetter = 1 ∧
        ∃ next, (StateMachineComponent.doAct (Repeater.doStateAct exampleGlobals 15)
          (AlarmState.WAIT_FOR_ALARM_REP, r) alarmView).2 = .ok next) ∧
    (AlarmState.WAIT_FOR_ALARM_REP.isRepeaterState = true → ∀ r : Repeater,
      (StateMachineComponent.doAct (Repeater.doStateAct exampleGlobals 15)
          (AlarmState.WAIT_FOR_ALARM_REP, r) alarmView).1.countP ViewCall.isSetter ≤ 1 ∧
        ∀ next, (StateMachineComponent.doAct (Repeater.doStateAct exampleGlobals 15)
            (AlarmState.WAIT_FOR_ALARM_REP, r) alarmView).2 = .ok next →
          (StateMachineComponent.doAct (Repeater.doStateAct exampleGlobals 15)
            (AlarmState.WAIT_FOR_ALARM_REP, r) alarmView).1.countP ViewCall.isSetter = 1) :=
  ⟨fun _ => rfl, .acted alarmView .constructed rfl,
    doStateAct_one_intention exampleGlobals 15 alarmView AlarmState.WAIT_FOR_ALARM_REP
      (fun _ => rfl)⟩

/-- C40: for every repeater that is reachable from its constructor by calls of
`doAct` (each a call of `doStateAct` on the current state), its state is one
of the five states of the repeater and `mAlarms` has its ten elements. When
the state is `FORWARD_ALARMS_REP`, `ATTEMPTED_REP` or `WAIT_FOR_ACK_REP`, the
counter satisfies `1 <= mAlarmCount <= 10`; the element
`mAlarms[mAlarmCount - 1]` has been written by `addAlarm`, and the read of it
when forwarding returns it, also after `failure()`; the index
`mAlarmCount - 1` and the decrement on acknowledgement do not wrap around; and
forwarding sends and returns. No call of `doAct` on a reachable repeater ends
in "Too many alarms." or in an access to `mAlarms` without meaning: a call
that does not return has asked a view without previous action for it. -/
theorem repeater_alarm_count (g : AlarmGlobals) (self : Component) (num : Nat)
    (comp : AlarmState × Repeater) (h : Repeater.Reachable g self num comp) :
    comp.1.isRepeaterState = true ∧ comp.2.mAlarms.length = 10 ∧
    (comp.1 = AlarmState.FORWARD_ALARMS_REP ∨ comp.1 = AlarmState.ATTEMPTED_REP ∨
        comp.1 = AlarmState.WAIT_FOR_ACK_REP →
      1 ≤ comp.2.mAlarmCount ∧ comp.2.mAlarmCount ≤ 10 ∧
      (∃ c, comp.2.mAlarms.get? (comp.2.mAlarmCount - 1) = some (some c) ∧
        comp.2.readAlarm ((comp.2.mAlarmCount + sizeRange - 1) % sizeRange) = .ok c ∧
        comp.2.failure.readAlarm ((comp.2.failure.mAlarmCount + sizeRange - 1) % sizeRange)
          = .ok c) ∧
      (comp.2.mAlarmCount + sizeRange - 1) % sizeRange = comp.2.mAlarmCount - 1 ∧
      ∃ msg, Repeater.actForward g self comp.2
        = ([ViewCall.send (some msg) comp.2.mPriority true],
            .ok (AlarmState.ATTEMPTED_REP, comp.2))) ∧
    (∀ (view : ANLView) (stop : AlarmStop),
      (StateMachineComponent.doAct (Repeater.doStateAct g self) comp view).2 = .error stop →
      stop = AlarmStop.fatal Fatal.noPreviousAction ∧ view.hasPreviousAction = false) := by
  have hs := Repeater.reachable_settled g self num comp h
  obtain ⟨state, r⟩ := comp
  have hs' := hs
  obtain ⟨hlen, hst⟩ := hs
  refine ⟨?_, hlen, ?_, ?_⟩
  · cases state <;> first | rfl | (simp only [] at hst)
  · intro hstate
    have hst' : r.mAlarmCount = 1 ∧ ∃ c, r.mAlarms.get? 0 = some (some c) := by
      rcases hstate with h1 | h1 | h1 <;> simp only [] at h1 <;> subst h1 <;> exact hst
    obtain ⟨h1, c, hc⟩ := hst'
    have hf := Repeater.failure_alarms r
    refine ⟨by show 1 ≤ r.mAlarmCount; omega, by show r.mAlarmCount ≤ 10; omega,
      ⟨c, ?_, Repeater.readAlarm_settled r h1 c hc,
        Repeater.readAlarm_settled r.failure (hf.2.trans h1) c (by rw [hf.1]; exact hc)⟩,
      ?_, Repeater.actForward_settled g self r h1 c hc⟩
    · show r.mAlarms.get? (r.mAlarmCount - 1) = some (some c)
      rw [h1]
      exact hc
    · show (r.mAlarmCount + sizeRange - 1) % sizeRange = r.mAlarmCount - 1
      rw [h1]
      decide
  · intro view stop hstop
    rcases Repeater.doStateAct_settled g self r view state hs' with
      ⟨next, hok, -, -⟩ | ⟨-, hno, herr⟩
    · have hstop' : (Repeater.doStateAct g self r view state).2 = .error stop := hstop
      rw [hok] at hstop'
      cases hstop'
    · have hstop' : (Repeater.doStateAct g self r view state).2 = .error stop := hstop
      rw [herr] at hstop'
      cases hstop'
      exact ⟨rfl, hno⟩

/-- The instance of C40 at repeater 5 after its constructor, a first slot in
which it listens, and a second slot in which it has received the alarm of
component 20 and acknowledges it. -/
theorem repeater_alarm_count_witness :
    Repeater.Reachable exampleGlobals 15 5 (AlarmState.FORWARD_ALARMS_REP, exampleRepeater) ∧
    (AlarmState.FORWARD_ALARMS_REP, exampleRepeater).1.isRepeaterState = true ∧
    (AlarmState.FORWARD_ALARMS_REP, exampleRepeater).2.mAlarms.length = 10 ∧
    ((AlarmState.FORWARD_ALARMS_REP, exampleRepeater).1 = AlarmState.FORWARD_ALARMS_REP ∨
        (AlarmState.FORWARD_ALARMS_REP, exampleRepeater).1 = AlarmState.ATTEMPTED_REP ∨
        (AlarmState.FORWARD_ALARMS_REP, exampleRepeater).1 = AlarmState.WAIT_FOR_ACK_REP →
      1 ≤ (AlarmState.FORWARD_ALARMS_REP, exampleRepeater).2.mAlarmCount ∧
      (AlarmState.FORWARD_ALARMS_REP, exampleRepeater).2.mAlarmCount ≤ 10 ∧
      (∃ c, (AlarmState.FORWARD_ALARMS_REP, exampleRepeater).2.mAlarms.get?
            ((AlarmState.FORWARD_ALARMS_REP, exampleRepeater).2.mAlarmCount - 1)
          = some (some c) ∧
        (AlarmState.FORWARD_ALARMS_REP, exampleRepeater).2.readAlarm
            (((AlarmState.FORWARD_ALARMS_REP, exampleRepeater).2.mAlarmCount + sizeRange - 1)
              % sizeRange) = .ok c ∧
        (AlarmState.FORWARD_ALARMS_REP, exampleRepeater).2.failure.readAlarm
            (((AlarmState.FORWARD_ALARMS_REP, exampleRepeater).2.failure.mAlarmCount
              + sizeRange - 1) % sizeRange) = .ok c) ∧
      ((AlarmState.FORWARD_ALARMS_REP, exampleRepeater).2.mAlarmCount + sizeRange - 1)
          % sizeRange
        = (AlarmState.FORWARD_ALARMS_REP, exampleRepeater).2.mAlarmCount - 1 ∧
      ∃ msg, Repeater.actForward exampleGlobals 15
          (AlarmState.FORWARD_ALARMS_REP, exampleRepeater).2
        = ([ViewCall.send (some msg)
              (AlarmState.FORWARD_ALARMS_REP, exampleRepeater).2.mPriority true],
            .ok (AlarmState.ATTEMPTED_REP,
              (AlarmState.FORWARD_ALARMS_REP, exampleRepeater).2))) ∧
    (∀ (view : ANLView) (stop : AlarmStop),
      (StateMachineComponent.doAct (Repeater.doStateAct exampleGlobals 15)
        (AlarmState.FORWARD_ALARMS_REP, exampleRepeater) view).2 = .error stop →
      stop = AlarmStop.fatal Fatal.noPreviousAction ∧ view.hasPreviousAction = false) :=
  ⟨.acted alarmView (.acted alarmView .constructed rfl) rfl,
    repeater_alarm_count exampleGlobals 15 5 (AlarmState.FORWARD_ALARMS_REP, exampleRepeater)
      (.acted alarmView (.acted alarmView .constructed rfl) rfl)⟩

theorem silence_runSingle_later (intended : Nat) (k : Nat) (out : List OutputEvent) :
    Simulator.runSingle EchoServerComponent.doAct intended
        (⟨some out, silenceSetup, some trivialTopology, k + 1, silenceState, true⟩, ())
      = .ok (⟨some (out ++ [OutputEvent.onSlotBegin (k + 1)] ++
                [OutputEvent.onIntentChosen silenceIntent] ++
                [OutputEvent.onTransitionComputed [silenceState]] ++
                [OutputEvent.onResultChosen silenceState, OutputEvent.onSlotEnd]),
              silenceSetup, some trivialTopology, (k + 1 + 1) % sizeRange, silenceState, true⟩,
            ()) :=
  rfl

theorem silence_runSingle (intended : Nat) (n : Nat) (hn : n + 1 < sizeRange) :
    Simulator.runSingle EchoServerComponent.doAct intended (silenceSimulatorAfter intended n, ())
      = .ok (silenceSimulatorAfter intended (n + 1), ()) := by
  cases n with
  | zero => rfl
  | succ k =>
    simp only [silenceSimulatorAfter]
    rw [silence_runSingle_later, Nat.mod_eq_of_lt hn]
    simp [silenceSlots, silenceSlot]

theorem silence_runLoop (intended : Nat) :
    ∀ n, n < sizeRange →
      Simulator.runLoop EchoServerComponent.doAct intended n (silenceSimulator, ())
        = .ok (silenceSimulatorAfter intended n, ()) := by
  intro n
  induction n with
  | zero => intro _; rfl
  | succ k ih =>
    intro hk
    rw [runLoop_succ, ih (by omega), bind_ok]
    exact silence_runSingle intended k hk

/-- C32: the simulation of `SilenceMain.cpp`, with the echo server as the only
component, the trivial topology and the naive semantics of the simulator, for
every number `n` of slots. The `n` calls of `runSingle` return, and so does
`run(n)` for `n >= 1`; the output module receives, for every slot `i < n` in
order, the intention chosen, which is that the echo server listens, and the
only outcome, in which it received silence. In every slot `i < n` the echo
server calls `listen` on its view, after `getPreviousAction` from slot 1 on,
and never `send`; the slot commits the intention `LISTEN` and the transition
returns the single state `SILENCE`. -/
theorem echo_server_silent (n : Nat) (hn : n < sizeRange) :
    ((Simulator.new (some []) 1).bind fun sim =>
      (sim.useTopology (some trivialTopology)).bind fun sim =>
        (sim.useComponents (some [some 1])).bind fun sim =>
          sim.useMessages (some [some 100])) = .ok silenceSimulator ∧
    Simulator.runLoop EchoServerComponent.doAct n n (silenceSimulator, ())
      = .ok (silenceSimulatorAfter n n, ()) ∧
    (1 ≤ n →
      ∃ sim, Simulator.run EchoServerComponent.doAct n (silenceSimulator, ()) = .ok (sim, ()) ∧
        sim.mOutputModule =
          some (OutputEvent.onSimulationBegin n :: silenceSlots n
            ++ [OutputEvent.onSimulationEnd])) ∧
    ∀ i, i < n →
      Simulator.runLoop EchoServerComponent.doAct n i (silenceSimulator, ())
        = .ok (silenceSimulatorAfter n i, ()) ∧
      (silenceSimulatorAfter n i).mSlotNumber = i ∧
      (∃ view, (silenceSimulatorAfter n i).viewFor 1 = .ok view ∧
        ∀ call ∈ (EchoServerComponent.doAct 1 view ()).1,
          call = ViewCall.listen ∨ call = ViewCall.getPreviousAction) ∧
      (silenceSimulatorAfter n i).mANL.runSlot EchoServerComponent.doAct i
          (if i = 0 then none else some (silenceSimulatorAfter n i).mPreviousState)
          TraitMapping.new () = .ok (silenceIntent, ()) ∧
      silenceIntent.getTraitFor silenceSetup 1 = .ok ⟨IntentionType.LISTEN, 0, none⟩ ∧
      (silenceSimulatorAfter n i).mANL.transition trivialTopology silenceIntent
        = .ok [silenceState] ∧
      silenceState.getTraitFor silenceSetup 1 = .ok ⟨ActionType.SILENCE, 0, none⟩ := by
  refine ⟨rfl, silence_runLoop n n hn, ?_, ?_⟩
  · intro h1
    have hloop := silence_runLoop n n hn
    obtain ⟨k, rfl⟩ : ∃ k, n = k + 1 := ⟨n - 1, by omega⟩
    refine ⟨⟨some (OutputEvent.onSimulationBegin (k + 1) :: silenceSlots (k + 1)
        ++ [OutputEvent.onSimulationEnd]), silenceSetup, some trivialTopology, k + 1,
        silenceState, true⟩, ?_, rfl⟩
    simp only [Simulator.run]
    rw [if_neg (by omega), hloop]
    rfl
  · intro i hi
    refine ⟨silence_runLoop n i (by omega), ?_, ?_, ?_, rfl, ?_, rfl⟩
    · cases i <;> rfl
    · cases i with
      | zero => exact ⟨_, rfl, by simp [EchoServerComponent.doAct, ANLView.hasPreviousAction]⟩
      | succ k =>
        refine ⟨⟨silenceSetup, k + 1, 1, ⟨ActionType.SILENCE, 0, none⟩, true, false⟩, rfl, ?_⟩
        intro call hcall
        have hscript : (EchoServerComponent.doAct 1
            ⟨silenceSetup, k + 1, 1, ⟨ActionType.SILENCE, 0, none⟩, true, false⟩ ()).1
              = [ViewCall.getPreviousAction, ViewCall.listen] := rfl
        rw [hscript] at hcall
        simp only [List.mem_cons, List.mem_singleton, List.mem_nil_iff, or_false] at hcall
        rcases hcall with h | h
        · exact Or.inr h
        · exact Or.inl h
    · cases i <;> rfl
    · cases i <;> rfl

/-- The instance of C32 at the three slots of `SilenceMain.cpp`. -/
theorem echo_server_silent_witness :
    3 < sizeRange ∧
    ((Simulator.new (some []) 1).bind fun sim =>
      (sim.useTopology (some trivialTopology)).bind fun sim =>
        (sim.useComponents (some [some 1])).bind fun sim =>
          sim.useMessages (some [some 100])) = .ok silenceSimulator ∧
    Simulator.runLoop EchoServerComponent.doAct 3 3 (silenceSimulator, ())
      = .ok (silenceSimulatorAfter 3 3, ()) ∧
    (1 ≤ 3 →
      ∃ sim, Simulator.run EchoServerComponent.doAct 3 (silenceSimulator, ()) = .ok (sim, ()) ∧
        sim.mOutputModule =
          some (OutputEvent.onSimulationBegin 3 :: silenceSlots 3
            ++ [OutputEvent.onSimulationEnd])) ∧
    ∀ i, i < 3 →
      Simulator.runLoop EchoServerComponent.doAct 3 i (silenceSimulator, ())
        = .ok (silenceSimulatorAfter 3 i, ()) ∧
      (silenceSimulatorAfter 3 i).mSlotNumber = i ∧
      (∃ view, (silenceSimulatorAfter 3 i).viewFor 1 = .ok view ∧
        ∀ call ∈ (EchoServerComponent.doAct 1 view ()).1,
          call = ViewCall.listen ∨ call = ViewCall.getPreviousAction) ∧
      (silenceSimulatorAfter 3 i).mANL.runSlot EchoServerComponent.doAct i
          (if i = 0 then none else some (silenceSimulatorAfter 3 i).mPreviousState)
          TraitMapping.new () = .ok (silenceIntent, ()) ∧
      silenceIntent.getTraitFor silenceSetup 1 = .ok ⟨IntentionType.LISTEN, 0, none⟩ ∧
      (silenceSimulatorAfter 3 i).mANL.transition trivialTopology silenceIntent
        = .ok [silenceState] ∧
      silenceState.getTraitFor silenceSetup 1 = .ok ⟨ActionType.SILENCE, 0, none⟩ :=
  ⟨by decide, echo_server_silent 3 (by decide)⟩

/-- C17, counterexample: on the list `[Collision, Silence]`, which holds a
`Collision` and no `Received`, `ANLFilterNaive` does not return the `Silence`
entry: it stops in the requirement "this should be 1, as above conditions are
exhaustive". -/
theorem ANLFilterNaive_collision_without_received_counterexample :
    ANLFilterNaive listenSetup [⟨ActionType.COLLISION, 0, none⟩, ⟨ActionType.SILENCE, 0, none⟩]
      = .error Fatal.naiveNotOneSender ∧
    ANLFilterNaive listenSetup [⟨ActionType.COLLISION, 0, none⟩, ⟨ActionType.SILENCE, 0, none⟩]
      ≠ .ok [⟨ActionType.SILENCE, 0, none⟩] :=
  ⟨rfl, fun h => by cases h⟩

/-- C17, amended: for every list of component actions that contains at least
one `Collision` and no `Received` entry, `ANLFilterNaive` does not return: it
stops in the fatal requirement "this should be 1, as above conditions are
exhaustive", whatever else the list holds, and keeps no `Silence` entry. -/
theorem ANLFilterNaive_collision_without_received (setup : NetworkSetup)
    (l : List ComponentAction) (hcol : ∃ x ∈ l, x.getType = ActionType.COLLISION)
    (hrec : ∀ x ∈ l, x.getType ≠ ActionType.RECEIVED) :
    ANLFilterNaive setup l = .error Fatal.naiveNotOneSender := by
  have hc := (exists_collision_iff l).1 hcol
  have hc' : ¬ l.countP (fun ca => decide (ca.mType = ActionType.COLLISION)) = 0 := by omega
  have hr : l.countP (fun ca => decide (ca.mType = ActionType.RECEIVED)) = 0 := by
    rw [List.countP_eq_zero]
    intro x hx
    have := hrec x hx
    simpa [ComponentTrait.getType] using this
  simp [ANLFilterNaive, countNaive_eq, hc', hr]

/-- The instance of C17 at the list `[Collision, Silence]`. -/
theorem ANLFilterNaive_collision_without_received_witness :
    (∃ x ∈ ([⟨ActionType.COLLISION, 0, none⟩, ⟨ActionType.SILENCE, 0, none⟩] :
        List ComponentAction), x.getType = ActionType.COLLISION) ∧
    (∀ x ∈ ([⟨ActionType.COLLISION, 0, none⟩, ⟨ActionType.SILENCE, 0, none⟩] :
        List ComponentAction), x.getType ≠ ActionType.RECEIVED) ∧
    ANLFilterNaive listenSetup [⟨ActionType.COLLISION, 0, none⟩, ⟨ActionType.SILENCE, 0, none⟩]
      = .error Fatal.naiveNotOneSender :=
  ⟨by decide, by decide,
    ANLFilterNaive_collision_without_received listenSetup _ (by decide) (by decide)⟩

end Core
